import Mathlib

/-!
# SRMSolver: gas-state algebra, the gas-dynamics integrator and the level-set kernels

A shallow embedding of `SrmSolver/gas_state.h`, `SrmSolver/float4_arithmetics.h`,
`SrmSolver/gpu_gas_dynamic_kernel.h`, `SrmSolver/gpu_reinitialize_kernel.h`,
`SrmSolver/gpu_build_ghost_to_closest_map_kernel.h`, `SrmSolver/get_closest_index.h` and
`1dConvergence/boundary.cpp`.

* The element type `ElemT` of the C++ templates is an arbitrary linearly
  ordered field `K`; instantiated at `ℚ` every definition below can be evaluated.
  The arithmetic of the device code is that of the field.
* The arithmetic of `1dConvergence/boundary.cpp` is floating-point arithmetic: every
  operation returns the rounding `fl` of the result in the field, `fl` is a parameter,
  and `binary64` is the rounding of `double` at `ℚ`.
* `PhysicalPropertiesT::kappa` is the parameter `kappa`.
* `std::sqrt` is the parameter `sqrt : K → K`.
* `isfinite` is the parameter `isfinite : K → Bool`: an element that fails the test stands
  for a value outside the finite range of the floating-point type.
* `std::round` and `std::floor` need the integer part: the ghost mapping and the
  boundary indices are stated over a `FloorRing K`.
* `kae::Matrix<ElemT, 4, 4>` (declared in `matrix.h`, which is not modelled) is a
  `Matrix (Fin 4) (Fin 4) K`, brace-initialised row by row, with the usual
  matrix product.
-/

namespace kae

/-! ## gas_state.h -/

/-- The struct `GasState` of gas_state.h: density, velocity and pressure. -/
structure GasState (K : Type) where
  rho : K
  ux : K
  uy : K
  p : K
deriving DecidableEq

/-- The CUDA vector type `CudaFloat4T<ElemT>` (float4 / double4). -/
@[ext]
structure CudaFloat4T (K : Type) where
  x : K
  y : K
  z : K
  w : K
deriving DecidableEq

/-- The CUDA vector type `CudaFloat2T<ElemT>` (float2 / double2). -/
structure CudaFloat2T (K : Type) where
  x : K
  y : K
deriving DecidableEq

section GasStateAlgebra

variable {K : Type} [LinearOrderedField K]

/-! ### float4_arithmetics.h -/

/-- `operator+(float4 lhs, float4 rhs)` (and the `double4` overload). -/
instance : Add (CudaFloat4T K) where
  add lhs rhs := { x := lhs.x + rhs.x, y := lhs.y + rhs.y, z := lhs.z + rhs.z, w := lhs.w + rhs.w }

/-- `operator-(float4 lhs, float4 rhs)` (and the `double4` overload). -/
instance : Sub (CudaFloat4T K) where
  sub lhs rhs := { x := lhs.x - rhs.x, y := lhs.y - rhs.y, z := lhs.z - rhs.z, w := lhs.w - rhs.w }

/-- `operator*(float lhs, float4 rhs)` (and the `double4` overload). -/
instance : HMul K (CudaFloat4T K) (CudaFloat4T K) where
  hMul lhs rhs := { x := lhs * rhs.x, y := lhs * rhs.y, z := lhs * rhs.z, w := lhs * rhs.w }

/-! ### gas_state.h: the functionals -/

/-- `IsValid::get`; the finiteness test `isfinite` of the device library is the
parameter `isfinite`. -/
def IsValid.get (isfinite : K → Bool) (state : GasState K) : Bool :=
  isfinite state.rho && isfinite state.ux && isfinite state.uy && isfinite state.p &&
    decide (state.rho > 0) && decide (state.p > 0)

/-- `Rho::get`. -/
def Rho.get (state : GasState K) : K := state.rho

/-- `P::get`. -/
def P.get (state : GasState K) : K := state.p

/-- `VelocitySquared::get`. -/
def VelocitySquared.get (state : GasState K) : K :=
  state.ux * state.ux + state.uy * state.uy

/-- `Velocity::get`. -/
def Velocity.get (sqrt : K → K) (state : GasState K) : K :=
  sqrt (VelocitySquared.get state)

/-- `MassFluxX::get`. -/
def MassFluxX.get (state : GasState K) : K := state.rho * state.ux

/-- `MassFluxY::get`. -/
def MassFluxY.get (state : GasState K) : K := state.rho * state.uy

/-- `MomentumFluxXx::get`. -/
def MomentumFluxXx.get (state : GasState K) : K :=
  state.rho * state.ux * state.ux + state.p

/-- `MomentumFluxXy::get`. -/
def MomentumFluxXy.get (state : GasState K) : K :=
  state.rho * state.ux * state.uy

/-- `MomentumFluxYy::get`. -/
def MomentumFluxYy.get (state : GasState K) : K :=
  state.rho * state.uy * state.uy + state.p

/-- `RhoEnergy::get`; `0.5` is the literal one half. -/
def RhoEnergy.get (kappa : K) (state : GasState K) : K :=
  let multiplier : K := 1 / (kappa - 1)
  multiplier * state.p + (1 / 2) * state.rho * VelocitySquared.get state

/-- `Energy::get`. -/
def Energy.get (kappa : K) (state : GasState K) : K :=
  RhoEnergy.get kappa state / state.rho

/-- `EnthalpyFluxX::get`. -/
def EnthalpyFluxX.get (kappa : K) (state : GasState K) : K :=
  RhoEnergy.get kappa state * state.ux + state.ux * state.p

/-- `EnthalpyFluxY::get`. -/
def EnthalpyFluxY.get (kappa : K) (state : GasState K) : K :=
  RhoEnergy.get kappa state * state.uy + state.uy * state.p

/-- `SonicSpeedSquared::get`. -/
def SonicSpeedSquared.get (kappa : K) (state : GasState K) : K :=
  kappa * state.p / state.rho

/-- `SonicSpeed::get`. -/
def SonicSpeed.get (sqrt : K → K) (kappa : K) (state : GasState K) : K :=
  sqrt (SonicSpeedSquared.get kappa state)

/-- `Rotate::get`. -/
def Rotate.get (state : GasState K) (nx ny : K) : GasState K :=
  let newUx := state.ux * nx + state.uy * ny
  let newUy := -state.ux * ny + state.uy * nx
  { rho := state.rho, ux := newUx, uy := newUy, p := state.p }

/-- `ReverseRotate::get`. -/
def ReverseRotate.get (state : GasState K) (nx ny : K) : GasState K :=
  let newUx := state.ux * nx - state.uy * ny
  let newUy := state.ux * ny + state.uy * nx
  { rho := state.rho, ux := newUx, uy := newUy, p := state.p }

/-- `MirrorState::get`. -/
def MirrorState.get (state : GasState K) : GasState K :=
  { rho := state.rho, ux := -state.ux, uy := state.uy, p := state.p }

/-- `ConservativeVariables::get`. -/
def ConservativeVariables.get (kappa : K) (state : GasState K) : CudaFloat4T K :=
  { x := Rho.get state, y := MassFluxX.get state, z := MassFluxY.get state,
    w := RhoEnergy.get kappa state }

/-- `XFluxes::get`. -/
def XFluxes.get (kappa : K) (state : GasState K) : CudaFloat4T K :=
  { x := MassFluxX.get state, y := MomentumFluxXx.get state,
    z := MomentumFluxXy.get state, w := EnthalpyFluxX.get kappa state }

/-- `YFluxes::get`. -/
def YFluxes.get (kappa : K) (state : GasState K) : CudaFloat4T K :=
  { x := MassFluxY.get state, y := MomentumFluxXy.get state,
    z := MomentumFluxYy.get state, w := EnthalpyFluxY.get kappa state }

/-- `SourceTerm::get`. -/
def SourceTerm.get (kappa : K) (state : GasState K) : CudaFloat4T K :=
  { x := MassFluxY.get state, y := MomentumFluxXy.get state,
    z := MassFluxY.get state * state.uy, w := EnthalpyFluxY.get kappa state }

/-- `ConservativeToGasState::get`. -/
def ConservativeToGasState.get (kappa : K) (conservativeVariables : CudaFloat4T K) :
    GasState K :=
  let ux := conservativeVariables.y / conservativeVariables.x
  let uy := conservativeVariables.z / conservativeVariables.x
  let p := (kappa - 1) *
    (conservativeVariables.w - (1 / 2) * conservativeVariables.x * (ux * ux + uy * uy))
  { rho := conservativeVariables.x, ux := ux, uy := uy, p := p }

/-- Modelled from the spec: `sqr` of math_utilities.h, which is not among the sources
modelled here; the square of its argument. -/
def sqr (x : K) : K := x * x

/-- `EigenValuesX::get`. -/
def EigenValuesX.get (sqrt : K → K) (kappa : K) (state : GasState K) : CudaFloat4T K :=
  let c := SonicSpeed.get sqrt kappa state
  { x := state.ux - c, y := state.ux, z := state.ux, w := state.ux + c }

/-- `EigenValuesMatrixX::get`. -/
def EigenValuesMatrixX.get (sqrt : K → K) (kappa : K) (state : GasState K) :
    Matrix (Fin 4) (Fin 4) K :=
  let c := SonicSpeed.get sqrt kappa state
  let zero : K := 0
  !![state.ux - c, zero,     zero,     zero;
     zero,         state.ux, zero,     zero;
     zero,         zero,     state.ux, zero;
     zero,         zero,     zero,     state.ux + c]

/-- `LeftPrimitiveEigenVectorsX<uyIsZero>::get`: the primary template is the
`false` branch, the specialisation `LeftPrimitiveEigenVectorsX<true>` the `true` branch. -/
def LeftPrimitiveEigenVectorsX.get (uyIsZero : Bool) (sqrt : K → K) (kappa : K)
    (state : GasState K) : Matrix (Fin 4) (Fin 4) K :=
  let zero : K := 0
  let half : K := 1 / 2
  match uyIsZero with
  | false =>
    let cReciprocal := 1 / SonicSpeed.get sqrt kappa state
    let rhoReciprocal := 1 / state.rho
    !![zero, -half * cReciprocal, zero, half * rhoReciprocal * cReciprocal * cReciprocal;
       -half * state.uy * rhoReciprocal, zero, half,
          half * state.uy * rhoReciprocal * cReciprocal * cReciprocal;
       half * state.uy * rhoReciprocal, zero, half,
          -half * state.uy * rhoReciprocal * cReciprocal * cReciprocal;
       zero, half * cReciprocal, zero, half * rhoReciprocal * cReciprocal * cReciprocal]
  | true =>
    let cRec := 1 / SonicSpeed.get sqrt kappa state
    let cRecSqr := sqr cRec
    let uy := state.uy
    let rho := state.rho
    let mult := 1 / (1 - rho * uy)
    !![zero,       -cRec / 2, zero,        cRecSqr / rho / 2;
       mult,       zero,      -rho * mult, -cRecSqr * mult;
       -uy * mult, zero,      mult,        uy * cRecSqr * mult;
       zero,       cRec / 2,  zero,        cRecSqr / rho / 2]

/-- `DispatchedLeftPrimitiveEigenVectorsX::get`; `eps` is
`std::numeric_limits<ElemT>::epsilon()`. -/
def DispatchedLeftPrimitiveEigenVectorsX.get (eps : K) (sqrt : K → K) (kappa : K)
    (state : GasState K) : Matrix (Fin 4) (Fin 4) K :=
  if |state.uy| > eps then LeftPrimitiveEigenVectorsX.get false sqrt kappa state
  else LeftPrimitiveEigenVectorsX.get true sqrt kappa state

/-- `RightPrimitiveEigenVectorsX<uyIsZero>::get`: the primary template is the
`false` branch, the specialisation `RightPrimitiveEigenVectorsX<true>` the `true` branch. -/
def RightPrimitiveEigenVectorsX.get (uyIsZero : Bool) (sqrt : K → K) (kappa : K)
    (state : GasState K) : Matrix (Fin 4) (Fin 4) K :=
  let zero : K := 0
  let one : K := 1
  match uyIsZero with
  | false =>
    let c := SonicSpeed.get sqrt kappa state
    !![state.rho,         -state.rho / state.uy, state.rho / state.uy, state.rho;
       -c,                zero,                  zero,                 c;
       zero,              one,                   one,                  zero;
       state.rho * c * c, zero,                  zero,                 state.rho * c * c]
  | true =>
    let c := SonicSpeed.get sqrt kappa state
    let uy := state.uy
    !![state.rho,         one,  state.rho, state.rho;
       -c,                zero, zero,      c;
       zero,              uy,   one,       zero;
       state.rho * c * c, zero, zero,      state.rho * c * c]

/-- `DispatchedRightPrimitiveEigenVectorsX::get`; `eps` is
`std::numeric_limits<ElemT>::epsilon()`. -/
def DispatchedRightPrimitiveEigenVectorsX.get (eps : K) (sqrt : K → K) (kappa : K)
    (state : GasState K) : Matrix (Fin 4) (Fin 4) K :=
  if |state.uy| > eps then RightPrimitiveEigenVectorsX.get false sqrt kappa state
  else RightPrimitiveEigenVectorsX.get true sqrt kappa state

/-- `PrimitiveJacobianMatrixX::get`. -/
def PrimitiveJacobianMatrixX.get (sqrt : K → K) (kappa : K) (state : GasState K) :
    Matrix (Fin 4) (Fin 4) K :=
  let zero : K := 0
  let c := SonicSpeed.get sqrt kappa state
  !![state.ux, state.rho,         zero,     zero;
     zero,     state.ux,          zero,     1 / state.rho;
     zero,     zero,              state.ux, zero;
     zero,     state.rho * c * c, zero,     state.ux]

end GasStateAlgebra

/-! ## gpu_gas_dynamic_kernel.h

The kernel is embedded as explicit state passing.  Every CUDA thread (a
`Worker`: block index and thread index) runs the three barrier-separated
phases of the source: the cooperative halo load into `prevMatrix`, the flux
assembly into the shared flux arrays, and the finite-volume update written to
`pCurrValue`.  The shared memory of a tile starts from arbitrary contents.
Device arrays are total maps from the index to the element; the unsigned index
arithmetic is carried out in `ℕ`, which is exact for the grids of
`GpuGrid.WellFormed` (no subtraction wraps, no index reaches `2 ^ 32`).
-/

/-- The constant `maxSizeX`. -/
def maxSizeX : Nat := 120

/-- The constant `maxSizeY`. -/
def maxSizeY : Nat := 200

/-- The compile-time constants of `GpuGridT` that the kernel reads (declared in
gpu_grid.h, which is not modelled); `blockSize` is also the launch's `blockDim` and
`gridSize` its grid, as in `gasDynamicIntegrateTVDSubStepWrapper`. -/
structure GpuGrid (K : Type) where
  nx : Nat
  ny : Nat
  hx : K
  hy : K
  hxReciprocal : K
  hyReciprocal : K
  blockSizeX : Nat
  blockSizeY : Nat
  gridSizeX : Nat
  gridSizeY : Nat
  smExtension : Nat
  sharedMemoryX : Nat
  sharedMemoryY : Nat

/-- A CUDA thread of the launch: `blockIdx.x`, `blockIdx.y`, and `ti = threadIdx.x`,
`tj = threadIdx.y`. -/
structure Worker where
  blockIdxX : Nat
  blockIdxY : Nat
  ti : Nat
  tj : Nat
deriving DecidableEq

/-- The collaborators of the kernel that are not function arguments: the
physical constant `kappa`, the `__constant__` array `calculateBlockMatrix`,
`ShapeT::getRadius`, and the flux scheme `getFlux<U, F, Step, GpuGridT>` of
gas_dynamic_flux.h, which is not modelled (its template arguments `U`, `F`, `Step`
come first, then the stencil array, the index and lambda). -/
structure Device (K : Type) where
  kappa : K
  calculateBlockMatrix : Nat → Int
  getRadius : Nat → Nat → K
  getFlux : (GasState K → K) → (GasState K → K) → Nat → (Nat → GasState K) → Nat → K → K

/-- The arguments of `gasDynamicIntegrateTVDSubStep` other than the output `pCurrValue`. -/
structure KernelArgs (K : Type) where
  pPrevValue : Nat → GasState K
  pFirstValue : Nat → GasState K
  pCurrPhi : Nat → K
  dt : K
  lambda : CudaFloat2T K
  prevWeight : K

/-- The contents of the `__shared__` arrays of each tile (block index x, y)
when its threads start: uninitialised memory. -/
structure Uninitialised (K : Type) where
  prevMatrix : Nat → Nat → Nat → GasState K
  xFlux1 : Nat → Nat → Nat → K
  xFlux2 : Nat → Nat → Nat → K
  xFlux3 : Nat → Nat → Nat → K
  xFlux4 : Nat → Nat → Nat → K
  yFlux1 : Nat → Nat → Nat → K
  yFlux2 : Nat → Nat → Nat → K
  yFlux3 : Nat → Nat → Nat → K
  yFlux4 : Nat → Nat → Nat → K

/-- The eight `__shared__` flux arrays of a tile. -/
structure FluxArrays (K : Type) where
  xFlux1 : Nat → K
  xFlux2 : Nat → K
  xFlux3 : Nat → K
  xFlux4 : Nat → K
  yFlux1 : Nat → K
  yFlux2 : Nat → K
  yFlux3 : Nat → K
  yFlux4 : Nat → K

/-- The four x-flux components stored at one slot of the shared flux arrays. -/
def FluxArrays.xFlux {K : Type} (f : FluxArrays K) (idx : Nat) : CudaFloat4T K :=
  { x := f.xFlux1 idx, y := f.xFlux2 idx, z := f.xFlux3 idx, w := f.xFlux4 idx }

/-- The four y-flux components stored at one slot of the shared flux arrays. -/
def FluxArrays.yFlux {K : Type} (f : FluxArrays K) (idx : Nat) : CudaFloat4T K :=
  { x := f.yFlux1 idx, y := f.yFlux2 idx, z := f.yFlux3 idx, w := f.yFlux4 idx }

section Kernel

variable {K : Type} [LinearOrderedField K]

namespace Worker

/-- Index `ai = ti + smExtension`. -/
def ai (g : GpuGrid K) (t : Worker) : Nat := t.ti + g.smExtension

/-- Index `aj = tj + smExtension`. -/
def aj (g : GpuGrid K) (t : Worker) : Nat := t.tj + g.smExtension

/-- Index `i = ti + blockDim.x * blockIdx.x`. -/
def i (g : GpuGrid K) (t : Worker) : Nat := t.ti + g.blockSizeX * t.blockIdxX

/-- Index `j = tj + blockDim.y * blockIdx.y`. -/
def j (g : GpuGrid K) (t : Worker) : Nat := t.tj + g.blockSizeY * t.blockIdxY

/-- Index `sharedIdx = aj * smx + ai`. -/
def sharedIdx (g : GpuGrid K) (t : Worker) : Nat := t.aj g * g.sharedMemoryX + t.ai g

/-- Index `globalIdx = j * nx + i`. -/
def globalIdx (g : GpuGrid K) (t : Worker) : Nat := t.j g * g.nx + t.i g

/-- Index `fluxSharedIdx = (tj + 1U) * fluxSmx + ti + 1U`, with
`fluxSmx = GpuGridT::blockSize.x + 1U`. -/
def fluxSharedIdx (g : GpuGrid K) (t : Worker) : Nat :=
  (t.tj + 1) * (g.blockSizeX + 1) + t.ti + 1

/-- The guard of the early `return` at the head of the kernel. -/
def returnsEarly (g : GpuGrid K) (dev : Device K) (t : Worker) : Bool :=
  decide (t.i g ≥ g.nx) || decide (t.j g ≥ g.ny) ||
    decide (dev.calculateBlockMatrix (t.blockIdxY * maxSizeX + t.blockIdxX) = 0)

end Worker

/-- Phase one of a thread, up to the first `__syncthreads()`: the five guarded
stores into `prevMatrix`. -/
def loadPrevMatrix (g : GpuGrid K) (dev : Device K) (a : KernelArgs K) (t : Worker)
    (prevMatrix : Nat → GasState K) : Nat → GasState K :=
  if t.returnsEarly g dev then prevMatrix else
  let smExtension := g.smExtension
  let smx := g.sharedMemoryX
  let nx := g.nx
  let levelThreshold := 4 * g.hx
  let sharedIdx := t.sharedIdx g
  let globalIdx := t.globalIdx g
  let levelValue := a.pCurrPhi globalIdx
  let m1 := if t.ti < smExtension ∧ t.i g ≥ smExtension then
      Function.update prevMatrix (sharedIdx - smExtension) (a.pPrevValue (globalIdx - smExtension))
    else prevMatrix
  let m2 := if t.tj < smExtension ∧ t.j g ≥ smExtension then
      Function.update m1 (sharedIdx - smExtension * smx)
        (a.pPrevValue (globalIdx - smExtension * nx))
    else m1
  let m3 := if levelValue < levelThreshold then
      Function.update m2 sharedIdx (a.pPrevValue globalIdx)
    else m2
  let m4 := if t.ti ≥ g.blockSizeX - smExtension ∧ t.i g + smExtension < nx then
      Function.update m3 (sharedIdx + smExtension) (a.pPrevValue (globalIdx + smExtension))
    else m3
  let m5 := if t.tj ≥ g.blockSizeY - smExtension ∧ t.j g + smExtension < g.ny then
      Function.update m4 (sharedIdx + smExtension * smx)
        (a.pPrevValue (globalIdx + smExtension * nx))
    else m4
  m5

/-- Phase two of a thread, between the two `__syncthreads()`: the guarded
stores of `getFlux` values into the shared flux arrays. -/
def storeFluxes (g : GpuGrid K) (dev : Device K) (a : KernelArgs K) (t : Worker)
    (prevMatrix : Nat → GasState K) (f : FluxArrays K) : FluxArrays K :=
  if t.returnsEarly g dev then f else
  let kappa := dev.kappa
  let hx := g.hx
  let smx := g.sharedMemoryX
  let fluxSmx := g.blockSizeX + 1
  let sharedIdx := t.sharedIdx g
  let levelValue := a.pCurrPhi (t.globalIdx g)
  let f1 : FluxArrays K := if t.tj = 1 ∧ t.ti < g.blockSizeY then
      let transposedSharedIdx := t.ai g * smx + t.aj g - 1
      let transFluxSharedIdx := (t.ti + 1) * fluxSmx + t.tj
      { f with
        xFlux1 := Function.update f.xFlux1 (transFluxSharedIdx - 1)
          (dev.getFlux Rho.get MassFluxX.get 1 prevMatrix (transposedSharedIdx - 1) a.lambda.x)
        xFlux2 := Function.update f.xFlux2 (transFluxSharedIdx - 1)
          (dev.getFlux MassFluxX.get MomentumFluxXx.get 1 prevMatrix (transposedSharedIdx - 1)
            a.lambda.x)
        xFlux3 := Function.update f.xFlux3 (transFluxSharedIdx - 1)
          (dev.getFlux MassFluxY.get MomentumFluxXy.get 1 prevMatrix (transposedSharedIdx - 1)
            a.lambda.x)
        xFlux4 := Function.update f.xFlux4 (transFluxSharedIdx - 1)
          (dev.getFlux (RhoEnergy.get kappa) (EnthalpyFluxX.get kappa) 1 prevMatrix
            (transposedSharedIdx - 1) a.lambda.x) }
    else f
  let fluxSharedIdx := t.fluxSharedIdx g
  let fluxShouldBeCalculated := decide (levelValue ≤ hx + 1 / 1000000)
  if fluxShouldBeCalculated then
    let f2 : FluxArrays K := if t.tj = 0 then
        { f1 with
          yFlux1 := Function.update f1.yFlux1 (fluxSharedIdx - fluxSmx)
            (dev.getFlux Rho.get MassFluxY.get smx prevMatrix (sharedIdx - smx) a.lambda.y)
          yFlux2 := Function.update f1.yFlux2 (fluxSharedIdx - fluxSmx)
            (dev.getFlux MassFluxX.get MomentumFluxXy.get smx prevMatrix (sharedIdx - smx)
              a.lambda.y)
          yFlux3 := Function.update f1.yFlux3 (fluxSharedIdx - fluxSmx)
            (dev.getFlux MassFluxY.get MomentumFluxYy.get smx prevMatrix (sharedIdx - smx)
              a.lambda.y)
          yFlux4 := Function.update f1.yFlux4 (fluxSharedIdx - fluxSmx)
            (dev.getFlux (RhoEnergy.get kappa) (EnthalpyFluxY.get kappa) smx prevMatrix
              (sharedIdx - smx) a.lambda.y) }
      else f1
    { xFlux1 := Function.update f2.xFlux1 fluxSharedIdx
        (dev.getFlux Rho.get MassFluxX.get 1 prevMatrix sharedIdx a.lambda.x)
      xFlux2 := Function.update f2.xFlux2 fluxSharedIdx
        (dev.getFlux MassFluxX.get MomentumFluxXx.get 1 prevMatrix sharedIdx a.lambda.x)
      xFlux3 := Function.update f2.xFlux3 fluxSharedIdx
        (dev.getFlux MassFluxY.get MomentumFluxXy.get 1 prevMatrix sharedIdx a.lambda.x)
      xFlux4 := Function.update f2.xFlux4 fluxSharedIdx
        (dev.getFlux (RhoEnergy.get kappa) (EnthalpyFluxX.get kappa) 1 prevMatrix sharedIdx
          a.lambda.x)
      yFlux1 := Function.update f2.yFlux1 fluxSharedIdx
        (dev.getFlux Rho.get MassFluxY.get smx prevMatrix sharedIdx a.lambda.y)
      yFlux2 := Function.update f2.yFlux2 fluxSharedIdx
        (dev.getFlux MassFluxX.get MomentumFluxXy.get smx prevMatrix sharedIdx a.lambda.y)
      yFlux3 := Function.update f2.yFlux3 fluxSharedIdx
        (dev.getFlux MassFluxY.get MomentumFluxYy.get smx prevMatrix sharedIdx a.lambda.y)
      yFlux4 := Function.update f2.yFlux4 fluxSharedIdx
        (dev.getFlux (RhoEnergy.get kappa) (EnthalpyFluxY.get kappa) smx prevMatrix sharedIdx
          a.lambda.y) }
  else f1

/-- The initialiser of `newConservativeVariables` (kernel lines 133 to 154):
the previous state of the cell minus the flux differences and the source. -/
def newConservativeVariables (g : GpuGrid K) (dev : Device K) (a : KernelArgs K) (t : Worker)
    (prevMatrix : Nat → GasState K) (f : FluxArrays K) : CudaFloat4T K :=
  let dt := a.dt
  let fluxSmx := g.blockSizeX + 1
  let fluxSharedIdx := t.fluxSharedIdx g
  let rReciprocal := 1 / dev.getRadius (t.i g) (t.j g)
  let calculatedGasState := prevMatrix (t.sharedIdx g)
  { x := Rho.get calculatedGasState -
      dt * g.hxReciprocal * (f.xFlux1 fluxSharedIdx - f.xFlux1 (fluxSharedIdx - 1)) -
      dt * g.hyReciprocal * (f.yFlux1 fluxSharedIdx - f.yFlux1 (fluxSharedIdx - fluxSmx)) -
      dt * rReciprocal * MassFluxY.get calculatedGasState
    y := MassFluxX.get calculatedGasState -
      dt * g.hxReciprocal * (f.xFlux2 fluxSharedIdx - f.xFlux2 (fluxSharedIdx - 1)) -
      dt * g.hyReciprocal * (f.yFlux2 fluxSharedIdx - f.yFlux2 (fluxSharedIdx - fluxSmx)) -
      dt * rReciprocal * MomentumFluxXy.get calculatedGasState
    z := MassFluxY.get calculatedGasState -
      dt * g.hxReciprocal * (f.xFlux3 fluxSharedIdx - f.xFlux3 (fluxSharedIdx - 1)) -
      dt * g.hyReciprocal * (f.yFlux3 fluxSharedIdx - f.yFlux3 (fluxSharedIdx - fluxSmx)) -
      dt * rReciprocal * MassFluxY.get calculatedGasState * calculatedGasState.uy
    w := RhoEnergy.get dev.kappa calculatedGasState -
      dt * g.hxReciprocal * (f.xFlux4 fluxSharedIdx - f.xFlux4 (fluxSharedIdx - 1)) -
      dt * g.hyReciprocal * (f.yFlux4 fluxSharedIdx - f.yFlux4 (fluxSharedIdx - fluxSmx)) -
      dt * rReciprocal * EnthalpyFluxY.get dev.kappa calculatedGasState }

/-- The conservative vector handed to `ConservativeToGasState::get` (kernel
lines 155 to 162): `newConservativeVariables` after the `prevWeight != 1` branch. -/
def blendedConservativeVariables (g : GpuGrid K) (dev : Device K) (a : KernelArgs K)
    (t : Worker) (prevMatrix : Nat → GasState K) (f : FluxArrays K) : CudaFloat4T K :=
  let prevWeight := a.prevWeight
  let newConservativeVariables := newConservativeVariables g dev a t prevMatrix f
  if prevWeight ≠ 1 then
    let firstGasState := a.pFirstValue (t.globalIdx g)
    { x := prevWeight * newConservativeVariables.x + (1 - prevWeight) * Rho.get firstGasState
      y := prevWeight * newConservativeVariables.y +
        (1 - prevWeight) * MassFluxX.get firstGasState
      z := prevWeight * newConservativeVariables.z +
        (1 - prevWeight) * MassFluxY.get firstGasState
      w := prevWeight * newConservativeVariables.w +
        (1 - prevWeight) * RhoEnergy.get dev.kappa firstGasState }
  else newConservativeVariables

/-- Phase three of a thread, after the second `__syncthreads()`: the store
into `pCurrValue` guarded by `schemeShouldBeApplied`. -/
def storeCurrValue (g : GpuGrid K) (dev : Device K) (a : KernelArgs K) (t : Worker)
    (prevMatrix : Nat → GasState K) (f : FluxArrays K) (pCurrValue : Nat → GasState K) :
    Nat → GasState K :=
  if t.returnsEarly g dev then pCurrValue else
  let globalIdx := t.globalIdx g
  let levelValue := a.pCurrPhi globalIdx
  let schemeShouldBeApplied := decide (levelValue < 0)
  if schemeShouldBeApplied then
    let calculatedGasState :=
      ConservativeToGasState.get dev.kappa (blendedConservativeVariables g dev a t prevMatrix f)
    Function.update pCurrValue globalIdx calculatedGasState
  else pCurrValue

/-- The threads of the tile `(blockIdx.x, blockIdx.y)`. -/
def blockWorkers (g : GpuGrid K) (blockIdxX blockIdxY : Nat) : List Worker :=
  (List.range g.blockSizeY).flatMap fun tj =>
    (List.range g.blockSizeX).map fun ti =>
      { blockIdxX := blockIdxX, blockIdxY := blockIdxY, ti := ti, tj := tj }

/-- All threads of the launch `<<<GpuGridT::gridSize, GpuGridT::blockSize>>>`. -/
def launchWorkers (g : GpuGrid K) : List Worker :=
  (List.range g.gridSizeY).flatMap fun blockIdxY =>
    (List.range g.gridSizeX).flatMap fun blockIdxX => blockWorkers g blockIdxX blockIdxY

/-- The shared `prevMatrix` of a tile at the first barrier. -/
def tilePrevMatrix (g : GpuGrid K) (dev : Device K) (a : KernelArgs K) (u : Uninitialised K)
    (blockIdxX blockIdxY : Nat) : Nat → GasState K :=
  (blockWorkers g blockIdxX blockIdxY).foldl (fun m t => loadPrevMatrix g dev a t m)
    (u.prevMatrix blockIdxX blockIdxY)

/-- The shared flux arrays of a tile at the second barrier. -/
def tileFluxes (g : GpuGrid K) (dev : Device K) (a : KernelArgs K) (u : Uninitialised K)
    (blockIdxX blockIdxY : Nat) : FluxArrays K :=
  (blockWorkers g blockIdxX blockIdxY).foldl
    (fun f t => storeFluxes g dev a t (tilePrevMatrix g dev a u blockIdxX blockIdxY) f)
    { xFlux1 := u.xFlux1 blockIdxX blockIdxY, xFlux2 := u.xFlux2 blockIdxX blockIdxY,
      xFlux3 := u.xFlux3 blockIdxX blockIdxY, xFlux4 := u.xFlux4 blockIdxX blockIdxY,
      yFlux1 := u.yFlux1 blockIdxX blockIdxY, yFlux2 := u.yFlux2 blockIdxX blockIdxY,
      yFlux3 := u.yFlux3 blockIdxX blockIdxY, yFlux4 := u.yFlux4 blockIdxX blockIdxY }

/-- The kernel `gasDynamicIntegrateTVDSubStep` launched by its wrapper: the
array `pCurrValue` after every thread has run. -/
def gasDynamicIntegrateTVDSubStep (g : GpuGrid K) (dev : Device K) (a : KernelArgs K)
    (u : Uninitialised K) (pCurrValue : Nat → GasState K) : Nat → GasState K :=
  (launchWorkers g).foldl
    (fun cur t => storeCurrValue g dev a t
      (tilePrevMatrix g dev a u t.blockIdxX t.blockIdxY)
      (tileFluxes g dev a u t.blockIdxX t.blockIdxY) cur)
    pCurrValue

/-- The relations between the constants of `GpuGridT` (fixed by gpu_grid.h, which is
not modelled) under which the embedding is exact: positive spacing, the
reciprocal spacings, a shared tile of the block plus a halo of `smExtension`
cells on each side, a halo of at least one and at most a block of cells (no
unsigned subtraction of the kernel wraps), and index ranges below `2 ^ 32`. -/
structure GpuGrid.WellFormed (g : GpuGrid K) : Prop where
  hx_pos : 0 < g.hx
  hxReciprocal_eq : g.hxReciprocal = 1 / g.hx
  hyReciprocal_eq : g.hyReciprocal = 1 / g.hy
  sharedMemoryX_eq : g.sharedMemoryX = g.blockSizeX + 2 * g.smExtension
  sharedMemoryY_eq : g.sharedMemoryY = g.blockSizeY + 2 * g.smExtension
  smExtension_pos : 1 ≤ g.smExtension
  smExtension_le_x : g.smExtension ≤ g.blockSizeX
  smExtension_le_y : g.smExtension ≤ g.blockSizeY
  cells_lt : g.nx * g.ny < 2 ^ 32
  threads_x_lt : g.blockSizeX * g.gridSizeX < 2 ^ 32
  threads_y_lt : g.blockSizeY * g.gridSizeY < 2 ^ 32
  shared_lt : g.sharedMemoryX * g.sharedMemoryY < 2 ^ 32

end Kernel

/-! ### A concrete launch

One tile of 2 x 2 threads on a 2 x 2 grid with a halo of one cell, every cell
a caller-chosen level-set field, radius 1, and a flux scheme that returns the flux
functional of the state at the face index. -/

/-- A 2 x 2 grid covered by one 2 x 2 tile. -/
def exampleGrid : GpuGrid ℚ :=
  { nx := 2, ny := 2, hx := 1, hy := 1, hxReciprocal := 1, hyReciprocal := 1,
    blockSizeX := 2, blockSizeY := 2, gridSizeX := 1, gridSizeY := 1, smExtension := 1,
    sharedMemoryX := 4, sharedMemoryY := 4 }

/-- Collaborators of the concrete launch: `kappa = 7/5`, every tile marked for
calculation, radius 1. -/
def exampleDevice : Device ℚ :=
  { kappa := 7 / 5
    calculateBlockMatrix := fun _ => 1
    getRadius := fun _ _ => 1
    getFlux := fun _ F _ prevMatrix idx _ => F (prevMatrix idx) }

/-- The finiteness test of the concrete checks, that of `float`: a magnitude of at most
the largest finite value `(2 - 2 ^ (-23)) * 2 ^ 127 = 2 ^ 128 - 2 ^ 104`. -/
def exampleIsfinite (x : ℚ) : Bool := decide (|x| ≤ 2 ^ 128 - 2 ^ 104)

/-- A valid state with non-zero transverse velocity, hence non-zero source term. -/
def exampleState : GasState ℚ := { rho := 1, ux := 2, uy := 3, p := 4 }

/-- A valid state with zero transverse velocity, hence zero source term. -/
def exampleUniformState : GasState ℚ := { rho := 1, ux := 2, uy := 0, p := 4 }

/-- Arguments of the concrete launch: the uniform state `s` in both input
buffers, the level-set field `phi`, `dt = 1/10` and the weight `w`. -/
def exampleArgs (s : GasState ℚ) (w : ℚ) (phi : Nat → ℚ) : KernelArgs ℚ :=
  { pPrevValue := fun _ => s
    pFirstValue := fun _ => s
    pCurrPhi := phi
    dt := 1 / 10
    lambda := { x := 1, y := 1 }
    prevWeight := w }

/-- Shared memory of the concrete launch starts zeroed. -/
def exampleUninitialised : Uninitialised ℚ :=
  { prevMatrix := fun _ _ _ => { rho := 0, ux := 0, uy := 0, p := 0 }
    xFlux1 := fun _ _ _ => 0
    xFlux2 := fun _ _ _ => 0
    xFlux3 := fun _ _ _ => 0
    xFlux4 := fun _ _ _ => 0
    yFlux1 := fun _ _ _ => 0
    yFlux2 := fun _ _ _ => 0
    yFlux3 := fun _ _ _ => 0
    yFlux4 := fun _ _ _ => 0 }

/-- The thread `(1, 1)` of tile `(0, 0)`: its left and bottom faces are the right
and top faces of threads of the same tile. -/
def exampleWorker : Worker := { blockIdxX := 0, blockIdxY := 0, ti := 1, tj := 1 }

/-- The array `pCurrValue` before the concrete launch. -/
def exampleCurrValue : Nat → GasState ℚ := fun _ => { rho := 9, ux := 9, uy := 9, p := 9 }

/-- The shared flux arrays of the tile of the concrete launch at the second barrier. -/
def exampleFluxes (s : GasState ℚ) (w : ℚ) (phi : Nat → ℚ) : FluxArrays ℚ :=
  tileFluxes exampleGrid exampleDevice (exampleArgs s w phi) exampleUninitialised 0 0

/-! ## gpu_reinitialize_kernel.h and the normals of gpu_build_ghost_to_closest_map_kernel.h

The level-set kernels use the launch geometry of the gas-dynamics kernel
(`GpuGrid`, `Worker`).  Subtractions of `unsigned` constants that no preceding
test guards are carried out modulo `2 ^ 32`.
-/

/-- Subtraction of two `unsigned` values: the difference modulo `2 ^ 32`. -/
def subU32 (a b : Nat) : Nat := (a + 2 ^ 32 - b % 2 ^ 32) % 2 ^ 32

/-- The grid constants are values of the type `unsigned`, and `smExtension + 1` is one. -/
structure GpuGrid.FitsUnsigned {K : Type} (g : GpuGrid K) : Prop where
  nx_lt : g.nx < 2 ^ 32
  ny_lt : g.ny < 2 ^ 32
  blockSizeX_lt : g.blockSizeX < 2 ^ 32
  blockSizeY_lt : g.blockSizeY < 2 ^ 32
  smExtension_lt : g.smExtension + 1 < 2 ^ 32

/-- `SrmDualThrust<GpuGridT>::shouldApplyScheme` of srm_dual_thrust_def.h. -/
def SrmDualThrust.shouldApplyScheme (_i _j : Nat) : Bool := true

/-- The collaborators of the level-set kernels that are not function arguments:
`std::sqrt`, `ShapeT::shouldApplyScheme`, and the finite differences
`getLevelSetAbsGradient<GpuGridT, Step>` and `getLevelSetDerivative<GpuGridT, Step>` of
level_set_derivatives.h, which is not modelled (the template argument `Step` comes
first, then the array, the index and the one-sided selection flag). -/
structure LevelSetDevice (K : Type) where
  sqrt : K → K
  shouldApplyScheme : Nat → Nat → Bool
  getLevelSetAbsGradient : Nat → (Nat → K) → Nat → Bool → K
  getLevelSetDerivative : Nat → (Nat → K) → Nat → Bool → K

/-- The arguments of `reinitializeTVDSubStep` other than the output `pCurrValue`. -/
structure ReinitializeArgs (K : Type) where
  pPrevValue : Nat → K
  pFirstValue : Nat → K
  dt : K
  prevWeight : K

section LevelSetKernels

variable {K : Type} [LinearOrderedField K]

/-- `std::hypot`: the square root of the sum of the squares of its arguments. -/
def hypot (sqrt : K → K) (x y : K) : K := sqrt (x * x + y * y)

/-- The guard of the early `return` of the level-set kernels: the cell of the
thread lies outside the grid. -/
def Worker.outsideGrid (g : GpuGrid K) (t : Worker) : Bool :=
  decide (t.i g ≥ g.nx) || decide (t.j g ≥ g.ny)

/-- Phase one of a thread of `reinitializeTVDSubStep`, up to `__syncthreads()`: the
stores into the shared `prevMatrix`. -/
def reinitializeLoadPrevMatrix (g : GpuGrid K) (a : ReinitializeArgs K) (t : Worker)
    (prevMatrix : Nat → K) : Nat → K :=
  if t.outsideGrid g then prevMatrix else
  let smExtension := g.smExtension
  let smx := g.sharedMemoryX
  let sharedIdx := t.sharedIdx g
  let globalIdx := t.globalIdx g
  let m1 := if t.ti < smExtension ∧ t.i g ≥ smExtension then
      Function.update prevMatrix (sharedIdx - smExtension) (a.pPrevValue (globalIdx - smExtension))
    else prevMatrix
  let m2 := if t.tj < smExtension ∧ t.j g ≥ smExtension then
      Function.update m1 ((t.aj g - smExtension) * smx + t.ai g)
        (a.pPrevValue ((t.j g - smExtension) * g.nx + t.i g))
    else m1
  let m3 := Function.update m2 sharedIdx (a.pPrevValue globalIdx)
  let m4 := if t.ti ≥ subU32 g.blockSizeX smExtension ∧ t.i g + smExtension < g.nx then
      Function.update m3 (sharedIdx + smExtension) (a.pPrevValue (globalIdx + smExtension))
    else m3
  let m5 := if t.tj ≥ subU32 g.blockSizeY smExtension ∧ t.j g + smExtension < g.ny then
      Function.update m4 ((t.aj g + smExtension) * smx + t.ai g)
        (a.pPrevValue ((t.j g + smExtension) * g.nx + t.i g))
    else m4
  m5

/-- The flag `schemeShouldBeApplied` of `reinitializeTVDSubStep`. -/
def Worker.schemeShouldBeApplied (g : GpuGrid K) (dev : LevelSetDevice K) (t : Worker) : Bool :=
  decide (t.i g > g.smExtension + 1) &&
    decide (t.i g < subU32 (subU32 g.nx g.smExtension) 2) &&
    decide (t.j g > g.smExtension + 1) &&
    decide (t.j g < subU32 (subU32 g.ny g.smExtension) 2) &&
    dev.shouldApplyScheme (t.i g) (t.j g)

/-- The value `val` of `reinitializeTVDSubStep` (kernel lines 68 to 71). -/
def reinitializeValue (g : GpuGrid K) (dev : LevelSetDevice K) (a : ReinitializeArgs K)
    (t : Worker) (prevMatrix : Nat → K) : K :=
  let smx := g.sharedMemoryX
  let sharedIdx := t.sharedIdx g
  let sgdValue := prevMatrix sharedIdx
  let grad := dev.getLevelSetAbsGradient smx prevMatrix sharedIdx (decide (sgdValue > 0))
  let sgn := sgdValue / hypot dev.sqrt sgdValue (grad * g.hx)
  let val := sgdValue - a.dt * sgn * (grad - 1)
  val

/-- Phase two of a thread of `reinitializeTVDSubStep`, after `__syncthreads()`: the store
into `pCurrValue` guarded by `schemeShouldBeApplied`. -/
def reinitializeStore (g : GpuGrid K) (dev : LevelSetDevice K) (a : ReinitializeArgs K)
    (t : Worker) (prevMatrix : Nat → K) (pCurrValue : Nat → K) : Nat → K :=
  if t.outsideGrid g then pCurrValue else
  let globalIdx := t.globalIdx g
  if t.schemeShouldBeApplied g dev then
    let val := reinitializeValue g dev a t prevMatrix
    if a.prevWeight ≠ 1 then
      Function.update pCurrValue globalIdx
        ((1 - a.prevWeight) * a.pFirstValue globalIdx + a.prevWeight * val)
    else
      Function.update pCurrValue globalIdx val
  else pCurrValue

/-- The shared `prevMatrix` of a tile of `reinitializeTVDSubStep` at the barrier;
`u` is the uninitialised content of the shared array of each tile. -/
def reinitializeTilePrevMatrix (g : GpuGrid K) (a : ReinitializeArgs K)
    (u : Nat → Nat → Nat → K) (blockIdxX blockIdxY : Nat) : Nat → K :=
  (blockWorkers g blockIdxX blockIdxY).foldl (fun m t => reinitializeLoadPrevMatrix g a t m)
    (u blockIdxX blockIdxY)

/-- The kernel `reinitializeTVDSubStep` launched by its wrapper: the array `pCurrValue`
after every thread has run. -/
def reinitializeTVDSubStep (g : GpuGrid K) (dev : LevelSetDevice K) (a : ReinitializeArgs K)
    (u : Nat → Nat → Nat → K) (pCurrValue : Nat → K) : Nat → K :=
  (launchWorkers g).foldl
    (fun cur t => reinitializeStore g dev a t
      (reinitializeTilePrevMatrix g a u t.blockIdxX t.blockIdxY) cur)
    pCurrValue

/-- The second early `return` of `findClosestIndices`: the cell is fewer than 10 nodes
from a domain edge. -/
def Worker.inEdgeMargin (g : GpuGrid K) (t : Worker) : Bool :=
  decide (t.i g < 10) || decide (t.j g < 10) || decide (t.i g ≥ subU32 g.nx 10) ||
    decide (t.j g ≥ subU32 g.ny 10)

/-- The normal that a thread of `findClosestIndices` computes (kernel lines 34 to 38). -/
def findClosestIndices.normal (g : GpuGrid K) (dev : LevelSetDevice K) (pCurrPhi : Nat → K)
    (t : Worker) : CudaFloat2T K :=
  let globalIdx := t.globalIdx g
  let nx := dev.getLevelSetDerivative 1 pCurrPhi globalIdx true
  let ny := dev.getLevelSetDerivative g.nx pCurrPhi globalIdx true
  let length := hypot dev.sqrt nx ny
  let nx := nx / length
  let ny := ny / length
  { x := nx, y := ny }

/-- The store of a thread of `findClosestIndices` into `pNormals` (kernel lines 21 to 39). -/
def findClosestIndices.storeNormal (g : GpuGrid K) (dev : LevelSetDevice K)
    (pCurrPhi : Nat → K) (t : Worker) (pNormals : Nat → CudaFloat2T K) :
    Nat → CudaFloat2T K :=
  if t.outsideGrid g then pNormals else
  if t.inEdgeMargin g then pNormals else
  Function.update pNormals (t.globalIdx g) (findClosestIndices.normal g dev pCurrPhi t)

/-- The array `pNormals` after the kernel `findClosestIndices` launched by its wrapper
(the only store into `pNormals` is the one of line 39). -/
def findClosestIndices.pNormals (g : GpuGrid K) (dev : LevelSetDevice K) (pCurrPhi : Nat → K)
    (pNormals : Nat → CudaFloat2T K) : Nat → CudaFloat2T K :=
  (launchWorkers g).foldl (fun cur t => findClosestIndices.storeNormal g dev pCurrPhi t cur)
    pNormals

end LevelSetKernels

/-! ### A concrete launch of the level-set kernels

One tile of 21 x 21 threads on a 21 x 21 grid with spacing 1/100 and a halo of
one cell; the cell `(10, 10)` is 10 nodes from every domain edge. -/

/-- A 21 x 21 grid covered by one 21 x 21 tile. -/
def exampleLevelSetGrid : GpuGrid ℚ :=
  { nx := 21, ny := 21, hx := 1 / 100, hy := 1 / 100, hxReciprocal := 100, hyReciprocal := 100,
    blockSizeX := 21, blockSizeY := 21, gridSizeX := 1, gridSizeY := 1, smExtension := 1,
    sharedMemoryX := 23, sharedMemoryY := 23 }

/-- Collaborators of the concrete launch: the rational square root, the predicate
of `SrmDualThrust`, the constant gradient magnitude `gradient`, and the constant
level-set derivatives 3 along x and 4 along y. -/
def exampleLevelSetDevice (gradient : ℚ) : LevelSetDevice ℚ :=
  { sqrt := Rat.sqrt
    shouldApplyScheme := SrmDualThrust.shouldApplyScheme
    getLevelSetAbsGradient := fun _ _ _ _ => gradient
    getLevelSetDerivative := fun step _ _ _ => if step = 1 then 3 else 4 }

/-- Arguments of the concrete launch: the constant field `phi` in both input
buffers, `dt = 1` and the weight `w`. -/
def exampleReinitializeArgs (phi w : ℚ) : ReinitializeArgs ℚ :=
  { pPrevValue := fun _ => phi
    pFirstValue := fun _ => phi
    dt := 1
    prevWeight := w }

/-- The thread of the cell `(10, 10)`. -/
def exampleLevelSetWorker : Worker := { blockIdxX := 0, blockIdxY := 0, ti := 10, tj := 10 }

/-! ## get_closest_index.h and the ghost mapping of gpu_build_ghost_to_closest_map_kernel.h

The conversions between the floating-point type and the integer types are explicit:
`std::round` yields an integer, an `int` or `unsigned` operand of a floating-point
operation is cast, and `unsigned` index arithmetic is carried out modulo `2 ^ 32`.
A loop of `getClosestIndex` whose bound is the largest `unsigned` value never ends;
functions that run such a loop return `none`.
-/

/-- The enumeration `EBoundaryCondition` of boundary_condition.h, which is not among
the sources: the enumerators that the sources name. -/
inductive EBoundaryCondition where
  | eWall
  | eMassFlowInlet
  | ePressureOutlet
  | eMirror
deriving DecidableEq

/-- Further constants of `GpuGridT` that `getClosestIndex` reads (gpu_grid.h is not
among the sources): the extents `lx`, `ly` of the domain and the `unsigned` constant `n`. -/
structure GpuGridExtent (K : Type) where
  lx : K
  ly : K
  n : Nat

/-- The collaborators of `findClosestIndices`: those of the level-set kernels and
`ShapeT::getBoundaryCondition`. -/
structure GhostMapDevice (K : Type) extends LevelSetDevice K where
  getBoundaryCondition : K → K → EBoundaryCondition

/-- The output arrays of `findClosestIndices`. -/
structure GhostMapOutputs (K : Type) where
  pClosestIndices : Nat → Nat × Nat
  pBoundaryConditions : Nat → EBoundaryCondition
  pNormals : Nat → CudaFloat2T K

/-- Conversion of a rounded floating-point value to `unsigned`.  The conversion is the
identity on the values of the type; outside them the language leaves it undefined and
the model takes the saturating conversion of the device. -/
def toUnsigned (z : ℤ) : Nat := min z.toNat (2 ^ 32 - 1)

/-- Conversion of an `int` to `unsigned`: the residue modulo `2 ^ 32`. -/
def intToUnsigned (z : ℤ) : Nat := (z % 2 ^ 32).toNat

/-- The values of a loop `for (unsigned c = cSurface - 3; c <= cSurface + 3; ++c)` of
`getClosestIndex`, in order; `none` when the loop does not end, which happens when the
bound `cSurface + 3` is the largest `unsigned` value.  A start that wrapped around, or
a bound that did, leaves no value to visit. -/
def getClosestIndex.scan (cSurface : Nat) : Option (List Nat) :=
  let first := subU32 cSurface 3
  let last := (cSurface + 3) % 2 ^ 32
  if last = 2 ^ 32 - 1 then none
  else if first ≤ last then some (List.range' first (last - first + 1))
  else some []

/-- The local variables `minDistanceSquared`, `iClosest`, `jClosest` of `getClosestIndex`. -/
structure getClosestIndex.Closest (K : Type) where
  minDistanceSquared : K
  iClosest : Nat
  jClosest : Nat

/-- `ShapeSolverTypes<EShapeType::eNozzleLessShape>::nx` of shape_solver_types.h. -/
def ShapeSolverTypes.eNozzleLessShape.nx : Nat := 1344 + 1

/-- `ShapeSolverTypes<EShapeType::eNozzleLessShape>::ny` of shape_solver_types.h. -/
def ShapeSolverTypes.eNozzleLessShape.ny : Nat := 128 + 1

/-- `ShapeSolverTypes<EShapeType::eWithUmbrellaShape>::nx` of shape_solver_types.h. -/
def ShapeSolverTypes.eWithUmbrellaShape.nx : Nat := 2445 + 1

/-- `ShapeSolverTypes<EShapeType::eWithUmbrellaShape>::ny` of shape_solver_types.h. -/
def ShapeSolverTypes.eWithUmbrellaShape.ny : Nat := 750 + 1

section GhostMapKernel

variable {K : Type} [LinearOrderedField K] [FloorRing K]

/-- `std::round`: the nearest integer, halfway cases away from zero. -/
def stdRound (x : K) : ℤ := if 0 ≤ x then ⌊x + 1 / 2⌋ else ⌈x - 1 / 2⌉

/-- `xSurface` of `getClosestIndex` (lines 16 to 19). -/
def getClosestIndex.xSurface (g : GpuGrid K) (pCurrPhi : Nat → K) (i j : Nat) (nx : K) : K :=
  let globalIdx := (j * g.nx + i) % 2 ^ 32
  let level := pCurrPhi globalIdx
  (i : K) * g.hx - nx * level

/-- `ySurface` of `getClosestIndex` (lines 16 to 20). -/
def getClosestIndex.ySurface (g : GpuGrid K) (pCurrPhi : Nat → K) (i j : Nat) (ny : K) : K :=
  let globalIdx := (j * g.nx + i) % 2 ^ 32
  let level := pCurrPhi globalIdx
  (j : K) * g.hy - ny * level

/-- `iSurface` of `getClosestIndex` (line 22). -/
def getClosestIndex.iSurface (g : GpuGrid K) (pCurrPhi : Nat → K) (i j : Nat) (nx : K) : Nat :=
  toUnsigned (stdRound (getClosestIndex.xSurface g pCurrPhi i j nx * g.hxReciprocal))

/-- `jSurface` of `getClosestIndex` (line 23). -/
def getClosestIndex.jSurface (g : GpuGrid K) (pCurrPhi : Nat → K) (i j : Nat) (ny : K) : Nat :=
  toUnsigned (stdRound (getClosestIndex.ySurface g pCurrPhi i j ny * g.hyReciprocal))

/-- `distanceSquared` of `getClosestIndex` (line 37). -/
def getClosestIndex.distanceSquared (g : GpuGrid K) (xSurface ySurface : K) (iCl jCl : Nat) : K :=
  sqr ((iCl : K) * g.hx - xSurface) + sqr ((jCl : K) * g.hy - ySurface)

/-- The body of the inner loop of `getClosestIndex` (lines 32 to 45). -/
def getClosestIndex.visit (g : GpuGrid K) (pCurrPhi : Nat → K) (xSurface ySurface : K)
    (st : getClosestIndex.Closest K) (iCl jCl : Nat) : getClosestIndex.Closest K :=
  if pCurrPhi ((jCl * g.nx + iCl) % 2 ^ 32) ≥ 0 then st else
  let distanceSquared := getClosestIndex.distanceSquared g xSurface ySurface iCl jCl
  if st.minDistanceSquared < distanceSquared then st else
  { iClosest := iCl, jClosest := jCl, minDistanceSquared := distanceSquared }

/-- The value `jClosest * GpuGridT::nx + iClosest` that `getClosestIndex` returns (line 48). -/
def getClosestIndex.result (g : GpuGrid K) (st : getClosestIndex.Closest K) : Nat :=
  (st.jClosest * g.nx + st.iClosest) % 2 ^ 32

/-- The nodes `(iCl, jCl)` that the nested loops of `getClosestIndex` visit, in the order
of the visits: the outer loop runs over `iCl`, the inner loop over `jCl`. -/
def getClosestIndex.scanOrder (is js : List Nat) : List (Nat × Nat) :=
  is.flatMap (fun iCl => js.map (fun jCl => (iCl, jCl)))

/-- `getClosestIndex` of get_closest_index.h; `none` when a loop does not end. -/
def getClosestIndex (g : GpuGrid K) (ext : GpuGridExtent K) (pCurrPhi : Nat → K) (i j : Nat)
    (nx ny : K) : Option Nat :=
  let xSurface := getClosestIndex.xSurface g pCurrPhi i j nx
  let ySurface := getClosestIndex.ySurface g pCurrPhi i j ny
  let iSurface := getClosestIndex.iSurface g pCurrPhi i j nx
  let jSurface := getClosestIndex.jSurface g pCurrPhi i j ny
  let initial : getClosestIndex.Closest K :=
    { minDistanceSquared := ext.lx * ext.lx + ext.ly * ext.ly, iClosest := ext.n,
      jClosest := ext.n }
  match getClosestIndex.scan iSurface, getClosestIndex.scan jSurface with
  | some is, some js =>
    some (getClosestIndex.result g
      (is.foldl (fun st iCl =>
        js.foldl (fun st jCl => getClosestIndex.visit g pCurrPhi xSurface ySurface st iCl jCl) st)
        initial))
  | some [], none => some (getClosestIndex.result g initial)
  | _, _ => none

/-- The flag `pointIsGhost` of `findClosestIndices` (lines 41 to 42). -/
def findClosestIndices.pointIsGhost (g : GpuGrid K) (pCurrPhi : Nat → K) (t : Worker) : Bool :=
  let level := pCurrPhi (t.globalIdx g)
  decide (level ≥ 0) && decide (|level| < 5 * g.hx)

/-- The value `boundaryCondition` of `findClosestIndices` (lines 47 to 48): the
classification by the shape of the foot point of the cell on the interface. -/
def findClosestIndices.boundaryCondition (g : GpuGrid K) (dev : GhostMapDevice K)
    (pCurrPhi : Nat → K) (t : Worker) : EBoundaryCondition :=
  let normal := findClosestIndices.normal g dev.toLevelSetDevice pCurrPhi t
  let level := pCurrPhi (t.globalIdx g)
  dev.getBoundaryCondition ((t.i g : K) * g.hx - normal.x * level)
    ((t.j g : K) * g.hy - normal.y * level)

/-- `iMirror` of `findClosestIndices` (line 51). -/
def findClosestIndices.iMirror (g : GpuGrid K) (dev : GhostMapDevice K) (pCurrPhi : Nat → K)
    (t : Worker) : K :=
  let normal := findClosestIndices.normal g dev.toLevelSetDevice pCurrPhi t
  let level := pCurrPhi (t.globalIdx g)
  (t.i g : K) - 2 * normal.x * level * g.hxReciprocal

/-- `jMirror` of `findClosestIndices` (line 52). -/
def findClosestIndices.jMirror (g : GpuGrid K) (dev : GhostMapDevice K) (pCurrPhi : Nat → K)
    (t : Worker) : K :=
  let normal := findClosestIndices.normal g dev.toLevelSetDevice pCurrPhi t
  let level := pCurrPhi (t.globalIdx g)
  (t.j g : K) - 2 * normal.y * level * g.hxReciprocal

/-- The index `jMirrorInt * GpuGridT::nx + iMirrorInt` of `findClosestIndices`
(lines 54 to 60), an `unsigned` value. -/
def findClosestIndices.mirrorGlobalIdx (g : GpuGrid K) (dev : GhostMapDevice K)
    (pCurrPhi : Nat → K) (t : Worker) : Nat :=
  let iMirrorInt := stdRound (findClosestIndices.iMirror g dev pCurrPhi t)
  let jMirrorInt := stdRound (findClosestIndices.jMirror g dev pCurrPhi t)
  intToUnsigned (jMirrorInt * (g.nx : ℤ) + iMirrorInt)

/-- The test of line 58 of `findClosestIndices` that accepts the mirror node. -/
def findClosestIndices.mirrorAccepted (g : GpuGrid K) (dev : GhostMapDevice K)
    (pCurrPhi : Nat → K) (t : Worker) : Bool :=
  let iMirror := findClosestIndices.iMirror g dev pCurrPhi t
  let jMirror := findClosestIndices.jMirror g dev pCurrPhi t
  let iMirrorInt := stdRound iMirror
  let jMirrorInt := stdRound jMirror
  let sum := |iMirror - (iMirrorInt : K)| + |jMirror - (jMirrorInt : K)|
  decide (sum < (1 / 100) * g.hx) &&
    decide (pCurrPhi (findClosestIndices.mirrorGlobalIdx g dev pCurrPhi t) < 0)

/-- A thread of `findClosestIndices` (kernel lines 21 to 69) as a transformer of the
output arrays; `none` when its call of `getClosestIndex` does not return. -/
def findClosestIndices.thread (g : GpuGrid K) (ext : GpuGridExtent K) (dev : GhostMapDevice K)
    (pCurrPhi : Nat → K) (t : Worker) (out : GhostMapOutputs K) : Option (GhostMapOutputs K) :=
  let i := t.i g
  let j := t.j g
  let globalIdx := t.globalIdx g
  if t.outsideGrid g then some out else
  if t.inEdgeMargin g then some out else
  let normal := findClosestIndices.normal g dev.toLevelSetDevice pCurrPhi t
  let out := { out with pNormals := Function.update out.pNormals globalIdx normal }
  if !findClosestIndices.pointIsGhost g pCurrPhi t then some out else
  let boundaryCondition := findClosestIndices.boundaryCondition g dev pCurrPhi t
  if boundaryCondition = EBoundaryCondition.eWall ∧
      findClosestIndices.mirrorAccepted g dev pCurrPhi t = true then
    let mirrorGlobalIdx := findClosestIndices.mirrorGlobalIdx g dev pCurrPhi t
    some { out with
      pClosestIndices := Function.update out.pClosestIndices globalIdx (globalIdx, mirrorGlobalIdx)
      pBoundaryConditions :=
        Function.update out.pBoundaryConditions globalIdx EBoundaryCondition.eMirror }
  else
    match getClosestIndex g ext pCurrPhi i j normal.x normal.y with
    | none => none
    | some closestGlobalIdx =>
      some { out with
        pClosestIndices :=
          Function.update out.pClosestIndices globalIdx (globalIdx, closestGlobalIdx)
        pBoundaryConditions :=
          Function.update out.pBoundaryConditions globalIdx boundaryCondition }

/-- The kernel `findClosestIndices` launched by its wrapper: the output arrays after
every thread has run, `none` when a thread does not return. -/
def findClosestIndices (g : GpuGrid K) (ext : GpuGridExtent K) (dev : GhostMapDevice K)
    (pCurrPhi : Nat → K) (out : GhostMapOutputs K) : Option (GhostMapOutputs K) :=
  (launchWorkers g).foldlM (fun out t => findClosestIndices.thread g ext dev pCurrPhi t out) out

/-- The loops of every call of `getClosestIndex` by a thread of the launch end: for every
thread that passes both early returns and whose cell is a ghost cell, the upper bounds
`iSurface + 3` and `jSurface + 3` stay below the largest `unsigned` value. -/
def findClosestIndices.LoopsEnd (g : GpuGrid K) (dev : GhostMapDevice K) (pCurrPhi : Nat → K) :
    Prop :=
  ∀ t ∈ launchWorkers g, t.outsideGrid g = false → t.inEdgeMargin g = false →
    findClosestIndices.pointIsGhost g pCurrPhi t = true →
    getClosestIndex.iSurface g pCurrPhi (t.i g) (t.j g)
        (findClosestIndices.normal g dev.toLevelSetDevice pCurrPhi t).x + 3 < 2 ^ 32 - 1 ∧
      getClosestIndex.jSurface g pCurrPhi (t.i g) (t.j g)
        (findClosestIndices.normal g dev.toLevelSetDevice pCurrPhi t).y + 3 < 2 ^ 32 - 1

end GhostMapKernel

/-! ### A concrete launch of the ghost mapping

One tile of 23 x 23 threads on a 23 x 23 grid with spacing 1/100; the cell `(11, 11)`
is 11 nodes from every domain edge, and the nine cells `(10..12, 10..12)` are the ones
at least 10 nodes from every edge. -/

/-- A 23 x 23 grid covered by one 23 x 23 tile. -/
def exampleGhostGrid : GpuGrid ℚ :=
  { nx := 23, ny := 23, hx := 1 / 100, hy := 1 / 100, hxReciprocal := 100, hyReciprocal := 100,
    blockSizeX := 23, blockSizeY := 23, gridSizeX := 1, gridSizeY := 1, smExtension := 1,
    sharedMemoryX := 25, sharedMemoryY := 25 }

/-- The extents `22 * hx` of the concrete grid and its number of cells. -/
def exampleGhostExtent : GpuGridExtent ℚ := { lx := 22 / 100, ly := 22 / 100, n := 529 }

/-- Collaborators of the concrete launch: the constant level-set derivatives 3 along x
and 4 along y, so that every normal is `(3/5, 4/5)`, and a shape that classifies every
point as `boundaryCondition`. -/
def exampleGhostDevice (boundaryCondition : EBoundaryCondition) : GhostMapDevice ℚ :=
  { toLevelSetDevice := exampleLevelSetDevice 400
    getBoundaryCondition := fun _ _ => boundaryCondition }

/-- A level set with the value `level` at the cells `cells` and `-1` elsewhere. -/
def exampleGhostPhi (cells : List Nat) (level : ℚ) : Nat → ℚ :=
  fun k => if k ∈ cells then level else -1

/-- Initial content of the output arrays of the concrete launch. -/
def exampleGhostOutputs : GhostMapOutputs ℚ :=
  { pClosestIndices := fun _ => (0, 0)
    pBoundaryConditions := fun _ => EBoundaryCondition.ePressureOutlet
    pNormals := fun _ => { x := 9, y := 9 } }

/-- The thread of the cell `(11, 11)`, of row-major index 264. -/
def exampleGhostWorker : Worker := { blockIdxX := 0, blockIdxY := 0, ti := 11, tj := 11 }

/-- The thread of the cell `(1, 1)`, of row-major index 24. -/
def exampleMarginWorker : Worker := { blockIdxX := 0, blockIdxY := 0, ti := 1, tj := 1 }

/-- A grid with the cell counts and the spacing of a configured solver; the tiles of
32 x 8 threads are a choice of the example, which `getClosestIndex` does not read. -/
def exampleConfiguredGrid (nx ny : Nat) (h hReciprocal : ℚ) : GpuGrid ℚ :=
  { nx := nx, ny := ny, hx := h, hy := h, hxReciprocal := hReciprocal,
    hyReciprocal := hReciprocal, blockSizeX := 32, blockSizeY := 8,
    gridSizeX := (nx + 31) / 32, gridSizeY := (ny + 7) / 8, smExtension := 3,
    sharedMemoryX := 38, sharedMemoryY := 14 }

/-- The extents and the number of cells `n = nx * ny` of a configured grid. -/
def exampleConfiguredExtent (nx ny : Nat) (lx ly : ℚ) : GpuGridExtent ℚ :=
  { lx := lx, ly := ly, n := nx * ny }

/-! ## gas_state.h: wave speeds and the divisors of the eigenvector matrices -/

section WaveSpeeds

variable {K : Type} [LinearOrderedField K]

/-- `WaveSpeedX::get`; `std::fabs` is the absolute value. -/
def WaveSpeedX.get (sqrt : K → K) (kappa : K) (state : GasState K) : K :=
  SonicSpeed.get sqrt kappa state + |state.ux|

/-- `WaveSpeedY::get`. -/
def WaveSpeedY.get (sqrt : K → K) (kappa : K) (state : GasState K) : K :=
  SonicSpeed.get sqrt kappa state + |state.uy|

/-- `WaveSpeedXY::get`. -/
def WaveSpeedXY.get (sqrt : K → K) (kappa : K) (state : GasState K) : CudaFloat2T K :=
  { x := WaveSpeedX.get sqrt kappa state, y := WaveSpeedY.get sqrt kappa state }

/-- `WaveSpeed::get`. -/
def WaveSpeed.get (sqrt : K → K) (kappa : K) (state : GasState K) : K :=
  SonicSpeed.get sqrt kappa state + Velocity.get sqrt state

/-- The divisors of the quotients that `SonicSpeed::get` evaluates: the density, in
`SonicSpeedSquared::get`. -/
def SonicSpeed.denominators (state : GasState K) : List K := [state.rho]

/-- The divisors of the quotients that `LeftPrimitiveEigenVectorsX<uyIsZero>::get`
evaluates, in the order of the source.  The primary template divides by the sonic speed
(`cReciprocal`) and by the density (`rhoReciprocal`); the specialisation for `true`
divides by the sonic speed (`cRec`), by `1 - rho * uy` (`mult`), by the literal `2` and
by the density (`cRecSqr / rho / 2`).  Both call `SonicSpeed::get` first. -/
def LeftPrimitiveEigenVectorsX.denominators (uyIsZero : Bool) (sqrt : K → K) (kappa : K)
    (state : GasState K) : List K :=
  match uyIsZero with
  | false =>
    SonicSpeed.denominators state ++ [SonicSpeed.get sqrt kappa state, state.rho]
  | true =>
    SonicSpeed.denominators state ++
      [SonicSpeed.get sqrt kappa state, 1 - state.rho * state.uy, 2, state.rho]

/-- The divisors of the quotients that `DispatchedLeftPrimitiveEigenVectorsX::get`
evaluates: those of the form that it selects. -/
def DispatchedLeftPrimitiveEigenVectorsX.denominators (eps : K) (sqrt : K → K) (kappa : K)
    (state : GasState K) : List K :=
  if |state.uy| > eps then LeftPrimitiveEigenVectorsX.denominators false sqrt kappa state
  else LeftPrimitiveEigenVectorsX.denominators true sqrt kappa state

/-- The divisors of the quotients that `RightPrimitiveEigenVectorsX<uyIsZero>::get`
evaluates: the primary template divides by `uy` (`-rho / uy`, `rho / uy`), the
specialisation for `true` by nothing.  Both call `SonicSpeed::get` first. -/
def RightPrimitiveEigenVectorsX.denominators (uyIsZero : Bool) (state : GasState K) : List K :=
  match uyIsZero with
  | false => SonicSpeed.denominators state ++ [state.uy]
  | true => SonicSpeed.denominators state

/-- The divisors of the quotients that `DispatchedRightPrimitiveEigenVectorsX::get`
evaluates: those of the form that it selects. -/
def DispatchedRightPrimitiveEigenVectorsX.denominators (eps : K) (state : GasState K) :
    List K :=
  if |state.uy| > eps then RightPrimitiveEigenVectorsX.denominators false state
  else RightPrimitiveEigenVectorsX.denominators true state

end WaveSpeeds

/-! ## gpu_gas_dynamic_kernel.h: the stores into the shared flux arrays -/

section FluxSlots

variable {K : Type} [LinearOrderedField K]

/-- The four values `getFlux<U, F, 1U, GpuGridT>(prevMatrix, idx, lambda.x)` that the
kernel stores into `xFlux1` to `xFlux4` for one stencil index (kernel lines 98 to 101
and 122 to 125). -/
def xFluxValues (dev : Device K) (a : KernelArgs K) (prevMatrix : Nat → GasState K)
    (idx : Nat) : CudaFloat4T K :=
  { x := dev.getFlux Rho.get MassFluxX.get 1 prevMatrix idx a.lambda.x
    y := dev.getFlux MassFluxX.get MomentumFluxXx.get 1 prevMatrix idx a.lambda.x
    z := dev.getFlux MassFluxY.get MomentumFluxXy.get 1 prevMatrix idx a.lambda.x
    w := dev.getFlux (RhoEnergy.get dev.kappa) (EnthalpyFluxX.get dev.kappa) 1 prevMatrix idx
      a.lambda.x }

/-- The four values `getFlux<U, F, smx, GpuGridT>(prevMatrix, idx, lambda.y)` that the
kernel stores into `yFlux1` to `yFlux4` for one stencil index (kernel lines 110 to 113
and 116 to 119). -/
def yFluxValues (g : GpuGrid K) (dev : Device K) (a : KernelArgs K)
    (prevMatrix : Nat → GasState K) (idx : Nat) : CudaFloat4T K :=
  { x := dev.getFlux Rho.get MassFluxY.get g.sharedMemoryX prevMatrix idx a.lambda.y
    y := dev.getFlux MassFluxX.get MomentumFluxXy.get g.sharedMemoryX prevMatrix idx a.lambda.y
    z := dev.getFlux MassFluxY.get MomentumFluxYy.get g.sharedMemoryX prevMatrix idx a.lambda.y
    w := dev.getFlux (RhoEnergy.get dev.kappa) (EnthalpyFluxY.get dev.kappa) g.sharedMemoryX
      prevMatrix idx a.lambda.y }

/-- The slots of `xFlux1` to `xFlux4` that a thread stores into between the two
barriers: `transFluxSharedIdx - 1U` under the guard `(tj == 1U) && (ti < blockSize.y)`
of line 93, and `fluxSharedIdx` when `fluxShouldBeCalculated`. -/
def Worker.xFluxSlots (g : GpuGrid K) (dev : Device K) (a : KernelArgs K) (t : Worker) :
    List Nat :=
  if t.returnsEarly g dev then [] else
  (if t.tj = 1 ∧ t.ti < g.blockSizeY then [(t.ti + 1) * (g.blockSizeX + 1) + t.tj - 1]
    else []) ++
  (if a.pCurrPhi (t.globalIdx g) ≤ g.hx + 1 / 1000000 then [t.fluxSharedIdx g] else [])

/-- The slots of `yFlux1` to `yFlux4` that a thread stores into between the two
barriers, when `fluxShouldBeCalculated`: `fluxSharedIdx - fluxSmx` under the guard
`tj == 0U` of line 108, and `fluxSharedIdx`. -/
def Worker.yFluxSlots (g : GpuGrid K) (dev : Device K) (a : KernelArgs K) (t : Worker) :
    List Nat :=
  if t.returnsEarly g dev then [] else
  if a.pCurrPhi (t.globalIdx g) ≤ g.hx + 1 / 1000000 then
    (if t.tj = 0 then [t.fluxSharedIdx g - (g.blockSizeX + 1)] else []) ++ [t.fluxSharedIdx g]
  else []

end FluxSlots

/-- The thread `(0, 1)` of tile `(0, 0)` of the concrete launch: a cell of the left
column of the tile, above the bottom row. -/
def exampleLeftWorker : Worker := { blockIdxX := 0, blockIdxY := 0, ti := 0, tj := 1 }

/-! ## gpu_gas_dynamic_kernel.h: the flux scheme as a stencil scheme -/

section Boundary

variable {K : Type} [LinearOrderedField K] [FloorRing K]

end Boundary

/-! ### Rounding to `double`

The rounding of a rational number to the nearest number with a significand of `p` binary
digits, halfway cases to the even significand (the default rounding of IEEE 754).  The
exponent range is not bounded: there is no overflow and there are no subnormal numbers. -/

section GasStateTheorems

variable {K : Type} [LinearOrderedField K]

/-- The vector difference of float4_arithmetics.h, component by component. -/
theorem CudaFloat4T.sub_def (lhs rhs : CudaFloat4T K) :
    lhs - rhs =
      { x := lhs.x - rhs.x, y := lhs.y - rhs.y, z := lhs.z - rhs.z, w := lhs.w - rhs.w } :=
  rfl

/-- The vector sum of float4_arithmetics.h, component by component. -/
theorem CudaFloat4T.add_def (lhs rhs : CudaFloat4T K) :
    lhs + rhs =
      { x := lhs.x + rhs.x, y := lhs.y + rhs.y, z := lhs.z + rhs.z, w := lhs.w + rhs.w } :=
  rfl

/-- The scalar multiple of float4_arithmetics.h, component by component. -/
theorem CudaFloat4T.smul_def (lhs : K) (rhs : CudaFloat4T K) :
    lhs * rhs = { x := lhs * rhs.x, y := lhs * rhs.y, z := lhs * rhs.z, w := lhs * rhs.w } :=
  rfl

/-- Converting a state with non-zero density to conservative variables and back
returns the state, when `kappa ≠ 1`. -/
theorem conservativeToGasState_conservativeVariables (kappa : K) (s : GasState K)
    (hrho : s.rho ≠ 0) (hkappa : kappa ≠ 1) :
    ConservativeToGasState.get kappa (ConservativeVariables.get kappa s) = s := by
  have hk1 : kappa - 1 ≠ 0 := sub_ne_zero.mpr hkappa
  cases s with
  | mk rho ux uy p =>
    simp only [ConservativeToGasState.get, ConservativeVariables.get, Rho.get, MassFluxX.get,
      MassFluxY.get, RhoEnergy.get, VelocitySquared.get] at *
    congr 1
    · field_simp
    · field_simp
    · field_simp
      ring

/-- A valid state has positive density and positive pressure. -/
theorem isValid_pos (isfinite : K → Bool) (s : GasState K)
    (h : IsValid.get isfinite s = true) : 0 < s.rho ∧ 0 < s.p := by
  unfold IsValid.get at h
  simp only [Bool.and_eq_true, decide_eq_true_eq] at h
  exact ⟨h.1.2, h.2⟩

/-- Claim C1: for every gas state with `rho ≠ 0`, and `kappa ≠ 1`,
`ConservativeToGasState::get` applied to `ConservativeVariables::get` of the state
returns the same state `(rho, ux, uy, p)`, in exact arithmetic. -/
theorem primitive_conservative_round_trip (kappa : K) (s : GasState K)
    (hrho : s.rho ≠ 0) (hkappa : kappa ≠ 1) :
    ConservativeToGasState.get kappa (ConservativeVariables.get kappa s) = s :=
  conservativeToGasState_conservativeVariables kappa s hrho hkappa

/-- Witness of C1 at `(rho, ux, uy, p) = (1, 2, 3, 4)` and `kappa = 7/5`. -/
theorem primitive_conservative_round_trip_witness :
    (1 : ℚ) ≠ 0 ∧ (7 / 5 : ℚ) ≠ 1 ∧
      ConservativeToGasState.get (7 / 5 : ℚ)
        (ConservativeVariables.get (7 / 5) { rho := 1, ux := 2, uy := 3, p := 4 }) =
        { rho := 1, ux := 2, uy := 3, p := 4 } :=
  ⟨by norm_num, by norm_num,
    primitive_conservative_round_trip (7 / 5 : ℚ)
      { rho := 1, ux := 2, uy := 3, p := 4 } (by norm_num) (by norm_num)⟩

/-- Claim C2: for every gas state and every unit normal, rotating and then
reverse-rotating returns the state, and both rotations keep density and pressure. -/
theorem reverseRotate_rotate (s : GasState K) (nx ny : K) (hn : nx ^ 2 + ny ^ 2 = 1) :
    ReverseRotate.get (Rotate.get s nx ny) nx ny = s ∧
      (Rotate.get s nx ny).rho = s.rho ∧ (Rotate.get s nx ny).p = s.p ∧
      (ReverseRotate.get s nx ny).rho = s.rho ∧ (ReverseRotate.get s nx ny).p = s.p := by
  refine ⟨?_, rfl, rfl, rfl, rfl⟩
  cases s with
  | mk rho ux uy p =>
    simp only [ReverseRotate.get, Rotate.get]
    congr 1
    · linear_combination ux * hn
    · linear_combination uy * hn

/-- Witness of C2 at the normal `(3/5, 4/5)`. -/
theorem reverseRotate_rotate_witness :
    (3 / 5 : ℚ) ^ 2 + (4 / 5) ^ 2 = 1 ∧
      ReverseRotate.get (Rotate.get ({ rho := 1, ux := 2, uy := 3, p := 4 } : GasState ℚ)
        (3 / 5) (4 / 5)) (3 / 5) (4 / 5) = { rho := 1, ux := 2, uy := 3, p := 4 } :=
  ⟨by norm_num,
    (reverseRotate_rotate ({ rho := 1, ux := 2, uy := 3, p := 4 } : GasState ℚ) (3 / 5) (4 / 5)
      (by norm_num)).1⟩

/-- The 4x4 identity matrix, entry by entry. -/
theorem one_fin_four :
    (1 : Matrix (Fin 4) (Fin 4) K) = !![1, 0, 0, 0; 0, 1, 0, 0; 0, 0, 1, 0; 0, 0, 0, 1] := by
  ext i j
  fin_cases i <;> fin_cases j <;> rfl

/-- The Jacobian times the right eigenvectors is the right eigenvectors times
the diagonal eigenvalue matrix, in both closed forms. -/
theorem jacobian_mul_right (b : Bool) (sqrt : K → K) (kappa : K) (s : GasState K)
    (hrho : s.rho ≠ 0) :
    PrimitiveJacobianMatrixX.get sqrt kappa s * RightPrimitiveEigenVectorsX.get b sqrt kappa s =
      RightPrimitiveEigenVectorsX.get b sqrt kappa s * EigenValuesMatrixX.get sqrt kappa s := by
  cases b <;>
  · dsimp only [PrimitiveJacobianMatrixX.get, RightPrimitiveEigenVectorsX.get,
      EigenValuesMatrixX.get]
    generalize SonicSpeed.get sqrt kappa s = c
    ext i j
    fin_cases i <;> fin_cases j <;>
      simp only [Matrix.mul_apply, Fin.sum_univ_four, Matrix.of_apply, Matrix.cons_val',
        Matrix.cons_val_zero, Matrix.cons_val_one, Matrix.head_cons, Matrix.cons_val_two,
        Matrix.tail_cons, Matrix.cons_val_three, Matrix.empty_val', Matrix.cons_val_fin_one,
        Fin.zero_eta, Fin.mk_one, Fin.reduceFinMk] <;>
      field_simp <;> ring1

set_option maxHeartbeats 1000000 in
/-- The general-form left eigenvectors invert the general-form right eigenvectors. -/
theorem left_mul_right_false (sqrt : K → K) (kappa : K) (s : GasState K)
    (hrho : s.rho ≠ 0) (huy : s.uy ≠ 0) (hc : SonicSpeed.get sqrt kappa s ≠ 0) :
    LeftPrimitiveEigenVectorsX.get false sqrt kappa s *
      RightPrimitiveEigenVectorsX.get false sqrt kappa s = 1 := by
  rw [one_fin_four]
  dsimp only [LeftPrimitiveEigenVectorsX.get, RightPrimitiveEigenVectorsX.get]
  generalize SonicSpeed.get sqrt kappa s = c at hc
  obtain ⟨rho, ux, uy, p⟩ := s
  dsimp only at hrho huy ⊢
  ext i j
  fin_cases i <;> fin_cases j <;>
    simp only [Matrix.mul_apply, Fin.sum_univ_four, Matrix.of_apply, Matrix.cons_val',
      Matrix.cons_val_zero, Matrix.cons_val_one, Matrix.head_cons, Matrix.cons_val_two,
      Matrix.tail_cons, Matrix.cons_val_three, Matrix.empty_val', Matrix.cons_val_fin_one,
      Fin.zero_eta, Fin.mk_one, Fin.reduceFinMk] <;>
    field_simp <;> ring1

set_option maxHeartbeats 1000000 in
/-- The uy-zero-form left eigenvectors invert the uy-zero-form right eigenvectors. -/
theorem left_mul_right_true (sqrt : K → K) (kappa : K) (s : GasState K)
    (hrho : s.rho ≠ 0) (hmult : s.rho * s.uy ≠ 1) (hc : SonicSpeed.get sqrt kappa s ≠ 0) :
    LeftPrimitiveEigenVectorsX.get true sqrt kappa s *
      RightPrimitiveEigenVectorsX.get true sqrt kappa s = 1 := by
  have hm : 1 - s.rho * s.uy ≠ 0 := sub_ne_zero.mpr (Ne.symm hmult)
  rw [one_fin_four]
  dsimp only [LeftPrimitiveEigenVectorsX.get, RightPrimitiveEigenVectorsX.get, sqr]
  generalize SonicSpeed.get sqrt kappa s = c at hc
  obtain ⟨rho, ux, uy, p⟩ := s
  dsimp only at hrho hm ⊢
  ext i j
  fin_cases i <;> fin_cases j <;>
    simp only [Matrix.mul_apply, Fin.sum_univ_four, Matrix.of_apply, Matrix.cons_val',
      Matrix.cons_val_zero, Matrix.cons_val_one, Matrix.head_cons, Matrix.cons_val_two,
      Matrix.tail_cons, Matrix.cons_val_three, Matrix.empty_val', Matrix.cons_val_fin_one,
      Fin.zero_eta, Fin.mk_one, Fin.reduceFinMk] <;>
    field_simp <;> ring1

/-- An exact square root of the squared sonic speed of a valid state is non-zero. -/
theorem sonicSpeed_ne_zero (isfinite : K → Bool) (sqrt : K → K) (kappa : K)
    (s : GasState K)
    (hvalid : IsValid.get isfinite s = true) (hkappa : 0 < kappa)
    (hsqrt : SonicSpeed.get sqrt kappa s * SonicSpeed.get sqrt kappa s =
      SonicSpeedSquared.get kappa s) :
    SonicSpeed.get sqrt kappa s ≠ 0 := by
  obtain ⟨hrho, hp⟩ := isValid_pos isfinite s hvalid
  intro h0
  rw [h0, mul_zero] at hsqrt
  have hpos : 0 < SonicSpeedSquared.get kappa s := by
    unfold SonicSpeedSquared.get
    positivity
  exact absurd hsqrt.symm (ne_of_gt hpos)

/-- The characteristic polynomial of the primitive Jacobian. -/
theorem jacobian_charpoly (sqrt : K → K) (kappa : K) (s : GasState K) (hrho : s.rho ≠ 0)
    (lam : K) :
    (PrimitiveJacobianMatrixX.get sqrt kappa s - lam • (1 : Matrix (Fin 4) (Fin 4) K)).det =
      (s.ux - lam) ^ 2 *
        ((s.ux - lam) ^ 2 - SonicSpeed.get sqrt kappa s * SonicSpeed.get sqrt kappa s) := by
  dsimp only [PrimitiveJacobianMatrixX.get]
  generalize SonicSpeed.get sqrt kappa s = c
  rw [one_fin_four]
  simp [Matrix.det_succ_row_zero, Fin.sum_univ_succ, Matrix.det_fin_three, Matrix.submatrix,
    Fin.succAbove]
  field_simp
  ring

/-- Every column of both right eigenvector matrices of a state of non-zero density has
a non-zero entry. -/
theorem right_column_ne_zero (b : Bool) (sqrt : K → K) (kappa : K) (s : GasState K)
    (hrho : s.rho ≠ 0) (j : Fin 4) :
    ∃ i, RightPrimitiveEigenVectorsX.get b sqrt kappa s i j ≠ 0 := by
  cases b <;> fin_cases j
  · exact ⟨0, by simpa [RightPrimitiveEigenVectorsX.get] using hrho⟩
  · exact ⟨2, by simp [RightPrimitiveEigenVectorsX.get]⟩
  · exact ⟨2, by simp [RightPrimitiveEigenVectorsX.get]⟩
  · exact ⟨0, by simpa [RightPrimitiveEigenVectorsX.get] using hrho⟩
  · exact ⟨0, by simpa [RightPrimitiveEigenVectorsX.get] using hrho⟩
  · exact ⟨0, by simp [RightPrimitiveEigenVectorsX.get]⟩
  · exact ⟨2, by simp [RightPrimitiveEigenVectorsX.get]⟩
  · exact ⟨0, by simpa [RightPrimitiveEigenVectorsX.get] using hrho⟩

/-- Claim C9: for every valid state, `EigenValuesX::get` is `(ux - c, ux, ux, ux + c)`
with `c = sqrt (kappa * p / rho)`, these are the diagonal of `EigenValuesMatrixX::get`,
and they are the eigenvalues of the Jacobian `A` with the columns of the right
eigenvector matrix as eigenvectors: `A * R = R * EigenValuesMatrixX` for the general
right eigenvector matrix (when `uy ≠ 0`) and for the uy-zero one (any `uy`), every column
of both matrices is non-zero, and the roots of the characteristic polynomial of `A` are
exactly `ux - c`, `ux` and `ux + c`. -/
theorem eigenValuesX_jacobian (isfinite : K → Bool) (sqrt : K → K) (kappa : K)
    (s : GasState K) (hvalid : IsValid.get isfinite s = true) :
    EigenValuesX.get sqrt kappa s =
        { x := s.ux - sqrt (kappa * s.p / s.rho), y := s.ux, z := s.ux,
          w := s.ux + sqrt (kappa * s.p / s.rho) } ∧
      EigenValuesMatrixX.get sqrt kappa s =
        Matrix.diagonal ![(EigenValuesX.get sqrt kappa s).x, (EigenValuesX.get sqrt kappa s).y,
          (EigenValuesX.get sqrt kappa s).z, (EigenValuesX.get sqrt kappa s).w] ∧
      (s.uy ≠ 0 →
        PrimitiveJacobianMatrixX.get sqrt kappa s *
            RightPrimitiveEigenVectorsX.get false sqrt kappa s =
          RightPrimitiveEigenVectorsX.get false sqrt kappa s *
            EigenValuesMatrixX.get sqrt kappa s) ∧
      PrimitiveJacobianMatrixX.get sqrt kappa s *
          RightPrimitiveEigenVectorsX.get true sqrt kappa s =
        RightPrimitiveEigenVectorsX.get true sqrt kappa s *
          EigenValuesMatrixX.get sqrt kappa s ∧
      (∀ (b : Bool) (j : Fin 4), ∃ i, RightPrimitiveEigenVectorsX.get b sqrt kappa s i j ≠ 0) ∧
      ∀ lam : K,
        ((PrimitiveJacobianMatrixX.get sqrt kappa s -
            lam • (1 : Matrix (Fin 4) (Fin 4) K)).det = 0 ↔
          lam = (EigenValuesX.get sqrt kappa s).x ∨ lam = (EigenValuesX.get sqrt kappa s).y ∨
            lam = (EigenValuesX.get sqrt kappa s).z ∨
            lam = (EigenValuesX.get sqrt kappa s).w) := by
  have hrho : s.rho ≠ 0 := ne_of_gt (isValid_pos isfinite s hvalid).1
  refine ⟨rfl, ?_, fun _ => jacobian_mul_right false sqrt kappa s hrho,
    jacobian_mul_right true sqrt kappa s hrho,
    fun b j => right_column_ne_zero b sqrt kappa s hrho j, fun lam => ?_⟩
  · dsimp only [EigenValuesMatrixX.get, EigenValuesX.get]
    ext i j
    fin_cases i <;> fin_cases j <;> rfl
  · rw [jacobian_charpoly sqrt kappa s hrho lam]
    dsimp only [EigenValuesX.get]
    generalize SonicSpeed.get sqrt kappa s = c
    have hfac : (s.ux - lam) ^ 2 * ((s.ux - lam) ^ 2 - c * c) =
        (s.ux - lam) ^ 2 * ((s.ux - c - lam) * (s.ux + c - lam)) := by ring
    rw [hfac]
    constructor
    · intro h
      rcases mul_eq_zero.mp h with h1 | h1
      · exact Or.inr (Or.inl (by have := pow_eq_zero_iff (two_ne_zero) |>.mp h1; linarith))
      · rcases mul_eq_zero.mp h1 with h2 | h2
        · exact Or.inl (by linarith)
        · exact Or.inr (Or.inr (Or.inr (by linarith)))
    · rintro (h | h | h | h) <;> rw [h] <;> ring

/-- Witness of C9 at `(rho, ux, uy, p) = (7/5, 1, 1, 4)`, `kappa = 7/5`, with the
rational square root: the sonic speed is 2, the eigenvalues are `(-1, 1, 1, 3)`, and
the whole conclusion holds there, for both right eigenvector matrices. -/
theorem eigenValuesX_jacobian_witness :
    IsValid.get exampleIsfinite ({ rho := 7 / 5, ux := 1, uy := 1, p := 4 } : GasState ℚ) =
        true ∧
      EigenValuesX.get Rat.sqrt (7 / 5) ({ rho := 7 / 5, ux := 1, uy := 1, p := 4 } : GasState ℚ) =
        { x := -1, y := 1, z := 1, w := 3 } ∧
      PrimitiveJacobianMatrixX.get Rat.sqrt (7 / 5 : ℚ) { rho := 7 / 5, ux := 1, uy := 1, p := 4 } *
          RightPrimitiveEigenVectorsX.get false Rat.sqrt (7 / 5 : ℚ)
            { rho := 7 / 5, ux := 1, uy := 1, p := 4 } =
        RightPrimitiveEigenVectorsX.get false Rat.sqrt (7 / 5 : ℚ)
            { rho := 7 / 5, ux := 1, uy := 1, p := 4 } *
          EigenValuesMatrixX.get Rat.sqrt (7 / 5 : ℚ) { rho := 7 / 5, ux := 1, uy := 1, p := 4 } ∧
      PrimitiveJacobianMatrixX.get Rat.sqrt (7 / 5 : ℚ) { rho := 7 / 5, ux := 1, uy := 1, p := 4 } *
          RightPrimitiveEigenVectorsX.get true Rat.sqrt (7 / 5 : ℚ)
            { rho := 7 / 5, ux := 1, uy := 1, p := 4 } =
        RightPrimitiveEigenVectorsX.get true Rat.sqrt (7 / 5 : ℚ)
            { rho := 7 / 5, ux := 1, uy := 1, p := 4 } *
          EigenValuesMatrixX.get Rat.sqrt (7 / 5 : ℚ) { rho := 7 / 5, ux := 1, uy := 1, p := 4 } ∧
      (∀ (b : Bool) (j : Fin 4), ∃ i,
        RightPrimitiveEigenVectorsX.get b Rat.sqrt (7 / 5 : ℚ)
          { rho := 7 / 5, ux := 1, uy := 1, p := 4 } i j ≠ 0) ∧
      ∀ lam : ℚ,
        ((PrimitiveJacobianMatrixX.get Rat.sqrt (7 / 5 : ℚ)
              { rho := 7 / 5, ux := 1, uy := 1, p := 4 } -
            lam • (1 : Matrix (Fin 4) (Fin 4) ℚ)).det = 0 ↔
          lam = (EigenValuesX.get Rat.sqrt (7 / 5 : ℚ)
              { rho := 7 / 5, ux := 1, uy := 1, p := 4 }).x ∨
            lam = (EigenValuesX.get Rat.sqrt (7 / 5 : ℚ)
              { rho := 7 / 5, ux := 1, uy := 1, p := 4 }).y ∨
            lam = (EigenValuesX.get Rat.sqrt (7 / 5 : ℚ)
              { rho := 7 / 5, ux := 1, uy := 1, p := 4 }).z ∨
            lam = (EigenValuesX.get Rat.sqrt (7 / 5 : ℚ)
              { rho := 7 / 5, ux := 1, uy := 1, p := 4 }).w) :=
  have h := eigenValuesX_jacobian exampleIsfinite Rat.sqrt (7 / 5 : ℚ)
    { rho := 7 / 5, ux := 1, uy := 1, p := 4 }
    (by norm_num [IsValid.get, exampleIsfinite, abs_le])
  ⟨by norm_num [IsValid.get, exampleIsfinite, abs_le],
    by norm_num [EigenValuesX.get, SonicSpeed.get, SonicSpeedSquared.get, Rat.sqrt],
    h.2.2.1 (by norm_num), h.2.2.2.1, h.2.2.2.2.1, h.2.2.2.2.2⟩

/-- Claim C10: for every valid state, with `kappa > 0`, an exact square root at the
squared sonic speed and a non-negative machine epsilon, the dispatched left
eigenvector matrix times the dispatched right eigenvector matrix is the
identity: in the general form when `|uy| > eps`, and in the uy-zero form otherwise
provided `rho * uy ≠ 1`. -/
theorem dispatchedLeft_mul_dispatchedRight (isfinite : K → Bool) (eps : K) (sqrt : K → K)
    (kappa : K) (s : GasState K) (hvalid : IsValid.get isfinite s = true) (hkappa : 0 < kappa)
    (heps : 0 ≤ eps)
    (hsqrt : SonicSpeed.get sqrt kappa s * SonicSpeed.get sqrt kappa s =
      SonicSpeedSquared.get kappa s)
    (hmult : ¬ |s.uy| > eps → s.rho * s.uy ≠ 1) :
    DispatchedLeftPrimitiveEigenVectorsX.get eps sqrt kappa s *
      DispatchedRightPrimitiveEigenVectorsX.get eps sqrt kappa s = 1 := by
  have hrho : s.rho ≠ 0 := ne_of_gt (isValid_pos isfinite s hvalid).1
  have hc := sonicSpeed_ne_zero isfinite sqrt kappa s hvalid hkappa hsqrt
  unfold DispatchedLeftPrimitiveEigenVectorsX.get DispatchedRightPrimitiveEigenVectorsX.get
  by_cases h : |s.uy| > eps
  · have huy : s.uy ≠ 0 := by
      intro h0
      rw [h0, abs_zero] at h
      exact absurd h (not_lt.mpr heps)
    rw [if_pos h, if_pos h]
    exact left_mul_right_false sqrt kappa s hrho huy hc
  · rw [if_neg h, if_neg h]
    exact left_mul_right_true sqrt kappa s hrho (hmult h) hc

/-- Witness of C10 at `(rho, ux, uy, p) = (7/5, 1, 1, 4)`, `kappa = 7/5`,
`eps = 2 ^ (-52)`, with the rational square root (the sonic speed is 2). -/
theorem dispatchedLeft_mul_dispatchedRight_witness :
    IsValid.get exampleIsfinite ({ rho := 7 / 5, ux := 1, uy := 1, p := 4 } : GasState ℚ) = true ∧
      SonicSpeed.get Rat.sqrt (7 / 5 : ℚ) { rho := 7 / 5, ux := 1, uy := 1, p := 4 } *
          SonicSpeed.get Rat.sqrt (7 / 5 : ℚ) { rho := 7 / 5, ux := 1, uy := 1, p := 4 } =
        SonicSpeedSquared.get (7 / 5 : ℚ) { rho := 7 / 5, ux := 1, uy := 1, p := 4 } ∧
      DispatchedLeftPrimitiveEigenVectorsX.get (1 / 2 ^ 52 : ℚ) Rat.sqrt (7 / 5 : ℚ)
          { rho := 7 / 5, ux := 1, uy := 1, p := 4 } *
        DispatchedRightPrimitiveEigenVectorsX.get (1 / 2 ^ 52 : ℚ) Rat.sqrt (7 / 5 : ℚ)
          { rho := 7 / 5, ux := 1, uy := 1, p := 4 } = (1 : Matrix (Fin 4) (Fin 4) ℚ) :=
  ⟨by norm_num [IsValid.get, exampleIsfinite, abs_le],
    by norm_num [SonicSpeed.get, SonicSpeedSquared.get, Rat.sqrt],
    dispatchedLeft_mul_dispatchedRight exampleIsfinite (1 / 2 ^ 52 : ℚ) Rat.sqrt (7 / 5 : ℚ)
      { rho := 7 / 5, ux := 1, uy := 1, p := 4 }
      (by norm_num [IsValid.get, exampleIsfinite, abs_le]) (by norm_num) (by norm_num)
      (by norm_num [SonicSpeed.get, SonicSpeedSquared.get, Rat.sqrt])
      (by intro h; exact absurd (by norm_num) h)⟩

/-- Claim C11: both dispatchers select the closed form by the same comparison of `|uy|`
with the machine epsilon: the general (`uyIsZero = false`) form when `|uy| > eps`,
the uy-zero form otherwise, so the left and right matrices of one state belong
to the same form. -/
theorem dispatched_same_form (eps : K) (sqrt : K → K) (kappa : K) (s : GasState K) :
    (|s.uy| > eps →
        DispatchedLeftPrimitiveEigenVectorsX.get eps sqrt kappa s =
            LeftPrimitiveEigenVectorsX.get false sqrt kappa s ∧
          DispatchedRightPrimitiveEigenVectorsX.get eps sqrt kappa s =
            RightPrimitiveEigenVectorsX.get false sqrt kappa s) ∧
      (¬ |s.uy| > eps →
        DispatchedLeftPrimitiveEigenVectorsX.get eps sqrt kappa s =
            LeftPrimitiveEigenVectorsX.get true sqrt kappa s ∧
          DispatchedRightPrimitiveEigenVectorsX.get eps sqrt kappa s =
            RightPrimitiveEigenVectorsX.get true sqrt kappa s) ∧
      ∃ uyIsZero : Bool,
        (uyIsZero = false ↔ |s.uy| > eps) ∧
          DispatchedLeftPrimitiveEigenVectorsX.get eps sqrt kappa s =
            LeftPrimitiveEigenVectorsX.get uyIsZero sqrt kappa s ∧
          DispatchedRightPrimitiveEigenVectorsX.get eps sqrt kappa s =
            RightPrimitiveEigenVectorsX.get uyIsZero sqrt kappa s := by
  unfold DispatchedLeftPrimitiveEigenVectorsX.get DispatchedRightPrimitiveEigenVectorsX.get
  by_cases h : |s.uy| > eps
  · refine ⟨fun _ => ?_, fun hn => absurd h hn, false, ?_, ?_, ?_⟩
    · rw [if_pos h, if_pos h]; exact ⟨rfl, rfl⟩
    · exact ⟨fun _ => h, fun _ => rfl⟩
    · rw [if_pos h]
    · rw [if_pos h]
  · refine ⟨fun hp => absurd hp h, fun _ => ?_, true, ?_, ?_, ?_⟩
    · rw [if_neg h, if_neg h]; exact ⟨rfl, rfl⟩
    · exact ⟨fun hf => Bool.noConfusion hf, fun hp => absurd hp h⟩
    · rw [if_neg h]
    · rw [if_neg h]

/-- Claim C12: `IsValid::get` is true exactly when the four fields pass the finiteness
test and density and pressure are positive, whatever the finiteness test is; a state
with non-positive density or non-positive pressure is rejected, and so is a state with a
field that fails the finiteness test. -/
theorem isValid_iff (isfinite : K → Bool) (s : GasState K) :
    (IsValid.get isfinite s = true ↔
        (isfinite s.rho = true ∧ isfinite s.ux = true ∧ isfinite s.uy = true ∧
          isfinite s.p = true) ∧ s.rho > 0 ∧ s.p > 0) ∧
      (s.rho ≤ 0 ∨ s.p ≤ 0 → IsValid.get isfinite s = false) ∧
      (isfinite s.rho = false ∨ isfinite s.ux = false ∨ isfinite s.uy = false ∨
        isfinite s.p = false → IsValid.get isfinite s = false) := by
  have hiff : IsValid.get isfinite s = true ↔
      (isfinite s.rho = true ∧ isfinite s.ux = true ∧ isfinite s.uy = true ∧
        isfinite s.p = true) ∧ s.rho > 0 ∧ s.p > 0 := by
    unfold IsValid.get
    simp only [Bool.and_eq_true, decide_eq_true_eq, and_assoc]
  refine ⟨hiff, fun h => ?_, fun h => ?_⟩
  · rw [← Bool.not_eq_true]
    intro hv
    obtain ⟨_, hrho, hp⟩ := hiff.mp hv
    rcases h with h | h
    · exact absurd hrho (not_lt.mpr h)
    · exact absurd hp (not_lt.mpr h)
  · rw [← Bool.not_eq_true]
    intro hv
    obtain ⟨⟨h1, h2, h3, h4⟩, _⟩ := hiff.mp hv
    rcases h with h | h | h | h
    · rw [h1] at h; exact Bool.noConfusion h
    · rw [h2] at h; exact Bool.noConfusion h
    · rw [h3] at h; exact Bool.noConfusion h
    · rw [h4] at h; exact Bool.noConfusion h

/-- The validity test with the finiteness test of `float`: the state `(1, 2, 3, 4)` is
valid, a state with a density beyond the finite range is rejected although density and
pressure are positive, and so is a state with zero pressure. -/
theorem isValid_concrete :
    IsValid.get exampleIsfinite exampleState = true ∧
      IsValid.get exampleIsfinite { rho := 2 ^ 128, ux := 2, uy := 3, p := 4 } = false ∧
      IsValid.get exampleIsfinite { rho := 1, ux := 2, uy := 3, p := 0 } = false := by
  refine ⟨?_, ?_, ?_⟩ <;> norm_num [IsValid.get, exampleIsfinite, exampleState, abs_le]

/-- Claim C13: `ConservativeVariables::get` returns `(rho, rho * ux, rho * uy, rhoE)` with
`rhoE = p / (kappa - 1) + (1/2) * rho * (ux ^ 2 + uy ^ 2)`. -/
theorem conservativeVariables_eq (kappa : K) (s : GasState K) :
    ConservativeVariables.get kappa s =
      { x := s.rho, y := s.rho * s.ux, z := s.rho * s.uy,
        w := s.p / (kappa - 1) + (1 / 2) * s.rho * (s.ux ^ 2 + s.uy ^ 2) } := by
  simp only [ConservativeVariables.get, Rho.get, MassFluxX.get, MassFluxY.get, RhoEnergy.get,
    VelocitySquared.get, CudaFloat4T.mk.injEq, true_and]
  ring

/-- Claim C14: for every state and unit normal, the x-flux of the rotated state, rotated
back, is `nx * XFluxes + ny * YFluxes` of the state; for the normal `(0, 1)` it is
`YFluxes` of the state. -/
theorem xFluxes_rotate (kappa : K) (s : GasState K) (nx ny : K) (hn : nx ^ 2 + ny ^ 2 = 1) :
    ({ x := (XFluxes.get kappa (Rotate.get s nx ny)).x
       y := (XFluxes.get kappa (Rotate.get s nx ny)).y * nx -
         (XFluxes.get kappa (Rotate.get s nx ny)).z * ny
       z := (XFluxes.get kappa (Rotate.get s nx ny)).y * ny +
         (XFluxes.get kappa (Rotate.get s nx ny)).z * nx
       w := (XFluxes.get kappa (Rotate.get s nx ny)).w } : CudaFloat4T K) =
        nx * XFluxes.get kappa s + ny * YFluxes.get kappa s ∧
      (nx = 0 → ny = 1 →
        ({ x := (XFluxes.get kappa (Rotate.get s nx ny)).x
           y := (XFluxes.get kappa (Rotate.get s nx ny)).y * nx -
             (XFluxes.get kappa (Rotate.get s nx ny)).z * ny
           z := (XFluxes.get kappa (Rotate.get s nx ny)).y * ny +
             (XFluxes.get kappa (Rotate.get s nx ny)).z * nx
           w := (XFluxes.get kappa (Rotate.get s nx ny)).w } : CudaFloat4T K) =
          YFluxes.get kappa s) := by
  refine ⟨?_, fun hx hy => ?_⟩
  · obtain ⟨rho, ux, uy, p⟩ := s
    simp only [CudaFloat4T.add_def, CudaFloat4T.smul_def, XFluxes.get, YFluxes.get, Rotate.get,
      MassFluxX.get, MassFluxY.get, MomentumFluxXx.get, MomentumFluxXy.get, MomentumFluxYy.get,
      EnthalpyFluxX.get, EnthalpyFluxY.get, RhoEnergy.get, VelocitySquared.get,
      CudaFloat4T.mk.injEq]
    refine ⟨by ring, ?_, ?_, ?_⟩
    · linear_combination (rho * ux * (ux * nx + uy * ny)) * hn
    · linear_combination (rho * uy * (ux * nx + uy * ny)) * hn
    · linear_combination ((1 / 2) * rho * (ux ^ 2 + uy ^ 2) * (ux * nx + uy * ny)) * hn
  · obtain ⟨rho, ux, uy, p⟩ := s
    subst hx hy
    simp only [XFluxes.get, YFluxes.get, Rotate.get,
      MassFluxX.get, MassFluxY.get, MomentumFluxXx.get, MomentumFluxXy.get, MomentumFluxYy.get,
      EnthalpyFluxX.get, EnthalpyFluxY.get, RhoEnergy.get, VelocitySquared.get,
      CudaFloat4T.mk.injEq]
    refine ⟨by ring, by ring, by ring, by ring⟩

/-- Witness of C14 at the state `(1, 2, 3, 4)`, `kappa = 7/5` and the normal `(3/5, 4/5)`. -/
theorem xFluxes_rotate_witness :
    (3 / 5 : ℚ) ^ 2 + (4 / 5) ^ 2 = 1 ∧
      ({ x := (XFluxes.get (7 / 5 : ℚ) (Rotate.get exampleState (3 / 5) (4 / 5))).x
         y := (XFluxes.get (7 / 5 : ℚ) (Rotate.get exampleState (3 / 5) (4 / 5))).y * (3 / 5) -
           (XFluxes.get (7 / 5 : ℚ) (Rotate.get exampleState (3 / 5) (4 / 5))).z * (4 / 5)
         z := (XFluxes.get (7 / 5 : ℚ) (Rotate.get exampleState (3 / 5) (4 / 5))).y * (4 / 5) +
           (XFluxes.get (7 / 5 : ℚ) (Rotate.get exampleState (3 / 5) (4 / 5))).z * (3 / 5)
         w := (XFluxes.get (7 / 5 : ℚ) (Rotate.get exampleState (3 / 5) (4 / 5))).w } :
          CudaFloat4T ℚ) =
        (3 / 5 : ℚ) * XFluxes.get (7 / 5 : ℚ) exampleState +
          (4 / 5 : ℚ) * YFluxes.get (7 / 5 : ℚ) exampleState :=
  ⟨by norm_num, (xFluxes_rotate (7 / 5 : ℚ) exampleState (3 / 5) (4 / 5) (by norm_num)).1⟩

/-- Claim C15: for every state and unit normal `n`, the state
`ReverseRotate(MirrorState(Rotate(s, n)), n)` has the density and pressure of `s` and the
velocity `u - 2 * (u . n) * n`; its normal velocity is the negation of that of `s`, its
tangential velocity is that of `s`, and the average of `s` and its mirror has zero
normal velocity. -/
theorem mirrorState_reflects (s : GasState K) (nx ny : K) (hn : nx ^ 2 + ny ^ 2 = 1) :
    (ReverseRotate.get (MirrorState.get (Rotate.get s nx ny)) nx ny).rho = s.rho ∧
      (ReverseRotate.get (MirrorState.get (Rotate.get s nx ny)) nx ny).p = s.p ∧
      (ReverseRotate.get (MirrorState.get (Rotate.get s nx ny)) nx ny).ux =
        s.ux - 2 * (s.ux * nx + s.uy * ny) * nx ∧
      (ReverseRotate.get (MirrorState.get (Rotate.get s nx ny)) nx ny).uy =
        s.uy - 2 * (s.ux * nx + s.uy * ny) * ny ∧
      (ReverseRotate.get (MirrorState.get (Rotate.get s nx ny)) nx ny).ux * nx +
          (ReverseRotate.get (MirrorState.get (Rotate.get s nx ny)) nx ny).uy * ny =
        -(s.ux * nx + s.uy * ny) ∧
      (ReverseRotate.get (MirrorState.get (Rotate.get s nx ny)) nx ny).ux * (-ny) +
          (ReverseRotate.get (MirrorState.get (Rotate.get s nx ny)) nx ny).uy * nx =
        s.ux * (-ny) + s.uy * nx ∧
      (s.ux + (ReverseRotate.get (MirrorState.get (Rotate.get s nx ny)) nx ny).ux) / 2 * nx +
          (s.uy + (ReverseRotate.get (MirrorState.get (Rotate.get s nx ny)) nx ny).uy) / 2 * ny =
        0 := by
  obtain ⟨rho, ux, uy, p⟩ := s
  simp only [ReverseRotate.get, MirrorState.get, Rotate.get]
  refine ⟨trivial, trivial, ?_, ?_, ?_, ?_, ?_⟩
  · linear_combination ux * hn
  · linear_combination uy * hn
  · linear_combination (-(ux * nx + uy * ny)) * hn
  · linear_combination (-ux * ny + uy * nx) * hn
  · linear_combination (-(1 / 2) * (ux * nx + uy * ny)) * hn

/-- Witness of C15 at the state `(1, 2, 3, 4)` and the normal `(3/5, 4/5)`: the mirrored
velocity is `(-46/25, -53/25)`. -/
theorem mirrorState_reflects_witness :
    (3 / 5 : ℚ) ^ 2 + (4 / 5) ^ 2 = 1 ∧
      (ReverseRotate.get (MirrorState.get (Rotate.get exampleState (3 / 5) (4 / 5)))
          (3 / 5) (4 / 5)).ux =
        exampleState.ux - 2 * (exampleState.ux * (3 / 5) + exampleState.uy * (4 / 5)) * (3 / 5) :=
  ⟨by norm_num,
    (mirrorState_reflects exampleState (3 / 5) (4 / 5) (by norm_num)).2.2.1⟩

end GasStateTheorems

/-! ## Theorems: the gas-dynamics kernel -/

section KernelIndexTheorems

variable {K : Type}

/-- A fold of array stores leaves an index alone that no step touches. -/
theorem foldl_frame {α β : Type} (f : α → (Nat → β) → (Nat → β)) (k : Nat) (l : List α)
    (h : ∀ a ∈ l, ∀ m, f a m k = m k) (m0 : Nat → β) :
    (l.foldl (fun m a => f a m) m0) k = m0 k := by
  induction l generalizing m0 with
  | nil => rfl
  | cons a l ih =>
    rw [List.foldl_cons, ih (fun b hb => h b (List.mem_cons_of_mem a hb))]
    exact h a (List.mem_cons_self a l) m0

/-- A fold of array stores in which exactly one step writes index `k` leaves that
step's value at `k`. -/
theorem foldl_single_write {α β : Type} (f : α → (Nat → β) → (Nat → β)) (k : Nat) (v : β)
    (l : List α) (t0 : α) (ht0 : t0 ∈ l) (h0 : ∀ m, f t0 m k = v)
    (hothers : ∀ a ∈ l, a ≠ t0 → ∀ m, f a m k = m k) (m0 : Nat → β) :
    (l.foldl (fun m a => f a m) m0) k = v := by
  induction l generalizing m0 with
  | nil => cases ht0
  | cons a l ih =>
    rw [List.foldl_cons]
    by_cases hmem : t0 ∈ l
    · exact ih hmem (fun b hb => hothers b (List.mem_cons_of_mem a hb)) _
    · have hat : a = t0 := by
        rcases List.mem_cons.mp ht0 with h | h
        · exact h.symm
        · exact absurd h hmem
      rw [foldl_frame f k l _ (f a m0)]
      · rw [hat]; exact h0 m0
      · intro b hb m
        have hbt : b ≠ t0 := fun e => hmem (e ▸ hb)
        exact hothers b (List.mem_cons_of_mem a hb) hbt m

/-- The threads of a tile are those with its block index and a thread index
inside the block. -/
theorem mem_blockWorkers (g : GpuGrid K) (blockIdxX blockIdxY : Nat) (t : Worker) :
    t ∈ blockWorkers g blockIdxX blockIdxY ↔
      t.blockIdxX = blockIdxX ∧ t.blockIdxY = blockIdxY ∧
        t.ti < g.blockSizeX ∧ t.tj < g.blockSizeY := by
  unfold blockWorkers
  simp only [List.mem_flatMap, List.mem_map, List.mem_range]
  constructor
  · rintro ⟨tj, htj, ti, hti, rfl⟩
    exact ⟨rfl, rfl, hti, htj⟩
  · rintro ⟨rfl, rfl, hti, htj⟩
    exact ⟨t.tj, htj, t.ti, hti, rfl⟩

/-- The threads of the launch are those with block index inside the grid and
thread index inside the block. -/
theorem mem_launchWorkers (g : GpuGrid K) (t : Worker) :
    t ∈ launchWorkers g ↔
      t.blockIdxX < g.gridSizeX ∧ t.blockIdxY < g.gridSizeY ∧
        t.ti < g.blockSizeX ∧ t.tj < g.blockSizeY := by
  unfold launchWorkers
  simp only [List.mem_flatMap, List.mem_range, mem_blockWorkers]
  constructor
  · rintro ⟨by0, hby, bx0, hbx, rfl, rfl, hti, htj⟩
    exact ⟨hbx, hby, hti, htj⟩
  · rintro ⟨hbx, hby, hti, htj⟩
    exact ⟨t.blockIdxY, hby, t.blockIdxX, hbx, rfl, rfl, hti, htj⟩

/-- Row-major decomposition is unique: equal indices with columns below the
row length have equal rows and equal columns. -/
theorem rowMajor_inj {n r c r' c' : Nat} (hc : c < n) (hc' : c' < n)
    (h : r * n + c = r' * n + c') : r = r' ∧ c = c' := by
  have hn : 0 < n := Nat.lt_of_le_of_lt (Nat.zero_le c) hc
  have h1 : (r * n + c) / n = r := by
    rw [Nat.add_comm, Nat.add_mul_div_right _ _ hn, Nat.div_eq_of_lt hc, Nat.zero_add]
  have h2 : (r' * n + c') / n = r' := by
    rw [Nat.add_comm, Nat.add_mul_div_right _ _ hn, Nat.div_eq_of_lt hc', Nat.zero_add]
  have hr : r = r' := by rw [← h1, ← h2, h]
  subst hr
  exact ⟨rfl, Nat.add_left_cancel h⟩

/-- Two threads of the launch that pass the bounds test and address the same
cell are the same thread. -/
theorem globalIdx_inj (g : GpuGrid K) (t t' : Worker)
    (hti : t.ti < g.blockSizeX) (htj : t.tj < g.blockSizeY)
    (hti' : t'.ti < g.blockSizeX) (htj' : t'.tj < g.blockSizeY)
    (hi : t.i g < g.nx) (hi' : t'.i g < g.nx)
    (h : t.globalIdx g = t'.globalIdx g) : t = t' := by
  unfold Worker.globalIdx at h
  obtain ⟨hj, hii⟩ := rowMajor_inj hi hi' h
  unfold Worker.i at hii
  unfold Worker.j at hj
  have hx : t.blockIdxX = t'.blockIdxX ∧ t.ti = t'.ti :=
    rowMajor_inj hti hti' (by
      rw [Nat.mul_comm t.blockIdxX, Nat.mul_comm t'.blockIdxX]
      omega)
  have hy : t.blockIdxY = t'.blockIdxY ∧ t.tj = t'.tj :=
    rowMajor_inj htj htj' (by
      rw [Nat.mul_comm t.blockIdxY, Nat.mul_comm t'.blockIdxY]
      omega)
  cases t; cases t'
  simp only [Worker.mk.injEq]
  exact ⟨hx.1, hy.1, hx.2, hy.2⟩

/-- A thread passes the early `return` exactly when its cell is inside the grid
and its tile is marked for calculation. -/
theorem returnsEarly_eq_false (g : GpuGrid K) (dev : Device K) (t : Worker) :
    t.returnsEarly g dev = false ↔
      t.i g < g.nx ∧ t.j g < g.ny ∧
        dev.calculateBlockMatrix (t.blockIdxY * maxSizeX + t.blockIdxX) ≠ 0 := by
  unfold Worker.returnsEarly
  simp only [Bool.or_eq_false_iff, decide_eq_false_iff_not, not_le, ge_iff_le, and_assoc]

end KernelIndexTheorems

section KernelTheorems

variable {K : Type} [LinearOrderedField K]

/-- The store of a thread into `pCurrValue` does not touch the cells of other threads. -/
theorem storeCurrValue_other (g : GpuGrid K) (dev : Device K) (a : KernelArgs K)
    (b : Worker) (pm : Nat → GasState K) (f : FluxArrays K) (cur : Nat → GasState K) (k : Nat)
    (hk : b.returnsEarly g dev = false → a.pCurrPhi (b.globalIdx g) < 0 → b.globalIdx g ≠ k) :
    storeCurrValue g dev a b pm f cur k = cur k := by
  unfold storeCurrValue
  by_cases he : b.returnsEarly g dev = true
  · rw [if_pos he]
  · rw [if_neg he]
    have he' : b.returnsEarly g dev = false := by simpa using he
    by_cases hphi : a.pCurrPhi (b.globalIdx g) < 0
    · simp only [hphi, decide_True, if_true]
      exact Function.update_noteq (Ne.symm (hk he' hphi)) _ _
    · simp only [hphi, decide_False, Bool.false_eq_true, if_false]

/-- The store of a thread that passes the early return and has a negative
level-set value. -/
theorem storeCurrValue_own (g : GpuGrid K) (dev : Device K) (a : KernelArgs K)
    (t : Worker) (pm : Nat → GasState K) (f : FluxArrays K) (cur : Nat → GasState K)
    (he : t.returnsEarly g dev = false) (hphi : a.pCurrPhi (t.globalIdx g) < 0) :
    storeCurrValue g dev a t pm f cur (t.globalIdx g) =
      ConservativeToGasState.get dev.kappa (blendedConservativeVariables g dev a t pm f) := by
  unfold storeCurrValue
  simp only [he, Bool.false_eq_true, if_false, hphi, decide_True, if_true, Function.update_same]

/-- An entry of `pCurrValue` that no updating thread addresses is unchanged by the kernel. -/
theorem gasDynamicIntegrateTVDSubStep_unchanged (g : GpuGrid K) (dev : Device K)
    (a : KernelArgs K) (u : Uninitialised K) (pCurrValue : Nat → GasState K) (k : Nat)
    (h : ∀ t ∈ launchWorkers g, t.returnsEarly g dev = false →
      a.pCurrPhi (t.globalIdx g) < 0 → t.globalIdx g ≠ k) :
    gasDynamicIntegrateTVDSubStep g dev a u pCurrValue k = pCurrValue k := by
  unfold gasDynamicIntegrateTVDSubStep
  exact foldl_frame
    (fun t cur => storeCurrValue g dev a t (tilePrevMatrix g dev a u t.blockIdxX t.blockIdxY)
      (tileFluxes g dev a u t.blockIdxX t.blockIdxY) cur) k (launchWorkers g)
    (fun b hb m => storeCurrValue_other g dev a b _ _ m k (h b hb)) pCurrValue

/-- The entry of `pCurrValue` of an updating thread after the kernel is the state
that this thread stores. -/
theorem gasDynamicIntegrateTVDSubStep_updated (g : GpuGrid K) (dev : Device K)
    (a : KernelArgs K) (u : Uninitialised K) (pCurrValue : Nat → GasState K) (t : Worker)
    (ht : t ∈ launchWorkers g) (he : t.returnsEarly g dev = false)
    (hphi : a.pCurrPhi (t.globalIdx g) < 0) :
    gasDynamicIntegrateTVDSubStep g dev a u pCurrValue (t.globalIdx g) =
      ConservativeToGasState.get dev.kappa
        (blendedConservativeVariables g dev a t
          (tilePrevMatrix g dev a u t.blockIdxX t.blockIdxY)
          (tileFluxes g dev a u t.blockIdxX t.blockIdxY)) := by
  unfold gasDynamicIntegrateTVDSubStep
  refine foldl_single_write
    (fun t cur => storeCurrValue g dev a t (tilePrevMatrix g dev a u t.blockIdxX t.blockIdxY)
      (tileFluxes g dev a u t.blockIdxX t.blockIdxY) cur) (t.globalIdx g) _ (launchWorkers g)
    t ht (fun m => storeCurrValue_own g dev a t _ _ m he hphi) ?_ pCurrValue
  intro b hb hbt m
  refine storeCurrValue_other g dev a b _ _ m _ (fun hbe _ hidx => hbt ?_)
  obtain ⟨_, _, hbi, hbj⟩ := (mem_launchWorkers g b).mp hb
  obtain ⟨_, _, hti, htj⟩ := (mem_launchWorkers g t).mp ht
  exact globalIdx_inj g b t hbi hbj hti htj ((returnsEarly_eq_false g dev b).mp hbe).1
    ((returnsEarly_eq_false g dev t).mp he).1 hidx

end KernelTheorems

section TileTheorems

variable {K : Type} [LinearOrderedField K]

/-- Distinct rows or columns give distinct row-major indices. -/
theorem rowMajor_ne {n r c r' c' : Nat} (hc : c < n) (hc' : c' < n) (h : r ≠ r' ∨ c ≠ c') :
    r * n + c ≠ r' * n + c' := by
  intro e
  obtain ⟨h1, h2⟩ := rowMajor_inj hc hc' e
  rcases h with h | h
  · exact h h1
  · exact h h2

/-- A guarded store at another index does not change the entry read. -/
theorem ite_update_ne {β : Type} (c : Prop) [Decidable c] (m : Nat → β) (k idx : Nat) (v : β)
    (h : c → k ≠ idx) : (if c then Function.update m idx v else m) k = m k := by
  split_ifs with hc
  · exact Function.update_noteq (h hc) _ _
  · rfl

/-- The halo load of another thread of the tile does not touch the own slot of
thread `t` in `prevMatrix`. -/
theorem loadPrevMatrix_other (g : GpuGrid K) (dev : Device K) (a : KernelArgs K)
    (b t : Worker) (m : Nat → GasState K) (hwf : g.WellFormed)
    (hbi : b.ti < g.blockSizeX) (hti : t.ti < g.blockSizeX) (htj : t.tj < g.blockSizeY)
    (hne : b.ti ≠ t.ti ∨ b.tj ≠ t.tj) :
    loadPrevMatrix g dev a b m (t.sharedIdx g) = m (t.sharedIdx g) := by
  have hsmx := hwf.sharedMemoryX_eq
  have ht : t.sharedIdx g = (t.tj + g.smExtension) * g.sharedMemoryX + (t.ti + g.smExtension) :=
    rfl
  have hb : b.sharedIdx g = (b.tj + g.smExtension) * g.sharedMemoryX + (b.ti + g.smExtension) :=
    rfl
  have h1 : b.ti < g.smExtension → t.sharedIdx g ≠ b.sharedIdx g - g.smExtension := by
    intro hlt
    have e : b.sharedIdx g - g.smExtension = (b.tj + g.smExtension) * g.sharedMemoryX + b.ti := by
      rw [hb]; omega
    rw [e, ht]
    exact rowMajor_ne (by omega) (by omega) (Or.inr (by omega))
  have h2 : b.tj < g.smExtension →
      t.sharedIdx g ≠ b.sharedIdx g - g.smExtension * g.sharedMemoryX := by
    intro hlt
    have e : b.sharedIdx g - g.smExtension * g.sharedMemoryX =
        b.tj * g.sharedMemoryX + (b.ti + g.smExtension) := by
      rw [hb, Nat.add_mul]; omega
    rw [e, ht]
    exact rowMajor_ne (by omega) (by omega) (Or.inl (by omega))
  have h3 : t.sharedIdx g ≠ b.sharedIdx g := by
    rw [hb, ht]
    exact rowMajor_ne (by omega) (by omega) (by omega)
  have h4 : b.ti ≥ g.blockSizeX - g.smExtension →
      t.sharedIdx g ≠ b.sharedIdx g + g.smExtension := by
    intro hge
    have e : b.sharedIdx g + g.smExtension =
        (b.tj + g.smExtension) * g.sharedMemoryX + (b.ti + g.smExtension + g.smExtension) := by
      rw [hb]; omega
    rw [e, ht]
    exact rowMajor_ne (by omega) (by omega) (Or.inr (by omega))
  have h5 : b.tj ≥ g.blockSizeY - g.smExtension →
      t.sharedIdx g ≠ b.sharedIdx g + g.smExtension * g.sharedMemoryX := by
    intro hge
    have e : b.sharedIdx g + g.smExtension * g.sharedMemoryX =
        (b.tj + g.smExtension + g.smExtension) * g.sharedMemoryX + (b.ti + g.smExtension) := by
      rw [hb, Nat.add_mul (b.tj + g.smExtension)]; omega
    rw [e, ht]
    exact rowMajor_ne (by omega) (by omega) (Or.inl (by omega))
  unfold loadPrevMatrix
  by_cases he : b.returnsEarly g dev = true
  · rw [if_pos he]
  · rw [if_neg he]
    rw [ite_update_ne _ _ _ _ _ (fun hc => h5 hc.1), ite_update_ne _ _ _ _ _ (fun hc => h4 hc.1),
      ite_update_ne _ _ _ _ _ (fun _ => h3), ite_update_ne _ _ _ _ _ (fun hc => h2 hc.1),
      ite_update_ne _ _ _ _ _ (fun hc => h1 hc.1)]

/-- The halo load of a thread that passes the early return and whose level-set
value is below the threshold `4 * hx` leaves the previous state of its cell in
its own slot of `prevMatrix`. -/
theorem loadPrevMatrix_own (g : GpuGrid K) (dev : Device K) (a : KernelArgs K)
    (t : Worker) (m : Nat → GasState K) (hwf : g.WellFormed)
    (hti : t.ti < g.blockSizeX) (htj : t.tj < g.blockSizeY)
    (he : t.returnsEarly g dev = false) (hphi : a.pCurrPhi (t.globalIdx g) < 4 * g.hx) :
    loadPrevMatrix g dev a t m (t.sharedIdx g) = a.pPrevValue (t.globalIdx g) := by
  have hsmx := hwf.sharedMemoryX_eq
  have h4 : t.ti ≥ g.blockSizeX - g.smExtension →
      t.sharedIdx g ≠ t.sharedIdx g + g.smExtension := by
    intro hge; omega
  have h5 : t.tj ≥ g.blockSizeY - g.smExtension →
      t.sharedIdx g ≠ t.sharedIdx g + g.smExtension * g.sharedMemoryX := by
    intro hge
    have hE : 0 < g.smExtension := by omega
    have hS : 0 < g.sharedMemoryX := by omega
    have := Nat.mul_pos hE hS
    omega
  unfold loadPrevMatrix
  rw [if_neg (by simp [he])]
  rw [ite_update_ne _ _ _ _ _ (fun hc => h5 hc.1), ite_update_ne _ _ _ _ _ (fun hc => h4 hc.1),
    if_pos hphi, Function.update_same]

/-- At the first barrier the slot of an updating thread in the shared
`prevMatrix` holds the previous-stage state of its cell. -/
theorem tilePrevMatrix_own (g : GpuGrid K) (dev : Device K) (a : KernelArgs K)
    (u : Uninitialised K) (t : Worker) (hwf : g.WellFormed)
    (hti : t.ti < g.blockSizeX) (htj : t.tj < g.blockSizeY)
    (he : t.returnsEarly g dev = false) (hphi : a.pCurrPhi (t.globalIdx g) < 4 * g.hx) :
    tilePrevMatrix g dev a u t.blockIdxX t.blockIdxY (t.sharedIdx g) =
      a.pPrevValue (t.globalIdx g) := by
  unfold tilePrevMatrix
  refine foldl_single_write (fun b m => loadPrevMatrix g dev a b m) (t.sharedIdx g) _
    (blockWorkers g t.blockIdxX t.blockIdxY) t
    ((mem_blockWorkers g _ _ t).mpr ⟨rfl, rfl, hti, htj⟩)
    (fun m => loadPrevMatrix_own g dev a t m hwf hti htj he hphi) ?_ _
  intro b hb hbt m
  obtain ⟨hbx, hby, hbi, _⟩ := (mem_blockWorkers g _ _ b).mp hb
  refine loadPrevMatrix_other g dev a b t m hwf hbi hti htj ?_
  by_contra hcon
  push_neg at hcon
  apply hbt
  cases b; cases t
  simp only [Worker.mk.injEq]
  exact ⟨hbx, hby, hcon.1, hcon.2⟩

end TileTheorems

section IntegratorTheorems

variable {K : Type} [LinearOrderedField K]

/-- The flux-difference update of a thread, written with the vector operations
of float4_arithmetics.h. -/
theorem newConservativeVariables_eq (g : GpuGrid K) (dev : Device K) (a : KernelArgs K)
    (t : Worker) (pm : Nat → GasState K) (f : FluxArrays K) (hwf : g.WellFormed) :
    newConservativeVariables g dev a t pm f =
      ConservativeVariables.get dev.kappa (pm (t.sharedIdx g)) -
        (a.dt / g.hx) * (f.xFlux (t.fluxSharedIdx g) - f.xFlux (t.fluxSharedIdx g - 1)) -
        (a.dt / g.hy) *
          (f.yFlux (t.fluxSharedIdx g) - f.yFlux (t.fluxSharedIdx g - (g.blockSizeX + 1))) -
        (a.dt / dev.getRadius (t.i g) (t.j g)) * SourceTerm.get dev.kappa (pm (t.sharedIdx g)) := by
  have hhx := hwf.hxReciprocal_eq
  have hhy := hwf.hyReciprocal_eq
  unfold newConservativeVariables
  simp only [CudaFloat4T.sub_def, CudaFloat4T.smul_def, ConservativeVariables.get,
    SourceTerm.get, FluxArrays.xFlux, FluxArrays.yFlux, hhx, hhy, CudaFloat4T.mk.injEq]
  refine ⟨?_, ?_, ?_, ?_⟩ <;> ring

/-- The vector handed to `ConservativeToGasState::get` is the convex-weight blend
of the flux-difference update with the conservative vector of the first-stage
state, for every weight. -/
theorem blendedConservativeVariables_eq (g : GpuGrid K) (dev : Device K) (a : KernelArgs K)
    (t : Worker) (pm : Nat → GasState K) (f : FluxArrays K) :
    blendedConservativeVariables g dev a t pm f =
      a.prevWeight * newConservativeVariables g dev a t pm f +
        (1 - a.prevWeight) * ConservativeVariables.get dev.kappa (a.pFirstValue (t.globalIdx g)) := by
  unfold blendedConservativeVariables
  by_cases hw : a.prevWeight = 1
  · simp only [hw, ne_eq, not_true_eq_false, if_false, CudaFloat4T.add_def, CudaFloat4T.smul_def,
      sub_self, zero_mul, one_mul, add_zero]
  · simp only [ne_eq, hw, not_false_eq_true, if_true, CudaFloat4T.add_def, CudaFloat4T.smul_def,
      ConservativeVariables.get]

/-- For the weight 1 the blended vector is the flux-difference update. -/
theorem blendedConservativeVariables_one (g : GpuGrid K) (dev : Device K) (a : KernelArgs K)
    (t : Worker) (pm : Nat → GasState K) (f : FluxArrays K) (hw : a.prevWeight = 1) :
    blendedConservativeVariables g dev a t pm f = newConservativeVariables g dev a t pm f := by
  unfold blendedConservativeVariables
  simp only [hw, ne_eq, not_true_eq_false, if_false]


/-- With weight 1 the kernel never reads `pFirstValue`: replacing that buffer
leaves the whole output unchanged. -/
theorem gasDynamicIntegrateTVDSubStep_pFirstValue_irrelevant (g : GpuGrid K) (dev : Device K)
    (a : KernelArgs K) (u : Uninitialised K) (pCurrValue : Nat → GasState K)
    (hw : a.prevWeight = 1) (pFirstValue' : Nat → GasState K) :
    gasDynamicIntegrateTVDSubStep g dev { a with pFirstValue := pFirstValue' } u pCurrValue =
      gasDynamicIntegrateTVDSubStep g dev a u pCurrValue := by
  unfold gasDynamicIntegrateTVDSubStep
  congr 1
  funext cur t
  have hpm : tilePrevMatrix g dev { a with pFirstValue := pFirstValue' } u t.blockIdxX
      t.blockIdxY = tilePrevMatrix g dev a u t.blockIdxX t.blockIdxY := rfl
  have hf : tileFluxes g dev { a with pFirstValue := pFirstValue' } u t.blockIdxX
      t.blockIdxY = tileFluxes g dev a u t.blockIdxX t.blockIdxY := rfl
  rw [hpm, hf]
  unfold storeCurrValue blendedConservativeVariables
  simp only [hw, ne_eq, not_true_eq_false, if_false]
  rfl

/-- Claim C3: for every cell of an active tile with `phi < 0` and weight 1, the state
written to `pCurrValue` is `ConservativeToGasState` of
`U_old - dt/hx * (Fx_right - Fx_left) - dt/hy * (Fy_top - Fy_bottom) - dt * S / r`,
with `U_old` the conservative vector of the previous-stage state of the cell,
the fluxes those stored in the tile's flux arrays for the four faces of the
cell, `r = ShapeT::getRadius(i, j)` and
`S = (rho * uy, rho * ux * uy, rho * uy ^ 2, (rhoE + p) * uy)`. -/
theorem gasDynamicIntegrateTVDSubStep_weight_one (g : GpuGrid K) (dev : Device K)
    (a : KernelArgs K) (u : Uninitialised K) (pCurrValue : Nat → GasState K) (t : Worker)
    (hwf : g.WellFormed) (ht : t ∈ launchWorkers g) (he : t.returnsEarly g dev = false)
    (hphi : a.pCurrPhi (t.globalIdx g) < 0) (hw : a.prevWeight = 1) :
    gasDynamicIntegrateTVDSubStep g dev a u pCurrValue (t.globalIdx g) =
        ConservativeToGasState.get dev.kappa
          (ConservativeVariables.get dev.kappa (a.pPrevValue (t.globalIdx g)) -
            (a.dt / g.hx) *
              ((tileFluxes g dev a u t.blockIdxX t.blockIdxY).xFlux (t.fluxSharedIdx g) -
                (tileFluxes g dev a u t.blockIdxX t.blockIdxY).xFlux (t.fluxSharedIdx g - 1)) -
            (a.dt / g.hy) *
              ((tileFluxes g dev a u t.blockIdxX t.blockIdxY).yFlux (t.fluxSharedIdx g) -
                (tileFluxes g dev a u t.blockIdxX t.blockIdxY).yFlux
                  (t.fluxSharedIdx g - (g.blockSizeX + 1))) -
            (a.dt / dev.getRadius (t.i g) (t.j g)) *
              SourceTerm.get dev.kappa (a.pPrevValue (t.globalIdx g))) ∧
      SourceTerm.get dev.kappa (a.pPrevValue (t.globalIdx g)) =
        { x := (a.pPrevValue (t.globalIdx g)).rho * (a.pPrevValue (t.globalIdx g)).uy
          y := (a.pPrevValue (t.globalIdx g)).rho * (a.pPrevValue (t.globalIdx g)).ux *
            (a.pPrevValue (t.globalIdx g)).uy
          z := (a.pPrevValue (t.globalIdx g)).rho * (a.pPrevValue (t.globalIdx g)).uy ^ 2
          w := (RhoEnergy.get dev.kappa (a.pPrevValue (t.globalIdx g)) +
            (a.pPrevValue (t.globalIdx g)).p) * (a.pPrevValue (t.globalIdx g)).uy } := by
  obtain ⟨_, _, hti, htj⟩ := (mem_launchWorkers g t).mp ht
  have hthr : a.pCurrPhi (t.globalIdx g) < 4 * g.hx := by
    have := hwf.hx_pos
    linarith
  constructor
  · rw [gasDynamicIntegrateTVDSubStep_updated g dev a u pCurrValue t ht he hphi,
      blendedConservativeVariables_one g dev a t _ _ hw,
      newConservativeVariables_eq g dev a t _ _ hwf,
      tilePrevMatrix_own g dev a u t hwf hti htj he hthr]
  · simp only [SourceTerm.get, MassFluxY.get, MomentumFluxXy.get, EnthalpyFluxY.get,
      CudaFloat4T.mk.injEq]
    refine ⟨trivial, trivial, ?_, ?_⟩ <;> ring

/-- Claim C4: for every weight and every updated cell, the vector converted by
`ConservativeToGasState::get` and written is `w * U_new + (1 - w) * U_first`, with
`U_new` the flux-difference update and `U_first` the conservative vector of
`pFirstValue` at the cell; for `w = 1` this is `U_new` and the output does not depend
on `pFirstValue`. -/
theorem gasDynamicIntegrateTVDSubStep_blend (g : GpuGrid K) (dev : Device K)
    (a : KernelArgs K) (u : Uninitialised K) (pCurrValue : Nat → GasState K) (t : Worker)
    (ht : t ∈ launchWorkers g) (he : t.returnsEarly g dev = false)
    (hphi : a.pCurrPhi (t.globalIdx g) < 0) :
    gasDynamicIntegrateTVDSubStep g dev a u pCurrValue (t.globalIdx g) =
        ConservativeToGasState.get dev.kappa
          (a.prevWeight *
              newConservativeVariables g dev a t
                (tilePrevMatrix g dev a u t.blockIdxX t.blockIdxY)
                (tileFluxes g dev a u t.blockIdxX t.blockIdxY) +
            (1 - a.prevWeight) *
              ConservativeVariables.get dev.kappa (a.pFirstValue (t.globalIdx g))) ∧
      (a.prevWeight = 1 →
        a.prevWeight *
              newConservativeVariables g dev a t
                (tilePrevMatrix g dev a u t.blockIdxX t.blockIdxY)
                (tileFluxes g dev a u t.blockIdxX t.blockIdxY) +
            (1 - a.prevWeight) *
              ConservativeVariables.get dev.kappa (a.pFirstValue (t.globalIdx g)) =
          newConservativeVariables g dev a t
            (tilePrevMatrix g dev a u t.blockIdxX t.blockIdxY)
            (tileFluxes g dev a u t.blockIdxX t.blockIdxY) ∧
        ∀ pFirstValue' : Nat → GasState K,
          gasDynamicIntegrateTVDSubStep g dev { a with pFirstValue := pFirstValue' } u
            pCurrValue = gasDynamicIntegrateTVDSubStep g dev a u pCurrValue) := by
  refine ⟨?_, fun hw => ⟨?_, ?_⟩⟩
  · rw [gasDynamicIntegrateTVDSubStep_updated g dev a u pCurrValue t ht he hphi,
      blendedConservativeVariables_eq]
  · rw [← blendedConservativeVariables_eq, blendedConservativeVariables_one g dev a t _ _ hw]
  · exact gasDynamicIntegrateTVDSubStep_pFirstValue_irrelevant g dev a u pCurrValue hw

/-- Claim C6: a thread that passes the early return stores into `pCurrValue` exactly
when the level-set value of its cell is negative; the entry of such a cell after
the kernel is the finite-volume update, and every entry with `phi ≥ 0` is unchanged. -/
theorem gasDynamicIntegrateTVDSubStep_applied_iff (g : GpuGrid K) (dev : Device K)
    (a : KernelArgs K) (u : Uninitialised K) (pCurrValue : Nat → GasState K) (t : Worker)
    (ht : t ∈ launchWorkers g) (he : t.returnsEarly g dev = false) :
    (∀ (pm : Nat → GasState K) (f : FluxArrays K) (cur : Nat → GasState K),
        storeCurrValue g dev a t pm f cur =
          if a.pCurrPhi (t.globalIdx g) < 0 then
            Function.update cur (t.globalIdx g)
              (ConservativeToGasState.get dev.kappa (blendedConservativeVariables g dev a t pm f))
          else cur) ∧
      (a.pCurrPhi (t.globalIdx g) < 0 →
        gasDynamicIntegrateTVDSubStep g dev a u pCurrValue (t.globalIdx g) =
          ConservativeToGasState.get dev.kappa
            (blendedConservativeVariables g dev a t
              (tilePrevMatrix g dev a u t.blockIdxX t.blockIdxY)
              (tileFluxes g dev a u t.blockIdxX t.blockIdxY))) ∧
      ∀ k, 0 ≤ a.pCurrPhi k →
        gasDynamicIntegrateTVDSubStep g dev a u pCurrValue k = pCurrValue k := by
  refine ⟨fun pm f cur => ?_,
    fun hphi => gasDynamicIntegrateTVDSubStep_updated g dev a u pCurrValue t ht he hphi,
    fun k hk => ?_⟩
  · unfold storeCurrValue
    simp only [he, Bool.false_eq_true, if_false, decide_eq_true_eq]
  · refine gasDynamicIntegrateTVDSubStep_unchanged g dev a u pCurrValue k
      (fun b _ _ hphi hidx => ?_)
    rw [hidx] at hphi
    exact absurd hphi (not_lt.mpr hk)

/-- Claim C7: a thread of a tile whose `calculateBlockMatrix` entry is 0 returns before
any work: it stores nothing into `prevMatrix`, the flux arrays or `pCurrValue`, and the
entry of its cell in `pCurrValue` is unchanged by the kernel, whatever the gas
states and level-set values are. -/
theorem gasDynamicIntegrateTVDSubStep_inactive_tile (g : GpuGrid K) (dev : Device K)
    (a : KernelArgs K) (u : Uninitialised K) (pCurrValue : Nat → GasState K) (t : Worker)
    (ht : t ∈ launchWorkers g)
    (hzero : dev.calculateBlockMatrix (t.blockIdxY * maxSizeX + t.blockIdxX) = 0) :
    t.returnsEarly g dev = true ∧
      (∀ m : Nat → GasState K, loadPrevMatrix g dev a t m = m) ∧
      (∀ (pm : Nat → GasState K) (f : FluxArrays K), storeFluxes g dev a t pm f = f) ∧
      (∀ (pm : Nat → GasState K) (f : FluxArrays K) (cur : Nat → GasState K),
        storeCurrValue g dev a t pm f cur = cur) ∧
      (t.i g < g.nx →
        gasDynamicIntegrateTVDSubStep g dev a u pCurrValue (t.globalIdx g) =
          pCurrValue (t.globalIdx g)) := by
  have hre : t.returnsEarly g dev = true := by
    unfold Worker.returnsEarly
    simp only [hzero, decide_True, Bool.or_true]
  refine ⟨hre, fun m => ?_, fun pm f => ?_, fun pm f cur => ?_, fun hi => ?_⟩
  · unfold loadPrevMatrix
    rw [if_pos hre]
  · unfold storeFluxes
    rw [if_pos hre]
  · unfold storeCurrValue
    rw [if_pos hre]
  · refine gasDynamicIntegrateTVDSubStep_unchanged g dev a u pCurrValue _
      (fun b hb hbe _ hidx => ?_)
    obtain ⟨_, _, hbi, hbj⟩ := (mem_launchWorkers g b).mp hb
    obtain ⟨_, _, hti, htj⟩ := (mem_launchWorkers g t).mp ht
    have hbt : b = t :=
      globalIdx_inj g b t hbi hbj hti htj ((returnsEarly_eq_false g dev b).mp hbe).1 hi hidx
    rw [hbt, hre] at hbe
    exact Bool.noConfusion hbe

/-- Claim C8, as the code has it: where the Shape radius is 1 the source term is not
omitted but subtracted with the factor `1 / r = 1`.  The flux-difference update
of an updated cell is `U_old - dt/hx * (Fx_right - Fx_left) - dt/hy * (Fy_top - Fy_bottom)
- dt * S`, this is the written vector when the weight is 1, and it is the
source-free expression when `S` is the zero vector. -/
theorem gasDynamicIntegrateTVDSubStep_radius_one (g : GpuGrid K) (dev : Device K)
    (a : KernelArgs K) (u : Uninitialised K) (t : Worker)
    (hwf : g.WellFormed) (ht : t ∈ launchWorkers g) (he : t.returnsEarly g dev = false)
    (hphi : a.pCurrPhi (t.globalIdx g) < 0) (hr : dev.getRadius (t.i g) (t.j g) = 1) :
    newConservativeVariables g dev a t (tilePrevMatrix g dev a u t.blockIdxX t.blockIdxY)
          (tileFluxes g dev a u t.blockIdxX t.blockIdxY) =
        ConservativeVariables.get dev.kappa (a.pPrevValue (t.globalIdx g)) -
          (a.dt / g.hx) *
            ((tileFluxes g dev a u t.blockIdxX t.blockIdxY).xFlux (t.fluxSharedIdx g) -
              (tileFluxes g dev a u t.blockIdxX t.blockIdxY).xFlux (t.fluxSharedIdx g - 1)) -
          (a.dt / g.hy) *
            ((tileFluxes g dev a u t.blockIdxX t.blockIdxY).yFlux (t.fluxSharedIdx g) -
              (tileFluxes g dev a u t.blockIdxX t.blockIdxY).yFlux
                (t.fluxSharedIdx g - (g.blockSizeX + 1))) -
          a.dt * SourceTerm.get dev.kappa (a.pPrevValue (t.globalIdx g)) ∧
      (a.prevWeight = 1 →
        blendedConservativeVariables g dev a t (tilePrevMatrix g dev a u t.blockIdxX t.blockIdxY)
            (tileFluxes g dev a u t.blockIdxX t.blockIdxY) =
          newConservativeVariables g dev a t (tilePrevMatrix g dev a u t.blockIdxX t.blockIdxY)
            (tileFluxes g dev a u t.blockIdxX t.blockIdxY)) ∧
      (SourceTerm.get dev.kappa (a.pPrevValue (t.globalIdx g)) =
          { x := 0, y := 0, z := 0, w := 0 } →
        newConservativeVariables g dev a t (tilePrevMatrix g dev a u t.blockIdxX t.blockIdxY)
            (tileFluxes g dev a u t.blockIdxX t.blockIdxY) =
          ConservativeVariables.get dev.kappa (a.pPrevValue (t.globalIdx g)) -
            (a.dt / g.hx) *
              ((tileFluxes g dev a u t.blockIdxX t.blockIdxY).xFlux (t.fluxSharedIdx g) -
                (tileFluxes g dev a u t.blockIdxX t.blockIdxY).xFlux (t.fluxSharedIdx g - 1)) -
            (a.dt / g.hy) *
              ((tileFluxes g dev a u t.blockIdxX t.blockIdxY).yFlux (t.fluxSharedIdx g) -
                (tileFluxes g dev a u t.blockIdxX t.blockIdxY).yFlux
                  (t.fluxSharedIdx g - (g.blockSizeX + 1)))) := by
  obtain ⟨_, _, hti, htj⟩ := (mem_launchWorkers g t).mp ht
  have hthr : a.pCurrPhi (t.globalIdx g) < 4 * g.hx := by
    have := hwf.hx_pos
    linarith
  have hnew := newConservativeVariables_eq g dev a t
    (tilePrevMatrix g dev a u t.blockIdxX t.blockIdxY)
    (tileFluxes g dev a u t.blockIdxX t.blockIdxY) hwf
  rw [tilePrevMatrix_own g dev a u t hwf hti htj he hthr, hr, div_one] at hnew
  refine ⟨hnew, fun hw => blendedConservativeVariables_one g dev a t _ _ hw, fun hS => ?_⟩
  rw [hnew, hS]
  simp only [CudaFloat4T.sub_def, CudaFloat4T.smul_def, mul_zero, sub_zero]

end IntegratorTheorems

section ConcreteLaunch

/-- The concrete grid satisfies the relations of `GpuGridT`. -/
theorem exampleGrid_wellFormed : exampleGrid.WellFormed := by
  constructor <;> norm_num [exampleGrid]

/-- The threads of the single tile of the concrete launch. -/
theorem exampleGrid_blockWorkers :
    blockWorkers exampleGrid 0 0 =
      [{ blockIdxX := 0, blockIdxY := 0, ti := 0, tj := 0 },
        { blockIdxX := 0, blockIdxY := 0, ti := 1, tj := 0 },
        { blockIdxX := 0, blockIdxY := 0, ti := 0, tj := 1 },
        { blockIdxX := 0, blockIdxY := 0, ti := 1, tj := 1 }] := by
  decide

/-- In the concrete launch with `phi = -1` the x-fluxes on the two x-faces of the
cell of thread `(1, 1)` coincide. -/
theorem exampleFluxes_xFlux (s : GasState ℚ) (w : ℚ) :
    (exampleFluxes s w fun _ => -1).xFlux 8 = (exampleFluxes s w fun _ => -1).xFlux 7 := by
  simp only [exampleFluxes, tileFluxes, tilePrevMatrix, exampleGrid_blockWorkers,
    List.foldl_cons, List.foldl_nil]
  norm_num [storeFluxes, loadPrevMatrix, Worker.returnsEarly, Worker.i, Worker.j, exampleGrid,
    exampleDevice, exampleArgs, exampleUninitialised, Worker.fluxSharedIdx,
    Worker.sharedIdx, Worker.globalIdx, Worker.ai, Worker.aj, FluxArrays.xFlux, maxSizeX,
    Function.update_apply]

/-- In the concrete launch with `phi = -1` the y-fluxes on the two y-faces of the
cell of thread `(1, 1)` coincide. -/
theorem exampleFluxes_yFlux (s : GasState ℚ) (w : ℚ) :
    (exampleFluxes s w fun _ => -1).yFlux 8 = (exampleFluxes s w fun _ => -1).yFlux 5 := by
  simp only [exampleFluxes, tileFluxes, tilePrevMatrix, exampleGrid_blockWorkers,
    List.foldl_cons, List.foldl_nil]
  norm_num [storeFluxes, loadPrevMatrix, Worker.returnsEarly, Worker.i, Worker.j, exampleGrid,
    exampleDevice, exampleArgs, exampleUninitialised, Worker.fluxSharedIdx,
    Worker.sharedIdx, Worker.globalIdx, Worker.ai, Worker.aj, FluxArrays.yFlux, maxSizeX,
    Function.update_apply]

/-- Witness of C3: the concrete launch with state `(1, 2, 3, 4)` and weight 1. -/
theorem gasDynamicIntegrateTVDSubStep_weight_one_witness :
    exampleGrid.WellFormed ∧ exampleWorker ∈ launchWorkers exampleGrid ∧
      exampleWorker.returnsEarly exampleGrid exampleDevice = false ∧
      (exampleArgs exampleState 1 fun _ => -1).pCurrPhi 3 < 0 ∧
      gasDynamicIntegrateTVDSubStep exampleGrid exampleDevice
          (exampleArgs exampleState 1 fun _ => -1) exampleUninitialised exampleCurrValue 3 =
        ConservativeToGasState.get (7 / 5 : ℚ)
          (ConservativeVariables.get (7 / 5 : ℚ) exampleState -
            ((1 / 10 : ℚ) / (1 : ℚ)) *
              ((exampleFluxes exampleState 1 fun _ => -1).xFlux 8 -
                (exampleFluxes exampleState 1 fun _ => -1).xFlux 7) -
            ((1 / 10 : ℚ) / (1 : ℚ)) *
              ((exampleFluxes exampleState 1 fun _ => -1).yFlux 8 -
                (exampleFluxes exampleState 1 fun _ => -1).yFlux 5) -
            ((1 / 10 : ℚ) / (1 : ℚ)) * SourceTerm.get (7 / 5 : ℚ) exampleState) :=
  ⟨exampleGrid_wellFormed, by decide, by decide, by norm_num [exampleArgs],
    (gasDynamicIntegrateTVDSubStep_weight_one exampleGrid exampleDevice
      (exampleArgs exampleState 1 fun _ => -1)
      exampleUninitialised exampleCurrValue exampleWorker exampleGrid_wellFormed
      (by decide) (by decide) (by norm_num [exampleArgs]) rfl).1⟩

/-- Witness of C4: the concrete launch with state `(1, 2, 3, 4)` and weight 1/2. -/
theorem gasDynamicIntegrateTVDSubStep_blend_witness :
    exampleWorker ∈ launchWorkers exampleGrid ∧
      exampleWorker.returnsEarly exampleGrid exampleDevice = false ∧
      (exampleArgs exampleState (1 / 2) fun _ => -1).pCurrPhi 3 < 0 ∧
      gasDynamicIntegrateTVDSubStep exampleGrid exampleDevice
          (exampleArgs exampleState (1 / 2) fun _ => -1) exampleUninitialised exampleCurrValue 3 =
        ConservativeToGasState.get (7 / 5 : ℚ)
          ((1 / 2 : ℚ) *
              newConservativeVariables exampleGrid exampleDevice
                (exampleArgs exampleState (1 / 2) fun _ => -1) exampleWorker
                (tilePrevMatrix exampleGrid exampleDevice
                  (exampleArgs exampleState (1 / 2) fun _ => -1) exampleUninitialised 0 0)
                (exampleFluxes exampleState (1 / 2) fun _ => -1) +
            (1 - (1 / 2 : ℚ)) * ConservativeVariables.get (7 / 5 : ℚ) exampleState) :=
  ⟨by decide, by decide, by norm_num [exampleArgs],
    (gasDynamicIntegrateTVDSubStep_blend exampleGrid exampleDevice
      (exampleArgs exampleState (1 / 2) fun _ => -1)
      exampleUninitialised exampleCurrValue exampleWorker
      (by decide) (by decide) (by norm_num [exampleArgs])).1⟩

/-- Witness of C6: in the concrete launch with `phi = 1` at cell 0 and `phi = -1`
elsewhere, the entry of cell 0 is unchanged. -/
theorem gasDynamicIntegrateTVDSubStep_applied_iff_witness :
    exampleWorker ∈ launchWorkers exampleGrid ∧
      exampleWorker.returnsEarly exampleGrid exampleDevice = false ∧
      (0 : ℚ) ≤ (exampleArgs exampleState 1 fun k => if k = 0 then 1 else -1).pCurrPhi 0 ∧
      gasDynamicIntegrateTVDSubStep exampleGrid exampleDevice
          (exampleArgs exampleState 1 fun k => if k = 0 then 1 else -1) exampleUninitialised
          exampleCurrValue 0 = exampleCurrValue 0 :=
  ⟨by decide, by decide, by norm_num [exampleArgs],
    (gasDynamicIntegrateTVDSubStep_applied_iff exampleGrid exampleDevice
      (exampleArgs exampleState 1 fun k => if k = 0 then 1 else -1) exampleUninitialised
      exampleCurrValue exampleWorker (by decide) (by decide)).2.2 0
      (by norm_num [exampleArgs])⟩

/-- Witness of C7: the concrete launch with the tile marked 0 leaves the cell of
thread `(1, 1)` unchanged. -/
theorem gasDynamicIntegrateTVDSubStep_inactive_tile_witness :
    exampleWorker ∈ launchWorkers exampleGrid ∧
      ({ exampleDevice with calculateBlockMatrix := fun _ => 0 } : Device ℚ).calculateBlockMatrix
        (exampleWorker.blockIdxY * maxSizeX + exampleWorker.blockIdxX) = 0 ∧
      gasDynamicIntegrateTVDSubStep exampleGrid
          { exampleDevice with calculateBlockMatrix := fun _ => 0 }
          (exampleArgs exampleState 1 fun _ => -1) exampleUninitialised exampleCurrValue 3 =
        exampleCurrValue 3 :=
  ⟨by decide, rfl,
    (gasDynamicIntegrateTVDSubStep_inactive_tile exampleGrid
      { exampleDevice with calculateBlockMatrix := fun _ => 0 }
      (exampleArgs exampleState 1 fun _ => -1) exampleUninitialised exampleCurrValue
      exampleWorker (by decide) rfl).2.2.2.2 (by decide)⟩

/-- Counterexample to C8 as stated: in the concrete launch the radius is 1 at the
updated cell of thread `(1, 1)` and the weight is 1, yet the written conservative
vector is not the source-free expression. -/
theorem gasDynamicIntegrateTVDSubStep_planar_counterexample :
    exampleDevice.getRadius (exampleWorker.i exampleGrid) (exampleWorker.j exampleGrid) = 1 ∧
      exampleWorker ∈ launchWorkers exampleGrid ∧
      exampleWorker.returnsEarly exampleGrid exampleDevice = false ∧
      (exampleArgs exampleState 1 fun _ => -1).pCurrPhi 3 < 0 ∧
      (exampleArgs exampleState 1 fun _ => -1).prevWeight = 1 ∧
      blendedConservativeVariables exampleGrid exampleDevice
          (exampleArgs exampleState 1 fun _ => -1) exampleWorker
          (tilePrevMatrix exampleGrid exampleDevice (exampleArgs exampleState 1 fun _ => -1)
            exampleUninitialised 0 0)
          (exampleFluxes exampleState 1 fun _ => -1) ≠
        ConservativeVariables.get (7 / 5 : ℚ) exampleState -
          ((1 / 10 : ℚ) / (1 : ℚ)) *
            ((exampleFluxes exampleState 1 fun _ => -1).xFlux 8 -
              (exampleFluxes exampleState 1 fun _ => -1).xFlux 7) -
          ((1 / 10 : ℚ) / (1 : ℚ)) *
            ((exampleFluxes exampleState 1 fun _ => -1).yFlux 8 -
              (exampleFluxes exampleState 1 fun _ => -1).yFlux 5) := by
  refine ⟨rfl, by decide, by decide, by norm_num [exampleArgs], rfl, ?_⟩
  have hown := tilePrevMatrix_own exampleGrid exampleDevice
    (exampleArgs exampleState 1 fun _ => -1) exampleUninitialised exampleWorker
    exampleGrid_wellFormed (by decide) (by decide) (by decide)
    (by norm_num [exampleArgs, exampleGrid])
  have hnew := newConservativeVariables_eq exampleGrid exampleDevice
    (exampleArgs exampleState 1 fun _ => -1) exampleWorker
    (tilePrevMatrix exampleGrid exampleDevice (exampleArgs exampleState 1 fun _ => -1)
      exampleUninitialised 0 0)
    (exampleFluxes exampleState 1 fun _ => -1) exampleGrid_wellFormed
  rw [blendedConservativeVariables_one _ _ _ _ _ _ rfl, hnew]
  intro h
  have hx := congrArg CudaFloat4T.x h
  rw [show tilePrevMatrix exampleGrid exampleDevice (exampleArgs exampleState 1 fun _ => -1)
      exampleUninitialised 0 0 (exampleWorker.sharedIdx exampleGrid) = exampleState from hown]
    at hx
  have h5 : exampleWorker.fluxSharedIdx exampleGrid - (exampleGrid.blockSizeX + 1) = 5 := rfl
  have h7 : exampleWorker.fluxSharedIdx exampleGrid - 1 = 7 := rfl
  have h8 : exampleWorker.fluxSharedIdx exampleGrid = 8 := rfl
  rw [h5, h7, h8] at hx
  simp only [CudaFloat4T.sub_def, CudaFloat4T.smul_def, SourceTerm.get, MassFluxY.get,
    exampleState, exampleDevice, exampleArgs, exampleGrid] at hx
  norm_num at hx

/-- Witness of the amended C8: the concrete launch has radius 1 at the updated cell
of thread `(1, 1)`. -/
theorem gasDynamicIntegrateTVDSubStep_radius_one_witness :
    exampleGrid.WellFormed ∧ exampleWorker ∈ launchWorkers exampleGrid ∧
      exampleWorker.returnsEarly exampleGrid exampleDevice = false ∧
      exampleDevice.getRadius (exampleWorker.i exampleGrid) (exampleWorker.j exampleGrid) = 1 ∧
      newConservativeVariables exampleGrid exampleDevice
          (exampleArgs exampleState 1 fun _ => -1) exampleWorker
          (tilePrevMatrix exampleGrid exampleDevice (exampleArgs exampleState 1 fun _ => -1)
            exampleUninitialised 0 0)
          (exampleFluxes exampleState 1 fun _ => -1) =
        ConservativeVariables.get (7 / 5 : ℚ) exampleState -
          ((1 / 10 : ℚ) / (1 : ℚ)) *
            ((exampleFluxes exampleState 1 fun _ => -1).xFlux 8 -
              (exampleFluxes exampleState 1 fun _ => -1).xFlux 7) -
          ((1 / 10 : ℚ) / (1 : ℚ)) *
            ((exampleFluxes exampleState 1 fun _ => -1).yFlux 8 -
              (exampleFluxes exampleState 1 fun _ => -1).yFlux 5) -
          (1 / 10 : ℚ) * SourceTerm.get (7 / 5 : ℚ) exampleState :=
  ⟨exampleGrid_wellFormed, by decide, by decide, rfl,
    (gasDynamicIntegrateTVDSubStep_radius_one exampleGrid exampleDevice
      (exampleArgs exampleState 1 fun _ => -1) exampleUninitialised exampleWorker
      exampleGrid_wellFormed (by decide) (by decide) (by norm_num [exampleArgs]) rfl).1⟩

end ConcreteLaunch

/-! ## Theorems: the level-set kernels -/

section LevelSetIndexTheorems

variable {K : Type}

/-- Unsigned subtraction that does not wrap is the subtraction of naturals. -/
theorem subU32_eq {a b : Nat} (hb : b ≤ a) (ha : a < 2 ^ 32) : subU32 a b = a - b := by
  unfold subU32
  omega

/-- A thread passes the early `return` of the level-set kernels exactly when its cell
is inside the grid. -/
theorem outsideGrid_eq_false (g : GpuGrid K) (t : Worker) :
    t.outsideGrid g = false ↔ t.i g < g.nx ∧ t.j g < g.ny := by
  unfold Worker.outsideGrid
  simp only [Bool.or_eq_false_iff, decide_eq_false_iff_not, not_le, ge_iff_le]

/-- The block sizes of a launch with a thread are `unsigned` values on a well-formed grid. -/
theorem blockSize_lt [LinearOrderedField K] (g : GpuGrid K) (hwf : g.WellFormed) (t : Worker)
    (ht : t ∈ launchWorkers g) : g.blockSizeX < 2 ^ 32 ∧ g.blockSizeY < 2 ^ 32 := by
  obtain ⟨hbx, hby, _, _⟩ := (mem_launchWorkers g t).mp ht
  have hx := hwf.threads_x_lt
  have hy := hwf.threads_y_lt
  have h1 : g.blockSizeX ≤ g.blockSizeX * g.gridSizeX :=
    Nat.le_mul_of_pos_right _ (Nat.lt_of_le_of_lt (Nat.zero_le _) hbx)
  have h2 : g.blockSizeY ≤ g.blockSizeY * g.gridSizeY :=
    Nat.le_mul_of_pos_right _ (Nat.lt_of_le_of_lt (Nat.zero_le _) hby)
  exact ⟨Nat.lt_of_le_of_lt h1 hx, Nat.lt_of_le_of_lt h2 hy⟩

/-- The unsigned guard of `schemeShouldBeApplied` is the guard read over the integers. -/
theorem schemeShouldBeApplied_iff (g : GpuGrid K) (dev : LevelSetDevice K) (t : Worker)
    (hfit : g.FitsUnsigned) (he : t.outsideGrid g = false) :
    t.schemeShouldBeApplied g dev = true ↔
      (g.smExtension + 1 < t.i g ∧ (t.i g : ℤ) < (g.nx : ℤ) - g.smExtension - 2) ∧
        (g.smExtension + 1 < t.j g ∧ (t.j g : ℤ) < (g.ny : ℤ) - g.smExtension - 2) ∧
        dev.shouldApplyScheme (t.i g) (t.j g) = true := by
  obtain ⟨hi, hj⟩ := (outsideGrid_eq_false g t).mp he
  have hnx := hfit.nx_lt
  have hny := hfit.ny_lt
  have hE := hfit.smExtension_lt
  unfold Worker.schemeShouldBeApplied subU32
  simp only [Bool.and_eq_true, decide_eq_true_eq, gt_iff_lt]
  constructor
  · rintro ⟨⟨⟨⟨h1, h2⟩, h3⟩, h4⟩, h5⟩
    exact ⟨⟨h1, by omega⟩, ⟨h3, by omega⟩, h5⟩
  · rintro ⟨⟨h1, h2⟩, ⟨h3, h4⟩, h5⟩
    exact ⟨⟨⟨⟨h1, by omega⟩, h3⟩, by omega⟩, h5⟩

end LevelSetIndexTheorems

section ReinitializeTheorems

variable {K : Type} [LinearOrderedField K]

/-- The halo load of another thread of the tile does not touch the own slot of
thread `t` in the shared `prevMatrix` of `reinitializeTVDSubStep`. -/
theorem reinitializeLoadPrevMatrix_other (g : GpuGrid K) (a : ReinitializeArgs K)
    (b t : Worker) (m : Nat → K) (hwf : g.WellFormed)
    (hbsx : g.blockSizeX < 2 ^ 32) (hbsy : g.blockSizeY < 2 ^ 32)
    (hbi : b.ti < g.blockSizeX) (hti : t.ti < g.blockSizeX) (htj : t.tj < g.blockSizeY)
    (hne : b.ti ≠ t.ti ∨ b.tj ≠ t.tj) :
    reinitializeLoadPrevMatrix g a b m (t.sharedIdx g) = m (t.sharedIdx g) := by
  have hsmx := hwf.sharedMemoryX_eq
  have hEx := hwf.smExtension_le_x
  have hEy := hwf.smExtension_le_y
  have hsx : subU32 g.blockSizeX g.smExtension = g.blockSizeX - g.smExtension :=
    subU32_eq hEx hbsx
  have hsy : subU32 g.blockSizeY g.smExtension = g.blockSizeY - g.smExtension :=
    subU32_eq hEy hbsy
  have ht : t.sharedIdx g = (t.tj + g.smExtension) * g.sharedMemoryX + (t.ti + g.smExtension) :=
    rfl
  have hb : b.sharedIdx g = (b.tj + g.smExtension) * g.sharedMemoryX + (b.ti + g.smExtension) :=
    rfl
  have h1 : b.ti < g.smExtension → t.sharedIdx g ≠ b.sharedIdx g - g.smExtension := by
    intro hlt
    have e : b.sharedIdx g - g.smExtension = (b.tj + g.smExtension) * g.sharedMemoryX + b.ti := by
      rw [hb]; omega
    rw [e, ht]
    exact rowMajor_ne (by omega) (by omega) (Or.inr (by omega))
  have h2 : b.tj < g.smExtension →
      t.sharedIdx g ≠ (b.aj g - g.smExtension) * g.sharedMemoryX + b.ai g := by
    intro hlt
    have e : (b.aj g - g.smExtension) * g.sharedMemoryX + b.ai g =
        b.tj * g.sharedMemoryX + (b.ti + g.smExtension) := by
      unfold Worker.aj Worker.ai
      rw [Nat.add_sub_cancel]
    rw [e, ht]
    exact rowMajor_ne (by omega) (by omega) (Or.inl (by omega))
  have h3 : t.sharedIdx g ≠ b.sharedIdx g := by
    rw [hb, ht]
    exact rowMajor_ne (by omega) (by omega) (by omega)
  have h4 : b.ti ≥ subU32 g.blockSizeX g.smExtension →
      t.sharedIdx g ≠ b.sharedIdx g + g.smExtension := by
    intro hge
    rw [hsx] at hge
    have e : b.sharedIdx g + g.smExtension =
        (b.tj + g.smExtension) * g.sharedMemoryX + (b.ti + g.smExtension + g.smExtension) := by
      rw [hb]; omega
    rw [e, ht]
    exact rowMajor_ne (by omega) (by omega) (Or.inr (by omega))
  have h5 : b.tj ≥ subU32 g.blockSizeY g.smExtension →
      t.sharedIdx g ≠ (b.aj g + g.smExtension) * g.sharedMemoryX + b.ai g := by
    intro hge
    rw [hsy] at hge
    have e : (b.aj g + g.smExtension) * g.sharedMemoryX + b.ai g =
        (b.tj + g.smExtension + g.smExtension) * g.sharedMemoryX + (b.ti + g.smExtension) :=
      rfl
    rw [e, ht]
    exact rowMajor_ne (by omega) (by omega) (Or.inl (by omega))
  unfold reinitializeLoadPrevMatrix
  by_cases he : b.outsideGrid g = true
  · rw [if_pos he]
  · rw [if_neg he]
    rw [ite_update_ne _ _ _ _ _ (fun hc => h5 hc.1), ite_update_ne _ _ _ _ _ (fun hc => h4 hc.1),
      Function.update_noteq h3, ite_update_ne _ _ _ _ _ (fun hc => h2 hc.1),
      ite_update_ne _ _ _ _ _ (fun hc => h1 hc.1)]

/-- The halo load of a thread inside the grid leaves the previous-stage value of
its cell in its own slot of `prevMatrix`. -/
theorem reinitializeLoadPrevMatrix_own (g : GpuGrid K) (a : ReinitializeArgs K)
    (t : Worker) (m : Nat → K) (hwf : g.WellFormed)
    (he : t.outsideGrid g = false) :
    reinitializeLoadPrevMatrix g a t m (t.sharedIdx g) = a.pPrevValue (t.globalIdx g) := by
  have hsmx := hwf.sharedMemoryX_eq
  have hE := hwf.smExtension_pos
  have hS : 0 < g.sharedMemoryX := by omega
  have hES := Nat.mul_pos (Nat.lt_of_lt_of_le Nat.zero_lt_one hE) hS
  have hsh : t.sharedIdx g = t.aj g * g.sharedMemoryX + t.ai g := rfl
  have h4 : t.sharedIdx g ≠ t.sharedIdx g + g.smExtension := by omega
  have h5 : t.sharedIdx g ≠ (t.aj g + g.smExtension) * g.sharedMemoryX + t.ai g := by
    rw [hsh, Nat.add_mul]
    omega
  unfold reinitializeLoadPrevMatrix
  rw [if_neg (by simp [he])]
  rw [ite_update_ne _ _ _ _ _ (fun _ => h5), ite_update_ne _ _ _ _ _ (fun _ => h4),
    Function.update_same]

/-- At the barrier the slot of a thread inside the grid in the shared `prevMatrix`
holds the previous-stage value of its cell. -/
theorem reinitializeTilePrevMatrix_own (g : GpuGrid K) (a : ReinitializeArgs K)
    (u : Nat → Nat → Nat → K) (t : Worker) (hwf : g.WellFormed)
    (ht : t ∈ launchWorkers g) (he : t.outsideGrid g = false) :
    reinitializeTilePrevMatrix g a u t.blockIdxX t.blockIdxY (t.sharedIdx g) =
      a.pPrevValue (t.globalIdx g) := by
  obtain ⟨_, _, hti, htj⟩ := (mem_launchWorkers g t).mp ht
  obtain ⟨hbsx, hbsy⟩ := blockSize_lt g hwf t ht
  unfold reinitializeTilePrevMatrix
  refine foldl_single_write (fun b m => reinitializeLoadPrevMatrix g a b m) (t.sharedIdx g) _
    (blockWorkers g t.blockIdxX t.blockIdxY) t
    ((mem_blockWorkers g _ _ t).mpr ⟨rfl, rfl, hti, htj⟩)
    (fun m => reinitializeLoadPrevMatrix_own g a t m hwf he) ?_ _
  intro b hb hbt m
  obtain ⟨hbx, hby, hbi, _⟩ := (mem_blockWorkers g _ _ b).mp hb
  refine reinitializeLoadPrevMatrix_other g a b t m hwf hbsx hbsy hbi hti htj ?_
  by_contra hcon
  push_neg at hcon
  apply hbt
  cases b; cases t
  simp only [Worker.mk.injEq]
  exact ⟨hbx, hby, hcon.1, hcon.2⟩

/-- The value that a thread of `reinitializeTVDSubStep` stores when the scheme is applied. -/
theorem reinitializeStore_eq (g : GpuGrid K) (dev : LevelSetDevice K) (a : ReinitializeArgs K)
    (t : Worker) (pm : Nat → K) (cur : Nat → K) (he : t.outsideGrid g = false) :
    reinitializeStore g dev a t pm cur =
      if t.schemeShouldBeApplied g dev = true then
        Function.update cur (t.globalIdx g)
          ((1 - a.prevWeight) * a.pFirstValue (t.globalIdx g) +
            a.prevWeight * reinitializeValue g dev a t pm)
      else cur := by
  unfold reinitializeStore
  rw [if_neg (by simp [he])]
  by_cases hs : t.schemeShouldBeApplied g dev = true
  · rw [if_pos hs, if_pos hs]
    by_cases hw : a.prevWeight = 1
    · simp only [hw, ne_eq, not_true_eq_false, if_false, sub_self, zero_mul, one_mul, zero_add]
    · simp only [ne_eq, hw, not_false_eq_true, if_true]
  · rw [if_neg hs, if_neg hs]

/-- The store of a thread into `pCurrValue` does not touch the cells of other threads. -/
theorem reinitializeStore_other (g : GpuGrid K) (dev : LevelSetDevice K)
    (a : ReinitializeArgs K) (b : Worker) (pm : Nat → K) (cur : Nat → K) (k : Nat)
    (hk : b.outsideGrid g = false → b.schemeShouldBeApplied g dev = true → b.globalIdx g ≠ k) :
    reinitializeStore g dev a b pm cur k = cur k := by
  by_cases he : b.outsideGrid g = true
  · unfold reinitializeStore
    rw [if_pos he]
  · have he' : b.outsideGrid g = false := by simpa using he
    rw [reinitializeStore_eq g dev a b pm cur he']
    by_cases hs : b.schemeShouldBeApplied g dev = true
    · rw [if_pos hs]
      exact Function.update_noteq (Ne.symm (hk he' hs)) _ _
    · rw [if_neg hs]

/-- An entry of `pCurrValue` that no storing thread addresses is unchanged by
`reinitializeTVDSubStep`. -/
theorem reinitializeTVDSubStep_unchanged (g : GpuGrid K) (dev : LevelSetDevice K)
    (a : ReinitializeArgs K) (u : Nat → Nat → Nat → K) (pCurrValue : Nat → K) (k : Nat)
    (h : ∀ t ∈ launchWorkers g, t.outsideGrid g = false →
      t.schemeShouldBeApplied g dev = true → t.globalIdx g ≠ k) :
    reinitializeTVDSubStep g dev a u pCurrValue k = pCurrValue k := by
  unfold reinitializeTVDSubStep
  exact foldl_frame
    (fun t cur => reinitializeStore g dev a t
      (reinitializeTilePrevMatrix g a u t.blockIdxX t.blockIdxY) cur) k (launchWorkers g)
    (fun b hb m => reinitializeStore_other g dev a b _ m k (h b hb)) pCurrValue

/-- The entry of `pCurrValue` of a thread on which the scheme is applied is, after
`reinitializeTVDSubStep`, the blended value that this thread stores. -/
theorem reinitializeTVDSubStep_updated (g : GpuGrid K) (dev : LevelSetDevice K)
    (a : ReinitializeArgs K) (u : Nat → Nat → Nat → K) (pCurrValue : Nat → K) (t : Worker)
    (ht : t ∈ launchWorkers g) (he : t.outsideGrid g = false)
    (hs : t.schemeShouldBeApplied g dev = true) :
    reinitializeTVDSubStep g dev a u pCurrValue (t.globalIdx g) =
      (1 - a.prevWeight) * a.pFirstValue (t.globalIdx g) +
        a.prevWeight *
          reinitializeValue g dev a t (reinitializeTilePrevMatrix g a u t.blockIdxX t.blockIdxY) := by
  unfold reinitializeTVDSubStep
  refine foldl_single_write
    (fun t cur => reinitializeStore g dev a t
      (reinitializeTilePrevMatrix g a u t.blockIdxX t.blockIdxY) cur) (t.globalIdx g) _
    (launchWorkers g) t ht (fun m => ?_) ?_ pCurrValue
  · show reinitializeStore g dev a t _ m (t.globalIdx g) = _
    rw [reinitializeStore_eq g dev a t _ m he, if_pos hs, Function.update_same]
  · intro b hb hbt m
    refine reinitializeStore_other g dev a b _ m _ (fun hbe _ hidx => hbt ?_)
    obtain ⟨_, _, hbi, hbj⟩ := (mem_launchWorkers g b).mp hb
    obtain ⟨_, _, hti, htj⟩ := (mem_launchWorkers g t).mp ht
    exact globalIdx_inj g b t hbi hbj hti htj ((outsideGrid_eq_false g b).mp hbe).1
      ((outsideGrid_eq_false g t).mp he).1 hidx

/-- The value `val` of a thread whose slot of `prevMatrix` holds `phi`, written out. -/
theorem reinitializeValue_eq (g : GpuGrid K) (dev : LevelSetDevice K) (a : ReinitializeArgs K)
    (t : Worker) (pm : Nat → K) :
    reinitializeValue g dev a t pm =
      pm (t.sharedIdx g) -
        a.dt *
          (pm (t.sharedIdx g) /
            dev.sqrt (pm (t.sharedIdx g) ^ 2 +
              (dev.getLevelSetAbsGradient g.sharedMemoryX pm (t.sharedIdx g)
                (decide (pm (t.sharedIdx g) > 0)) * g.hx) ^ 2)) *
          (dev.getLevelSetAbsGradient g.sharedMemoryX pm (t.sharedIdx g)
            (decide (pm (t.sharedIdx g) > 0)) - 1) := by
  unfold reinitializeValue hypot
  simp only [pow_two]

/-- Claim C16: for every cell on which `reinitializeTVDSubStep` applies the scheme, the value
written is `(1 - w) * phi_first + w * val` with `val = phi - dt * sgn * (g - 1)`, where `phi` is
the previous-stage value of the cell, `g` the gradient magnitude computed with the
flag `phi > 0`, and `sgn = phi / sqrt (phi ^ 2 + (g * hx) ^ 2)`; for `w = 1` the written value
is `val`. -/
theorem reinitializeTVDSubStep_written (g : GpuGrid K) (dev : LevelSetDevice K)
    (a : ReinitializeArgs K) (u : Nat → Nat → Nat → K) (pCurrValue : Nat → K) (t : Worker)
    (hwf : g.WellFormed) (ht : t ∈ launchWorkers g) (he : t.outsideGrid g = false)
    (hs : t.schemeShouldBeApplied g dev = true) :
    reinitializeTVDSubStep g dev a u pCurrValue (t.globalIdx g) =
        (1 - a.prevWeight) * a.pFirstValue (t.globalIdx g) +
          a.prevWeight *
            (a.pPrevValue (t.globalIdx g) -
              a.dt *
                (a.pPrevValue (t.globalIdx g) /
                  dev.sqrt (a.pPrevValue (t.globalIdx g) ^ 2 +
                    (dev.getLevelSetAbsGradient g.sharedMemoryX
                      (reinitializeTilePrevMatrix g a u t.blockIdxX t.blockIdxY) (t.sharedIdx g)
                      (decide (a.pPrevValue (t.globalIdx g) > 0)) * g.hx) ^ 2)) *
                (dev.getLevelSetAbsGradient g.sharedMemoryX
                  (reinitializeTilePrevMatrix g a u t.blockIdxX t.blockIdxY) (t.sharedIdx g)
                  (decide (a.pPrevValue (t.globalIdx g) > 0)) - 1)) ∧
      (a.prevWeight = 1 →
        reinitializeTVDSubStep g dev a u pCurrValue (t.globalIdx g) =
          a.pPrevValue (t.globalIdx g) -
            a.dt *
              (a.pPrevValue (t.globalIdx g) /
                dev.sqrt (a.pPrevValue (t.globalIdx g) ^ 2 +
                  (dev.getLevelSetAbsGradient g.sharedMemoryX
                    (reinitializeTilePrevMatrix g a u t.blockIdxX t.blockIdxY) (t.sharedIdx g)
                    (decide (a.pPrevValue (t.globalIdx g) > 0)) * g.hx) ^ 2)) *
              (dev.getLevelSetAbsGradient g.sharedMemoryX
                (reinitializeTilePrevMatrix g a u t.blockIdxX t.blockIdxY) (t.sharedIdx g)
                (decide (a.pPrevValue (t.globalIdx g) > 0)) - 1)) := by
  have hval := reinitializeValue_eq g dev a t
    (reinitializeTilePrevMatrix g a u t.blockIdxX t.blockIdxY)
  rw [reinitializeTilePrevMatrix_own g a u t hwf ht he] at hval
  have hout := reinitializeTVDSubStep_updated g dev a u pCurrValue t ht he hs
  rw [hval] at hout
  refine ⟨hout, fun hw => ?_⟩
  rw [hout, hw, sub_self, zero_mul, zero_add, one_mul]

/-- Claim C18, as the code has it: `reinitializeTVDSubStep` has no test of `|phi|` against a band
width.  For the predicate of `SrmDualThrust`, which accepts every cell, a cell
outside the guard margin is rewritten with the blended value whatever its
level-set value is, and a cell inside the guard margin is unchanged. -/
theorem reinitializeTVDSubStep_no_band_test (g : GpuGrid K) (dev : LevelSetDevice K)
    (a : ReinitializeArgs K) (u : Nat → Nat → Nat → K) (pCurrValue : Nat → K) (t : Worker)
    (hfit : g.FitsUnsigned) (ht : t ∈ launchWorkers g) (he : t.outsideGrid g = false)
    (hshape : dev.shouldApplyScheme = SrmDualThrust.shouldApplyScheme) :
    (((g.smExtension + 1 < t.i g ∧ (t.i g : ℤ) < (g.nx : ℤ) - g.smExtension - 2) ∧
          (g.smExtension + 1 < t.j g ∧ (t.j g : ℤ) < (g.ny : ℤ) - g.smExtension - 2)) →
        reinitializeTVDSubStep g dev a u pCurrValue (t.globalIdx g) =
          (1 - a.prevWeight) * a.pFirstValue (t.globalIdx g) +
            a.prevWeight *
              reinitializeValue g dev a t
                (reinitializeTilePrevMatrix g a u t.blockIdxX t.blockIdxY)) ∧
      (¬ ((g.smExtension + 1 < t.i g ∧ (t.i g : ℤ) < (g.nx : ℤ) - g.smExtension - 2) ∧
          (g.smExtension + 1 < t.j g ∧ (t.j g : ℤ) < (g.ny : ℤ) - g.smExtension - 2)) →
        reinitializeTVDSubStep g dev a u pCurrValue (t.globalIdx g) =
          pCurrValue (t.globalIdx g)) := by
  have hiff := schemeShouldBeApplied_iff g dev t hfit he
  have htrue : dev.shouldApplyScheme (t.i g) (t.j g) = true := by
    rw [hshape]
    rfl
  refine ⟨fun hP => ?_, fun hP => ?_⟩
  · exact reinitializeTVDSubStep_updated g dev a u pCurrValue t ht he
      (hiff.mpr ⟨hP.1, hP.2, htrue⟩)
  · refine reinitializeTVDSubStep_unchanged g dev a u pCurrValue _ (fun b hb hbe hbs hidx => ?_)
    obtain ⟨_, _, hbi, hbj⟩ := (mem_launchWorkers g b).mp hb
    obtain ⟨_, _, hti, htj⟩ := (mem_launchWorkers g t).mp ht
    have hbt : b = t :=
      globalIdx_inj g b t hbi hbj hti htj ((outsideGrid_eq_false g b).mp hbe).1
        ((outsideGrid_eq_false g t).mp he).1 hidx
    rw [hbt] at hbs
    have h := hiff.mp hbs
    exact hP ⟨h.1, h.2.1⟩

/-- Claim C19: for every cell on which the scheme is applied, whose previous-stage and
first-stage values are 0 and whose gradient magnitude is non-zero (with an exact
square root, so that the smoothed sign is a quotient by a non-zero number),
`reinitializeTVDSubStep` writes exactly 0, for every `dt` and every weight. -/
theorem reinitializeTVDSubStep_zero (g : GpuGrid K) (dev : LevelSetDevice K)
    (a : ReinitializeArgs K) (u : Nat → Nat → Nat → K) (pCurrValue : Nat → K) (t : Worker)
    (hwf : g.WellFormed) (ht : t ∈ launchWorkers g) (he : t.outsideGrid g = false)
    (hs : t.schemeShouldBeApplied g dev = true)
    (hprev : a.pPrevValue (t.globalIdx g) = 0) (hfirst : a.pFirstValue (t.globalIdx g) = 0)
    (hgrad : dev.getLevelSetAbsGradient g.sharedMemoryX
      (reinitializeTilePrevMatrix g a u t.blockIdxX t.blockIdxY) (t.sharedIdx g)
      (decide (a.pPrevValue (t.globalIdx g) > 0)) ≠ 0)
    (hsqrt : hypot dev.sqrt (a.pPrevValue (t.globalIdx g))
        (dev.getLevelSetAbsGradient g.sharedMemoryX
          (reinitializeTilePrevMatrix g a u t.blockIdxX t.blockIdxY) (t.sharedIdx g)
          (decide (a.pPrevValue (t.globalIdx g) > 0)) * g.hx) ^ 2 =
      a.pPrevValue (t.globalIdx g) ^ 2 +
        (dev.getLevelSetAbsGradient g.sharedMemoryX
          (reinitializeTilePrevMatrix g a u t.blockIdxX t.blockIdxY) (t.sharedIdx g)
          (decide (a.pPrevValue (t.globalIdx g) > 0)) * g.hx) ^ 2) :
    reinitializeTVDSubStep g dev a u pCurrValue (t.globalIdx g) = 0 := by
  have hown := reinitializeTilePrevMatrix_own g a u t hwf ht he
  have hhx : g.hx ≠ 0 := ne_of_gt hwf.hx_pos
  rw [reinitializeTVDSubStep_updated g dev a u pCurrValue t ht he hs, hfirst]
  unfold reinitializeValue
  simp only [hown]
  generalize dev.getLevelSetAbsGradient g.sharedMemoryX
    (reinitializeTilePrevMatrix g a u t.blockIdxX t.blockIdxY) (t.sharedIdx g)
    (decide (a.pPrevValue (t.globalIdx g) > 0)) = G at hgrad hsqrt ⊢
  rw [hprev] at hsqrt ⊢
  have hne : hypot dev.sqrt 0 (G * g.hx) ≠ 0 := by
    intro h0
    rw [h0] at hsqrt
    have hpos : 0 < (G * g.hx) ^ 2 := by positivity
    have hzero : (0 : K) ^ 2 = 0 := by ring
    rw [hzero, zero_add] at hsqrt
    exact absurd hsqrt (ne_of_lt hpos)
  have hsgn : (0 : K) / hypot dev.sqrt 0 (G * g.hx) = 0 := by
    rw [div_eq_iff hne, zero_mul]
  rw [hsgn]
  ring

end ReinitializeTheorems

section GhostMapTheorems

variable {K : Type} [LinearOrderedField K]

end GhostMapTheorems

section ConcreteLevelSetLaunch

/-- The concrete level-set grid satisfies the relations of `GpuGridT`. -/
theorem exampleLevelSetGrid_wellFormed : exampleLevelSetGrid.WellFormed := by
  constructor <;> norm_num [exampleLevelSetGrid]

/-- The constants of the concrete level-set grid are `unsigned` values. -/
theorem exampleLevelSetGrid_fitsUnsigned : exampleLevelSetGrid.FitsUnsigned := by
  constructor <;> norm_num [exampleLevelSetGrid]

/-- The thread of the cell `(10, 10)` belongs to the concrete launch. -/
theorem exampleLevelSetWorker_mem : exampleLevelSetWorker ∈ launchWorkers exampleLevelSetGrid :=
  (mem_launchWorkers exampleLevelSetGrid exampleLevelSetWorker).mpr
    ⟨by decide, by decide, by decide, by decide⟩

/-- In the concrete launch with previous value 3 everywhere, gradient magnitude 400
and weight `w`, the cell `(10, 10)` is written with `(1 - w) * 3 + w * (-1182/5)`. -/
theorem exampleReinitialize_value (w : ℚ) (pCurrValue : Nat → ℚ) :
    reinitializeTVDSubStep exampleLevelSetGrid (exampleLevelSetDevice 400)
        (exampleReinitializeArgs 3 w) (fun _ _ _ => 0) pCurrValue 220 =
      (1 - w) * 3 + w * (-1182 / 5) := by
  have h := reinitializeTVDSubStep_updated exampleLevelSetGrid (exampleLevelSetDevice 400)
    (exampleReinitializeArgs 3 w) (fun _ _ _ => 0) pCurrValue exampleLevelSetWorker
    exampleLevelSetWorker_mem (by decide) (by decide)
  rw [reinitializeValue_eq,
    reinitializeTilePrevMatrix_own exampleLevelSetGrid (exampleReinitializeArgs 3 w)
      (fun _ _ _ => 0) exampleLevelSetWorker exampleLevelSetGrid_wellFormed
      exampleLevelSetWorker_mem (by decide)] at h
  have h220 : exampleLevelSetWorker.globalIdx exampleLevelSetGrid = 220 := rfl
  rw [h220] at h
  rw [h]
  norm_num [exampleReinitializeArgs, exampleLevelSetDevice, exampleLevelSetGrid, Rat.sqrt]

/-- Witness of C16: in the concrete launch with previous value 3, gradient magnitude 400
(`g * hx = 4`, so `sgn = 3/5`) and weight 1/2, the cell `(10, 10)` is written with `-1167/10`. -/
theorem reinitializeTVDSubStep_written_witness :
    exampleLevelSetGrid.WellFormed ∧ exampleLevelSetWorker ∈ launchWorkers exampleLevelSetGrid ∧
      exampleLevelSetWorker.outsideGrid exampleLevelSetGrid = false ∧
      exampleLevelSetWorker.schemeShouldBeApplied exampleLevelSetGrid
        (exampleLevelSetDevice 400) = true ∧
      reinitializeTVDSubStep exampleLevelSetGrid (exampleLevelSetDevice 400)
        (exampleReinitializeArgs 3 (1 / 2)) (fun _ _ _ => 0) (fun _ => 3) 220 = -1167 / 10 := by
  refine ⟨exampleLevelSetGrid_wellFormed, exampleLevelSetWorker_mem, by decide, by decide, ?_⟩
  have h := (reinitializeTVDSubStep_written exampleLevelSetGrid (exampleLevelSetDevice 400)
    (exampleReinitializeArgs 3 (1 / 2)) (fun _ _ _ => 0) (fun _ => 3) exampleLevelSetWorker
    exampleLevelSetGrid_wellFormed exampleLevelSetWorker_mem (by decide) (by decide)).1
  have h220 : exampleLevelSetWorker.globalIdx exampleLevelSetGrid = 220 := rfl
  rw [h220] at h
  rw [h]
  norm_num [exampleReinitializeArgs, exampleLevelSetDevice, exampleLevelSetGrid, Rat.sqrt]

/-- Counterexample to C18 as stated: in the concrete launch with the predicate of
`SrmDualThrust`, the cell `(10, 10)` has `|phi| = 3`, which is 300 grid spacings, and yet its
entry is changed from 3 to `-1182/5`. -/
theorem reinitializeTVDSubStep_band_counterexample :
    exampleLevelSetWorker ∈ launchWorkers exampleLevelSetGrid ∧
      (exampleLevelSetDevice 400).shouldApplyScheme = SrmDualThrust.shouldApplyScheme ∧
      300 * exampleLevelSetGrid.hx ≤ |(exampleReinitializeArgs 3 1).pPrevValue 220| ∧
      reinitializeTVDSubStep exampleLevelSetGrid (exampleLevelSetDevice 400)
        (exampleReinitializeArgs 3 1) (fun _ _ _ => 0) (fun _ => 3) 220 ≠ 3 := by
  refine ⟨exampleLevelSetWorker_mem, rfl, ?_, ?_⟩
  · norm_num [exampleLevelSetGrid, exampleReinitializeArgs]
  · rw [exampleReinitialize_value]
    norm_num

/-- Witness of the amended C18: the cell `(10, 10)` of the concrete launch is outside the
guard margin and is rewritten. -/
theorem reinitializeTVDSubStep_no_band_test_witness :
    exampleLevelSetGrid.FitsUnsigned ∧ exampleLevelSetWorker ∈ launchWorkers exampleLevelSetGrid ∧
      exampleLevelSetWorker.outsideGrid exampleLevelSetGrid = false ∧
      (exampleLevelSetDevice 400).shouldApplyScheme = SrmDualThrust.shouldApplyScheme ∧
      reinitializeTVDSubStep exampleLevelSetGrid (exampleLevelSetDevice 400)
          (exampleReinitializeArgs 3 1) (fun _ _ _ => 0) (fun _ => 3) 220 =
        (1 - (1 : ℚ)) * 3 +
          (1 : ℚ) * reinitializeValue exampleLevelSetGrid (exampleLevelSetDevice 400)
            (exampleReinitializeArgs 3 1) exampleLevelSetWorker
            (reinitializeTilePrevMatrix exampleLevelSetGrid (exampleReinitializeArgs 3 1)
              (fun _ _ _ => 0) 0 0) :=
  ⟨exampleLevelSetGrid_fitsUnsigned, exampleLevelSetWorker_mem, by decide, rfl,
    (reinitializeTVDSubStep_no_band_test exampleLevelSetGrid (exampleLevelSetDevice 400)
      (exampleReinitializeArgs 3 1) (fun _ _ _ => 0) (fun _ => 3) exampleLevelSetWorker
      exampleLevelSetGrid_fitsUnsigned exampleLevelSetWorker_mem (by decide) rfl).1
      (by decide)⟩

/-- Witness of C19: in the concrete launch with previous and first value 0 and gradient
magnitude 400 the cell `(10, 10)` is written with 0. -/
theorem reinitializeTVDSubStep_zero_witness :
    exampleLevelSetGrid.WellFormed ∧ exampleLevelSetWorker ∈ launchWorkers exampleLevelSetGrid ∧
      exampleLevelSetWorker.schemeShouldBeApplied exampleLevelSetGrid
        (exampleLevelSetDevice 400) = true ∧
      (exampleReinitializeArgs 0 (1 / 2)).pPrevValue 220 = 0 ∧
      reinitializeTVDSubStep exampleLevelSetGrid (exampleLevelSetDevice 400)
        (exampleReinitializeArgs 0 (1 / 2)) (fun _ _ _ => 5) (fun _ => 3) 220 = 0 :=
  ⟨exampleLevelSetGrid_wellFormed, exampleLevelSetWorker_mem, by decide, rfl,
    reinitializeTVDSubStep_zero exampleLevelSetGrid (exampleLevelSetDevice 400)
      (exampleReinitializeArgs 0 (1 / 2)) (fun _ _ _ => 5) (fun _ => 3) exampleLevelSetWorker
      exampleLevelSetGrid_wellFormed exampleLevelSetWorker_mem (by decide) (by decide) rfl rfl
      (by norm_num [exampleLevelSetDevice])
      (by norm_num [hypot, exampleLevelSetDevice, exampleReinitializeArgs, exampleLevelSetGrid,
        Rat.sqrt])⟩

end ConcreteLevelSetLaunch

/-! ## Theorems: the closest gas node and the ghost mapping -/

section FallibleFoldTheorems

/-- A property that every step of a fold of fallible steps preserves holds of the
result when it holds of the start. -/
theorem foldlM_invariant {σ α : Type} (f : σ → α → Option σ) (I : σ → Prop) (l : List α)
    (h : ∀ a ∈ l, ∀ s s', I s → f s a = some s' → I s') (s s' : σ) (hs : I s)
    (hfold : l.foldlM f s = some s') : I s' := by
  induction l generalizing s with
  | nil =>
    simp only [List.foldlM_nil, Option.pure_def, Option.some.injEq] at hfold
    exact hfold ▸ hs
  | cons a l ih =>
    simp only [List.foldlM_cons, Option.bind_eq_bind, Option.bind_eq_some] at hfold
    obtain ⟨s1, h1, h2⟩ := hfold
    exact ih (fun b hb => h b (List.mem_cons_of_mem a hb)) s1
      (h a (List.mem_cons_self a l) s s1 hs h1) h2

/-- A fold of fallible steps in which one step sets an observation to `v` and the
other steps keep it leaves `v`. -/
theorem foldlM_single_write {σ α β : Type} (f : σ → α → Option σ) (π : σ → β) (v : β)
    (l : List α) (t0 : α) (ht0 : t0 ∈ l) (h0 : ∀ s s', f s t0 = some s' → π s' = v)
    (hothers : ∀ a ∈ l, a ≠ t0 → ∀ s s', f s a = some s' → π s' = π s) (s s' : σ)
    (hfold : l.foldlM f s = some s') : π s' = v := by
  induction l generalizing s with
  | nil => cases ht0
  | cons a l ih =>
    simp only [List.foldlM_cons, Option.bind_eq_bind, Option.bind_eq_some] at hfold
    obtain ⟨s1, h1, h2⟩ := hfold
    by_cases hmem : t0 ∈ l
    · exact ih hmem (fun b hb => hothers b (List.mem_cons_of_mem a hb)) s1 h2
    · have hat : a = t0 := by
        rcases List.mem_cons.mp ht0 with h | h
        · exact h.symm
        · exact absurd h hmem
      refine foldlM_invariant f (fun x => π x = v) l ?_ s1 s' (h0 s s1 (hat ▸ h1)) h2
      intro b hb x x' hx hfx
      have hbt : b ≠ t0 := fun e => hmem (e ▸ hb)
      rw [hothers b (List.mem_cons_of_mem a hb) hbt x x' hfx]
      exact hx

/-- A fold of fallible steps returns when every step does. -/
theorem foldlM_isSome {σ α : Type} (f : σ → α → Option σ) (l : List α)
    (h : ∀ a ∈ l, ∀ s, ∃ s', f s a = some s') (s : σ) : ∃ s', l.foldlM f s = some s' := by
  induction l generalizing s with
  | nil => exact ⟨s, rfl⟩
  | cons a l ih =>
    obtain ⟨s1, h1⟩ := h a (List.mem_cons_self a l) s
    obtain ⟨s2, h2⟩ := ih (fun b hb => h b (List.mem_cons_of_mem a hb)) s1
    refine ⟨s2, ?_⟩
    simp only [List.foldlM_cons, Option.bind_eq_bind, h1, Option.some_bind, h2]

end FallibleFoldTheorems

section ClosestIndexTheorems

variable {K : Type} [LinearOrderedField K]

/-- A loop of `getClosestIndex` whose bounds do not wrap visits the seven values
`cSurface - 3, ..., cSurface + 3`. -/
theorem scan_eq {c : Nat} (h3 : 3 ≤ c) (hc : c + 3 < 2 ^ 32 - 1) :
    getClosestIndex.scan c = some (List.range' (c - 3) 7) := by
  unfold getClosestIndex.scan
  have h1 : subU32 c 3 = c - 3 := subU32_eq h3 (by omega)
  have h2 : (c + 3) % 2 ^ 32 = c + 3 := Nat.mod_eq_of_lt (by omega)
  simp only [h1, h2]
  rw [if_neg (by omega), if_pos (by omega)]
  have h7 : c + 3 - (c - 3) + 1 = 7 := by omega
  rw [h7]

/-- The nested loops are one loop over the nodes in scan order. -/
theorem foldl_scanOrder {σ : Type} (f : σ → Nat → Nat → σ) (is js : List Nat) (s : σ) :
    is.foldl (fun st iCl => js.foldl (fun st jCl => f st iCl jCl) st) s =
      (getClosestIndex.scanOrder is js).foldl (fun st p => f st p.1 p.2) s := by
  induction is generalizing s with
  | nil => rfl
  | cons a is ih =>
    simp only [List.foldl_cons, getClosestIndex.scanOrder, List.flatMap_cons, List.foldl_append,
      List.foldl_map]
    exact ih _

/-- The nodes in scan order are the pairs of a value of the outer and a value of the
inner loop. -/
theorem mem_scanOrder (is js : List Nat) (q : Nat × Nat) :
    q ∈ getClosestIndex.scanOrder is js ↔ q.1 ∈ is ∧ q.2 ∈ js := by
  unfold getClosestIndex.scanOrder
  simp only [List.mem_flatMap, List.mem_map]
  constructor
  · rintro ⟨a, ha, b, hb, rfl⟩
    exact ⟨ha, hb⟩
  · rintro ⟨ha, hb⟩
    exact ⟨q.1, ha, q.2, hb, rfl⟩

/-- The scan order of two ranges is the lexicographic order of the pairs. -/
theorem scanOrder_pairwise (a n b m : Nat) :
    (getClosestIndex.scanOrder (List.range' a n) (List.range' b m)).Pairwise
      (fun p q => p.1 < q.1 ∨ (p.1 = q.1 ∧ p.2 < q.2)) := by
  unfold getClosestIndex.scanOrder
  rw [List.pairwise_flatMap]
  constructor
  · intro i _
    rw [List.pairwise_map]
    exact (List.pairwise_lt_range' b m).imp (fun h => Or.inr ⟨rfl, h⟩)
  · refine (List.pairwise_lt_range' a n).imp ?_
    intro i i' hlt p hp q hq
    obtain ⟨_, _, rfl⟩ := List.mem_map.mp hp
    obtain ⟨_, _, rfl⟩ := List.mem_map.mp hq
    exact Or.inl hlt

/-- The state of the loops of `getClosestIndex` after the nodes `l`: either no node
was accepted, and then every node with negative level set is farther than the initial
bound, or the accepted node `p` has a negative level set, is at least as close as
every such node visited before it, and strictly closer than every such node visited
after it. -/
theorem visit_foldl (g : GpuGrid K) (pCurrPhi : Nat → K) (xSurface ySurface : K)
    (initial : getClosestIndex.Closest K) (l : List (Nat × Nat)) :
    (l.foldl (fun st p => getClosestIndex.visit g pCurrPhi xSurface ySurface st p.1 p.2)
          initial = initial ∧
        ∀ q ∈ l, pCurrPhi ((q.2 * g.nx + q.1) % 2 ^ 32) < 0 →
          initial.minDistanceSquared <
            getClosestIndex.distanceSquared g xSurface ySurface q.1 q.2) ∨
      ∃ l1 p l2, l = l1 ++ p :: l2 ∧ pCurrPhi ((p.2 * g.nx + p.1) % 2 ^ 32) < 0 ∧
        getClosestIndex.distanceSquared g xSurface ySurface p.1 p.2 ≤
          initial.minDistanceSquared ∧
        l.foldl (fun st p => getClosestIndex.visit g pCurrPhi xSurface ySurface st p.1 p.2)
            initial =
          { minDistanceSquared := getClosestIndex.distanceSquared g xSurface ySurface p.1 p.2
            iClosest := p.1, jClosest := p.2 } ∧
        (∀ q ∈ l1, pCurrPhi ((q.2 * g.nx + q.1) % 2 ^ 32) < 0 →
          getClosestIndex.distanceSquared g xSurface ySurface p.1 p.2 ≤
            getClosestIndex.distanceSquared g xSurface ySurface q.1 q.2) ∧
        (∀ q ∈ l2, pCurrPhi ((q.2 * g.nx + q.1) % 2 ^ 32) < 0 →
          getClosestIndex.distanceSquared g xSurface ySurface p.1 p.2 <
            getClosestIndex.distanceSquared g xSurface ySurface q.1 q.2) := by
  induction l using List.reverseRecOn with
  | nil => exact Or.inl ⟨rfl, fun q hq => absurd hq (List.not_mem_nil q)⟩
  | append_singleton l q ih =>
    rw [List.foldl_append, List.foldl_cons, List.foldl_nil]
    generalize l.foldl (fun st p => getClosestIndex.visit g pCurrPhi xSurface ySurface st p.1 p.2)
      initial = st at ih ⊢
    unfold getClosestIndex.visit
    by_cases hq : pCurrPhi ((q.2 * g.nx + q.1) % 2 ^ 32) ≥ 0
    · rw [if_pos hq]
      rcases ih with ⟨hst, hall⟩ | ⟨l1, p, l2, hl, hp, hle, hst, h1, h2⟩
      · refine Or.inl ⟨hst, fun x hx hneg => ?_⟩
        rcases List.mem_append.mp hx with hx | hx
        · exact hall x hx hneg
        · rw [List.mem_singleton.mp hx] at hneg
          exact absurd hq (not_le.mpr hneg)
      · refine Or.inr ⟨l1, p, l2 ++ [q], by rw [hl, List.append_assoc, List.cons_append],
          hp, hle, hst, h1, fun x hx hneg => ?_⟩
        rcases List.mem_append.mp hx with hx | hx
        · exact h2 x hx hneg
        · rw [List.mem_singleton.mp hx] at hneg
          exact absurd hq (not_le.mpr hneg)
    · rw [if_neg hq]
      have hneg : pCurrPhi ((q.2 * g.nx + q.1) % 2 ^ 32) < 0 := not_le.mp hq
      by_cases hd : st.minDistanceSquared <
          getClosestIndex.distanceSquared g xSurface ySurface q.1 q.2
      · simp only [hd, if_true]
        rcases ih with ⟨hst, hall⟩ | ⟨l1, p, l2, hl, hp, hle, hst, h1, h2⟩
        · refine Or.inl ⟨hst, fun x hx hxneg => ?_⟩
          rcases List.mem_append.mp hx with hx | hx
          · exact hall x hx hxneg
          · rw [List.mem_singleton.mp hx, ← hst]
            exact hd
        · refine Or.inr ⟨l1, p, l2 ++ [q], by rw [hl, List.append_assoc, List.cons_append],
            hp, hle, hst, h1, fun x hx hxneg => ?_⟩
          rcases List.mem_append.mp hx with hx | hx
          · exact h2 x hx hxneg
          · rw [List.mem_singleton.mp hx]
            rw [hst] at hd
            exact hd
      · simp only [hd, if_false]
        have hd' : getClosestIndex.distanceSquared g xSurface ySurface q.1 q.2 ≤
            st.minDistanceSquared := not_lt.mp hd
        refine Or.inr ⟨l, q, [], rfl, hneg, ?_, rfl, ?_, fun x hx => absurd hx (List.not_mem_nil x)⟩
        · rcases ih with ⟨hst, _⟩ | ⟨l1, p, l2, hl, hp, hle, hst, h1, h2⟩
          · rw [← hst]
            exact hd'
          · rw [hst] at hd'
            exact le_trans hd' hle
        · intro x hx hxneg
          rcases ih with ⟨hst, hall⟩ | ⟨l1, p, l2, hl, hp, hle, hst, h1, h2⟩
          · rw [hst] at hd'
            exact le_trans hd' (le_of_lt (hall x hx hxneg))
          · rw [hst] at hd'
            rw [hl] at hx
            rcases List.mem_append.mp hx with hx | hx
            · exact le_trans hd' (h1 x hx hxneg)
            · rcases List.mem_cons.mp hx with hx | hx
              · rw [hx]
                exact hd'
              · exact le_trans hd' (le_of_lt (h2 x hx hxneg))

end ClosestIndexTheorems

section ClosestIndexResultTheorems

variable {K : Type} [LinearOrderedField K] [FloorRing K]

/-- When both loops end, `getClosestIndex` returns the index of the state after the
scan of the nodes in scan order. -/
theorem getClosestIndex_eq (g : GpuGrid K) (ext : GpuGridExtent K) (pCurrPhi : Nat → K)
    (i j : Nat) (nx ny : K) (is js : List Nat)
    (hi : getClosestIndex.scan (getClosestIndex.iSurface g pCurrPhi i j nx) = some is)
    (hj : getClosestIndex.scan (getClosestIndex.jSurface g pCurrPhi i j ny) = some js) :
    getClosestIndex g ext pCurrPhi i j nx ny =
      some (getClosestIndex.result g
        ((getClosestIndex.scanOrder is js).foldl
          (fun st p => getClosestIndex.visit g pCurrPhi
            (getClosestIndex.xSurface g pCurrPhi i j nx)
            (getClosestIndex.ySurface g pCurrPhi i j ny) st p.1 p.2)
          { minDistanceSquared := ext.lx * ext.lx + ext.ly * ext.ly, iClosest := ext.n,
            jClosest := ext.n })) := by
  unfold getClosestIndex
  simp only [hi, hj]
  rw [foldl_scanOrder]

/-- The node that `getClosestIndex` returns when neither loop wraps and the window holds
a node with negative level set within the initial bound: a node of the window with
negative level set, at least as close to the foot point as every such node, and visited
after every such node at the same distance. -/
theorem getClosestIndex_selected (g : GpuGrid K) (ext : GpuGridExtent K) (pCurrPhi : Nat → K)
    (i j : Nat) (nx ny : K)
    (hi : 3 ≤ getClosestIndex.iSurface g pCurrPhi i j nx ∧
      getClosestIndex.iSurface g pCurrPhi i j nx + 3 < 2 ^ 32 - 1)
    (hj : 3 ≤ getClosestIndex.jSurface g pCurrPhi i j ny ∧
      getClosestIndex.jSurface g pCurrPhi i j ny + 3 < 2 ^ 32 - 1)
    (hgas : ∃ a b,
      (getClosestIndex.iSurface g pCurrPhi i j nx - 3 ≤ a ∧
        a ≤ getClosestIndex.iSurface g pCurrPhi i j nx + 3) ∧
      (getClosestIndex.jSurface g pCurrPhi i j ny - 3 ≤ b ∧
        b ≤ getClosestIndex.jSurface g pCurrPhi i j ny + 3) ∧
      pCurrPhi ((b * g.nx + a) % 2 ^ 32) < 0 ∧
      getClosestIndex.distanceSquared g (getClosestIndex.xSurface g pCurrPhi i j nx)
        (getClosestIndex.ySurface g pCurrPhi i j ny) a b ≤ ext.lx * ext.lx + ext.ly * ext.ly) :
    ∃ a b,
      (getClosestIndex.iSurface g pCurrPhi i j nx - 3 ≤ a ∧
        a ≤ getClosestIndex.iSurface g pCurrPhi i j nx + 3) ∧
      (getClosestIndex.jSurface g pCurrPhi i j ny - 3 ≤ b ∧
        b ≤ getClosestIndex.jSurface g pCurrPhi i j ny + 3) ∧
      pCurrPhi ((b * g.nx + a) % 2 ^ 32) < 0 ∧
      getClosestIndex g ext pCurrPhi i j nx ny = some ((b * g.nx + a) % 2 ^ 32) ∧
      ∀ a' b',
        (getClosestIndex.iSurface g pCurrPhi i j nx - 3 ≤ a' ∧
          a' ≤ getClosestIndex.iSurface g pCurrPhi i j nx + 3) →
        (getClosestIndex.jSurface g pCurrPhi i j ny - 3 ≤ b' ∧
          b' ≤ getClosestIndex.jSurface g pCurrPhi i j ny + 3) →
        pCurrPhi ((b' * g.nx + a') % 2 ^ 32) < 0 →
        getClosestIndex.distanceSquared g (getClosestIndex.xSurface g pCurrPhi i j nx)
            (getClosestIndex.ySurface g pCurrPhi i j ny) a b ≤
          getClosestIndex.distanceSquared g (getClosestIndex.xSurface g pCurrPhi i j nx)
            (getClosestIndex.ySurface g pCurrPhi i j ny) a' b' ∧
        (getClosestIndex.distanceSquared g (getClosestIndex.xSurface g pCurrPhi i j nx)
            (getClosestIndex.ySurface g pCurrPhi i j ny) a' b' ≤
          getClosestIndex.distanceSquared g (getClosestIndex.xSurface g pCurrPhi i j nx)
            (getClosestIndex.ySurface g pCurrPhi i j ny) a b →
          a' < a ∨ (a' = a ∧ b' ≤ b)) := by
  rw [getClosestIndex_eq g ext pCurrPhi i j nx ny _ _ (scan_eq hi.1 hi.2) (scan_eq hj.1 hj.2)]
  generalize getClosestIndex.iSurface g pCurrPhi i j nx = iS at hi hgas ⊢
  generalize getClosestIndex.jSurface g pCurrPhi i j ny = jS at hj hgas ⊢
  generalize getClosestIndex.xSurface g pCurrPhi i j nx = xS at hgas ⊢
  generalize getClosestIndex.ySurface g pCurrPhi i j ny = yS at hgas ⊢
  have hmem : ∀ q : Nat × Nat,
      q ∈ getClosestIndex.scanOrder (List.range' (iS - 3) 7) (List.range' (jS - 3) 7) ↔
        (iS - 3 ≤ q.1 ∧ q.1 ≤ iS + 3) ∧ (jS - 3 ≤ q.2 ∧ q.2 ≤ jS + 3) := by
    intro q
    rw [mem_scanOrder, List.mem_range'_1, List.mem_range'_1]
    omega
  have hord := scanOrder_pairwise (iS - 3) 7 (jS - 3) 7
  rcases visit_foldl g pCurrPhi xS yS
      { minDistanceSquared := ext.lx * ext.lx + ext.ly * ext.ly, iClosest := ext.n,
        jClosest := ext.n }
      (getClosestIndex.scanOrder (List.range' (iS - 3) 7) (List.range' (jS - 3) 7)) with
    ⟨_, hall⟩ | ⟨l1, p, l2, hl, hp, _, hst, h1, h2⟩
  · obtain ⟨a, b, ha, hb, hneg, hd⟩ := hgas
    exact absurd (hall (a, b) ((hmem (a, b)).mpr ⟨ha, hb⟩) hneg) (not_lt.mpr hd)
  · have hpmem : p ∈ getClosestIndex.scanOrder (List.range' (iS - 3) 7)
        (List.range' (jS - 3) 7) := by
      rw [hl]
      exact List.mem_append_right _ (List.mem_cons_self p l2)
    obtain ⟨hpa, hpb⟩ := (hmem p).mp hpmem
    refine ⟨p.1, p.2, hpa, hpb, hp, ?_, ?_⟩
    · rw [hst]
      rfl
    · intro a' b' ha' hb' hneg'
      have hq : (a', b') ∈ l1 ++ p :: l2 := by
        rw [← hl]
        exact (hmem (a', b')).mpr ⟨ha', hb'⟩
      rw [hl] at hord
      rcases List.mem_append.mp hq with hq | hq
      · refine ⟨h1 (a', b') hq hneg', fun _ => ?_⟩
        have := (List.pairwise_append.mp hord).2.2 (a', b') hq p (List.mem_cons_self p l2)
        rcases this with h | ⟨h, h'⟩
        · exact Or.inl h
        · exact Or.inr ⟨h, le_of_lt h'⟩
      · rcases List.mem_cons.mp hq with hq | hq
        · rw [← hq]
          exact ⟨le_refl _, fun _ => Or.inr ⟨rfl, le_refl _⟩⟩
        · exact ⟨le_of_lt (h2 (a', b') hq hneg'),
            fun hle => absurd (h2 (a', b') hq hneg') (not_lt.mpr hle)⟩

/-- When no visited node has a negative level set, `getClosestIndex` returns the value
`n * nx + n` of the initial `iClosest` and `jClosest`. -/
theorem getClosestIndex_none_negative (g : GpuGrid K) (ext : GpuGridExtent K)
    (pCurrPhi : Nat → K) (i j : Nat) (nx ny : K) (is js : List Nat)
    (hi : getClosestIndex.scan (getClosestIndex.iSurface g pCurrPhi i j nx) = some is)
    (hj : getClosestIndex.scan (getClosestIndex.jSurface g pCurrPhi i j ny) = some js)
    (hnone : ∀ a ∈ is, ∀ b ∈ js, 0 ≤ pCurrPhi ((b * g.nx + a) % 2 ^ 32)) :
    getClosestIndex g ext pCurrPhi i j nx ny = some ((ext.n * g.nx + ext.n) % 2 ^ 32) := by
  rw [getClosestIndex_eq g ext pCurrPhi i j nx ny is js hi hj]
  rcases visit_foldl g pCurrPhi (getClosestIndex.xSurface g pCurrPhi i j nx)
      (getClosestIndex.ySurface g pCurrPhi i j ny)
      { minDistanceSquared := ext.lx * ext.lx + ext.ly * ext.ly, iClosest := ext.n,
        jClosest := ext.n }
      (getClosestIndex.scanOrder is js) with
    ⟨hst, _⟩ | ⟨l1, p, l2, hl, hp, _, _, _, _⟩
  · rw [hst]
    rfl
  · have hpmem : p ∈ getClosestIndex.scanOrder is js := by
      rw [hl]
      exact List.mem_append_right _ (List.mem_cons_self p l2)
    obtain ⟨hpa, hpb⟩ := (mem_scanOrder is js p).mp hpmem
    exact absurd hp (not_lt.mpr (hnone p.1 hpa p.2 hpb))

end ClosestIndexResultTheorems

section GhostMapIndexTheorems

variable {K : Type}

/-- The unsigned edge test of `findClosestIndices` is the test read over the integers. -/
theorem inEdgeMargin_iff (g : GpuGrid K) (t : Worker) (hfit : g.FitsUnsigned)
    (he : t.outsideGrid g = false) :
    t.inEdgeMargin g = true ↔
      (t.i g < 10 ∨ t.j g < 10 ∨ g.nx ≤ t.i g + 10 ∨ g.ny ≤ t.j g + 10) := by
  obtain ⟨hi, hj⟩ := (outsideGrid_eq_false g t).mp he
  have hnx := hfit.nx_lt
  have hny := hfit.ny_lt
  unfold Worker.inEdgeMargin subU32
  simp only [Bool.or_eq_true, decide_eq_true_eq, ge_iff_le]
  omega

/-- A thread at least 10 nodes from every edge passes both early returns. -/
theorem passes_early_returns (g : GpuGrid K) (t : Worker) (hfit : g.FitsUnsigned)
    (hi : 10 ≤ t.i g ∧ t.i g + 10 < g.nx) (hj : 10 ≤ t.j g ∧ t.j g + 10 < g.ny) :
    t.outsideGrid g = false ∧ t.inEdgeMargin g = false := by
  have he : t.outsideGrid g = false :=
    (outsideGrid_eq_false g t).mpr ⟨by omega, by omega⟩
  refine ⟨he, ?_⟩
  have h := inEdgeMargin_iff g t hfit he
  by_cases hm : t.inEdgeMargin g = true
  · have := h.mp hm
    omega
  · simpa using hm

/-- A fold of fallible steps does not return when one step never does. -/
theorem foldlM_none {σ α : Type} (f : σ → α → Option σ) (l : List α) (t0 : α) (ht0 : t0 ∈ l)
    (h0 : ∀ s, f s t0 = none) (s : σ) : l.foldlM f s = none := by
  induction l generalizing s with
  | nil => cases ht0
  | cons a l ih =>
    simp only [List.foldlM_cons, Option.bind_eq_bind]
    cases hfa : f s a with
    | none => rfl
    | some s1 =>
      rw [Option.some_bind]
      rcases List.mem_cons.mp ht0 with h | h
      · rw [← h, h0 s] at hfa
        cases hfa
      · exact ih h s1

end GhostMapIndexTheorems

section GhostBandTheorems

variable {K : Type} [LinearOrderedField K]

/-- The flag `pointIsGhost` is the band test `0 ≤ phi < 5 * hx`. -/
theorem pointIsGhost_iff (g : GpuGrid K) (pCurrPhi : Nat → K) (t : Worker) :
    findClosestIndices.pointIsGhost g pCurrPhi t = true ↔
      0 ≤ pCurrPhi (t.globalIdx g) ∧ pCurrPhi (t.globalIdx g) < 5 * g.hx := by
  unfold findClosestIndices.pointIsGhost
  simp only [Bool.and_eq_true, decide_eq_true_eq, ge_iff_le]
  constructor
  · rintro ⟨h0, h1⟩
    exact ⟨h0, by rwa [abs_of_nonneg h0] at h1⟩
  · rintro ⟨h0, h1⟩
    exact ⟨h0, by rwa [abs_of_nonneg h0]⟩

end GhostBandTheorems

section GhostMapThreadTheorems

variable {K : Type} [LinearOrderedField K] [FloorRing K]

/-- A thread outside the grid or fewer than 10 nodes from an edge changes nothing. -/
theorem thread_skipped (g : GpuGrid K) (ext : GpuGridExtent K) (dev : GhostMapDevice K)
    (pCurrPhi : Nat → K) (t : Worker) (out : GhostMapOutputs K)
    (h : t.outsideGrid g = true ∨ t.inEdgeMargin g = true) :
    findClosestIndices.thread g ext dev pCurrPhi t out = some out := by
  unfold findClosestIndices.thread
  rcases h with h | h
  · simp only [h, if_true]
  · by_cases he : t.outsideGrid g = true
    · simp only [he, if_true]
    · simp only [he, h, if_true, if_false, Bool.false_eq_true]

/-- A thread that passes both early returns and whose cell is not a ghost cell stores
its normal only. -/
theorem thread_notGhost (g : GpuGrid K) (ext : GpuGridExtent K) (dev : GhostMapDevice K)
    (pCurrPhi : Nat → K) (t : Worker) (out : GhostMapOutputs K)
    (he : t.outsideGrid g = false) (hm : t.inEdgeMargin g = false)
    (hg : findClosestIndices.pointIsGhost g pCurrPhi t = false) :
    findClosestIndices.thread g ext dev pCurrPhi t out =
      some { out with
        pNormals := Function.update out.pNormals (t.globalIdx g)
          (findClosestIndices.normal g dev.toLevelSetDevice pCurrPhi t) } := by
  unfold findClosestIndices.thread
  simp only [he, hm, hg, Bool.false_eq_true, if_false, Bool.not_false, if_true]

/-- A thread whose ghost cell passes the mirror test records the mirror node. -/
theorem thread_mirror (g : GpuGrid K) (ext : GpuGridExtent K) (dev : GhostMapDevice K)
    (pCurrPhi : Nat → K) (t : Worker) (out : GhostMapOutputs K)
    (he : t.outsideGrid g = false) (hm : t.inEdgeMargin g = false)
    (hg : findClosestIndices.pointIsGhost g pCurrPhi t = true)
    (hw : findClosestIndices.boundaryCondition g dev pCurrPhi t = EBoundaryCondition.eWall ∧
      findClosestIndices.mirrorAccepted g dev pCurrPhi t = true) :
    findClosestIndices.thread g ext dev pCurrPhi t out =
      some { pNormals := Function.update out.pNormals (t.globalIdx g)
              (findClosestIndices.normal g dev.toLevelSetDevice pCurrPhi t)
             pClosestIndices := Function.update out.pClosestIndices (t.globalIdx g)
              (t.globalIdx g, findClosestIndices.mirrorGlobalIdx g dev pCurrPhi t)
             pBoundaryConditions := Function.update out.pBoundaryConditions (t.globalIdx g)
              EBoundaryCondition.eMirror } := by
  unfold findClosestIndices.thread
  simp only [he, hm, hg, Bool.false_eq_true, if_false, Bool.not_true, hw, and_self, if_true]

/-- A thread whose ghost cell fails the mirror test records what `getClosestIndex`
returns together with the classification of the foot point, and does not return when
`getClosestIndex` does not. -/
theorem thread_closest (g : GpuGrid K) (ext : GpuGridExtent K) (dev : GhostMapDevice K)
    (pCurrPhi : Nat → K) (t : Worker) (out : GhostMapOutputs K)
    (he : t.outsideGrid g = false) (hm : t.inEdgeMargin g = false)
    (hg : findClosestIndices.pointIsGhost g pCurrPhi t = true)
    (hw : ¬(findClosestIndices.boundaryCondition g dev pCurrPhi t = EBoundaryCondition.eWall ∧
      findClosestIndices.mirrorAccepted g dev pCurrPhi t = true)) :
    findClosestIndices.thread g ext dev pCurrPhi t out =
      (getClosestIndex g ext pCurrPhi (t.i g) (t.j g)
          (findClosestIndices.normal g dev.toLevelSetDevice pCurrPhi t).x
          (findClosestIndices.normal g dev.toLevelSetDevice pCurrPhi t).y).map
        (fun closestGlobalIdx =>
          { pNormals := Function.update out.pNormals (t.globalIdx g)
              (findClosestIndices.normal g dev.toLevelSetDevice pCurrPhi t)
            pClosestIndices := Function.update out.pClosestIndices (t.globalIdx g)
              (t.globalIdx g, closestGlobalIdx)
            pBoundaryConditions := Function.update out.pBoundaryConditions (t.globalIdx g)
              (findClosestIndices.boundaryCondition g dev pCurrPhi t) }) := by
  unfold findClosestIndices.thread
  simp only [he, hm, hg, Bool.false_eq_true, if_false, Bool.not_true, hw]
  cases getClosestIndex g ext pCurrPhi (t.i g) (t.j g)
      (findClosestIndices.normal g dev.toLevelSetDevice pCurrPhi t).x
      (findClosestIndices.normal g dev.toLevelSetDevice pCurrPhi t).y <;> rfl

/-- A thread writes the three output arrays at its own cell only. -/
theorem thread_frame (g : GpuGrid K) (ext : GpuGridExtent K) (dev : GhostMapDevice K)
    (pCurrPhi : Nat → K) (t : Worker) (out out' : GhostMapOutputs K) (k : Nat)
    (h : findClosestIndices.thread g ext dev pCurrPhi t out = some out')
    (hk : k ≠ t.globalIdx g) :
    out'.pClosestIndices k = out.pClosestIndices k ∧
      out'.pBoundaryConditions k = out.pBoundaryConditions k ∧
      out'.pNormals k = out.pNormals k := by
  by_cases he : t.outsideGrid g = true
  · rw [thread_skipped g ext dev pCurrPhi t out (Or.inl he)] at h
    cases h
    exact ⟨rfl, rfl, rfl⟩
  by_cases hm : t.inEdgeMargin g = true
  · rw [thread_skipped g ext dev pCurrPhi t out (Or.inr hm)] at h
    cases h
    exact ⟨rfl, rfl, rfl⟩
  have he' : t.outsideGrid g = false := by simpa using he
  have hm' : t.inEdgeMargin g = false := by simpa using hm
  by_cases hg : findClosestIndices.pointIsGhost g pCurrPhi t = true
  · by_cases hw : findClosestIndices.boundaryCondition g dev pCurrPhi t =
        EBoundaryCondition.eWall ∧ findClosestIndices.mirrorAccepted g dev pCurrPhi t = true
    · rw [thread_mirror g ext dev pCurrPhi t out he' hm' hg hw] at h
      cases h
      exact ⟨Function.update_noteq hk _ _, Function.update_noteq hk _ _,
        Function.update_noteq hk _ _⟩
    · rw [thread_closest g ext dev pCurrPhi t out he' hm' hg hw] at h
      obtain ⟨c, _, hc⟩ := Option.map_eq_some'.mp h
      rw [← hc]
      exact ⟨Function.update_noteq hk _ _, Function.update_noteq hk _ _,
        Function.update_noteq hk _ _⟩
  · have hg' : findClosestIndices.pointIsGhost g pCurrPhi t = false := by simpa using hg
    rw [thread_notGhost g ext dev pCurrPhi t out he' hm' hg'] at h
    cases h
    exact ⟨rfl, rfl, Function.update_noteq hk _ _⟩

/-- An observation of the cell `k` is not changed by a thread of another cell. -/
theorem thread_other {β : Type} (g : GpuGrid K) (ext : GpuGridExtent K)
    (dev : GhostMapDevice K) (pCurrPhi : Nat → K) (k : Nat) (π : GhostMapOutputs K → β)
    (hπ : ∀ s s' : GhostMapOutputs K, s'.pClosestIndices k = s.pClosestIndices k →
      s'.pBoundaryConditions k = s.pBoundaryConditions k → s'.pNormals k = s.pNormals k →
      π s' = π s)
    (b : Worker) (hb : b.outsideGrid g = false → b.globalIdx g ≠ k)
    (s s' : GhostMapOutputs K) (h : findClosestIndices.thread g ext dev pCurrPhi b s = some s') :
    π s' = π s := by
  by_cases he : b.outsideGrid g = true
  · rw [thread_skipped g ext dev pCurrPhi b s (Or.inl he)] at h
    cases h
    rfl
  · obtain ⟨h1, h2, h3⟩ := thread_frame g ext dev pCurrPhi b s s' k h
      (Ne.symm (hb (by simpa using he)))
    exact hπ s s' h1 h2 h3

/-- An observation of the own cell of a thread inside the grid that the thread sets to
`v` is `v` after the kernel. -/
theorem findClosestIndices_written {β : Type} (g : GpuGrid K) (ext : GpuGridExtent K)
    (dev : GhostMapDevice K) (pCurrPhi : Nat → K) (t : Worker) (π : GhostMapOutputs K → β)
    (v : β)
    (hπ : ∀ s s' : GhostMapOutputs K,
      s'.pClosestIndices (t.globalIdx g) = s.pClosestIndices (t.globalIdx g) →
      s'.pBoundaryConditions (t.globalIdx g) = s.pBoundaryConditions (t.globalIdx g) →
      s'.pNormals (t.globalIdx g) = s.pNormals (t.globalIdx g) → π s' = π s)
    (ht : t ∈ launchWorkers g) (he : t.outsideGrid g = false)
    (hown : ∀ s s', findClosestIndices.thread g ext dev pCurrPhi t s = some s' → π s' = v)
    (out out' : GhostMapOutputs K)
    (hfold : findClosestIndices g ext dev pCurrPhi out = some out') : π out' = v := by
  unfold findClosestIndices at hfold
  refine foldlM_single_write
    (fun out t => findClosestIndices.thread g ext dev pCurrPhi t out) π v (launchWorkers g) t ht
    hown ?_ out out' hfold
  intro b hb hbt s s' hs
  refine thread_other g ext dev pCurrPhi (t.globalIdx g) π hπ b (fun hbe hidx => hbt ?_) s s' hs
  obtain ⟨_, _, hbi, hbj⟩ := (mem_launchWorkers g b).mp hb
  obtain ⟨_, _, hti, htj⟩ := (mem_launchWorkers g t).mp ht
  exact globalIdx_inj g b t hbi hbj hti htj ((outsideGrid_eq_false g b).mp hbe).1
    ((outsideGrid_eq_false g t).mp he).1 hidx

/-- An observation of the cell `k` that no thread of that cell changes is unchanged by
the kernel. -/
theorem findClosestIndices_kept {β : Type} (g : GpuGrid K) (ext : GpuGridExtent K)
    (dev : GhostMapDevice K) (pCurrPhi : Nat → K) (k : Nat) (π : GhostMapOutputs K → β)
    (hπ : ∀ s s' : GhostMapOutputs K, s'.pClosestIndices k = s.pClosestIndices k →
      s'.pBoundaryConditions k = s.pBoundaryConditions k → s'.pNormals k = s.pNormals k →
      π s' = π s)
    (hown : ∀ t ∈ launchWorkers g, t.globalIdx g = k → ∀ s s',
      findClosestIndices.thread g ext dev pCurrPhi t s = some s' → π s' = π s)
    (out out' : GhostMapOutputs K)
    (hfold : findClosestIndices g ext dev pCurrPhi out = some out') : π out' = π out := by
  unfold findClosestIndices at hfold
  refine foldlM_invariant
    (fun out t => findClosestIndices.thread g ext dev pCurrPhi t out) (fun s => π s = π out)
    (launchWorkers g) ?_ out out' rfl hfold
  intro b hb s s' hs hfs
  rw [← hs]
  by_cases hidx : b.globalIdx g = k
  · exact hown b hb hidx s s' hfs
  · exact thread_other g ext dev pCurrPhi k π hπ b (fun _ => hidx) s s' hfs

end GhostMapThreadTheorems

section GhostMapKernelTheorems

variable {K : Type} [LinearOrderedField K] [FloorRing K]

/-- The test of line 58 accepts the mirror node exactly when the reflected point is
within the tolerance of the rounded node and the level set is negative there. -/
theorem mirrorAccepted_iff (g : GpuGrid K) (dev : GhostMapDevice K) (pCurrPhi : Nat → K)
    (t : Worker) :
    findClosestIndices.mirrorAccepted g dev pCurrPhi t = true ↔
      |findClosestIndices.iMirror g dev pCurrPhi t -
            (stdRound (findClosestIndices.iMirror g dev pCurrPhi t) : K)| +
          |findClosestIndices.jMirror g dev pCurrPhi t -
            (stdRound (findClosestIndices.jMirror g dev pCurrPhi t) : K)| < (1 / 100) * g.hx ∧
        pCurrPhi (findClosestIndices.mirrorGlobalIdx g dev pCurrPhi t) < 0 := by
  unfold findClosestIndices.mirrorAccepted
  simp only [Bool.and_eq_true, decide_eq_true_eq]

/-- After the kernel the entry of `pNormals` of a thread that passes both early returns
is the normal of the thread. -/
theorem findClosestIndices_normal_stored (g : GpuGrid K) (ext : GpuGridExtent K)
    (dev : GhostMapDevice K) (pCurrPhi : Nat → K) (t : Worker) (out out' : GhostMapOutputs K)
    (ht : t ∈ launchWorkers g) (he : t.outsideGrid g = false) (hm : t.inEdgeMargin g = false)
    (hfold : findClosestIndices g ext dev pCurrPhi out = some out') :
    out'.pNormals (t.globalIdx g) =
      findClosestIndices.normal g dev.toLevelSetDevice pCurrPhi t := by
  refine findClosestIndices_written g ext dev pCurrPhi t (fun s => s.pNormals (t.globalIdx g)) _
    (fun _ _ _ _ h => h) ht he ?_ out out' hfold
  intro s s' hs
  by_cases hg : findClosestIndices.pointIsGhost g pCurrPhi t = true
  · by_cases hw : findClosestIndices.boundaryCondition g dev pCurrPhi t =
        EBoundaryCondition.eWall ∧ findClosestIndices.mirrorAccepted g dev pCurrPhi t = true
    · rw [thread_mirror g ext dev pCurrPhi t s he hm hg hw] at hs
      cases hs
      exact Function.update_same _ _ _
    · rw [thread_closest g ext dev pCurrPhi t s he hm hg hw] at hs
      obtain ⟨c, _, hc⟩ := Option.map_eq_some'.mp hs
      rw [← hc]
      exact Function.update_same _ _ _
  · rw [thread_notGhost g ext dev pCurrPhi t s he hm (by simpa using hg)] at hs
    cases hs
    exact Function.update_same _ _ _

/-- After the kernel the record of a ghost cell whose thread passes both early returns is
the mirror record when the mirror test succeeds, and otherwise the result of
`getClosestIndex`, which then returns, with the classification of the foot point. -/
theorem findClosestIndices_ghost_cell (g : GpuGrid K) (ext : GpuGridExtent K)
    (dev : GhostMapDevice K) (pCurrPhi : Nat → K) (t : Worker) (out out' : GhostMapOutputs K)
    (ht : t ∈ launchWorkers g) (he : t.outsideGrid g = false) (hm : t.inEdgeMargin g = false)
    (hg : findClosestIndices.pointIsGhost g pCurrPhi t = true)
    (hfold : findClosestIndices g ext dev pCurrPhi out = some out') :
    ((findClosestIndices.boundaryCondition g dev pCurrPhi t = EBoundaryCondition.eWall ∧
          findClosestIndices.mirrorAccepted g dev pCurrPhi t = true) →
        out'.pClosestIndices (t.globalIdx g) =
            (t.globalIdx g, findClosestIndices.mirrorGlobalIdx g dev pCurrPhi t) ∧
          out'.pBoundaryConditions (t.globalIdx g) = EBoundaryCondition.eMirror) ∧
      (¬(findClosestIndices.boundaryCondition g dev pCurrPhi t = EBoundaryCondition.eWall ∧
          findClosestIndices.mirrorAccepted g dev pCurrPhi t = true) →
        ∃ closestGlobalIdx,
          getClosestIndex g ext pCurrPhi (t.i g) (t.j g)
              (findClosestIndices.normal g dev.toLevelSetDevice pCurrPhi t).x
              (findClosestIndices.normal g dev.toLevelSetDevice pCurrPhi t).y =
            some closestGlobalIdx ∧
          out'.pClosestIndices (t.globalIdx g) = (t.globalIdx g, closestGlobalIdx) ∧
          out'.pBoundaryConditions (t.globalIdx g) =
            findClosestIndices.boundaryCondition g dev pCurrPhi t) := by
  constructor
  · intro hw
    constructor
    · refine findClosestIndices_written g ext dev pCurrPhi t
        (fun s => s.pClosestIndices (t.globalIdx g)) _ (fun _ _ h _ _ => h) ht he ?_ out out' hfold
      intro s s' hs
      rw [thread_mirror g ext dev pCurrPhi t s he hm hg hw] at hs
      cases hs
      exact Function.update_same _ _ _
    · refine findClosestIndices_written g ext dev pCurrPhi t
        (fun s => s.pBoundaryConditions (t.globalIdx g)) _ (fun _ _ _ h _ => h) ht he ?_ out out'
        hfold
      intro s s' hs
      rw [thread_mirror g ext dev pCurrPhi t s he hm hg hw] at hs
      cases hs
      exact Function.update_same _ _ _
  · intro hw
    cases hc : getClosestIndex g ext pCurrPhi (t.i g) (t.j g)
        (findClosestIndices.normal g dev.toLevelSetDevice pCurrPhi t).x
        (findClosestIndices.normal g dev.toLevelSetDevice pCurrPhi t).y with
    | none =>
      have hnone : ∀ s, findClosestIndices.thread g ext dev pCurrPhi t s = none := by
        intro s
        rw [thread_closest g ext dev pCurrPhi t s he hm hg hw, hc]
        rfl
      unfold findClosestIndices at hfold
      rw [foldlM_none (fun out t => findClosestIndices.thread g ext dev pCurrPhi t out)
        (launchWorkers g) t ht hnone out] at hfold
      cases hfold
    | some c =>
      refine ⟨c, rfl, ?_, ?_⟩
      · refine findClosestIndices_written g ext dev pCurrPhi t
          (fun s => s.pClosestIndices (t.globalIdx g)) _ (fun _ _ h _ _ => h) ht he ?_ out out'
          hfold
        intro s s' hs
        rw [thread_closest g ext dev pCurrPhi t s he hm hg hw, hc] at hs
        cases hs
        exact Function.update_same _ _ _
      · refine findClosestIndices_written g ext dev pCurrPhi t
          (fun s => s.pBoundaryConditions (t.globalIdx g)) _ (fun _ _ _ h _ => h) ht he ?_ out
          out' hfold
        intro s s' hs
        rw [thread_closest g ext dev pCurrPhi t s he hm hg hw, hc] at hs
        cases hs
        exact Function.update_same _ _ _

/-- A thread changes `pNormals` as the store of line 39 does. -/
theorem thread_pNormals (g : GpuGrid K) (ext : GpuGridExtent K) (dev : GhostMapDevice K)
    (pCurrPhi : Nat → K) (t : Worker) (s s' : GhostMapOutputs K)
    (hs : findClosestIndices.thread g ext dev pCurrPhi t s = some s') :
    s'.pNormals =
      findClosestIndices.storeNormal g dev.toLevelSetDevice pCurrPhi t s.pNormals := by
  unfold findClosestIndices.storeNormal
  by_cases he : t.outsideGrid g = true
  · rw [thread_skipped g ext dev pCurrPhi t s (Or.inl he)] at hs
    cases hs
    rw [if_pos he]
  by_cases hm : t.inEdgeMargin g = true
  · rw [thread_skipped g ext dev pCurrPhi t s (Or.inr hm)] at hs
    cases hs
    rw [if_neg he, if_pos hm]
  rw [if_neg he, if_neg hm]
  have he' : t.outsideGrid g = false := by simpa using he
  have hm' : t.inEdgeMargin g = false := by simpa using hm
  by_cases hg : findClosestIndices.pointIsGhost g pCurrPhi t = true
  · by_cases hw : findClosestIndices.boundaryCondition g dev pCurrPhi t =
        EBoundaryCondition.eWall ∧ findClosestIndices.mirrorAccepted g dev pCurrPhi t = true
    · rw [thread_mirror g ext dev pCurrPhi t s he' hm' hg hw] at hs
      cases hs
      rfl
    · rw [thread_closest g ext dev pCurrPhi t s he' hm' hg hw] at hs
      obtain ⟨c, _, hc⟩ := Option.map_eq_some'.mp hs
      rw [← hc]
  · rw [thread_notGhost g ext dev pCurrPhi t s he' hm' (by simpa using hg)] at hs
    cases hs
    rfl

/-- The array `pNormals` after the kernel is the array of the model of the lines 21 to 39
alone. -/
theorem findClosestIndices_pNormals_eq (g : GpuGrid K) (ext : GpuGridExtent K)
    (dev : GhostMapDevice K) (pCurrPhi : Nat → K) (out out' : GhostMapOutputs K)
    (hfold : findClosestIndices g ext dev pCurrPhi out = some out') :
    out'.pNormals =
      findClosestIndices.pNormals g dev.toLevelSetDevice pCurrPhi out.pNormals := by
  unfold findClosestIndices at hfold
  unfold findClosestIndices.pNormals
  generalize launchWorkers g = l at hfold
  induction l generalizing out with
  | nil =>
    simp only [List.foldlM_nil, Option.pure_def, Option.some.injEq] at hfold
    rw [← hfold]
    rfl
  | cons a l ih =>
    simp only [List.foldlM_cons, Option.bind_eq_bind, Option.bind_eq_some] at hfold
    obtain ⟨s1, h1, h2⟩ := hfold
    rw [List.foldl_cons, ih s1 h2, thread_pNormals g ext dev pCurrPhi a out s1 h1]

/-- The kernel leaves the closest-index pair and the boundary condition of a cell alone
whose threads return before the stores of lines 61 to 69. -/
theorem findClosestIndices_record_kept (g : GpuGrid K) (ext : GpuGridExtent K)
    (dev : GhostMapDevice K) (pCurrPhi : Nat → K) (k : Nat) (out out' : GhostMapOutputs K)
    (hk : ∀ t ∈ launchWorkers g, t.globalIdx g = k →
      t.outsideGrid g = true ∨ t.inEdgeMargin g = true ∨
        findClosestIndices.pointIsGhost g pCurrPhi t = false)
    (hfold : findClosestIndices g ext dev pCurrPhi out = some out') :
    out'.pClosestIndices k = out.pClosestIndices k ∧
      out'.pBoundaryConditions k = out.pBoundaryConditions k := by
  have hthread : ∀ t ∈ launchWorkers g, t.globalIdx g = k → ∀ s s',
      findClosestIndices.thread g ext dev pCurrPhi t s = some s' →
      s'.pClosestIndices k = s.pClosestIndices k ∧
        s'.pBoundaryConditions k = s.pBoundaryConditions k := by
    intro t ht hidx s s' hs
    rcases hk t ht hidx with h | h | h
    · rw [thread_skipped g ext dev pCurrPhi t s (Or.inl h)] at hs
      cases hs
      exact ⟨rfl, rfl⟩
    · rw [thread_skipped g ext dev pCurrPhi t s (Or.inr h)] at hs
      cases hs
      exact ⟨rfl, rfl⟩
    · by_cases he : t.outsideGrid g = true
      · rw [thread_skipped g ext dev pCurrPhi t s (Or.inl he)] at hs
        cases hs
        exact ⟨rfl, rfl⟩
      by_cases hm : t.inEdgeMargin g = true
      · rw [thread_skipped g ext dev pCurrPhi t s (Or.inr hm)] at hs
        cases hs
        exact ⟨rfl, rfl⟩
      rw [thread_notGhost g ext dev pCurrPhi t s (by simpa using he) (by simpa using hm) h] at hs
      cases hs
      exact ⟨rfl, rfl⟩
  exact ⟨findClosestIndices_kept g ext dev pCurrPhi k (fun s => s.pClosestIndices k)
      (fun _ _ h _ _ => h) (fun t ht hidx s s' hs => (hthread t ht hidx s s' hs).1) out out' hfold,
    findClosestIndices_kept g ext dev pCurrPhi k (fun s => s.pBoundaryConditions k)
      (fun _ _ _ h _ => h) (fun t ht hidx s s' hs => (hthread t ht hidx s s' hs).2) out out' hfold⟩

/-- The kernel leaves the normal of a cell alone whose threads take an early return. -/
theorem findClosestIndices_normal_kept (g : GpuGrid K) (ext : GpuGridExtent K)
    (dev : GhostMapDevice K) (pCurrPhi : Nat → K) (k : Nat) (out out' : GhostMapOutputs K)
    (hk : ∀ t ∈ launchWorkers g, t.globalIdx g = k →
      t.outsideGrid g = true ∨ t.inEdgeMargin g = true)
    (hfold : findClosestIndices g ext dev pCurrPhi out = some out') :
    out'.pNormals k = out.pNormals k := by
  refine findClosestIndices_kept g ext dev pCurrPhi k (fun s => s.pNormals k)
    (fun _ _ _ _ h => h) ?_ out out' hfold
  intro t ht hidx s s' hs
  rw [thread_skipped g ext dev pCurrPhi t s (hk t ht hidx)] at hs
  cases hs
  rfl

/-- Every step of the kernel keeps the property that an entry marked as mirror either
holds the pair and the mark of the array `out` or carries the index of a node with
negative level set, when the shape never answers `eMirror`. -/
theorem thread_mirror_invariant (g : GpuGrid K) (ext : GpuGridExtent K)
    (dev : GhostMapDevice K) (pCurrPhi : Nat → K) (out : GhostMapOutputs K)
    (hshape : ∀ x y, dev.getBoundaryCondition x y ≠ EBoundaryCondition.eMirror)
    (t : Worker) (s s' : GhostMapOutputs K)
    (hI : ∀ k, s.pBoundaryConditions k = EBoundaryCondition.eMirror →
      (s.pBoundaryConditions k = out.pBoundaryConditions k ∧
          s.pClosestIndices k = out.pClosestIndices k) ∨
        pCurrPhi (s.pClosestIndices k).2 < 0)
    (hs : findClosestIndices.thread g ext dev pCurrPhi t s = some s') :
    ∀ k, s'.pBoundaryConditions k = EBoundaryCondition.eMirror →
      (s'.pBoundaryConditions k = out.pBoundaryConditions k ∧
          s'.pClosestIndices k = out.pClosestIndices k) ∨
        pCurrPhi (s'.pClosestIndices k).2 < 0 := by
  intro k hk
  by_cases hidx : k = t.globalIdx g
  · by_cases he : t.outsideGrid g = true
    · rw [thread_skipped g ext dev pCurrPhi t s (Or.inl he)] at hs
      cases hs
      exact hI k hk
    by_cases hm : t.inEdgeMargin g = true
    · rw [thread_skipped g ext dev pCurrPhi t s (Or.inr hm)] at hs
      cases hs
      exact hI k hk
    have he' : t.outsideGrid g = false := by simpa using he
    have hm' : t.inEdgeMargin g = false := by simpa using hm
    by_cases hg : findClosestIndices.pointIsGhost g pCurrPhi t = true
    · by_cases hw : findClosestIndices.boundaryCondition g dev pCurrPhi t =
          EBoundaryCondition.eWall ∧ findClosestIndices.mirrorAccepted g dev pCurrPhi t = true
      · rw [thread_mirror g ext dev pCurrPhi t s he' hm' hg hw] at hs
        cases hs
        subst hidx
        right
        simp only [Function.update_same]
        exact ((mirrorAccepted_iff g dev pCurrPhi t).mp hw.2).2
      · rw [thread_closest g ext dev pCurrPhi t s he' hm' hg hw] at hs
        obtain ⟨c, _, hc⟩ := Option.map_eq_some'.mp hs
        rw [← hc] at hk
        subst hidx
        simp only [Function.update_same] at hk
        exact absurd hk (hshape _ _)
    · rw [thread_notGhost g ext dev pCurrPhi t s he' hm' (by simpa using hg)] at hs
      cases hs
      exact hI k hk
  · obtain ⟨h1, h2, _⟩ := thread_frame g ext dev pCurrPhi t s s' k hs hidx
    rw [h2] at hk
    rw [h1, h2]
    exact hI k hk

/-- `std::round` of a value that is at most an integer is at most that integer. -/
theorem stdRound_le (x : K) (n : ℤ) (h : x ≤ n) : stdRound x ≤ n := by
  unfold stdRound
  by_cases h0 : 0 ≤ x
  · rw [if_pos h0]
    have hlt : ⌊x + 1 / 2⌋ < n + 1 := by
      rw [Int.floor_lt]
      push_cast
      linarith
    omega
  · rw [if_neg h0]
    rw [Int.ceil_le]
    linarith

/-- The conversion to `unsigned` of an integer that is at most `n` is at most `n`. -/
theorem toUnsigned_le (z : ℤ) (n : Nat) (h : z ≤ n) : toUnsigned z ≤ n := by
  unfold toUnsigned
  have h1 : z.toNat ≤ n := Int.toNat_le.mpr h
  exact le_trans (Nat.min_le_left _ _) h1

/-- `getClosestIndex` returns when the upper bounds of both loops stay below the largest
`unsigned` value. -/
theorem getClosestIndex_returns (g : GpuGrid K) (ext : GpuGridExtent K) (pCurrPhi : Nat → K)
    (i j : Nat) (nx ny : K)
    (hi : getClosestIndex.iSurface g pCurrPhi i j nx + 3 < 2 ^ 32 - 1)
    (hj : getClosestIndex.jSurface g pCurrPhi i j ny + 3 < 2 ^ 32 - 1) :
    ∃ closestGlobalIdx, getClosestIndex g ext pCurrPhi i j nx ny = some closestGlobalIdx := by
  have hscan : ∀ c : Nat, c + 3 < 2 ^ 32 - 1 → ∃ l, getClosestIndex.scan c = some l := by
    intro c hc
    unfold getClosestIndex.scan
    have h2 : (c + 3) % 2 ^ 32 = c + 3 := Nat.mod_eq_of_lt (by omega)
    simp only [h2]
    rw [if_neg (by omega)]
    by_cases h : subU32 c 3 ≤ c + 3
    · exact ⟨_, if_pos h⟩
    · exact ⟨_, if_neg h⟩
  obtain ⟨is, his⟩ := hscan _ hi
  obtain ⟨js, hjs⟩ := hscan _ hj
  exact ⟨_, getClosestIndex_eq g ext pCurrPhi i j nx ny is js his hjs⟩

/-- The kernel returns when the loops of every call of `getClosestIndex` end. -/
theorem findClosestIndices_returns (g : GpuGrid K) (ext : GpuGridExtent K)
    (dev : GhostMapDevice K) (pCurrPhi : Nat → K) (out : GhostMapOutputs K)
    (hloops : findClosestIndices.LoopsEnd g dev pCurrPhi) :
    ∃ out', findClosestIndices g ext dev pCurrPhi out = some out' := by
  unfold findClosestIndices
  refine foldlM_isSome (fun out t => findClosestIndices.thread g ext dev pCurrPhi t out)
    (launchWorkers g) ?_ out
  intro t ht s
  by_cases he : t.outsideGrid g = true
  · exact ⟨s, thread_skipped g ext dev pCurrPhi t s (Or.inl he)⟩
  by_cases hm : t.inEdgeMargin g = true
  · exact ⟨s, thread_skipped g ext dev pCurrPhi t s (Or.inr hm)⟩
  have he' : t.outsideGrid g = false := by simpa using he
  have hm' : t.inEdgeMargin g = false := by simpa using hm
  by_cases hg : findClosestIndices.pointIsGhost g pCurrPhi t = true
  · by_cases hw : findClosestIndices.boundaryCondition g dev pCurrPhi t =
        EBoundaryCondition.eWall ∧ findClosestIndices.mirrorAccepted g dev pCurrPhi t = true
    · exact ⟨_, thread_mirror g ext dev pCurrPhi t s he' hm' hg hw⟩
    · obtain ⟨hi, hj⟩ := hloops t ht he' hm' hg
      obtain ⟨c, hc⟩ := getClosestIndex_returns g ext pCurrPhi (t.i g) (t.j g) _ _ hi hj
      show ∃ s', findClosestIndices.thread g ext dev pCurrPhi t s = some s'
      rw [thread_closest g ext dev pCurrPhi t s he' hm' hg hw, hc]
      exact ⟨_, rfl⟩
  · exact ⟨_, thread_notGhost g ext dev pCurrPhi t s he' hm' (by simpa using hg)⟩

end GhostMapKernelTheorems

section GhostMapClaims

variable {K : Type} [LinearOrderedField K] [FloorRing K]

/-- Claim C21, amended: for every ghost cell (`0 ≤ phi < 5 * hx`) at least 10 nodes from every
domain edge, `findClosestIndices` returns (when the loops of `getClosestIndex` end) and the
first element of the pair that it records is the own global index of the cell; when the
cell is not given a mirror mapping, the recorded pair is the own index with the result of
`getClosestIndex`, and the recorded boundary condition is the classification by the shape
of the foot point `(i * hx - nx * phi, j * hy - ny * phi)`, `(nx, ny)` being the normal of
the cell. -/
theorem findClosestIndices_closest_recorded (g : GpuGrid K) (ext : GpuGridExtent K)
    (dev : GhostMapDevice K) (pCurrPhi : Nat → K) (t : Worker) (out : GhostMapOutputs K)
    (hfit : g.FitsUnsigned) (ht : t ∈ launchWorkers g)
    (hi : 10 ≤ t.i g ∧ t.i g + 10 < g.nx) (hj : 10 ≤ t.j g ∧ t.j g + 10 < g.ny)
    (hghost : 0 ≤ pCurrPhi (t.globalIdx g) ∧ pCurrPhi (t.globalIdx g) < 5 * g.hx)
    (hloops : findClosestIndices.LoopsEnd g dev pCurrPhi) :
    ∃ out', findClosestIndices g ext dev pCurrPhi out = some out' ∧
      (out'.pClosestIndices (t.globalIdx g)).1 = t.globalIdx g ∧
      (¬(findClosestIndices.boundaryCondition g dev pCurrPhi t = EBoundaryCondition.eWall ∧
          findClosestIndices.mirrorAccepted g dev pCurrPhi t = true) →
        ∃ closestGlobalIdx,
          getClosestIndex g ext pCurrPhi (t.i g) (t.j g)
              (findClosestIndices.normal g dev.toLevelSetDevice pCurrPhi t).x
              (findClosestIndices.normal g dev.toLevelSetDevice pCurrPhi t).y =
            some closestGlobalIdx ∧
          out'.pClosestIndices (t.globalIdx g) = (t.globalIdx g, closestGlobalIdx) ∧
          out'.pBoundaryConditions (t.globalIdx g) =
            dev.getBoundaryCondition
              ((t.i g : K) * g.hx -
                (findClosestIndices.normal g dev.toLevelSetDevice pCurrPhi t).x *
                  pCurrPhi (t.globalIdx g))
              ((t.j g : K) * g.hy -
                (findClosestIndices.normal g dev.toLevelSetDevice pCurrPhi t).y *
                  pCurrPhi (t.globalIdx g))) := by
  obtain ⟨out', hfold⟩ := findClosestIndices_returns g ext dev pCurrPhi out hloops
  obtain ⟨he, hm⟩ := passes_early_returns g t hfit hi hj
  have hg := (pointIsGhost_iff g pCurrPhi t).mpr hghost
  obtain ⟨hmir, hclo⟩ := findClosestIndices_ghost_cell g ext dev pCurrPhi t out out' ht he hm hg
    hfold
  refine ⟨out', hfold, ?_, fun hw => hclo hw⟩
  by_cases hw : findClosestIndices.boundaryCondition g dev pCurrPhi t =
      EBoundaryCondition.eWall ∧ findClosestIndices.mirrorAccepted g dev pCurrPhi t = true
  · rw [(hmir hw).1]
  · obtain ⟨c, _, hc, _⟩ := hclo hw
    rw [hc]

/-- Claim C22, amended: for a ghost cell at least 10 nodes from every domain edge,
`findClosestIndices` returns (when the loops of `getClosestIndex` end) and gives the cell
a mirror mapping (boundary condition `eMirror`, reference index the node
`(round iMirror, round jMirror)` with `iMirror = i - 2 * nx * phi / hx` and
`jMirror = j - 2 * ny * phi / hx`) when its classification by the shape is `eWall`, the sum
`|iMirror - round iMirror| + |jMirror - round jMirror|` is less than `0.01 * hx`, and the
level set is negative at that node; otherwise the recorded boundary condition is the
classification itself, so a cell classified as inlet or outlet is never recorded as
mirror, and when the classification is not `eMirror` the cell is recorded as mirror
exactly when the three conditions hold. -/
theorem findClosestIndices_mirror_iff (g : GpuGrid K) (ext : GpuGridExtent K)
    (dev : GhostMapDevice K) (pCurrPhi : Nat → K) (t : Worker) (out : GhostMapOutputs K)
    (hfit : g.FitsUnsigned) (ht : t ∈ launchWorkers g)
    (hi : 10 ≤ t.i g ∧ t.i g + 10 < g.nx) (hj : 10 ≤ t.j g ∧ t.j g + 10 < g.ny)
    (hghost : 0 ≤ pCurrPhi (t.globalIdx g) ∧ pCurrPhi (t.globalIdx g) < 5 * g.hx)
    (hloops : findClosestIndices.LoopsEnd g dev pCurrPhi) :
    ∃ out', findClosestIndices g ext dev pCurrPhi out = some out' ∧
      ((findClosestIndices.boundaryCondition g dev pCurrPhi t = EBoundaryCondition.eWall ∧
          |findClosestIndices.iMirror g dev pCurrPhi t -
                (stdRound (findClosestIndices.iMirror g dev pCurrPhi t) : K)| +
              |findClosestIndices.jMirror g dev pCurrPhi t -
                (stdRound (findClosestIndices.jMirror g dev pCurrPhi t) : K)| <
            (1 / 100) * g.hx ∧
          pCurrPhi (intToUnsigned
            (stdRound (findClosestIndices.jMirror g dev pCurrPhi t) * (g.nx : ℤ) +
              stdRound (findClosestIndices.iMirror g dev pCurrPhi t))) < 0) →
        out'.pClosestIndices (t.globalIdx g) =
            (t.globalIdx g, intToUnsigned
              (stdRound (findClosestIndices.jMirror g dev pCurrPhi t) * (g.nx : ℤ) +
                stdRound (findClosestIndices.iMirror g dev pCurrPhi t))) ∧
          out'.pBoundaryConditions (t.globalIdx g) = EBoundaryCondition.eMirror) ∧
      (¬(findClosestIndices.boundaryCondition g dev pCurrPhi t = EBoundaryCondition.eWall ∧
          |findClosestIndices.iMirror g dev pCurrPhi t -
                (stdRound (findClosestIndices.iMirror g dev pCurrPhi t) : K)| +
              |findClosestIndices.jMirror g dev pCurrPhi t -
                (stdRound (findClosestIndices.jMirror g dev pCurrPhi t) : K)| <
            (1 / 100) * g.hx ∧
          pCurrPhi (intToUnsigned
            (stdRound (findClosestIndices.jMirror g dev pCurrPhi t) * (g.nx : ℤ) +
              stdRound (findClosestIndices.iMirror g dev pCurrPhi t))) < 0) →
        out'.pBoundaryConditions (t.globalIdx g) =
          findClosestIndices.boundaryCondition g dev pCurrPhi t) ∧
      ((findClosestIndices.boundaryCondition g dev pCurrPhi t =
            EBoundaryCondition.eMassFlowInlet ∨
          findClosestIndices.boundaryCondition g dev pCurrPhi t =
            EBoundaryCondition.ePressureOutlet) →
        out'.pBoundaryConditions (t.globalIdx g) ≠ EBoundaryCondition.eMirror) ∧
      (findClosestIndices.boundaryCondition g dev pCurrPhi t ≠ EBoundaryCondition.eMirror →
        (out'.pBoundaryConditions (t.globalIdx g) = EBoundaryCondition.eMirror ↔
          (findClosestIndices.boundaryCondition g dev pCurrPhi t = EBoundaryCondition.eWall ∧
            |findClosestIndices.iMirror g dev pCurrPhi t -
                  (stdRound (findClosestIndices.iMirror g dev pCurrPhi t) : K)| +
                |findClosestIndices.jMirror g dev pCurrPhi t -
                  (stdRound (findClosestIndices.jMirror g dev pCurrPhi t) : K)| <
              (1 / 100) * g.hx ∧
            pCurrPhi (intToUnsigned
              (stdRound (findClosestIndices.jMirror g dev pCurrPhi t) * (g.nx : ℤ) +
                stdRound (findClosestIndices.iMirror g dev pCurrPhi t))) < 0))) := by
  obtain ⟨out', hfold⟩ := findClosestIndices_returns g ext dev pCurrPhi out hloops
  obtain ⟨he, hm⟩ := passes_early_returns g t hfit hi hj
  have hg := (pointIsGhost_iff g pCurrPhi t).mpr hghost
  obtain ⟨hmir, hclo⟩ := findClosestIndices_ghost_cell g ext dev pCurrPhi t out out' ht he hm hg
    hfold
  have hacc := mirrorAccepted_iff g dev pCurrPhi t
  have hidx : findClosestIndices.mirrorGlobalIdx g dev pCurrPhi t =
      intToUnsigned (stdRound (findClosestIndices.jMirror g dev pCurrPhi t) * (g.nx : ℤ) +
        stdRound (findClosestIndices.iMirror g dev pCurrPhi t)) := rfl
  rw [hidx] at hacc hmir
  have hfail : ¬(findClosestIndices.boundaryCondition g dev pCurrPhi t =
        EBoundaryCondition.eWall ∧
      |findClosestIndices.iMirror g dev pCurrPhi t -
            (stdRound (findClosestIndices.iMirror g dev pCurrPhi t) : K)| +
          |findClosestIndices.jMirror g dev pCurrPhi t -
            (stdRound (findClosestIndices.jMirror g dev pCurrPhi t) : K)| <
        (1 / 100) * g.hx ∧
      pCurrPhi (intToUnsigned
        (stdRound (findClosestIndices.jMirror g dev pCurrPhi t) * (g.nx : ℤ) +
          stdRound (findClosestIndices.iMirror g dev pCurrPhi t))) < 0) →
      out'.pBoundaryConditions (t.globalIdx g) =
        findClosestIndices.boundaryCondition g dev pCurrPhi t := by
    intro h
    obtain ⟨c, _, _, hc⟩ := hclo (fun hw => h ⟨hw.1, hacc.mp hw.2⟩)
    exact hc
  refine ⟨out', hfold, fun h => hmir ⟨h.1, hacc.mpr h.2⟩, hfail, fun h => ?_, fun hne => ?_⟩
  · have hw : ¬(findClosestIndices.boundaryCondition g dev pCurrPhi t =
        EBoundaryCondition.eWall ∧ findClosestIndices.mirrorAccepted g dev pCurrPhi t = true) := by
      rintro ⟨hwall, _⟩
      rcases h with h | h <;> rw [hwall] at h <;> cases h
    obtain ⟨c, _, _, hc⟩ := hclo hw
    rw [hc]
    rcases h with h | h <;> rw [h] <;> intro h' <;> cases h'
  · constructor
    · intro hmirror
      by_contra hcond
      rw [hfail hcond] at hmirror
      exact hne hmirror
    · intro hcond
      exact (hmir ⟨hcond.1, hacc.mpr hcond.2⟩).2

/-- Claim C23: when the shape never answers `eMirror`, `findClosestIndices` returns (when
the loops of `getClosestIndex` end) and every entry that it marks as mirror, that is every
entry marked as mirror after the launch whose mark or pair the launch has changed,
carries the index of a node with `phi < 0`; a thread of `gasDynamicIntegrateTVDSubStep`
that passes the early return stores the update in its cell when `phi < 0` there and
stores nothing otherwise, so the update is applied at every recorded mirror node that
such a thread addresses. -/
theorem findClosestIndices_mirror_in_gas (g : GpuGrid K) (ext : GpuGridExtent K)
    (dev : GhostMapDevice K) (pCurrPhi : Nat → K) (out : GhostMapOutputs K)
    (hshape : ∀ x y, dev.getBoundaryCondition x y ≠ EBoundaryCondition.eMirror)
    (hloops : findClosestIndices.LoopsEnd g dev pCurrPhi) :
    ∃ out', findClosestIndices g ext dev pCurrPhi out = some out' ∧
      (∀ k, out'.pBoundaryConditions k = EBoundaryCondition.eMirror →
        (out'.pBoundaryConditions k ≠ out.pBoundaryConditions k ∨
          out'.pClosestIndices k ≠ out.pClosestIndices k) →
        pCurrPhi (out'.pClosestIndices k).2 < 0) ∧
      (∀ (gasGrid : GpuGrid K) (gasDev : Device K) (a : KernelArgs K) (w : Worker)
          (pm : Nat → GasState K) (f : FluxArrays K) (cur : Nat → GasState K),
        w.returnsEarly gasGrid gasDev = false →
        storeCurrValue gasGrid gasDev a w pm f cur =
          if a.pCurrPhi (w.globalIdx gasGrid) < 0 then
            Function.update cur (w.globalIdx gasGrid)
              (ConservativeToGasState.get gasDev.kappa
                (blendedConservativeVariables gasGrid gasDev a w pm f))
          else cur) ∧
      (∀ k, out'.pBoundaryConditions k = EBoundaryCondition.eMirror →
        (out'.pBoundaryConditions k ≠ out.pBoundaryConditions k ∨
          out'.pClosestIndices k ≠ out.pClosestIndices k) →
        ∀ (gasGrid : GpuGrid K) (gasDev : Device K) (a : KernelArgs K) (w : Worker)
          (pm : Nat → GasState K) (f : FluxArrays K) (cur : Nat → GasState K),
        a.pCurrPhi = pCurrPhi → w.returnsEarly gasGrid gasDev = false →
        w.globalIdx gasGrid = (out'.pClosestIndices k).2 →
        storeCurrValue gasGrid gasDev a w pm f cur (out'.pClosestIndices k).2 =
          ConservativeToGasState.get gasDev.kappa
            (blendedConservativeVariables gasGrid gasDev a w pm f)) := by
  obtain ⟨out', hfold⟩ := findClosestIndices_returns g ext dev pCurrPhi out hloops
  have hinv : ∀ k, out'.pBoundaryConditions k = EBoundaryCondition.eMirror →
      (out'.pBoundaryConditions k = out.pBoundaryConditions k ∧
          out'.pClosestIndices k = out.pClosestIndices k) ∨
        pCurrPhi (out'.pClosestIndices k).2 < 0 := by
    have hfold' := hfold
    unfold findClosestIndices at hfold'
    exact foldlM_invariant (fun out t => findClosestIndices.thread g ext dev pCurrPhi t out)
      (fun s => ∀ k, s.pBoundaryConditions k = EBoundaryCondition.eMirror →
        (s.pBoundaryConditions k = out.pBoundaryConditions k ∧
            s.pClosestIndices k = out.pClosestIndices k) ∨
          pCurrPhi (s.pClosestIndices k).2 < 0)
      (launchWorkers g)
      (fun t _ s s' hI hs => thread_mirror_invariant g ext dev pCurrPhi out hshape t s s' hI hs)
      out out' (fun k _ => Or.inl ⟨rfl, rfl⟩) hfold'
  have hneg : ∀ k, out'.pBoundaryConditions k = EBoundaryCondition.eMirror →
      (out'.pBoundaryConditions k ≠ out.pBoundaryConditions k ∨
        out'.pClosestIndices k ≠ out.pClosestIndices k) →
      pCurrPhi (out'.pClosestIndices k).2 < 0 := by
    intro k hk hnew
    rcases hinv k hk with ⟨h1, h2⟩ | h
    · rcases hnew with h | h
      · exact absurd h1 h
      · exact absurd h2 h
    · exact h
  refine ⟨out', hfold, hneg, ?_, ?_⟩
  · intro gasGrid gasDev a w pm f cur he
    unfold storeCurrValue
    simp only [he, Bool.false_eq_true, if_false, decide_eq_true_eq]
  · intro k hk hnew gasGrid gasDev a w pm f cur ha he hw
    rw [← hw]
    refine storeCurrValue_own gasGrid gasDev a w pm f cur he ?_
    rw [ha, hw]
    exact hneg k hk hnew

/-- Claim C24: when neither loop index wraps (`3 ≤ iSurface`, `3 ≤ jSurface`, and the
upper bounds stay below the largest `unsigned` value) and the 7x7 window of nodes centred
on the rounded foot point contains a node with `phi < 0` whose squared distance to the
foot point is within the initial bound `lx * lx + ly * ly`, `getClosestIndex` returns the
row-major index, computed in `unsigned` arithmetic, of a node of that window with `phi < 0`
whose squared distance to the foot point is less than or equal to that of every node of
the window with `phi < 0`. -/
theorem getClosestIndex_closest (g : GpuGrid K) (ext : GpuGridExtent K) (pCurrPhi : Nat → K)
    (i j : Nat) (nx ny : K)
    (hi : 3 ≤ getClosestIndex.iSurface g pCurrPhi i j nx ∧
      getClosestIndex.iSurface g pCurrPhi i j nx + 3 < 2 ^ 32 - 1)
    (hj : 3 ≤ getClosestIndex.jSurface g pCurrPhi i j ny ∧
      getClosestIndex.jSurface g pCurrPhi i j ny + 3 < 2 ^ 32 - 1)
    (hgas : ∃ a b,
      (getClosestIndex.iSurface g pCurrPhi i j nx - 3 ≤ a ∧
        a ≤ getClosestIndex.iSurface g pCurrPhi i j nx + 3) ∧
      (getClosestIndex.jSurface g pCurrPhi i j ny - 3 ≤ b ∧
        b ≤ getClosestIndex.jSurface g pCurrPhi i j ny + 3) ∧
      pCurrPhi ((b * g.nx + a) % 2 ^ 32) < 0 ∧
      getClosestIndex.distanceSquared g (getClosestIndex.xSurface g pCurrPhi i j nx)
        (getClosestIndex.ySurface g pCurrPhi i j ny) a b ≤ ext.lx * ext.lx + ext.ly * ext.ly) :
    ∃ a b,
      (getClosestIndex.iSurface g pCurrPhi i j nx - 3 ≤ a ∧
        a ≤ getClosestIndex.iSurface g pCurrPhi i j nx + 3) ∧
      (getClosestIndex.jSurface g pCurrPhi i j ny - 3 ≤ b ∧
        b ≤ getClosestIndex.jSurface g pCurrPhi i j ny + 3) ∧
      pCurrPhi ((b * g.nx + a) % 2 ^ 32) < 0 ∧
      getClosestIndex g ext pCurrPhi i j nx ny = some ((b * g.nx + a) % 2 ^ 32) ∧
      ∀ a' b',
        (getClosestIndex.iSurface g pCurrPhi i j nx - 3 ≤ a' ∧
          a' ≤ getClosestIndex.iSurface g pCurrPhi i j nx + 3) →
        (getClosestIndex.jSurface g pCurrPhi i j ny - 3 ≤ b' ∧
          b' ≤ getClosestIndex.jSurface g pCurrPhi i j ny + 3) →
        pCurrPhi ((b' * g.nx + a') % 2 ^ 32) < 0 →
        getClosestIndex.distanceSquared g (getClosestIndex.xSurface g pCurrPhi i j nx)
            (getClosestIndex.ySurface g pCurrPhi i j ny) a b ≤
          getClosestIndex.distanceSquared g (getClosestIndex.xSurface g pCurrPhi i j nx)
            (getClosestIndex.ySurface g pCurrPhi i j ny) a' b' := by
  obtain ⟨a, b, ha, hb, hneg, hres, hall⟩ :=
    getClosestIndex_selected g ext pCurrPhi i j nx ny hi hj hgas
  exact ⟨a, b, ha, hb, hneg, hres, fun a' b' ha' hb' hneg' => (hall a' b' ha' hb' hneg').1⟩

/-- Claim C25, amended: when neither loop index wraps and the window contains a node with
`phi < 0` within the initial bound `lx * lx + ly * ly`, every node of the window with
`phi < 0` at the same squared distance from the foot point as the returned node is visited
no later than the returned node in scan order (outer loop over `i` increasing, inner loop
over `j` increasing): among several nodes at the same minimal distance `getClosestIndex`
returns the one found last. -/
theorem getClosestIndex_tie_last (g : GpuGrid K) (ext : GpuGridExtent K) (pCurrPhi : Nat → K)
    (i j : Nat) (nx ny : K)
    (hi : 3 ≤ getClosestIndex.iSurface g pCurrPhi i j nx ∧
      getClosestIndex.iSurface g pCurrPhi i j nx + 3 < 2 ^ 32 - 1)
    (hj : 3 ≤ getClosestIndex.jSurface g pCurrPhi i j ny ∧
      getClosestIndex.jSurface g pCurrPhi i j ny + 3 < 2 ^ 32 - 1)
    (hgas : ∃ a b,
      (getClosestIndex.iSurface g pCurrPhi i j nx - 3 ≤ a ∧
        a ≤ getClosestIndex.iSurface g pCurrPhi i j nx + 3) ∧
      (getClosestIndex.jSurface g pCurrPhi i j ny - 3 ≤ b ∧
        b ≤ getClosestIndex.jSurface g pCurrPhi i j ny + 3) ∧
      pCurrPhi ((b * g.nx + a) % 2 ^ 32) < 0 ∧
      getClosestIndex.distanceSquared g (getClosestIndex.xSurface g pCurrPhi i j nx)
        (getClosestIndex.ySurface g pCurrPhi i j ny) a b ≤ ext.lx * ext.lx + ext.ly * ext.ly) :
    ∃ a b,
      (getClosestIndex.iSurface g pCurrPhi i j nx - 3 ≤ a ∧
        a ≤ getClosestIndex.iSurface g pCurrPhi i j nx + 3) ∧
      (getClosestIndex.jSurface g pCurrPhi i j ny - 3 ≤ b ∧
        b ≤ getClosestIndex.jSurface g pCurrPhi i j ny + 3) ∧
      pCurrPhi ((b * g.nx + a) % 2 ^ 32) < 0 ∧
      getClosestIndex g ext pCurrPhi i j nx ny = some ((b * g.nx + a) % 2 ^ 32) ∧
      ∀ a' b',
        (getClosestIndex.iSurface g pCurrPhi i j nx - 3 ≤ a' ∧
          a' ≤ getClosestIndex.iSurface g pCurrPhi i j nx + 3) →
        (getClosestIndex.jSurface g pCurrPhi i j ny - 3 ≤ b' ∧
          b' ≤ getClosestIndex.jSurface g pCurrPhi i j ny + 3) →
        pCurrPhi ((b' * g.nx + a') % 2 ^ 32) < 0 →
        getClosestIndex.distanceSquared g (getClosestIndex.xSurface g pCurrPhi i j nx)
            (getClosestIndex.ySurface g pCurrPhi i j ny) a' b' =
          getClosestIndex.distanceSquared g (getClosestIndex.xSurface g pCurrPhi i j nx)
            (getClosestIndex.ySurface g pCurrPhi i j ny) a b →
        a' < a ∨ (a' = a ∧ b' ≤ b) := by
  obtain ⟨a, b, ha, hb, hneg, hres, hall⟩ :=
    getClosestIndex_selected g ext pCurrPhi i j nx ny hi hj hgas
  exact ⟨a, b, ha, hb, hneg, hres,
    fun a' b' ha' hb' hneg' heq => (hall a' b' ha' hb' hneg').2 (le_of_eq heq)⟩

/-- Claim C26, amended: `findClosestIndices` returns (when the loops of `getClosestIndex`
end), and the cells fewer than 10 grid nodes from a domain edge are the ones exempt from
the ghost-mapping search: for such a cell it records no closest index, no boundary
condition and no normal, while for a cell at least 10 nodes from every edge it stores the
normal and, when the cell is a ghost cell, records a pair that starts with the own
index. -/
theorem findClosestIndices_edge_margin (g : GpuGrid K) (ext : GpuGridExtent K)
    (dev : GhostMapDevice K) (pCurrPhi : Nat → K) (t : Worker) (out : GhostMapOutputs K)
    (hfit : g.FitsUnsigned) (ht : t ∈ launchWorkers g)
    (hin : t.i g < g.nx ∧ t.j g < g.ny)
    (hloops : findClosestIndices.LoopsEnd g dev pCurrPhi) :
    ∃ out', findClosestIndices g ext dev pCurrPhi out = some out' ∧
      ((t.i g < 10 ∨ t.j g < 10 ∨ g.nx ≤ t.i g + 10 ∨ g.ny ≤ t.j g + 10) →
        out'.pClosestIndices (t.globalIdx g) = out.pClosestIndices (t.globalIdx g) ∧
          out'.pBoundaryConditions (t.globalIdx g) = out.pBoundaryConditions (t.globalIdx g) ∧
          out'.pNormals (t.globalIdx g) = out.pNormals (t.globalIdx g)) ∧
      ((10 ≤ t.i g ∧ t.i g + 10 < g.nx) ∧ (10 ≤ t.j g ∧ t.j g + 10 < g.ny) →
        out'.pNormals (t.globalIdx g) =
            findClosestIndices.normal g dev.toLevelSetDevice pCurrPhi t ∧
          (0 ≤ pCurrPhi (t.globalIdx g) ∧ pCurrPhi (t.globalIdx g) < 5 * g.hx →
            ∃ referenceIdx,
              out'.pClosestIndices (t.globalIdx g) = (t.globalIdx g, referenceIdx))) := by
  obtain ⟨out', hfold⟩ := findClosestIndices_returns g ext dev pCurrPhi out hloops
  have he : t.outsideGrid g = false := (outsideGrid_eq_false g t).mpr hin
  refine ⟨out', hfold, ?_, ?_⟩
  · intro hedge
    have hm : t.inEdgeMargin g = true := (inEdgeMargin_iff g t hfit he).mpr hedge
    have hsame : ∀ b ∈ launchWorkers g, b.globalIdx g = t.globalIdx g →
        b.outsideGrid g = true ∨ b.inEdgeMargin g = true := by
      intro b hb hidx
      by_cases hbe : b.outsideGrid g = true
      · exact Or.inl hbe
      · right
        obtain ⟨_, _, hbi, hbj⟩ := (mem_launchWorkers g b).mp hb
        obtain ⟨_, _, hti, htj⟩ := (mem_launchWorkers g t).mp ht
        have hbt : b = t := globalIdx_inj g b t hbi hbj hti htj
          ((outsideGrid_eq_false g b).mp (by simpa using hbe)).1 hin.1 hidx
        rw [hbt]
        exact hm
    obtain ⟨h1, h2⟩ := findClosestIndices_record_kept g ext dev pCurrPhi (t.globalIdx g) out out'
      (fun b hb hidx => (hsame b hb hidx).elim Or.inl (fun h => Or.inr (Or.inl h))) hfold
    exact ⟨h1, h2, findClosestIndices_normal_kept g ext dev pCurrPhi (t.globalIdx g) out out'
      hsame hfold⟩
  · rintro ⟨hi, hj⟩
    obtain ⟨_, hm⟩ := passes_early_returns g t hfit hi hj
    refine ⟨findClosestIndices_normal_stored g ext dev pCurrPhi t out out' ht he hm hfold, ?_⟩
    intro hghost
    have hg := (pointIsGhost_iff g pCurrPhi t).mpr hghost
    obtain ⟨hmir, hclo⟩ := findClosestIndices_ghost_cell g ext dev pCurrPhi t out out' ht he hm
      hg hfold
    by_cases hw : findClosestIndices.boundaryCondition g dev pCurrPhi t =
        EBoundaryCondition.eWall ∧ findClosestIndices.mirrorAccepted g dev pCurrPhi t = true
    · exact ⟨_, (hmir hw).1⟩
    · obtain ⟨c, _, hc, _⟩ := hclo hw
      exact ⟨c, hc⟩

/-- Claim C27: when both loops of `getClosestIndex` end and no visited node has `phi < 0`,
it returns the value `n * nx + n` of the initial `iClosest = jClosest = n`, computed in
32-bit unsigned arithmetic; with `n = nx * ny` this value is at least `nx * ny`, hence the
index of no grid cell, for the configured grids 1345 x 129 and 2446 x 751. -/
theorem getClosestIndex_sentinel (g : GpuGrid K) (ext : GpuGridExtent K)
    (pCurrPhi : Nat → K) (i j : Nat) (nx ny : K) (is js : List Nat)
    (hi : getClosestIndex.scan (getClosestIndex.iSurface g pCurrPhi i j nx) = some is)
    (hj : getClosestIndex.scan (getClosestIndex.jSurface g pCurrPhi i j ny) = some js)
    (hnone : ∀ a ∈ is, ∀ b ∈ js, 0 ≤ pCurrPhi ((b * g.nx + a) % 2 ^ 32)) :
    getClosestIndex g ext pCurrPhi i j nx ny = some ((ext.n * g.nx + ext.n) % 2 ^ 32) ∧
      (ext.n = g.nx * g.ny →
        (g.nx = ShapeSolverTypes.eNozzleLessShape.nx ∧
            g.ny = ShapeSolverTypes.eNozzleLessShape.ny) ∨
          (g.nx = ShapeSolverTypes.eWithUmbrellaShape.nx ∧
            g.ny = ShapeSolverTypes.eWithUmbrellaShape.ny) →
        g.nx * g.ny ≤ (ext.n * g.nx + ext.n) % 2 ^ 32) := by
  refine ⟨getClosestIndex_none_negative g ext pCurrPhi i j nx ny is js hi hj hnone, ?_⟩
  intro hn hgrid
  rw [hn]
  rcases hgrid with ⟨hx, hy⟩ | ⟨hx, hy⟩
  · rw [hx, hy]
    decide
  · rw [hx, hy]
    decide

/-- Claim C28, amended: `findClosestIndices` returns (when the loops of `getClosestIndex`
end) and, for every cell with `phi < 0` or `phi ≥ 5 * hx`, leaves the closest-index pair
and the boundary condition of the cell unchanged; the normal is stored before the band
test, so the normal of every cell at least 10 nodes from every domain edge is overwritten
whatever its level-set value is. -/
theorem findClosestIndices_outside_band (g : GpuGrid K) (ext : GpuGridExtent K)
    (dev : GhostMapDevice K) (pCurrPhi : Nat → K) (out : GhostMapOutputs K)
    (hfit : g.FitsUnsigned) (hloops : findClosestIndices.LoopsEnd g dev pCurrPhi) :
    ∃ out', findClosestIndices g ext dev pCurrPhi out = some out' ∧
      (∀ k, pCurrPhi k < 0 ∨ 5 * g.hx ≤ pCurrPhi k →
        out'.pClosestIndices k = out.pClosestIndices k ∧
          out'.pBoundaryConditions k = out.pBoundaryConditions k) ∧
      (∀ t ∈ launchWorkers g, 10 ≤ t.i g ∧ t.i g + 10 < g.nx → 10 ≤ t.j g ∧ t.j g + 10 < g.ny →
        out'.pNormals (t.globalIdx g) =
          findClosestIndices.normal g dev.toLevelSetDevice pCurrPhi t) := by
  obtain ⟨out', hfold⟩ := findClosestIndices_returns g ext dev pCurrPhi out hloops
  refine ⟨out', hfold, ?_, ?_⟩
  · intro k hk
    refine findClosestIndices_record_kept g ext dev pCurrPhi k out out' ?_ hfold
    intro t _ hidx
    right; right
    by_cases hg : findClosestIndices.pointIsGhost g pCurrPhi t = true
    · obtain ⟨h0, h5⟩ := (pointIsGhost_iff g pCurrPhi t).mp hg
      rw [hidx] at h0 h5
      rcases hk with hk | hk
      · exact absurd h0 (not_le.mpr hk)
      · exact absurd h5 (not_lt.mpr hk)
    · simpa using hg
  · intro t ht hi hj
    obtain ⟨he, hm⟩ := passes_early_returns g t hfit hi hj
    exact findClosestIndices_normal_stored g ext dev pCurrPhi t out out' ht he hm hfold

/-- Claim C29: for every grid the map `(i, j) ↦ j * nx + i` from `i < nx`, `j < ny` is
injective, has its values below `nx * ny` and reaches every index below `nx * ny`; the
global index of a thread is this map at its cell; in the gas-dynamics, reinitialization
and ghost-mapping kernels a thread changes the output arrays at its own global index
only, and a thread outside the grid changes nothing; and two threads of a launch inside
the grid with the same global index are the same thread. -/
theorem kernels_write_own_cell (g : GpuGrid K) (gasDev : Device K) (a : KernelArgs K)
    (levelSetDev : LevelSetDevice K) (ra : ReinitializeArgs K) (ext : GpuGridExtent K)
    (ghostDev : GhostMapDevice K) (pCurrPhi : Nat → K) :
    (∀ i j i' j', i < g.nx → i' < g.nx → j * g.nx + i = j' * g.nx + i' → i = i' ∧ j = j') ∧
      (∀ i j, i < g.nx → j < g.ny → j * g.nx + i < g.nx * g.ny) ∧
      (∀ k, k < g.nx * g.ny → ∃ i j, i < g.nx ∧ j < g.ny ∧ k = j * g.nx + i) ∧
      (∀ t : Worker, t.globalIdx g = t.j g * g.nx + t.i g) ∧
      (∀ (t : Worker) (pm : Nat → GasState K) (f : FluxArrays K) (cur : Nat → GasState K) (k : Nat),
        k ≠ t.globalIdx g ∨ t.i g ≥ g.nx ∨ t.j g ≥ g.ny →
        storeCurrValue g gasDev a t pm f cur k = cur k) ∧
      (∀ (t : Worker) (pm : Nat → K) (cur : Nat → K) (k : Nat),
        k ≠ t.globalIdx g ∨ t.i g ≥ g.nx ∨ t.j g ≥ g.ny →
        reinitializeStore g levelSetDev ra t pm cur k = cur k) ∧
      (∀ (t : Worker) (out out' : GhostMapOutputs K) (k : Nat),
        findClosestIndices.thread g ext ghostDev pCurrPhi t out = some out' →
        k ≠ t.globalIdx g ∨ t.i g ≥ g.nx ∨ t.j g ≥ g.ny →
        out'.pClosestIndices k = out.pClosestIndices k ∧
          out'.pBoundaryConditions k = out.pBoundaryConditions k ∧
          out'.pNormals k = out.pNormals k) ∧
      (∀ t ∈ launchWorkers g, ∀ t' ∈ launchWorkers g, t.i g < g.nx → t'.i g < g.nx →
        t.globalIdx g = t'.globalIdx g → t = t') := by
  refine ⟨?_, ?_, ?_, fun _ => rfl, ?_, ?_, ?_, ?_⟩
  · intro i j i' j' hi hi' h
    obtain ⟨hj, hii⟩ := rowMajor_inj hi hi' h
    exact ⟨hii, hj⟩
  · intro i j hi hj
    calc j * g.nx + i < j * g.nx + g.nx := Nat.add_lt_add_left hi _
      _ = (j + 1) * g.nx := (Nat.succ_mul j g.nx).symm
      _ ≤ g.ny * g.nx := Nat.mul_le_mul_right _ hj
      _ = g.nx * g.ny := Nat.mul_comm _ _
  · intro k hk
    have hpos : 0 < g.nx := by
      rcases Nat.eq_zero_or_pos g.nx with h | h
      · rw [h, Nat.zero_mul] at hk
        exact absurd hk (Nat.not_lt_zero k)
      · exact h
    refine ⟨k % g.nx, k / g.nx, Nat.mod_lt k hpos, Nat.div_lt_of_lt_mul hk, ?_⟩
    rw [Nat.mul_comm]
    exact (Nat.div_add_mod k g.nx).symm
  · intro t pm f cur k hk
    refine storeCurrValue_other g gasDev a t pm f cur k (fun he _ hidx => ?_)
    obtain ⟨hi, hj, _⟩ := (returnsEarly_eq_false g gasDev t).mp he
    rcases hk with hk | hk | hk
    · exact hk hidx.symm
    · exact absurd hi (not_lt.mpr hk)
    · exact absurd hj (not_lt.mpr hk)
  · intro t pm cur k hk
    refine reinitializeStore_other g levelSetDev ra t pm cur k (fun he _ hidx => ?_)
    obtain ⟨hi, hj⟩ := (outsideGrid_eq_false g t).mp he
    rcases hk with hk | hk | hk
    · exact hk hidx.symm
    · exact absurd hi (not_lt.mpr hk)
    · exact absurd hj (not_lt.mpr hk)
  · intro t out out' k hs hk
    by_cases he : t.outsideGrid g = true
    · rw [thread_skipped g ext ghostDev pCurrPhi t out (Or.inl he)] at hs
      cases hs
      exact ⟨rfl, rfl, rfl⟩
    · obtain ⟨hi, hj⟩ := (outsideGrid_eq_false g t).mp (by simpa using he)
      rcases hk with hk | hk | hk
      · exact thread_frame g ext ghostDev pCurrPhi t out out' k hs hk
      · exact absurd hi (not_lt.mpr hk)
      · exact absurd hj (not_lt.mpr hk)
  · intro t ht t' ht' hi hi' hidx
    obtain ⟨_, _, hti, htj⟩ := (mem_launchWorkers g t).mp ht
    obtain ⟨_, _, hti', htj'⟩ := (mem_launchWorkers g t').mp ht'
    exact globalIdx_inj g t t' hti htj hti' htj' hi hi' hidx

end GhostMapClaims

section ConcreteGhostLaunch

/-- The constants of the concrete ghost-mapping grid are `unsigned` values. -/
theorem exampleGhostGrid_fitsUnsigned : exampleGhostGrid.FitsUnsigned := by
  constructor <;> norm_num [exampleGhostGrid]

/-- The thread of the cell `(11, 11)` belongs to the concrete launch. -/
theorem exampleGhostWorker_mem : exampleGhostWorker ∈ launchWorkers exampleGhostGrid :=
  (mem_launchWorkers exampleGhostGrid exampleGhostWorker).mpr
    ⟨by decide, by decide, by decide, by decide⟩

/-- The thread of the cell `(1, 1)` belongs to the concrete launch. -/
theorem exampleMarginWorker_mem : exampleMarginWorker ∈ launchWorkers exampleGhostGrid :=
  (mem_launchWorkers exampleGhostGrid exampleMarginWorker).mpr
    ⟨by decide, by decide, by decide, by decide⟩

/-- The normal of every thread of the concrete launch is `(3/5, 4/5)`. -/
theorem exampleGhost_normal (boundaryCondition : EBoundaryCondition) (pCurrPhi : Nat → ℚ)
    (t : Worker) :
    findClosestIndices.normal exampleGhostGrid
        (exampleGhostDevice boundaryCondition).toLevelSetDevice pCurrPhi t =
      { x := 3 / 5, y := 4 / 5 } := by
  norm_num [findClosestIndices.normal, hypot, exampleGhostDevice, exampleLevelSetDevice,
    exampleGhostGrid, Rat.sqrt]

/-- In the concrete launch the loops of every call of `getClosestIndex` end, whatever the
level set is: the rounded foot point of a ghost cell is at most the cell itself. -/
theorem exampleGhost_loopsEnd (boundaryCondition : EBoundaryCondition) (pCurrPhi : Nat → ℚ) :
    findClosestIndices.LoopsEnd exampleGhostGrid (exampleGhostDevice boundaryCondition)
      pCurrPhi := by
  intro t _ he _ hg
  obtain ⟨hi, hj⟩ := (outsideGrid_eq_false exampleGhostGrid t).mp he
  obtain ⟨h0, _⟩ := (pointIsGhost_iff exampleGhostGrid pCurrPhi t).mp hg
  rw [exampleGhost_normal]
  have hnx : exampleGhostGrid.nx = 23 := rfl
  have hny : exampleGhostGrid.ny = 23 := rfl
  rw [hnx] at hi
  rw [hny] at hj
  have hidx : (t.j exampleGhostGrid * exampleGhostGrid.nx + t.i exampleGhostGrid) % 2 ^ 32 =
      t.globalIdx exampleGhostGrid := by
    unfold Worker.globalIdx
    rw [hnx]
    exact Nat.mod_eq_of_lt (by omega)
  have hiq : ((t.i exampleGhostGrid : ℕ) : ℚ) ≤ 22 := by exact_mod_cast Nat.le_of_lt_succ hi
  have hjq : ((t.j exampleGhostGrid : ℕ) : ℚ) ≤ 22 := by exact_mod_cast Nat.le_of_lt_succ hj
  have hx : getClosestIndex.iSurface exampleGhostGrid pCurrPhi (t.i exampleGhostGrid)
      (t.j exampleGhostGrid) (3 / 5) ≤ 22 := by
    unfold getClosestIndex.iSurface getClosestIndex.xSurface
    rw [hidx]
    refine toUnsigned_le _ 22 (stdRound_le _ 22 ?_)
    have hh : exampleGhostGrid.hx = 1 / 100 := rfl
    have hr : exampleGhostGrid.hxReciprocal = 100 := rfl
    rw [hh, hr]
    push_cast
    linarith
  have hy : getClosestIndex.jSurface exampleGhostGrid pCurrPhi (t.i exampleGhostGrid)
      (t.j exampleGhostGrid) (4 / 5) ≤ 22 := by
    unfold getClosestIndex.jSurface getClosestIndex.ySurface
    rw [hidx]
    refine toUnsigned_le _ 22 (stdRound_le _ 22 ?_)
    have hh : exampleGhostGrid.hy = 1 / 100 := rfl
    have hr : exampleGhostGrid.hyReciprocal = 100 := rfl
    rw [hh, hr]
    push_cast
    linarith
  exact ⟨Nat.lt_of_le_of_lt (Nat.add_le_add_right hx 3) (by decide),
    Nat.lt_of_le_of_lt (Nat.add_le_add_right hy 3) (by decide)⟩

set_option maxRecDepth 8000 in
/-- Counterexample to C21 as stated: the cell `(1, 1)` of the concrete grid has
`phi = 1/100` in the band `0 ≤ phi < 5 * hx`, its shape classification is `eWall` and the
mirror test fails for it, yet after `findClosestIndices` its pair is still the initial
`(0, 0)`, whose first element is not the own index 24, and its boundary condition is still
the initial one, not the classification. -/
theorem findClosestIndices_margin_counterexample :
    ∃ out', findClosestIndices exampleGhostGrid exampleGhostExtent
        (exampleGhostDevice EBoundaryCondition.eWall) (exampleGhostPhi [24] (1 / 100))
        exampleGhostOutputs = some out' ∧
      exampleMarginWorker.globalIdx exampleGhostGrid = 24 ∧
      (0 ≤ exampleGhostPhi [24] (1 / 100) 24 ∧
        exampleGhostPhi [24] (1 / 100) 24 < 5 * exampleGhostGrid.hx) ∧
      findClosestIndices.boundaryCondition exampleGhostGrid
        (exampleGhostDevice EBoundaryCondition.eWall) (exampleGhostPhi [24] (1 / 100))
        exampleMarginWorker = EBoundaryCondition.eWall ∧
      findClosestIndices.mirrorAccepted exampleGhostGrid
        (exampleGhostDevice EBoundaryCondition.eWall) (exampleGhostPhi [24] (1 / 100))
        exampleMarginWorker = false ∧
      out'.pClosestIndices 24 = (0, 0) ∧
      out'.pBoundaryConditions 24 = EBoundaryCondition.ePressureOutlet := by
  have h : (findClosestIndices exampleGhostGrid exampleGhostExtent
      (exampleGhostDevice EBoundaryCondition.eWall) (exampleGhostPhi [24] (1 / 100))
      exampleGhostOutputs).map (fun o => (o.pClosestIndices 24, o.pBoundaryConditions 24)) =
      some ((0, 0), EBoundaryCondition.ePressureOutlet) := by
    with_unfolding_all decide
  obtain ⟨out', hfold, hv⟩ := Option.map_eq_some'.mp h
  exact ⟨out', hfold, rfl, by with_unfolding_all decide, rfl, by with_unfolding_all decide,
    congrArg Prod.fst hv, congrArg Prod.snd hv⟩

set_option maxRecDepth 8000 in
/-- Witness of the amended C21: the cell `(11, 11)` of the concrete grid with `phi = 1/100`
fails the mirror test; the kernel returns and records the pair `(264, 240)` of the own
index and the result of `getClosestIndex`, and the classification `eWall`. -/
theorem findClosestIndices_closest_recorded_witness :
    ∃ out', findClosestIndices exampleGhostGrid exampleGhostExtent
        (exampleGhostDevice EBoundaryCondition.eWall) (exampleGhostPhi [264] (1 / 100))
        exampleGhostOutputs = some out' ∧
      (out'.pClosestIndices 264).1 = 264 ∧
      out'.pClosestIndices 264 = (264, 240) ∧
      out'.pBoundaryConditions 264 = EBoundaryCondition.eWall := by
  obtain ⟨out', hfold, h1, h2⟩ := findClosestIndices_closest_recorded exampleGhostGrid
    exampleGhostExtent (exampleGhostDevice EBoundaryCondition.eWall)
    (exampleGhostPhi [264] (1 / 100)) exampleGhostWorker exampleGhostOutputs
    exampleGhostGrid_fitsUnsigned exampleGhostWorker_mem (by decide) (by decide)
    (by with_unfolding_all decide) (exampleGhost_loopsEnd _ _)
  have h264 : exampleGhostWorker.globalIdx exampleGhostGrid = 264 := rfl
  rw [h264] at h1 h2
  obtain ⟨c, hc, hpair, hbc⟩ := h2 (by with_unfolding_all decide)
  have hc240 : getClosestIndex exampleGhostGrid exampleGhostExtent
      (exampleGhostPhi [264] (1 / 100)) (exampleGhostWorker.i exampleGhostGrid)
      (exampleGhostWorker.j exampleGhostGrid)
      (findClosestIndices.normal exampleGhostGrid
        (exampleGhostDevice EBoundaryCondition.eWall).toLevelSetDevice
        (exampleGhostPhi [264] (1 / 100)) exampleGhostWorker).x
      (findClosestIndices.normal exampleGhostGrid
        (exampleGhostDevice EBoundaryCondition.eWall).toLevelSetDevice
        (exampleGhostPhi [264] (1 / 100)) exampleGhostWorker).y = some 240 := by
    with_unfolding_all decide
  rw [hc240] at hc
  cases hc
  exact ⟨out', hfold, h1, hpair, hbc⟩

set_option maxRecDepth 8000 in
/-- Counterexample to C22 as stated: the cell `(11, 11)` with `phi = 1/100` is classified
as wall; its reflection `(49/5, 47/5)` lies within half a cell diagonal of the rounded
node `(10, 9)`, where `phi = -1 < 0`, yet the cell is not recorded as mirror: the
recorded boundary condition is `eWall` and the reference index is the closest node 240. -/
theorem findClosestIndices_mirror_counterexample :
    ∃ out', findClosestIndices exampleGhostGrid exampleGhostExtent
        (exampleGhostDevice EBoundaryCondition.eWall) (exampleGhostPhi [264] (1 / 100))
        exampleGhostOutputs = some out' ∧
      exampleGhostWorker.globalIdx exampleGhostGrid = 264 ∧
      (0 ≤ exampleGhostPhi [264] (1 / 100) 264 ∧
        exampleGhostPhi [264] (1 / 100) 264 < 5 * exampleGhostGrid.hx) ∧
      findClosestIndices.boundaryCondition exampleGhostGrid
        (exampleGhostDevice EBoundaryCondition.eWall) (exampleGhostPhi [264] (1 / 100))
        exampleGhostWorker = EBoundaryCondition.eWall ∧
      findClosestIndices.iMirror exampleGhostGrid (exampleGhostDevice EBoundaryCondition.eWall)
        (exampleGhostPhi [264] (1 / 100)) exampleGhostWorker = 49 / 5 ∧
      findClosestIndices.jMirror exampleGhostGrid (exampleGhostDevice EBoundaryCondition.eWall)
        (exampleGhostPhi [264] (1 / 100)) exampleGhostWorker = 47 / 5 ∧
      stdRound (49 / 5 : ℚ) = 10 ∧ stdRound (47 / 5 : ℚ) = 9 ∧
      ((49 / 5 : ℚ) - 10) ^ 2 + ((47 / 5 : ℚ) - 9) ^ 2 < 1 / 2 ∧
      findClosestIndices.mirrorGlobalIdx exampleGhostGrid
        (exampleGhostDevice EBoundaryCondition.eWall) (exampleGhostPhi [264] (1 / 100))
        exampleGhostWorker = 217 ∧
      exampleGhostPhi [264] (1 / 100) 217 < 0 ∧
      out'.pClosestIndices 264 = (264, 240) ∧
      out'.pBoundaryConditions 264 = EBoundaryCondition.eWall := by
  have h : (findClosestIndices exampleGhostGrid exampleGhostExtent
      (exampleGhostDevice EBoundaryCondition.eWall) (exampleGhostPhi [264] (1 / 100))
      exampleGhostOutputs).map (fun o => (o.pClosestIndices 264, o.pBoundaryConditions 264)) =
      some ((264, 240), EBoundaryCondition.eWall) := by
    with_unfolding_all decide
  obtain ⟨out', hfold, hv⟩ := Option.map_eq_some'.mp h
  exact ⟨out', hfold, rfl, by with_unfolding_all decide, rfl, by with_unfolding_all decide,
    by with_unfolding_all decide, by with_unfolding_all decide, by with_unfolding_all decide,
    by norm_num, by with_unfolding_all decide, by with_unfolding_all decide,
    congrArg Prod.fst hv, congrArg Prod.snd hv⟩

set_option maxRecDepth 8000 in
/-- Witness of the amended C22: the cell `(11, 11)` with `phi = 1/40` is classified as wall
and reflects exactly onto the node `(8, 7)`, where `phi < 0`; the kernel returns and
records the mirror node 169 and `eMirror`. -/
theorem findClosestIndices_mirror_iff_witness :
    ∃ out', findClosestIndices exampleGhostGrid exampleGhostExtent
        (exampleGhostDevice EBoundaryCondition.eWall) (exampleGhostPhi [264] (1 / 40))
        exampleGhostOutputs = some out' ∧
      out'.pClosestIndices 264 = (264, 169) ∧
      out'.pBoundaryConditions 264 = EBoundaryCondition.eMirror := by
  obtain ⟨out', hfold, hmir, _, _⟩ := findClosestIndices_mirror_iff exampleGhostGrid
    exampleGhostExtent (exampleGhostDevice EBoundaryCondition.eWall)
    (exampleGhostPhi [264] (1 / 40)) exampleGhostWorker exampleGhostOutputs
    exampleGhostGrid_fitsUnsigned exampleGhostWorker_mem (by decide) (by decide)
    (by with_unfolding_all decide) (exampleGhost_loopsEnd _ _)
  have h := hmir (by with_unfolding_all decide)
  have h264 : exampleGhostWorker.globalIdx exampleGhostGrid = 264 := rfl
  have h169 : intToUnsigned
      (stdRound (findClosestIndices.jMirror exampleGhostGrid
          (exampleGhostDevice EBoundaryCondition.eWall) (exampleGhostPhi [264] (1 / 40))
          exampleGhostWorker) * (exampleGhostGrid.nx : ℤ) +
        stdRound (findClosestIndices.iMirror exampleGhostGrid
          (exampleGhostDevice EBoundaryCondition.eWall) (exampleGhostPhi [264] (1 / 40))
          exampleGhostWorker)) = 169 := by
    with_unfolding_all decide
  rw [h264, h169] at h
  exact ⟨out', hfold, h.1, h.2⟩

set_option maxRecDepth 8000 in
/-- Witness of C23: in the concrete launch with `phi = 1/40` at the cell `(11, 11)` the
kernel returns, the entry 264 is newly marked as mirror, and the level set is negative at
the recorded node 169. -/
theorem findClosestIndices_mirror_in_gas_witness :
    ∃ out', findClosestIndices exampleGhostGrid exampleGhostExtent
        (exampleGhostDevice EBoundaryCondition.eWall) (exampleGhostPhi [264] (1 / 40))
        exampleGhostOutputs = some out' ∧
      out'.pBoundaryConditions 264 = EBoundaryCondition.eMirror ∧
      out'.pBoundaryConditions 264 ≠ exampleGhostOutputs.pBoundaryConditions 264 ∧
      out'.pClosestIndices 264 = (264, 169) ∧
      exampleGhostPhi [264] (1 / 40) (out'.pClosestIndices 264).2 < 0 := by
  obtain ⟨out', hfold, hneg, _, _⟩ := findClosestIndices_mirror_in_gas exampleGhostGrid
    exampleGhostExtent (exampleGhostDevice EBoundaryCondition.eWall)
    (exampleGhostPhi [264] (1 / 40)) exampleGhostOutputs (fun _ _ h => by cases h)
    (exampleGhost_loopsEnd _ _)
  have h : (findClosestIndices exampleGhostGrid exampleGhostExtent
      (exampleGhostDevice EBoundaryCondition.eWall) (exampleGhostPhi [264] (1 / 40))
      exampleGhostOutputs).map (fun o => (o.pBoundaryConditions 264, o.pClosestIndices 264)) =
      some (EBoundaryCondition.eMirror, (264, 169)) := by
    with_unfolding_all decide
  rw [hfold] at h
  simp only [Option.map_some', Option.some.injEq, Prod.mk.injEq] at h
  have hnew : out'.pBoundaryConditions 264 ≠ exampleGhostOutputs.pBoundaryConditions 264 := by
    rw [h.1]
    intro h'
    cases h'
  exact ⟨out', hfold, h.1, hnew, h.2, hneg 264 h.1 (Or.inl hnew)⟩

set_option maxRecDepth 8000 in
/-- Witness of C24: for the cell `(11, 11)` with `phi = 1/100` and normal `(3/5, 4/5)` the
rounded foot point is `(10, 10)`, a node with `phi < 0` at the distance of the foot
point, and `getClosestIndex` returns its index 240. -/
theorem getClosestIndex_closest_witness :
    getClosestIndex.iSurface exampleGhostGrid (exampleGhostPhi [264] (1 / 100)) 11 11 (3 / 5) = 10 ∧
      getClosestIndex.jSurface exampleGhostGrid (exampleGhostPhi [264] (1 / 100)) 11 11 (4 / 5) =
        10 ∧
      getClosestIndex exampleGhostGrid exampleGhostExtent (exampleGhostPhi [264] (1 / 100)) 11 11
        (3 / 5) (4 / 5) = some 240 ∧
      ∃ a b,
        (getClosestIndex.iSurface exampleGhostGrid (exampleGhostPhi [264] (1 / 100)) 11 11
              (3 / 5) - 3 ≤ a ∧
          a ≤ getClosestIndex.iSurface exampleGhostGrid (exampleGhostPhi [264] (1 / 100)) 11 11
              (3 / 5) + 3) ∧
        (getClosestIndex.jSurface exampleGhostGrid (exampleGhostPhi [264] (1 / 100)) 11 11
              (4 / 5) - 3 ≤ b ∧
          b ≤ getClosestIndex.jSurface exampleGhostGrid (exampleGhostPhi [264] (1 / 100)) 11 11
              (4 / 5) + 3) ∧
        exampleGhostPhi [264] (1 / 100) ((b * exampleGhostGrid.nx + a) % 2 ^ 32) < 0 ∧
        getClosestIndex exampleGhostGrid exampleGhostExtent (exampleGhostPhi [264] (1 / 100))
            11 11 (3 / 5) (4 / 5) = some ((b * exampleGhostGrid.nx + a) % 2 ^ 32) ∧
        ∀ a' b',
          (getClosestIndex.iSurface exampleGhostGrid (exampleGhostPhi [264] (1 / 100)) 11 11
                (3 / 5) - 3 ≤ a' ∧
            a' ≤ getClosestIndex.iSurface exampleGhostGrid (exampleGhostPhi [264] (1 / 100)) 11 11
                (3 / 5) + 3) →
          (getClosestIndex.jSurface exampleGhostGrid (exampleGhostPhi [264] (1 / 100)) 11 11
                (4 / 5) - 3 ≤ b' ∧
            b' ≤ getClosestIndex.jSurface exampleGhostGrid (exampleGhostPhi [264] (1 / 100)) 11 11
                (4 / 5) + 3) →
          exampleGhostPhi [264] (1 / 100) ((b' * exampleGhostGrid.nx + a') % 2 ^ 32) < 0 →
          getClosestIndex.distanceSquared exampleGhostGrid
              (getClosestIndex.xSurface exampleGhostGrid (exampleGhostPhi [264] (1 / 100)) 11 11
                (3 / 5))
              (getClosestIndex.ySurface exampleGhostGrid (exampleGhostPhi [264] (1 / 100)) 11 11
                (4 / 5)) a b ≤
            getClosestIndex.distanceSquared exampleGhostGrid
              (getClosestIndex.xSurface exampleGhostGrid (exampleGhostPhi [264] (1 / 100)) 11 11
                (3 / 5))
              (getClosestIndex.ySurface exampleGhostGrid (exampleGhostPhi [264] (1 / 100)) 11 11
                (4 / 5)) a' b' :=
  ⟨by with_unfolding_all decide, by with_unfolding_all decide, by with_unfolding_all decide,
    getClosestIndex_closest exampleGhostGrid exampleGhostExtent (exampleGhostPhi [264] (1 / 100))
      11 11 (3 / 5) (4 / 5) (by with_unfolding_all decide) (by with_unfolding_all decide)
      ⟨10, 10, by with_unfolding_all decide⟩⟩

set_option maxRecDepth 8000 in
/-- Counterexample to C25 as stated: for the cell `(11, 11)` with `phi = 1/200` and the
direction `(-1, -1)` the foot point is `(11.5, 11.5)` in node units; the nodes `(11, 12)`
and `(12, 12)` have `phi < 0` and the same squared distance from it, no node of the window
with `phi < 0` is closer, and `(11, 12)`, of index 287, is found first in scan order; yet
`getClosestIndex` returns the index 288 of `(12, 12)`. -/
theorem getClosestIndex_tie_counterexample :
    getClosestIndex.scan
        (getClosestIndex.iSurface exampleGhostGrid (exampleGhostPhi [264] (1 / 200)) 11 11 (-1)) =
        some [9, 10, 11, 12, 13, 14, 15] ∧
      getClosestIndex.scan
        (getClosestIndex.jSurface exampleGhostGrid (exampleGhostPhi [264] (1 / 200)) 11 11 (-1)) =
        some [9, 10, 11, 12, 13, 14, 15] ∧
      (12 * exampleGhostGrid.nx + 11) % 2 ^ 32 = 287 ∧
      (12 * exampleGhostGrid.nx + 12) % 2 ^ 32 = 288 ∧
      exampleGhostPhi [264] (1 / 200) 287 < 0 ∧ exampleGhostPhi [264] (1 / 200) 288 < 0 ∧
      getClosestIndex.distanceSquared exampleGhostGrid
          (getClosestIndex.xSurface exampleGhostGrid (exampleGhostPhi [264] (1 / 200)) 11 11 (-1))
          (getClosestIndex.ySurface exampleGhostGrid (exampleGhostPhi [264] (1 / 200)) 11 11 (-1))
          11 12 =
        getClosestIndex.distanceSquared exampleGhostGrid
          (getClosestIndex.xSurface exampleGhostGrid (exampleGhostPhi [264] (1 / 200)) 11 11 (-1))
          (getClosestIndex.ySurface exampleGhostGrid (exampleGhostPhi [264] (1 / 200)) 11 11 (-1))
          12 12 ∧
      (∀ a ∈ [9, 10, 11, 12, 13, 14, 15], ∀ b ∈ [9, 10, 11, 12, 13, 14, 15],
        exampleGhostPhi [264] (1 / 200) ((b * exampleGhostGrid.nx + a) % 2 ^ 32) < 0 →
        getClosestIndex.distanceSquared exampleGhostGrid
            (getClosestIndex.xSurface exampleGhostGrid (exampleGhostPhi [264] (1 / 200)) 11 11
              (-1))
            (getClosestIndex.ySurface exampleGhostGrid (exampleGhostPhi [264] (1 / 200)) 11 11
              (-1)) 11 12 ≤
          getClosestIndex.distanceSquared exampleGhostGrid
            (getClosestIndex.xSurface exampleGhostGrid (exampleGhostPhi [264] (1 / 200)) 11 11
              (-1))
            (getClosestIndex.ySurface exampleGhostGrid (exampleGhostPhi [264] (1 / 200)) 11 11
              (-1)) a b) ∧
      getClosestIndex exampleGhostGrid exampleGhostExtent (exampleGhostPhi [264] (1 / 200)) 11 11
        (-1) (-1) = some 288 :=
  ⟨by with_unfolding_all decide, by with_unfolding_all decide, by decide, by decide,
    by with_unfolding_all decide, by with_unfolding_all decide,
    le_antisymm (by with_unfolding_all decide) (by with_unfolding_all decide),
    by with_unfolding_all decide, by with_unfolding_all decide⟩

set_option maxRecDepth 8000 in
/-- Witness of the amended C25: on the input of the counterexample the returned node is
`(12, 12)`, and every node with `phi < 0` at the same distance is visited no later. -/
theorem getClosestIndex_tie_last_witness :
    getClosestIndex exampleGhostGrid exampleGhostExtent (exampleGhostPhi [264] (1 / 200)) 11 11
        (-1) (-1) = some 288 ∧
      ∃ a b,
        (getClosestIndex.iSurface exampleGhostGrid (exampleGhostPhi [264] (1 / 200)) 11 11
              (-1) - 3 ≤ a ∧
          a ≤ getClosestIndex.iSurface exampleGhostGrid (exampleGhostPhi [264] (1 / 200)) 11 11
              (-1) + 3) ∧
        (getClosestIndex.jSurface exampleGhostGrid (exampleGhostPhi [264] (1 / 200)) 11 11
              (-1) - 3 ≤ b ∧
          b ≤ getClosestIndex.jSurface exampleGhostGrid (exampleGhostPhi [264] (1 / 200)) 11 11
              (-1) + 3) ∧
        exampleGhostPhi [264] (1 / 200) ((b * exampleGhostGrid.nx + a) % 2 ^ 32) < 0 ∧
        getClosestIndex exampleGhostGrid exampleGhostExtent (exampleGhostPhi [264] (1 / 200))
            11 11 (-1) (-1) = some ((b * exampleGhostGrid.nx + a) % 2 ^ 32) ∧
        ∀ a' b',
          (getClosestIndex.iSurface exampleGhostGrid (exampleGhostPhi [264] (1 / 200)) 11 11
                (-1) - 3 ≤ a' ∧
            a' ≤ getClosestIndex.iSurface exampleGhostGrid (exampleGhostPhi [264] (1 / 200)) 11 11
                (-1) + 3) →
          (getClosestIndex.jSurface exampleGhostGrid (exampleGhostPhi [264] (1 / 200)) 11 11
                (-1) - 3 ≤ b' ∧
            b' ≤ getClosestIndex.jSurface exampleGhostGrid (exampleGhostPhi [264] (1 / 200)) 11 11
                (-1) + 3) →
          exampleGhostPhi [264] (1 / 200) ((b' * exampleGhostGrid.nx + a') % 2 ^ 32) < 0 →
          getClosestIndex.distanceSquared exampleGhostGrid
              (getClosestIndex.xSurface exampleGhostGrid (exampleGhostPhi [264] (1 / 200)) 11 11
                (-1))
              (getClosestIndex.ySurface exampleGhostGrid (exampleGhostPhi [264] (1 / 200)) 11 11
                (-1)) a' b' =
            getClosestIndex.distanceSquared exampleGhostGrid
              (getClosestIndex.xSurface exampleGhostGrid (exampleGhostPhi [264] (1 / 200)) 11 11
                (-1))
              (getClosestIndex.ySurface exampleGhostGrid (exampleGhostPhi [264] (1 / 200)) 11 11
                (-1)) a b →
          a' < a ∨ (a' = a ∧ b' ≤ b) :=
  ⟨by with_unfolding_all decide,
    getClosestIndex_tie_last exampleGhostGrid exampleGhostExtent (exampleGhostPhi [264] (1 / 200))
      11 11 (-1) (-1) (by with_unfolding_all decide) (by with_unfolding_all decide)
      ⟨12, 12, by with_unfolding_all decide⟩⟩

set_option maxRecDepth 8000 in
/-- Counterexample to C26 as stated: the cell `(11, 11)` of the concrete grid is more than
10 nodes from every domain edge and `findClosestIndices` records the pair `(264, 240)` and
the boundary condition `eWall` for it, while for the ghost cell `(1, 1)`, which is within
10 nodes of an edge, the pair, the boundary condition and the normal keep their initial
values. -/
theorem findClosestIndices_edge_counterexample :
    ∃ out', findClosestIndices exampleGhostGrid exampleGhostExtent
        (exampleGhostDevice EBoundaryCondition.eWall) (exampleGhostPhi [24, 264] (1 / 100))
        exampleGhostOutputs = some out' ∧
      exampleGhostWorker.globalIdx exampleGhostGrid = 264 ∧
      (10 < exampleGhostWorker.i exampleGhostGrid ∧
        exampleGhostWorker.i exampleGhostGrid + 10 < exampleGhostGrid.nx - 1) ∧
      (10 < exampleGhostWorker.j exampleGhostGrid ∧
        exampleGhostWorker.j exampleGhostGrid + 10 < exampleGhostGrid.ny - 1) ∧
      exampleGhostOutputs.pClosestIndices 264 = (0, 0) ∧
      out'.pClosestIndices 264 = (264, 240) ∧
      out'.pBoundaryConditions 264 = EBoundaryCondition.eWall ∧
      exampleMarginWorker.globalIdx exampleGhostGrid = 24 ∧
      exampleMarginWorker.i exampleGhostGrid < 10 ∧
      (0 ≤ exampleGhostPhi [24, 264] (1 / 100) 24 ∧
        exampleGhostPhi [24, 264] (1 / 100) 24 < 5 * exampleGhostGrid.hx) ∧
      out'.pClosestIndices 24 = (0, 0) ∧
      out'.pBoundaryConditions 24 = EBoundaryCondition.ePressureOutlet ∧
      out'.pNormals 24 = { x := 9, y := 9 } := by
  have h : (findClosestIndices exampleGhostGrid exampleGhostExtent
      (exampleGhostDevice EBoundaryCondition.eWall) (exampleGhostPhi [24, 264] (1 / 100))
      exampleGhostOutputs).map (fun o => (o.pClosestIndices 264, o.pBoundaryConditions 264,
        o.pClosestIndices 24, o.pBoundaryConditions 24, o.pNormals 24)) =
      some ((264, 240), EBoundaryCondition.eWall, (0, 0), EBoundaryCondition.ePressureOutlet,
        { x := 9, y := 9 }) := by
    with_unfolding_all decide
  obtain ⟨out', hfold, hv⟩ := Option.map_eq_some'.mp h
  simp only [Prod.mk.injEq] at hv
  obtain ⟨h1, h3, h4, h6, h7⟩ := hv
  exact ⟨out', hfold, rfl, by decide, by decide, rfl, h1, h3, rfl, by decide,
    by with_unfolding_all decide, h4, h6, h7⟩

set_option maxRecDepth 8000 in
/-- Witness of the amended C26: in the concrete launch the kernel returns, the entries of
the margin cell `(1, 1)` are unchanged, and the cell `(11, 11)` gets its normal and a pair
that starts with its own index. -/
theorem findClosestIndices_edge_margin_witness :
    (∃ out', findClosestIndices exampleGhostGrid exampleGhostExtent
          (exampleGhostDevice EBoundaryCondition.eWall) (exampleGhostPhi [24, 264] (1 / 100))
          exampleGhostOutputs = some out' ∧
        out'.pClosestIndices 24 = exampleGhostOutputs.pClosestIndices 24 ∧
        out'.pBoundaryConditions 24 = exampleGhostOutputs.pBoundaryConditions 24 ∧
        out'.pNormals 24 = exampleGhostOutputs.pNormals 24) ∧
      ∃ out', findClosestIndices exampleGhostGrid exampleGhostExtent
          (exampleGhostDevice EBoundaryCondition.eWall) (exampleGhostPhi [24, 264] (1 / 100))
          exampleGhostOutputs = some out' ∧
        out'.pNormals 264 =
          findClosestIndices.normal exampleGhostGrid
            (exampleGhostDevice EBoundaryCondition.eWall).toLevelSetDevice
            (exampleGhostPhi [24, 264] (1 / 100)) exampleGhostWorker ∧
        ∃ referenceIdx, out'.pClosestIndices 264 = (264, referenceIdx) := by
  constructor
  · obtain ⟨out', hfold, hmargin, _⟩ := findClosestIndices_edge_margin exampleGhostGrid
      exampleGhostExtent (exampleGhostDevice EBoundaryCondition.eWall)
      (exampleGhostPhi [24, 264] (1 / 100)) exampleMarginWorker exampleGhostOutputs
      exampleGhostGrid_fitsUnsigned exampleMarginWorker_mem (by decide)
      (exampleGhost_loopsEnd _ _)
    have h := hmargin (Or.inl (by decide))
    have h24 : exampleMarginWorker.globalIdx exampleGhostGrid = 24 := rfl
    rw [h24] at h
    exact ⟨out', hfold, h⟩
  · obtain ⟨out', hfold, _, hinner⟩ := findClosestIndices_edge_margin exampleGhostGrid
      exampleGhostExtent (exampleGhostDevice EBoundaryCondition.eWall)
      (exampleGhostPhi [24, 264] (1 / 100)) exampleGhostWorker exampleGhostOutputs
      exampleGhostGrid_fitsUnsigned exampleGhostWorker_mem (by decide)
      (exampleGhost_loopsEnd _ _)
    have h := hinner ⟨by decide, by decide⟩
    have h264 : exampleGhostWorker.globalIdx exampleGhostGrid = 264 := rfl
    rw [h264] at h
    exact ⟨out', hfold, h.1, h.2 (by with_unfolding_all decide)⟩

set_option maxRecDepth 8000 in
/-- Witness of C27: on the configured grids 1345 x 129 and 2446 x 751 with a level set
that is zero everywhere, the window of the cell `(100, 100)` holds no node with `phi < 0`;
`getClosestIndex` returns 233537730 on the first grid and, after the wrap-around of
`n * nx + n`, 200039566 on the second, both at least the number of cells. -/
theorem getClosestIndex_sentinel_witness :
    (getClosestIndex
          (exampleConfiguredGrid ShapeSolverTypes.eNozzleLessShape.nx
            ShapeSolverTypes.eNozzleLessShape.ny (1 / 1000) 1000)
          (exampleConfiguredExtent ShapeSolverTypes.eNozzleLessShape.nx
            ShapeSolverTypes.eNozzleLessShape.ny (1344 / 1000) (128 / 1000))
          (fun _ => 0) 100 100 (3 / 5) (4 / 5) = some 233537730 ∧
        ShapeSolverTypes.eNozzleLessShape.nx * ShapeSolverTypes.eNozzleLessShape.ny ≤
          233537730) ∧
      (getClosestIndex
          (exampleConfiguredGrid ShapeSolverTypes.eWithUmbrellaShape.nx
            ShapeSolverTypes.eWithUmbrellaShape.ny (1 / 750) 750)
          (exampleConfiguredExtent ShapeSolverTypes.eWithUmbrellaShape.nx
            ShapeSolverTypes.eWithUmbrellaShape.ny (3260 / 1000) 1)
          (fun _ => 0) 100 100 (3 / 5) (4 / 5) = some 200039566 ∧
        ShapeSolverTypes.eWithUmbrellaShape.nx * ShapeSolverTypes.eWithUmbrellaShape.ny ≤
          200039566) := by
  have h1 := getClosestIndex_sentinel
    (exampleConfiguredGrid ShapeSolverTypes.eNozzleLessShape.nx
      ShapeSolverTypes.eNozzleLessShape.ny (1 / 1000) 1000)
    (exampleConfiguredExtent ShapeSolverTypes.eNozzleLessShape.nx
      ShapeSolverTypes.eNozzleLessShape.ny (1344 / 1000) (128 / 1000))
    (fun _ => 0) 100 100 (3 / 5) (4 / 5) [97, 98, 99, 100, 101, 102, 103]
    [97, 98, 99, 100, 101, 102, 103] (by with_unfolding_all decide)
    (by with_unfolding_all decide) (fun _ _ _ _ => le_refl _)
  have h2 := getClosestIndex_sentinel
    (exampleConfiguredGrid ShapeSolverTypes.eWithUmbrellaShape.nx
      ShapeSolverTypes.eWithUmbrellaShape.ny (1 / 750) 750)
    (exampleConfiguredExtent ShapeSolverTypes.eWithUmbrellaShape.nx
      ShapeSolverTypes.eWithUmbrellaShape.ny (3260 / 1000) 1)
    (fun _ => 0) 100 100 (3 / 5) (4 / 5) [97, 98, 99, 100, 101, 102, 103]
    [97, 98, 99, 100, 101, 102, 103] (by with_unfolding_all decide)
    (by with_unfolding_all decide) (fun _ _ _ _ => le_refl _)
  exact ⟨⟨h1.1, h1.2 rfl (Or.inl ⟨rfl, rfl⟩)⟩, ⟨h2.1, h2.2 rfl (Or.inr ⟨rfl, rfl⟩)⟩⟩

set_option maxRecDepth 8000 in
/-- Counterexample to C28 as stated: in the concrete launch the cell `(11, 11)` has
`phi = 1 ≥ 5 * hx` and the cell `(10, 10)` has `phi = -1 < 0`; the normal of both is
overwritten, from the initial `(9, 9)` to `(3/5, 4/5)`. -/
theorem findClosestIndices_normal_counterexample :
    ∃ out', findClosestIndices exampleGhostGrid exampleGhostExtent
        (exampleGhostDevice EBoundaryCondition.eWall) (exampleGhostPhi [264] 1)
        exampleGhostOutputs = some out' ∧
      5 * exampleGhostGrid.hx ≤ exampleGhostPhi [264] 1 264 ∧
      exampleGhostPhi [264] 1 240 < 0 ∧
      exampleGhostOutputs.pNormals 264 = { x := 9, y := 9 } ∧
      exampleGhostOutputs.pNormals 240 = { x := 9, y := 9 } ∧
      out'.pNormals 264 = { x := 3 / 5, y := 4 / 5 } ∧
      out'.pNormals 240 = { x := 3 / 5, y := 4 / 5 } := by
  have h : (findClosestIndices exampleGhostGrid exampleGhostExtent
      (exampleGhostDevice EBoundaryCondition.eWall) (exampleGhostPhi [264] 1)
      exampleGhostOutputs).map (fun o => (o.pNormals 264, o.pNormals 240)) =
      some ({ x := 3 / 5, y := 4 / 5 }, { x := 3 / 5, y := 4 / 5 }) := by
    with_unfolding_all decide
  obtain ⟨out', hfold, hv⟩ := Option.map_eq_some'.mp h
  exact ⟨out', hfold, by with_unfolding_all decide, by with_unfolding_all decide, rfl, rfl,
    congrArg Prod.fst hv, congrArg Prod.snd hv⟩

set_option maxRecDepth 8000 in
/-- Witness of the amended C28: in the concrete launch the kernel returns, the pair and the
boundary condition of the cell `(11, 11)` with `phi = 1` are unchanged, and its normal is
the one that the thread computes. -/
theorem findClosestIndices_outside_band_witness :
    ∃ out', findClosestIndices exampleGhostGrid exampleGhostExtent
        (exampleGhostDevice EBoundaryCondition.eWall) (exampleGhostPhi [264] 1)
        exampleGhostOutputs = some out' ∧
      (out'.pClosestIndices 264 = exampleGhostOutputs.pClosestIndices 264 ∧
        out'.pBoundaryConditions 264 = exampleGhostOutputs.pBoundaryConditions 264) ∧
      out'.pNormals 264 =
        findClosestIndices.normal exampleGhostGrid
          (exampleGhostDevice EBoundaryCondition.eWall).toLevelSetDevice
          (exampleGhostPhi [264] 1) exampleGhostWorker := by
  obtain ⟨out', hfold, hkept, hnormal⟩ := findClosestIndices_outside_band exampleGhostGrid
    exampleGhostExtent (exampleGhostDevice EBoundaryCondition.eWall) (exampleGhostPhi [264] 1)
    exampleGhostOutputs exampleGhostGrid_fitsUnsigned (exampleGhost_loopsEnd _ _)
  have hn := hnormal exampleGhostWorker exampleGhostWorker_mem (by decide) (by decide)
  have h264 : exampleGhostWorker.globalIdx exampleGhostGrid = 264 := rfl
  rw [h264] at hn
  exact ⟨out', hfold, hkept 264 (Or.inr (by with_unfolding_all decide)), hn⟩

end ConcreteGhostLaunch

/-! ## Theorems: wave speeds, divisors, index ranges and the flux slots -/

section WaveSpeedTheorems

variable {K : Type} [LinearOrderedField K]

/-- The absolute value of a velocity component is at most an exact non-negative square
root of the squared velocity. -/
theorem abs_le_velocity (sqrt : K → K) (s : GasState K)
    (hv : 0 ≤ Velocity.get sqrt s)
    (hsqrt : Velocity.get sqrt s * Velocity.get sqrt s = VelocitySquared.get s) :
    |s.ux| ≤ Velocity.get sqrt s ∧ |s.uy| ≤ Velocity.get sqrt s := by
  unfold VelocitySquared.get at hsqrt
  constructor
  · refine abs_le.mpr ⟨?_, ?_⟩ <;> nlinarith [mul_self_nonneg s.uy, mul_self_nonneg s.ux]
  · refine abs_le.mpr ⟨?_, ?_⟩ <;> nlinarith [mul_self_nonneg s.uy, mul_self_nonneg s.ux]

/-- The sonic speed of a valid state is non-negative when the square root is. -/
theorem sonicSpeed_nonneg (isfinite : K → Bool) (sqrt : K → K) (kappa : K)
    (s : GasState K)
    (hvalid : IsValid.get isfinite s = true) (hkappa : 0 ≤ kappa)
    (hnonneg : ∀ x, 0 ≤ x → 0 ≤ sqrt x) : 0 ≤ SonicSpeed.get sqrt kappa s := by
  obtain ⟨hrho, hp⟩ := isValid_pos isfinite s hvalid
  unfold SonicSpeed.get
  apply hnonneg
  unfold SonicSpeedSquared.get
  exact div_nonneg (mul_nonneg hkappa hp.le) hrho.le

/-- Claim C35: for every valid state, with `kappa ≥ 0` and a square root that is
non-negative on non-negative arguments and exact at the squared velocity, every
component of `EigenValuesX::get` has absolute value at most
`WaveSpeedX::get = c + |ux|`, and `WaveSpeedX::get ≤ WaveSpeed::get` and
`WaveSpeedY::get ≤ WaveSpeed::get`, where `WaveSpeed::get = c + sqrt (ux ^ 2 + uy ^ 2)`. -/
theorem eigenValuesX_le_waveSpeed (isfinite : K → Bool) (sqrt : K → K) (kappa : K)
    (s : GasState K)
    (hvalid : IsValid.get isfinite s = true) (hkappa : 0 ≤ kappa)
    (hnonneg : ∀ x, 0 ≤ x → 0 ≤ sqrt x)
    (hsqrt : Velocity.get sqrt s * Velocity.get sqrt s = VelocitySquared.get s) :
    (|(EigenValuesX.get sqrt kappa s).x| ≤ WaveSpeedX.get sqrt kappa s ∧
      |(EigenValuesX.get sqrt kappa s).y| ≤ WaveSpeedX.get sqrt kappa s ∧
      |(EigenValuesX.get sqrt kappa s).z| ≤ WaveSpeedX.get sqrt kappa s ∧
      |(EigenValuesX.get sqrt kappa s).w| ≤ WaveSpeedX.get sqrt kappa s) ∧
    WaveSpeedX.get sqrt kappa s = SonicSpeed.get sqrt kappa s + |s.ux| ∧
    WaveSpeedX.get sqrt kappa s ≤ WaveSpeed.get sqrt kappa s ∧
    WaveSpeedY.get sqrt kappa s ≤ WaveSpeed.get sqrt kappa s ∧
    WaveSpeed.get sqrt kappa s = SonicSpeed.get sqrt kappa s + sqrt (s.ux ^ 2 + s.uy ^ 2) := by
  have hc := sonicSpeed_nonneg isfinite sqrt kappa s hvalid hkappa hnonneg
  have hv : 0 ≤ Velocity.get sqrt s := by
    unfold Velocity.get
    apply hnonneg
    unfold VelocitySquared.get
    exact add_nonneg (mul_self_nonneg _) (mul_self_nonneg _)
  obtain ⟨hux, huy⟩ := abs_le_velocity sqrt s hv hsqrt
  have hux0 := abs_nonneg s.ux
  refine ⟨⟨?_, ?_, ?_, ?_⟩, rfl, ?_, ?_, ?_⟩
  · show |s.ux - SonicSpeed.get sqrt kappa s| ≤ SonicSpeed.get sqrt kappa s + |s.ux|
    calc |s.ux - SonicSpeed.get sqrt kappa s|
        ≤ |s.ux| + |SonicSpeed.get sqrt kappa s| := abs_sub _ _
      _ = SonicSpeed.get sqrt kappa s + |s.ux| := by rw [abs_of_nonneg hc, add_comm]
  · show |s.ux| ≤ SonicSpeed.get sqrt kappa s + |s.ux|
    linarith
  · show |s.ux| ≤ SonicSpeed.get sqrt kappa s + |s.ux|
    linarith
  · show |s.ux + SonicSpeed.get sqrt kappa s| ≤ SonicSpeed.get sqrt kappa s + |s.ux|
    calc |s.ux + SonicSpeed.get sqrt kappa s|
        ≤ |s.ux| + |SonicSpeed.get sqrt kappa s| := abs_add _ _
      _ = SonicSpeed.get sqrt kappa s + |s.ux| := by rw [abs_of_nonneg hc, add_comm]
  · unfold WaveSpeedX.get WaveSpeed.get
    linarith
  · unfold WaveSpeedY.get WaveSpeed.get
    linarith
  · unfold WaveSpeed.get Velocity.get VelocitySquared.get
    rw [pow_two, pow_two]

/-- Witness of C35 at `(rho, ux, uy, p) = (7/5, 3, 4, 4)` and `kappa = 7/5` with the
rational square root: the sonic speed is 2, the velocity 5, the eigenvalues
`(1, 3, 3, 5)`, and the wave speeds are 5, 6 and 7. -/
theorem eigenValuesX_le_waveSpeed_witness :
    IsValid.get exampleIsfinite ({ rho := 7 / 5, ux := 3, uy := 4, p := 4 } : GasState ℚ) = true ∧
    EigenValuesX.get Rat.sqrt (7 / 5 : ℚ) { rho := 7 / 5, ux := 3, uy := 4, p := 4 } =
      { x := 1, y := 3, z := 3, w := 5 } ∧
    WaveSpeedX.get Rat.sqrt (7 / 5 : ℚ) { rho := 7 / 5, ux := 3, uy := 4, p := 4 } = 5 ∧
    WaveSpeedY.get Rat.sqrt (7 / 5 : ℚ) { rho := 7 / 5, ux := 3, uy := 4, p := 4 } = 6 ∧
    WaveSpeed.get Rat.sqrt (7 / 5 : ℚ) { rho := 7 / 5, ux := 3, uy := 4, p := 4 } = 7 ∧
    ((|(EigenValuesX.get Rat.sqrt (7 / 5 : ℚ) { rho := 7 / 5, ux := 3, uy := 4, p := 4 }).x| ≤
          WaveSpeedX.get Rat.sqrt (7 / 5 : ℚ) { rho := 7 / 5, ux := 3, uy := 4, p := 4 } ∧
        |(EigenValuesX.get Rat.sqrt (7 / 5 : ℚ) { rho := 7 / 5, ux := 3, uy := 4, p := 4 }).y| ≤
          WaveSpeedX.get Rat.sqrt (7 / 5 : ℚ) { rho := 7 / 5, ux := 3, uy := 4, p := 4 } ∧
        |(EigenValuesX.get Rat.sqrt (7 / 5 : ℚ) { rho := 7 / 5, ux := 3, uy := 4, p := 4 }).z| ≤
          WaveSpeedX.get Rat.sqrt (7 / 5 : ℚ) { rho := 7 / 5, ux := 3, uy := 4, p := 4 } ∧
        |(EigenValuesX.get Rat.sqrt (7 / 5 : ℚ) { rho := 7 / 5, ux := 3, uy := 4, p := 4 }).w| ≤
          WaveSpeedX.get Rat.sqrt (7 / 5 : ℚ) { rho := 7 / 5, ux := 3, uy := 4, p := 4 }) ∧
      WaveSpeedX.get Rat.sqrt (7 / 5 : ℚ) { rho := 7 / 5, ux := 3, uy := 4, p := 4 } =
        SonicSpeed.get Rat.sqrt (7 / 5 : ℚ) { rho := 7 / 5, ux := 3, uy := 4, p := 4 } +
          |(3 : ℚ)| ∧
      WaveSpeedX.get Rat.sqrt (7 / 5 : ℚ) { rho := 7 / 5, ux := 3, uy := 4, p := 4 } ≤
        WaveSpeed.get Rat.sqrt (7 / 5 : ℚ) { rho := 7 / 5, ux := 3, uy := 4, p := 4 } ∧
      WaveSpeedY.get Rat.sqrt (7 / 5 : ℚ) { rho := 7 / 5, ux := 3, uy := 4, p := 4 } ≤
        WaveSpeed.get Rat.sqrt (7 / 5 : ℚ) { rho := 7 / 5, ux := 3, uy := 4, p := 4 } ∧
      WaveSpeed.get Rat.sqrt (7 / 5 : ℚ) { rho := 7 / 5, ux := 3, uy := 4, p := 4 } =
        SonicSpeed.get Rat.sqrt (7 / 5 : ℚ) { rho := 7 / 5, ux := 3, uy := 4, p := 4 } +
          Rat.sqrt ((3 : ℚ) ^ 2 + (4 : ℚ) ^ 2)) :=
  ⟨by norm_num [IsValid.get, exampleIsfinite, abs_le], by with_unfolding_all decide,
    le_antisymm (by with_unfolding_all decide) (by with_unfolding_all decide),
    le_antisymm (by with_unfolding_all decide) (by with_unfolding_all decide),
    le_antisymm (by with_unfolding_all decide) (by with_unfolding_all decide),
    eigenValuesX_le_waveSpeed exampleIsfinite Rat.sqrt (7 / 5 : ℚ)
      { rho := 7 / 5, ux := 3, uy := 4, p := 4 }
      (by norm_num [IsValid.get, exampleIsfinite, abs_le]) (by norm_num)
      (fun x _ => Rat.sqrt_nonneg x)
      (by with_unfolding_all decide)⟩

end WaveSpeedTheorems

section SignTheorems

variable {K : Type} [LinearOrderedField K]

/-- A quotient `x / h` with `h > 0` and `h ^ 2 = x ^ 2 + y ^ 2` is bounded by one in
absolute value, has the sign of `x`, and vanishes exactly when `x` does. -/
theorem quotient_by_hypot (x y h : K) (hpos : 0 < h) (hsq : h * h = x * x + y * y) :
    |x / h| ≤ 1 ∧ (0 < x → 0 < x / h) ∧ (x < 0 → x / h < 0) ∧ (x / h = 0 ↔ x = 0) := by
  refine ⟨?_, fun hx => div_pos hx hpos, fun hx => div_neg_of_neg_of_pos hx hpos, ?_⟩
  · rw [abs_div, abs_of_pos hpos, div_le_one hpos]
    refine abs_le.mpr ⟨?_, ?_⟩ <;> nlinarith [mul_self_nonneg y, mul_self_nonneg x]
  · rw [div_eq_zero_iff]
    exact ⟨fun h0 => h0.resolve_right (ne_of_gt hpos), Or.inl⟩

/-- Claim C34: the smoothed sign of `reinitializeTVDSubStep` is bounded and keeps the
sign: the value of a thread is `phi - dt * sgn * (grad - 1)` with
`sgn = phi / hypot (phi, grad * hx)`, and for every `phi` and gradient magnitude `grad` with
`(phi, grad * hx) ≠ (0, 0)`, the hypotenuse being the non-negative exact square root of
`phi ^ 2 + (grad * hx) ^ 2`, `|sgn| ≤ 1`, `sgn` has the sign of `phi`, and `sgn = 0` exactly
when `phi = 0`. -/
theorem reinitialize_sign_bounded (g : GpuGrid K) (dev : LevelSetDevice K)
    (a : ReinitializeArgs K) (t : Worker) (prevMatrix : Nat → K) (phi grad : K)
    (hphi : phi = prevMatrix (t.sharedIdx g))
    (hgrad : grad = dev.getLevelSetAbsGradient g.sharedMemoryX prevMatrix (t.sharedIdx g)
      (decide (phi > 0)))
    (hne : ¬ (phi = 0 ∧ grad * g.hx = 0))
    (hnonneg : 0 ≤ hypot dev.sqrt phi (grad * g.hx))
    (hsqrt : hypot dev.sqrt phi (grad * g.hx) * hypot dev.sqrt phi (grad * g.hx) =
      phi * phi + grad * g.hx * (grad * g.hx)) :
    reinitializeValue g dev a t prevMatrix =
        phi - a.dt * (phi / hypot dev.sqrt phi (grad * g.hx)) * (grad - 1) ∧
      |phi / hypot dev.sqrt phi (grad * g.hx)| ≤ 1 ∧
      (0 < phi → 0 < phi / hypot dev.sqrt phi (grad * g.hx)) ∧
      (phi < 0 → phi / hypot dev.sqrt phi (grad * g.hx) < 0) ∧
      (phi / hypot dev.sqrt phi (grad * g.hx) = 0 ↔ phi = 0) := by
  have hpos : 0 < hypot dev.sqrt phi (grad * g.hx) := by
    rcases lt_or_eq_of_le hnonneg with h | h
    · exact h
    · exfalso
      rw [← h, mul_zero] at hsqrt
      have h1 := mul_self_nonneg phi
      have h2 := mul_self_nonneg (grad * g.hx)
      have hp0 : phi * phi = 0 := by linarith
      have hy0 : grad * g.hx * (grad * g.hx) = 0 := by linarith
      exact hne ⟨mul_self_eq_zero.mp hp0, mul_self_eq_zero.mp hy0⟩
  refine ⟨?_, quotient_by_hypot phi (grad * g.hx) _ hpos hsqrt⟩
  subst hphi
  subst hgrad
  rfl

/-- Witness of C34 on the concrete level-set launch: the thread of cell `(10, 10)` with
`phi = 3/100`, gradient magnitude `4` and `hx = 1/100`, where the hypotenuse is `1/20` and
`sgn = 3/5`. -/
theorem reinitialize_sign_bounded_witness :
    ¬ ((3 / 100 : ℚ) = 0 ∧ (4 : ℚ) * exampleLevelSetGrid.hx = 0) ∧
    hypot (exampleLevelSetDevice 4).sqrt (3 / 100 : ℚ) (4 * exampleLevelSetGrid.hx) = 1 / 20 ∧
    (reinitializeValue exampleLevelSetGrid (exampleLevelSetDevice 4)
          (exampleReinitializeArgs (3 / 100) 1) exampleLevelSetWorker (fun _ => 3 / 100) =
        (3 / 100 : ℚ) - (exampleReinitializeArgs (3 / 100) 1).dt *
          ((3 / 100 : ℚ) /
            hypot (exampleLevelSetDevice 4).sqrt (3 / 100 : ℚ) (4 * exampleLevelSetGrid.hx)) *
          (4 - 1) ∧
      |(3 / 100 : ℚ) /
          hypot (exampleLevelSetDevice 4).sqrt (3 / 100 : ℚ) (4 * exampleLevelSetGrid.hx)| ≤ 1 ∧
      ((0 : ℚ) < 3 / 100 → 0 < (3 / 100 : ℚ) /
          hypot (exampleLevelSetDevice 4).sqrt (3 / 100 : ℚ) (4 * exampleLevelSetGrid.hx)) ∧
      ((3 / 100 : ℚ) < 0 → (3 / 100 : ℚ) /
          hypot (exampleLevelSetDevice 4).sqrt (3 / 100 : ℚ) (4 * exampleLevelSetGrid.hx) < 0) ∧
      ((3 / 100 : ℚ) /
          hypot (exampleLevelSetDevice 4).sqrt (3 / 100 : ℚ) (4 * exampleLevelSetGrid.hx) = 0 ↔
        (3 / 100 : ℚ) = 0)) :=
  ⟨by with_unfolding_all decide,
    le_antisymm (by with_unfolding_all decide) (by with_unfolding_all decide),
    reinitialize_sign_bounded exampleLevelSetGrid (exampleLevelSetDevice 4)
      (exampleReinitializeArgs (3 / 100) 1) exampleLevelSetWorker (fun _ => 3 / 100)
      (3 / 100) 4 rfl rfl (by with_unfolding_all decide) (by with_unfolding_all decide)
      (le_antisymm (by with_unfolding_all decide) (by with_unfolding_all decide))⟩

end SignTheorems

section SourceTermTheorems

variable {K : Type} [LinearOrderedField K]

/-- Claim C36: the axisymmetric source that a thread of `gasDynamicIntegrateTVDSubStep`
subtracts inline is `SourceTerm::get` component by component: the new conservative
vector is the flux-difference update minus `dt / r` times `SourceTerm::get` of the state
of the cell, `SourceTerm::get` is
`(MassFluxY, MomentumFluxXy, MassFluxY * uy, EnthalpyFluxY)`, and it is the zero vector
whenever `uy = 0`. -/
theorem newConservativeVariables_sourceTerm (g : GpuGrid K) (dev : Device K)
    (a : KernelArgs K) (t : Worker) (prevMatrix : Nat → GasState K) (f : FluxArrays K)
    (hwf : g.WellFormed) :
    newConservativeVariables g dev a t prevMatrix f =
        (ConservativeVariables.get dev.kappa (prevMatrix (t.sharedIdx g)) -
          (a.dt / g.hx) * (f.xFlux (t.fluxSharedIdx g) - f.xFlux (t.fluxSharedIdx g - 1)) -
          (a.dt / g.hy) *
            (f.yFlux (t.fluxSharedIdx g) -
              f.yFlux (t.fluxSharedIdx g - (g.blockSizeX + 1)))) -
        (a.dt / dev.getRadius (t.i g) (t.j g)) *
          SourceTerm.get dev.kappa (prevMatrix (t.sharedIdx g)) ∧
      (∀ s : GasState K, SourceTerm.get dev.kappa s =
        { x := MassFluxY.get s, y := MomentumFluxXy.get s, z := MassFluxY.get s * s.uy,
          w := EnthalpyFluxY.get dev.kappa s }) ∧
      (∀ s : GasState K, s.uy = 0 →
        SourceTerm.get dev.kappa s = { x := 0, y := 0, z := 0, w := 0 }) := by
  refine ⟨newConservativeVariables_eq g dev a t prevMatrix f hwf, fun s => rfl, ?_⟩
  intro s huy
  simp only [SourceTerm.get, MassFluxY.get, MomentumFluxXy.get, EnthalpyFluxY.get, huy,
    mul_zero, zero_mul, add_zero]

/-- Witness of C36 on the concrete launch: the worker of cell `(1, 1)`, the
state `(1, 2, 3, 4)` in every cell and the flux arrays of the launch. -/
theorem newConservativeVariables_sourceTerm_witness :
    exampleGrid.WellFormed ∧
    SourceTerm.get (7 / 5 : ℚ) exampleState = { x := 3, y := 6, z := 9, w := 123 / 2 } ∧
    SourceTerm.get (7 / 5 : ℚ) exampleUniformState = { x := 0, y := 0, z := 0, w := 0 } ∧
    newConservativeVariables exampleGrid exampleDevice (exampleArgs exampleState 1 fun _ => -1)
        exampleWorker (fun _ => exampleState) (exampleFluxes exampleState 1 fun _ => -1) =
      (ConservativeVariables.get exampleDevice.kappa exampleState -
        ((exampleArgs exampleState 1 fun _ => -1).dt / exampleGrid.hx) *
          ((exampleFluxes exampleState 1 fun _ => -1).xFlux
              (exampleWorker.fluxSharedIdx exampleGrid) -
            (exampleFluxes exampleState 1 fun _ => -1).xFlux
              (exampleWorker.fluxSharedIdx exampleGrid - 1)) -
        ((exampleArgs exampleState 1 fun _ => -1).dt / exampleGrid.hy) *
          ((exampleFluxes exampleState 1 fun _ => -1).yFlux
              (exampleWorker.fluxSharedIdx exampleGrid) -
            (exampleFluxes exampleState 1 fun _ => -1).yFlux
              (exampleWorker.fluxSharedIdx exampleGrid - (exampleGrid.blockSizeX + 1)))) -
      ((exampleArgs exampleState 1 fun _ => -1).dt /
          exampleDevice.getRadius (exampleWorker.i exampleGrid) (exampleWorker.j exampleGrid)) *
        SourceTerm.get exampleDevice.kappa exampleState :=
  ⟨exampleGrid_wellFormed,
    by norm_num [SourceTerm.get, MassFluxY.get, MomentumFluxXy.get, EnthalpyFluxY.get,
      RhoEnergy.get, VelocitySquared.get, exampleState],
    by norm_num [SourceTerm.get, MassFluxY.get, MomentumFluxXy.get, EnthalpyFluxY.get,
      RhoEnergy.get, VelocitySquared.get, exampleUniformState],
    (newConservativeVariables_sourceTerm exampleGrid exampleDevice
      (exampleArgs exampleState 1 fun _ => -1) exampleWorker (fun _ => exampleState)
      (exampleFluxes exampleState 1 fun _ => -1) exampleGrid_wellFormed).1⟩

end SourceTermTheorems

section DenominatorTheorems

variable {K : Type} [LinearOrderedField K]

/-- Counterexample to C37 as stated: with the machine epsilon `2 ^ (-23)` of `float`
and `kappa = 7/5`, the state `(rho, ux, uy, p) = (14680064, 0, 1 / 14680064, 41943040)`
is valid, its sonic speed is exactly 2, `|uy| ≤ eps` selects the uy-zero form of the
left eigenvectors, and the divisor `1 - rho * uy` of that form is zero. -/
theorem dispatchedLeft_denominator_counterexample :
    IsValid.get exampleIsfinite ({ rho := 14680064, ux := 0, uy := 1 / 14680064, p := 41943040 } :
      GasState ℚ) = true ∧
    SonicSpeed.get Rat.sqrt (7 / 5 : ℚ)
      { rho := 14680064, ux := 0, uy := 1 / 14680064, p := 41943040 } = 2 ∧
    SonicSpeedSquared.get (7 / 5 : ℚ)
      { rho := 14680064, ux := 0, uy := 1 / 14680064, p := 41943040 } = 4 ∧
    DispatchedLeftPrimitiveEigenVectorsX.denominators (1 / 8388608 : ℚ) Rat.sqrt (7 / 5 : ℚ)
        { rho := 14680064, ux := 0, uy := 1 / 14680064, p := 41943040 } =
      [14680064, 2, 0, 2, 14680064] ∧
    ¬ (∀ d ∈ DispatchedLeftPrimitiveEigenVectorsX.denominators (1 / 8388608 : ℚ) Rat.sqrt
        (7 / 5 : ℚ) { rho := 14680064, ux := 0, uy := 1 / 14680064, p := 41943040 }, d ≠ 0) := by
  have hc : SonicSpeed.get Rat.sqrt (7 / 5 : ℚ)
      { rho := 14680064, ux := 0, uy := 1 / 14680064, p := 41943040 } = 2 :=
    le_antisymm (by with_unfolding_all decide) (by with_unfolding_all decide)
  have hd : DispatchedLeftPrimitiveEigenVectorsX.denominators (1 / 8388608 : ℚ) Rat.sqrt
      (7 / 5 : ℚ) { rho := 14680064, ux := 0, uy := 1 / 14680064, p := 41943040 } =
      [14680064, 2, 0, 2, 14680064] := by
    unfold DispatchedLeftPrimitiveEigenVectorsX.denominators
    rw [if_neg (by norm_num [abs_of_pos])]
    unfold LeftPrimitiveEigenVectorsX.denominators SonicSpeed.denominators
    rw [hc]
    norm_num
  refine ⟨by norm_num [IsValid.get, exampleIsfinite, abs_le], hc,
    by norm_num [SonicSpeedSquared.get], hd, ?_⟩
  rw [hd]
  intro h
  exact h 0 (by simp) rfl

/-- Claim C37, amended: for every valid state, with `kappa > 0`, an exact square root at
the squared sonic speed, a non-negative machine epsilon, and `rho * uy ≠ 1` whenever
`|uy| ≤ eps`, every divisor evaluated by `DispatchedLeftPrimitiveEigenVectorsX::get` and
`DispatchedRightPrimitiveEigenVectorsX::get` is non-zero: `uy` in the general right form,
`c` and `rho` in both left forms, and `1 - rho * uy` in the uy-zero left form. -/
theorem dispatched_denominators_ne_zero (isfinite : K → Bool) (eps : K) (sqrt : K → K)
    (kappa : K) (s : GasState K) (hvalid : IsValid.get isfinite s = true) (hkappa : 0 < kappa)
    (heps : 0 ≤ eps)
    (hsqrt : SonicSpeed.get sqrt kappa s * SonicSpeed.get sqrt kappa s =
      SonicSpeedSquared.get kappa s)
    (hmult : ¬ |s.uy| > eps → s.rho * s.uy ≠ 1) :
    (∀ d ∈ DispatchedLeftPrimitiveEigenVectorsX.denominators eps sqrt kappa s, d ≠ 0) ∧
      (∀ d ∈ DispatchedRightPrimitiveEigenVectorsX.denominators eps s, d ≠ 0) ∧
      (|s.uy| > eps → s.uy ∈ DispatchedRightPrimitiveEigenVectorsX.denominators eps s) ∧
      SonicSpeed.get sqrt kappa s ∈
        DispatchedLeftPrimitiveEigenVectorsX.denominators eps sqrt kappa s ∧
      s.rho ∈ DispatchedLeftPrimitiveEigenVectorsX.denominators eps sqrt kappa s ∧
      (¬ |s.uy| > eps →
        1 - s.rho * s.uy ∈ DispatchedLeftPrimitiveEigenVectorsX.denominators eps sqrt kappa s) := by
  have hrho : s.rho ≠ 0 := ne_of_gt (isValid_pos isfinite s hvalid).1
  have hc := sonicSpeed_ne_zero isfinite sqrt kappa s hvalid hkappa hsqrt
  have h2 : (2 : K) ≠ 0 := two_ne_zero
  unfold DispatchedLeftPrimitiveEigenVectorsX.denominators
    DispatchedRightPrimitiveEigenVectorsX.denominators
  by_cases h : |s.uy| > eps
  · have huy : s.uy ≠ 0 := by
      intro h0
      rw [h0, abs_zero] at h
      exact absurd h (not_lt.mpr heps)
    rw [if_pos h, if_pos h]
    refine ⟨?_, ?_, fun _ => ?_, ?_, ?_, fun hn => absurd h hn⟩
    · intro d hd
      simp only [LeftPrimitiveEigenVectorsX.denominators, SonicSpeed.denominators,
        List.cons_append, List.nil_append, List.mem_cons, List.mem_singleton,
        List.not_mem_nil, or_false] at hd
      rcases hd with rfl | rfl | rfl <;> assumption
    · intro d hd
      simp only [RightPrimitiveEigenVectorsX.denominators, SonicSpeed.denominators,
        List.cons_append, List.nil_append, List.mem_cons, List.mem_singleton,
        List.not_mem_nil, or_false] at hd
      rcases hd with rfl | rfl <;> assumption
    · simp [RightPrimitiveEigenVectorsX.denominators, SonicSpeed.denominators]
    · simp [LeftPrimitiveEigenVectorsX.denominators, SonicSpeed.denominators]
    · simp [LeftPrimitiveEigenVectorsX.denominators, SonicSpeed.denominators]
  · have hm : 1 - s.rho * s.uy ≠ 0 := fun h0 => hmult h (by linarith)
    rw [if_neg h, if_neg h]
    refine ⟨?_, ?_, fun hp => absurd hp h, ?_, ?_, fun _ => ?_⟩
    · intro d hd
      simp only [LeftPrimitiveEigenVectorsX.denominators, SonicSpeed.denominators,
        List.cons_append, List.nil_append, List.mem_cons, List.mem_singleton,
        List.not_mem_nil, or_false] at hd
      rcases hd with rfl | rfl | rfl | rfl | rfl <;> assumption
    · intro d hd
      simp only [RightPrimitiveEigenVectorsX.denominators, SonicSpeed.denominators,
        List.mem_singleton] at hd
      rw [hd]
      exact hrho
    · simp [LeftPrimitiveEigenVectorsX.denominators, SonicSpeed.denominators]
    · simp [LeftPrimitiveEigenVectorsX.denominators, SonicSpeed.denominators]
    · simp [LeftPrimitiveEigenVectorsX.denominators, SonicSpeed.denominators]

/-- Witness of C37 (amended) at `(rho, ux, uy, p) = (7/5, 1, 0, 4)`, `kappa = 7/5` and
`eps = 2 ^ (-23)`, where the uy-zero forms are selected and the sonic speed is 2. -/
theorem dispatched_denominators_ne_zero_witness :
    IsValid.get exampleIsfinite ({ rho := 7 / 5, ux := 1, uy := 0, p := 4 } : GasState ℚ) = true ∧
    (¬ |(0 : ℚ)| > 1 / 8388608 → (7 / 5 : ℚ) * 0 ≠ 1) ∧
    (∀ d ∈ DispatchedLeftPrimitiveEigenVectorsX.denominators (1 / 8388608 : ℚ) Rat.sqrt
        (7 / 5 : ℚ) { rho := 7 / 5, ux := 1, uy := 0, p := 4 }, d ≠ 0) ∧
    (∀ d ∈ DispatchedRightPrimitiveEigenVectorsX.denominators (1 / 8388608 : ℚ)
        ({ rho := 7 / 5, ux := 1, uy := 0, p := 4 } : GasState ℚ), d ≠ 0) :=
  have h := dispatched_denominators_ne_zero exampleIsfinite (1 / 8388608 : ℚ) Rat.sqrt
    (7 / 5 : ℚ) { rho := 7 / 5, ux := 1, uy := 0, p := 4 }
    (by norm_num [IsValid.get, exampleIsfinite, abs_le]) (by norm_num)
    (by norm_num) (le_antisymm (by with_unfolding_all decide) (by with_unfolding_all decide))
    (fun _ => by norm_num)
  ⟨by norm_num [IsValid.get, exampleIsfinite, abs_le], fun _ => by norm_num, h.1, h.2.1⟩

end DenominatorTheorems

section UnitNormalTheorems

variable {K : Type} [LinearOrderedField K]

/-- A component of a unit vector, times a level in `[0, 5 * h)`, over `h`, lies strictly
between `-5` and `5`. -/
theorem unit_component_bound (n m level h : K) (hunit : n ^ 2 + m ^ 2 = 1) (hh : 0 < h)
    (h0 : 0 ≤ level) (h5 : level < 5 * h) :
    -5 < n * level * (1 / h) ∧ n * level * (1 / h) < 5 := by
  have hr : n * level * (1 / h) = n * (level / h) := by ring
  have hr0 : 0 ≤ level / h := div_nonneg h0 hh.le
  have hr5 : level / h < 5 := (div_lt_iff₀ hh).mpr h5
  have hn1 : n ≤ 1 := by nlinarith [sq_nonneg m, sq_nonneg (n - 1)]
  have hn0 : -1 ≤ n := by nlinarith [sq_nonneg m, sq_nonneg (n + 1)]
  have hle : n * (level / h) ≤ level / h := mul_le_of_le_one_left hr0 hn1
  have hge : -(level / h) ≤ n * (level / h) := by nlinarith [mul_nonneg (sub_nonneg.mpr hn0) hr0]
  rw [hr]
  constructor <;> linarith

end UnitNormalTheorems

section MirrorRangeTheorems

variable {K : Type} [LinearOrderedField K] [FloorRing K]

/-- `std::round` of a value that is at least an integer is at least that integer. -/
theorem le_stdRound (x : K) (n : ℤ) (h : (n : K) ≤ x) : n ≤ stdRound x := by
  unfold stdRound
  by_cases h0 : 0 ≤ x
  · rw [if_pos h0, Int.le_floor]
    linarith
  · rw [if_neg h0]
    have hlt : n - 1 < ⌈x - 1 / 2⌉ := by
      rw [Int.lt_ceil]
      push_cast
      linarith
    omega

/-- `std::round` of a value strictly between `c - d` and `c + d`, for naturals `d ≤ c`,
is an integer between `c - d` and `c + d`. -/
theorem stdRound_near (x : K) (c d : Nat) (hlo : (c : K) - d < x) (hhi : x < (c : K) + d) :
    (c : ℤ) - d ≤ stdRound x ∧ stdRound x ≤ (c : ℤ) + d := by
  constructor
  · apply le_stdRound
    push_cast
    exact hlo.le
  · apply stdRound_le
    push_cast
    exact hhi.le

/-- The conversion to `unsigned` of a small non-negative integer is the integer. -/
theorem toUnsigned_eq (z : ℤ) (h0 : 0 ≤ z) (h1 : z < 2 ^ 32) :
    (toUnsigned z : ℤ) = z := by
  unfold toUnsigned
  omega

/-- The conversion of a small non-negative `int` to `unsigned` is the integer. -/
theorem intToUnsigned_eq (m : Nat) (h : m < 2 ^ 32) : intToUnsigned (m : ℤ) = m := by
  unfold intToUnsigned
  omega

/-- Claim C32: for every cell with `10 ≤ i < nx - 10`, `10 ≤ j < ny - 10`,
`0 ≤ phi < 5 * hx` and a unit normal, on a well-formed grid, the rounded mirror indices
of `findClosestIndices` satisfy `0 ≤ iMirrorInt ≤ nx - 1` and `0 ≤ jMirrorInt ≤ ny - 1`,
and the index `jMirrorInt * nx + iMirrorInt` at which the level set is read does not
wrap and lies inside the array of `nx * ny` cells. -/
theorem findClosestIndices_mirror_in_range (g : GpuGrid K) (dev : GhostMapDevice K)
    (pCurrPhi : Nat → K) (t : Worker) (hwf : g.WellFormed)
    (hi : 10 ≤ t.i g ∧ t.i g + 10 < g.nx) (hj : 10 ≤ t.j g ∧ t.j g + 10 < g.ny)
    (hphi : 0 ≤ pCurrPhi (t.globalIdx g) ∧ pCurrPhi (t.globalIdx g) < 5 * g.hx)
    (hunit : (findClosestIndices.normal g dev.toLevelSetDevice pCurrPhi t).x ^ 2 +
      (findClosestIndices.normal g dev.toLevelSetDevice pCurrPhi t).y ^ 2 = 1) :
    (0 ≤ stdRound (findClosestIndices.iMirror g dev pCurrPhi t) ∧
      stdRound (findClosestIndices.iMirror g dev pCurrPhi t) ≤ (g.nx : ℤ) - 1) ∧
    (0 ≤ stdRound (findClosestIndices.jMirror g dev pCurrPhi t) ∧
      stdRound (findClosestIndices.jMirror g dev pCurrPhi t) ≤ (g.ny : ℤ) - 1) ∧
    (findClosestIndices.mirrorGlobalIdx g dev pCurrPhi t : ℤ) =
      stdRound (findClosestIndices.jMirror g dev pCurrPhi t) * (g.nx : ℤ) +
        stdRound (findClosestIndices.iMirror g dev pCurrPhi t) ∧
    findClosestIndices.mirrorGlobalIdx g dev pCurrPhi t < g.nx * g.ny := by
  have hx := unit_component_bound _ _ _ g.hx hunit hwf.hx_pos hphi.1 hphi.2
  have hy := unit_component_bound _ _ _ g.hx
    (by rw [add_comm]; exact hunit) hwf.hx_pos hphi.1 hphi.2
  have hiM : findClosestIndices.iMirror g dev pCurrPhi t = (t.i g : K) -
      2 * ((findClosestIndices.normal g dev.toLevelSetDevice pCurrPhi t).x *
        pCurrPhi (t.globalIdx g) * (1 / g.hx)) := by
    unfold findClosestIndices.iMirror
    rw [hwf.hxReciprocal_eq]
    ring
  have hjM : findClosestIndices.jMirror g dev pCurrPhi t = (t.j g : K) -
      2 * ((findClosestIndices.normal g dev.toLevelSetDevice pCurrPhi t).y *
        pCurrPhi (t.globalIdx g) * (1 / g.hx)) := by
    unfold findClosestIndices.jMirror
    rw [hwf.hxReciprocal_eq]
    ring
  have hir := stdRound_near (findClosestIndices.iMirror g dev pCurrPhi t) (t.i g) 10
    (by rw [hiM]; push_cast; linarith [hx.2]) (by rw [hiM]; push_cast; linarith [hx.1])
  have hjr := stdRound_near (findClosestIndices.jMirror g dev pCurrPhi t) (t.j g) 10
    (by rw [hjM]; push_cast; linarith [hy.2]) (by rw [hjM]; push_cast; linarith [hy.1])
  have hi0 : 0 ≤ stdRound (findClosestIndices.iMirror g dev pCurrPhi t) := by omega
  have hi1 : stdRound (findClosestIndices.iMirror g dev pCurrPhi t) ≤ (g.nx : ℤ) - 1 := by omega
  have hj0 : 0 ≤ stdRound (findClosestIndices.jMirror g dev pCurrPhi t) := by omega
  have hj1 : stdRound (findClosestIndices.jMirror g dev pCurrPhi t) ≤ (g.ny : ℤ) - 1 := by omega
  obtain ⟨iM, hiMe⟩ := Int.eq_ofNat_of_zero_le hi0
  obtain ⟨jM, hjMe⟩ := Int.eq_ofNat_of_zero_le hj0
  have hiMlt : iM < g.nx := by omega
  have hjMlt : jM + 1 ≤ g.ny := by omega
  have hlt : jM * g.nx + iM < g.nx * g.ny :=
    calc jM * g.nx + iM < jM * g.nx + g.nx := Nat.add_lt_add_left hiMlt _
      _ = (jM + 1) * g.nx := by ring
      _ ≤ g.ny * g.nx := Nat.mul_le_mul_right _ hjMlt
      _ = g.nx * g.ny := Nat.mul_comm _ _
  have hidx : findClosestIndices.mirrorGlobalIdx g dev pCurrPhi t = jM * g.nx + iM := by
    unfold findClosestIndices.mirrorGlobalIdx
    simp only [hiMe, hjMe]
    rw [← intToUnsigned_eq (jM * g.nx + iM) (lt_trans hlt hwf.cells_lt)]
    push_cast
    rfl
  refine ⟨⟨hi0, hi1⟩, ⟨hj0, hj1⟩, ?_, ?_⟩
  · rw [hidx, hiMe, hjMe]
    push_cast
    rfl
  · rw [hidx]
    exact hlt

end MirrorRangeTheorems

section ScanRangeTheorems

variable {K : Type} [LinearOrderedField K] [FloorRing K]

/-- For a cell whose level is in `[0, 5 * h)`, the rounded foot-point coordinate along a
direction of spacing `h` is within 5 nodes of the coordinate `c` of the cell. -/
theorem surface_index_near (n m level h hReciprocal : K) (c : Nat)
    (hunit : n ^ 2 + m ^ 2 = 1) (hh : 0 < h) (hrec : hReciprocal = 1 / h) (h0 : 0 ≤ level)
    (h5 : level < 5 * h) (hc : 5 ≤ c) (hfit : c + 5 < 2 ^ 32) :
    c ≤ toUnsigned (stdRound (((c : K) * h - n * level) * hReciprocal)) + 5 ∧
      toUnsigned (stdRound (((c : K) * h - n * level) * hReciprocal)) ≤ c + 5 := by
  have hb := unit_component_bound n m level h hunit hh h0 h5
  have hne : h ≠ 0 := ne_of_gt hh
  have hval : ((c : K) * h - n * level) * hReciprocal = (c : K) - n * level * (1 / h) := by
    rw [hrec]
    field_simp
  have hr := stdRound_near (((c : K) * h - n * level) * hReciprocal) c 5
    (by rw [hval]; push_cast; linarith [hb.2]) (by rw [hval]; push_cast; linarith [hb.1])
  have hu := toUnsigned_eq (stdRound (((c : K) * h - n * level) * hReciprocal))
    (by omega) (by omega)
  omega

/-- Claim C33: on a well-formed grid with `hx = hy`, for every cell with
`10 ≤ i < nx - 10`, `10 ≤ j < ny - 10`, `0 ≤ phi < 5 * hx` and a unit normal, the
subtractions `iSurface - 3` and `jSurface - 3` of `getClosestIndex` do not wrap, both of
its loops end, it returns the result of the scan of the visited nodes, and every visited
node `(iCl, jCl)` satisfies `iCl < nx` and `jCl < ny`. -/
theorem getClosestIndex_scan_in_range (g : GpuGrid K) (ext : GpuGridExtent K)
    (pCurrPhi : Nat → K) (i j : Nat) (nx ny : K) (hwf : g.WellFormed) (hxy : g.hx = g.hy)
    (hi : 10 ≤ i ∧ i + 10 < g.nx) (hj : 10 ≤ j ∧ j + 10 < g.ny)
    (hphi : 0 ≤ pCurrPhi (j * g.nx + i) ∧ pCurrPhi (j * g.nx + i) < 5 * g.hx)
    (hunit : nx ^ 2 + ny ^ 2 = 1) :
    (3 ≤ getClosestIndex.iSurface g pCurrPhi i j nx ∧
      subU32 (getClosestIndex.iSurface g pCurrPhi i j nx) 3 =
        getClosestIndex.iSurface g pCurrPhi i j nx - 3) ∧
    (3 ≤ getClosestIndex.jSurface g pCurrPhi i j ny ∧
      subU32 (getClosestIndex.jSurface g pCurrPhi i j ny) 3 =
        getClosestIndex.jSurface g pCurrPhi i j ny - 3) ∧
    ∃ is js : List Nat,
      getClosestIndex.scan (getClosestIndex.iSurface g pCurrPhi i j nx) = some is ∧
      getClosestIndex.scan (getClosestIndex.jSurface g pCurrPhi i j ny) = some js ∧
      getClosestIndex g ext pCurrPhi i j nx ny =
        some (getClosestIndex.result g
          ((getClosestIndex.scanOrder is js).foldl
            (fun st p => getClosestIndex.visit g pCurrPhi
              (getClosestIndex.xSurface g pCurrPhi i j nx)
              (getClosestIndex.ySurface g pCurrPhi i j ny) st p.1 p.2)
            { minDistanceSquared := ext.lx * ext.lx + ext.ly * ext.ly, iClosest := ext.n,
              jClosest := ext.n })) ∧
      ∀ p ∈ getClosestIndex.scanOrder is js, p.1 < g.nx ∧ p.2 < g.ny := by
  have hcells := hwf.cells_lt
  have hnx : g.nx < 2 ^ 32 :=
    lt_of_le_of_lt (Nat.le_mul_of_pos_right g.nx (by omega)) hcells
  have hny : g.ny < 2 ^ 32 :=
    lt_of_le_of_lt (Nat.le_mul_of_pos_left g.ny (by omega)) hcells
  have hlt : j * g.nx + i < g.nx * g.ny :=
    calc j * g.nx + i < j * g.nx + g.nx := Nat.add_lt_add_left (by omega) _
      _ = (j + 1) * g.nx := by ring
      _ ≤ g.ny * g.nx := Nat.mul_le_mul_right _ (by omega)
      _ = g.nx * g.ny := Nat.mul_comm _ _
  have hidx : (j * g.nx + i) % 2 ^ 32 = j * g.nx + i :=
    Nat.mod_eq_of_lt (lt_trans hlt hcells)
  have hy_pos : 0 < g.hy := hxy ▸ hwf.hx_pos
  have hiS := surface_index_near nx ny (pCurrPhi (j * g.nx + i)) g.hx g.hxReciprocal i hunit
    hwf.hx_pos hwf.hxReciprocal_eq hphi.1 hphi.2 (by omega) (by omega)
  have hjS := surface_index_near ny nx (pCurrPhi (j * g.nx + i)) g.hy g.hyReciprocal j
    (by rw [add_comm]; exact hunit) hy_pos hwf.hyReciprocal_eq hphi.1 (hxy ▸ hphi.2)
    (by omega) (by omega)
  have hiE : getClosestIndex.iSurface g pCurrPhi i j nx =
      toUnsigned (stdRound (((i : K) * g.hx - nx * pCurrPhi (j * g.nx + i)) *
        g.hxReciprocal)) := by
    unfold getClosestIndex.iSurface getClosestIndex.xSurface
    rw [hidx]
  have hjE : getClosestIndex.jSurface g pCurrPhi i j ny =
      toUnsigned (stdRound (((j : K) * g.hy - ny * pCurrPhi (j * g.nx + i)) *
        g.hyReciprocal)) := by
    unfold getClosestIndex.jSurface getClosestIndex.ySurface
    rw [hidx]
  rw [← hiE] at hiS
  rw [← hjE] at hjS
  have hi3 : 3 ≤ getClosestIndex.iSurface g pCurrPhi i j nx := by omega
  have hj3 : 3 ≤ getClosestIndex.jSurface g pCurrPhi i j ny := by omega
  have hsi := scan_eq hi3 (by omega)
  have hsj := scan_eq hj3 (by omega)
  refine ⟨⟨hi3, subU32_eq hi3 (by omega)⟩, ⟨hj3, subU32_eq hj3 (by omega)⟩, _, _, hsi, hsj,
    getClosestIndex_eq g ext pCurrPhi i j nx ny _ _ hsi hsj, ?_⟩
  intro p hp
  obtain ⟨hp1, hp2⟩ := (mem_scanOrder _ _ p).mp hp
  rw [List.mem_range'_1] at hp1 hp2
  constructor <;> omega

end ScanRangeTheorems

section DisjointTheorems

variable {K : Type} [LinearOrderedField K] [FloorRing K]

/-- Claim C38: ghost cells and updated cells are disjoint, for every level-set field.
When the loops of the ghost mapping end, `findClosestIndices` returns, and for every
cell `k`: if `phi ≥ 0` fails, the kernel leaves the closest-index pair and the boundary
condition of `k` as they were, whatever they were; if `phi < 0` fails,
`gasDynamicIntegrateTVDSubStep` leaves the state of `k` as it was, whatever it was.  So a
cell with a recorded mapping has `phi ≥ 0`, an updated cell has `phi < 0`, and every cell
is left alone by one of the two kernels. -/
theorem ghost_cells_not_updated (g : GpuGrid K) (ext : GpuGridExtent K)
    (ghostDev : GhostMapDevice K) (gasDev : Device K) (a : KernelArgs K)
    (u : Uninitialised K)
    (hloops : findClosestIndices.LoopsEnd g ghostDev a.pCurrPhi) :
    (∀ out, ∃ out', findClosestIndices g ext ghostDev a.pCurrPhi out = some out' ∧
      ∀ k, ¬ 0 ≤ a.pCurrPhi k →
        out'.pClosestIndices k = out.pClosestIndices k ∧
          out'.pBoundaryConditions k = out.pBoundaryConditions k) ∧
    (∀ pCurrValue k, ¬ a.pCurrPhi k < 0 →
      gasDynamicIntegrateTVDSubStep g gasDev a u pCurrValue k = pCurrValue k) ∧
    (∀ out out' pCurrValue k,
      findClosestIndices g ext ghostDev a.pCurrPhi out = some out' →
      ¬ ((out'.pClosestIndices k ≠ out.pClosestIndices k ∨
          out'.pBoundaryConditions k ≠ out.pBoundaryConditions k) ∧
        gasDynamicIntegrateTVDSubStep g gasDev a u pCurrValue k ≠ pCurrValue k)) := by
  have hghost : ∀ out out' k, findClosestIndices g ext ghostDev a.pCurrPhi out = some out' →
      ¬ 0 ≤ a.pCurrPhi k →
        out'.pClosestIndices k = out.pClosestIndices k ∧
          out'.pBoundaryConditions k = out.pBoundaryConditions k := by
    intro out out' k hfold hk
    refine findClosestIndices_record_kept g ext ghostDev a.pCurrPhi k out out' ?_ hfold
    intro t _ htk
    refine Or.inr (Or.inr ?_)
    cases hg : findClosestIndices.pointIsGhost g a.pCurrPhi t
    · rfl
    · exfalso
      have h0 := ((pointIsGhost_iff g a.pCurrPhi t).mp hg).1
      rw [htk] at h0
      exact hk h0
  have hgas : ∀ pCurrValue k, ¬ a.pCurrPhi k < 0 →
      gasDynamicIntegrateTVDSubStep g gasDev a u pCurrValue k = pCurrValue k := by
    intro pCurrValue k hk
    refine gasDynamicIntegrateTVDSubStep_unchanged g gasDev a u pCurrValue k ?_
    intro t _ _ hphi htk
    rw [htk] at hphi
    exact hk hphi
  refine ⟨?_, hgas, ?_⟩
  · intro out
    obtain ⟨out', hfold⟩ := findClosestIndices_returns g ext ghostDev a.pCurrPhi out hloops
    exact ⟨out', hfold, fun k hk => hghost out out' k hfold hk⟩
  · intro out out' pCurrValue k hfold hboth
    by_cases hk : 0 ≤ a.pCurrPhi k
    · exact hboth.2 (hgas pCurrValue k (not_lt.mpr hk))
    · obtain ⟨h1, h2⟩ := hghost out out' k hfold hk
      rcases hboth.1 with h | h
      · exact h h1
      · exact h h2

end DisjointTheorems

section ConcreteRangeChecks

/-- The concrete ghost-mapping grid satisfies the relations of `GpuGridT`. -/
theorem exampleGhostGrid_wellFormed : exampleGhostGrid.WellFormed := by
  constructor <;> norm_num [exampleGhostGrid]

set_option maxRecDepth 8000 in
/-- Witness of C32 on the concrete ghost-mapping launch: the cell `(11, 11)` with level
`1/100 = hx` and normal `(3/5, 4/5)` has the mirror point `(9.8, 9.4)`, the rounded
indices `(10, 9)` and the mirror index `9 * 23 + 10 = 217`. -/
theorem findClosestIndices_mirror_in_range_witness :
    exampleGhostGrid.WellFormed ∧
    (0 ≤ exampleGhostPhi [264] (1 / 100) (exampleGhostWorker.globalIdx exampleGhostGrid) ∧
      exampleGhostPhi [264] (1 / 100) (exampleGhostWorker.globalIdx exampleGhostGrid) <
        5 * exampleGhostGrid.hx) ∧
    stdRound (findClosestIndices.iMirror exampleGhostGrid
      (exampleGhostDevice EBoundaryCondition.eWall) (exampleGhostPhi [264] (1 / 100))
      exampleGhostWorker) = 10 ∧
    stdRound (findClosestIndices.jMirror exampleGhostGrid
      (exampleGhostDevice EBoundaryCondition.eWall) (exampleGhostPhi [264] (1 / 100))
      exampleGhostWorker) = 9 ∧
    findClosestIndices.mirrorGlobalIdx exampleGhostGrid
      (exampleGhostDevice EBoundaryCondition.eWall) (exampleGhostPhi [264] (1 / 100))
      exampleGhostWorker = 217 ∧
    findClosestIndices.mirrorGlobalIdx exampleGhostGrid
        (exampleGhostDevice EBoundaryCondition.eWall) (exampleGhostPhi [264] (1 / 100))
        exampleGhostWorker <
      exampleGhostGrid.nx * exampleGhostGrid.ny :=
  ⟨exampleGhostGrid_wellFormed, by with_unfolding_all decide, by with_unfolding_all decide,
    by with_unfolding_all decide, by with_unfolding_all decide,
    (findClosestIndices_mirror_in_range exampleGhostGrid
      (exampleGhostDevice EBoundaryCondition.eWall) (exampleGhostPhi [264] (1 / 100))
      exampleGhostWorker exampleGhostGrid_wellFormed ⟨by decide, by decide⟩
      ⟨by decide, by decide⟩ (by with_unfolding_all decide)
      (by rw [exampleGhost_normal]; norm_num)).2.2.2⟩

set_option maxRecDepth 8000 in
/-- Witness of C33 on the concrete ghost-mapping grid: for the cell `(11, 11)` with level
`1/100 = hx` and normal `(3/5, 4/5)` the foot point rounds to `(10, 10)`, and the loops
start at `7` without a wrap. -/
theorem getClosestIndex_scan_in_range_witness :
    exampleGhostGrid.WellFormed ∧ exampleGhostGrid.hx = exampleGhostGrid.hy ∧
    (0 ≤ exampleGhostPhi [264] (1 / 100) (11 * exampleGhostGrid.nx + 11) ∧
      exampleGhostPhi [264] (1 / 100) (11 * exampleGhostGrid.nx + 11) <
        5 * exampleGhostGrid.hx) ∧
    getClosestIndex.iSurface exampleGhostGrid (exampleGhostPhi [264] (1 / 100)) 11 11
      (3 / 5) = 10 ∧
    getClosestIndex.jSurface exampleGhostGrid (exampleGhostPhi [264] (1 / 100)) 11 11
      (4 / 5) = 10 ∧
    (3 ≤ getClosestIndex.iSurface exampleGhostGrid (exampleGhostPhi [264] (1 / 100)) 11 11
        (3 / 5) ∧
      subU32 (getClosestIndex.iSurface exampleGhostGrid (exampleGhostPhi [264] (1 / 100))
          11 11 (3 / 5)) 3 =
        getClosestIndex.iSurface exampleGhostGrid (exampleGhostPhi [264] (1 / 100)) 11 11
          (3 / 5) - 3) ∧
    (3 ≤ getClosestIndex.jSurface exampleGhostGrid (exampleGhostPhi [264] (1 / 100)) 11 11
        (4 / 5) ∧
      subU32 (getClosestIndex.jSurface exampleGhostGrid (exampleGhostPhi [264] (1 / 100))
          11 11 (4 / 5)) 3 =
        getClosestIndex.jSurface exampleGhostGrid (exampleGhostPhi [264] (1 / 100)) 11 11
          (4 / 5) - 3) :=
  have h := getClosestIndex_scan_in_range exampleGhostGrid exampleGhostExtent
    (exampleGhostPhi [264] (1 / 100)) 11 11 (3 / 5) (4 / 5) exampleGhostGrid_wellFormed rfl
    ⟨by decide, by decide⟩ ⟨by decide, by decide⟩ (by with_unfolding_all decide)
    (by norm_num)
  ⟨exampleGhostGrid_wellFormed, rfl, by with_unfolding_all decide,
    by with_unfolding_all decide, by with_unfolding_all decide, h.1, h.2.1⟩

set_option maxRecDepth 8000 in
/-- Witness of C38 on the concrete launches over the 23 x 23 grid, with the level set
`1/100` at cell 264 and `-1` elsewhere: the ghost mapping returns and leaves the record
of cell 0 alone, and the gas-dynamics kernel leaves the state of cell 264 alone. -/
theorem ghost_cells_not_updated_witness :
    findClosestIndices.LoopsEnd exampleGhostGrid (exampleGhostDevice EBoundaryCondition.eWall)
      (exampleArgs exampleState 1 (exampleGhostPhi [264] (1 / 100))).pCurrPhi ∧
    (∃ out', findClosestIndices exampleGhostGrid exampleGhostExtent
        (exampleGhostDevice EBoundaryCondition.eWall)
        (exampleArgs exampleState 1 (exampleGhostPhi [264] (1 / 100))).pCurrPhi
        exampleGhostOutputs = some out' ∧
      out'.pClosestIndices 0 = exampleGhostOutputs.pClosestIndices 0 ∧
      out'.pBoundaryConditions 0 = exampleGhostOutputs.pBoundaryConditions 0) ∧
    gasDynamicIntegrateTVDSubStep exampleGhostGrid exampleDevice
        (exampleArgs exampleState 1 (exampleGhostPhi [264] (1 / 100))) exampleUninitialised
        exampleCurrValue 264 =
      exampleCurrValue 264 :=
  have h := ghost_cells_not_updated exampleGhostGrid exampleGhostExtent
    (exampleGhostDevice EBoundaryCondition.eWall) exampleDevice
    (exampleArgs exampleState 1 (exampleGhostPhi [264] (1 / 100))) exampleUninitialised
    (exampleGhost_loopsEnd _ _)
  ⟨exampleGhost_loopsEnd _ _,
    (h.1 exampleGhostOutputs).imp
      (fun _ ho => ⟨ho.1, ho.2 0 (by with_unfolding_all decide)⟩),
    h.2.1 exampleCurrValue 264 (by with_unfolding_all decide)⟩

end ConcreteRangeChecks

section FluxStoreTheorems

variable {K : Type} [LinearOrderedField K]

/-- The x-flux slot `s` after the stores of a thread: the value for the stencil index of
the thread at its own slot, the value for the left face of the tile at the slot of
line 97, and the old content elsewhere. -/
theorem storeFluxes_xFlux (g : GpuGrid K) (dev : Device K) (a : KernelArgs K) (t : Worker)
    (pm : Nat → GasState K) (f : FluxArrays K) (s : Nat) :
    (storeFluxes g dev a t pm f).xFlux s =
      if t.returnsEarly g dev = true then f.xFlux s
      else if a.pCurrPhi (t.globalIdx g) ≤ g.hx + 1 / 1000000 ∧ s = t.fluxSharedIdx g then
        xFluxValues dev a pm (t.sharedIdx g)
      else if (t.tj = 1 ∧ t.ti < g.blockSizeY) ∧
          s = (t.ti + 1) * (g.blockSizeX + 1) + t.tj - 1 then
        xFluxValues dev a pm (t.ai g * g.sharedMemoryX + t.aj g - 1 - 1)
      else f.xFlux s := by
  unfold storeFluxes
  by_cases he : t.returnsEarly g dev = true
  · rw [if_pos he, if_pos he]
  rw [if_neg he, if_neg he]
  simp only [if_true, if_false, decide_eq_true_eq, FluxArrays.xFlux, xFluxValues]
  by_cases hd : t.tj = 1 ∧ t.ti < g.blockSizeY
  · by_cases hf : a.pCurrPhi (t.globalIdx g) ≤ g.hx + 1 / 1000000
    · have h0 : ¬ t.tj = 0 := by omega
      simp only [if_true, if_false, if_pos hd, if_pos hf, if_neg h0, eq_true hd, eq_true hf, true_and,
        Function.update_apply]
      split_ifs <;> rfl
    · simp only [if_true, if_pos hd, if_neg hf, eq_true hd, eq_false hf, true_and, false_and,
        if_false, Function.update_apply]
      split_ifs <;> rfl
  · by_cases hf : a.pCurrPhi (t.globalIdx g) ≤ g.hx + 1 / 1000000
    · by_cases h0 : t.tj = 0
      · simp only [if_true, if_neg hd, if_pos hf, if_pos h0, eq_false hd, eq_true hf, true_and,
          false_and, if_false, Function.update_apply]
        split_ifs <;> rfl
      · simp only [if_true, if_neg hd, if_pos hf, if_neg h0, eq_false hd, eq_true hf, true_and,
          false_and, if_false, Function.update_apply]
        split_ifs <;> rfl
    · simp only [if_true, if_neg hd, if_neg hf, eq_false hd, eq_false hf, false_and, if_false]

/-- The y-flux slot `s` after the stores of a thread: the value for the stencil index of
the thread at its own slot, the value for the bottom face of the tile at the slot of
line 110, and the old content elsewhere. -/
theorem storeFluxes_yFlux (g : GpuGrid K) (dev : Device K) (a : KernelArgs K) (t : Worker)
    (pm : Nat → GasState K) (f : FluxArrays K) (s : Nat) :
    (storeFluxes g dev a t pm f).yFlux s =
      if t.returnsEarly g dev = true then f.yFlux s
      else if a.pCurrPhi (t.globalIdx g) ≤ g.hx + 1 / 1000000 ∧ s = t.fluxSharedIdx g then
        yFluxValues g dev a pm (t.sharedIdx g)
      else if (a.pCurrPhi (t.globalIdx g) ≤ g.hx + 1 / 1000000 ∧ t.tj = 0) ∧
          s = t.fluxSharedIdx g - (g.blockSizeX + 1) then
        yFluxValues g dev a pm (t.sharedIdx g - g.sharedMemoryX)
      else f.yFlux s := by
  unfold storeFluxes
  by_cases he : t.returnsEarly g dev = true
  · rw [if_pos he, if_pos he]
  rw [if_neg he, if_neg he]
  simp only [if_true, if_false, decide_eq_true_eq, FluxArrays.yFlux, yFluxValues]
  by_cases hd : t.tj = 1 ∧ t.ti < g.blockSizeY
  · by_cases hf : a.pCurrPhi (t.globalIdx g) ≤ g.hx + 1 / 1000000
    · have h0 : ¬ t.tj = 0 := by omega
      simp only [if_true, if_pos hd, if_pos hf, if_neg h0, eq_false h0, eq_true hf, true_and,
        and_false, false_and, if_false, Function.update_apply]
      split_ifs <;> rfl
    · simp only [if_true, if_pos hd, if_neg hf, eq_false hf, false_and, if_false]
  · by_cases hf : a.pCurrPhi (t.globalIdx g) ≤ g.hx + 1 / 1000000
    · by_cases h0 : t.tj = 0
      · simp only [if_true, if_false, if_neg hd, if_pos hf, if_pos h0, eq_true h0, eq_true hf, true_and,
          and_self, Function.update_apply]
        split_ifs <;> rfl
      · simp only [if_true, if_neg hd, if_pos hf, if_neg h0, eq_false h0, eq_true hf, true_and,
          and_false, false_and, if_false, Function.update_apply]
        split_ifs <;> rfl
    · simp only [if_true, if_neg hd, if_neg hf, eq_false hf, false_and, if_false]

/-- The x-flux slots of a thread, as a predicate. -/
theorem mem_xFluxSlots (g : GpuGrid K) (dev : Device K) (a : KernelArgs K) (t : Worker)
    (s : Nat) :
    s ∈ t.xFluxSlots g dev a ↔
      t.returnsEarly g dev = false ∧
        ((a.pCurrPhi (t.globalIdx g) ≤ g.hx + 1 / 1000000 ∧ s = t.fluxSharedIdx g) ∨
          ((t.tj = 1 ∧ t.ti < g.blockSizeY) ∧
            s = (t.ti + 1) * (g.blockSizeX + 1) + t.tj - 1)) := by
  unfold Worker.xFluxSlots
  cases t.returnsEarly g dev
  · simp only [if_true, Bool.false_eq_true, if_false, true_and, List.mem_append]
    by_cases hd : t.tj = 1 ∧ t.ti < g.blockSizeY <;>
      by_cases hf : a.pCurrPhi (t.globalIdx g) ≤ g.hx + 1 / 1000000
    · simp only [if_true, if_false, if_pos hd, if_pos hf, eq_true hd, eq_true hf, true_and, List.mem_singleton]
      exact Or.comm
    · simp only [if_true, if_false, if_pos hd, if_neg hf, eq_true hd, eq_false hf, true_and, false_and,
        List.mem_singleton, List.not_mem_nil, or_false, false_or]
    · simp only [if_true, if_false, if_neg hd, if_pos hf, eq_false hd, eq_true hf, true_and, false_and,
        List.mem_singleton, List.not_mem_nil, or_false, false_or]
    · simp only [if_true, if_false, if_neg hd, if_neg hf, eq_false hd, eq_false hf, false_and,
        List.not_mem_nil, or_false]
  · simp only [if_true, if_false, if_true, List.not_mem_nil, Bool.true_eq_false, false_and]

/-- The y-flux slots of a thread, as a predicate. -/
theorem mem_yFluxSlots (g : GpuGrid K) (dev : Device K) (a : KernelArgs K) (t : Worker)
    (s : Nat) :
    s ∈ t.yFluxSlots g dev a ↔
      t.returnsEarly g dev = false ∧
        ((a.pCurrPhi (t.globalIdx g) ≤ g.hx + 1 / 1000000 ∧ s = t.fluxSharedIdx g) ∨
          ((a.pCurrPhi (t.globalIdx g) ≤ g.hx + 1 / 1000000 ∧ t.tj = 0) ∧
            s = t.fluxSharedIdx g - (g.blockSizeX + 1))) := by
  unfold Worker.yFluxSlots
  cases t.returnsEarly g dev
  · simp only [if_true, Bool.false_eq_true, if_false, true_and]
    by_cases hf : a.pCurrPhi (t.globalIdx g) ≤ g.hx + 1 / 1000000 <;>
      by_cases h0 : t.tj = 0
    · simp only [if_true, if_false, if_pos hf, if_pos h0, eq_true hf, eq_true h0, true_and, and_self,
        List.mem_append, List.mem_singleton]
      exact Or.comm
    · simp only [if_true, if_false, if_pos hf, if_neg h0, eq_true hf, eq_false h0, true_and, and_false,
        false_and, List.mem_append, List.mem_singleton, List.not_mem_nil, or_false, false_or]
    · simp only [if_true, if_false, if_neg hf, eq_false hf, false_and, List.not_mem_nil, or_false]
    · simp only [if_true, if_false, if_neg hf, eq_false hf, false_and, List.not_mem_nil, or_false]
  · simp only [if_true, if_false, if_true, List.not_mem_nil, Bool.true_eq_false, false_and]

/-- The stores of a thread leave every x-flux slot alone that is not one of its slots. -/
theorem storeFluxes_xFlux_frame (g : GpuGrid K) (dev : Device K) (a : KernelArgs K)
    (t : Worker) (pm : Nat → GasState K) (f : FluxArrays K) (s : Nat)
    (h : s ∉ t.xFluxSlots g dev a) : (storeFluxes g dev a t pm f).xFlux s = f.xFlux s := by
  rw [storeFluxes_xFlux]
  rw [mem_xFluxSlots] at h
  split_ifs with h1 h2 h3
  · rfl
  · exact absurd ⟨Bool.eq_false_iff.mpr h1, Or.inl h2⟩ h
  · exact absurd ⟨Bool.eq_false_iff.mpr h1, Or.inr h3⟩ h
  · rfl

/-- The stores of a thread leave every y-flux slot alone that is not one of its slots. -/
theorem storeFluxes_yFlux_frame (g : GpuGrid K) (dev : Device K) (a : KernelArgs K)
    (t : Worker) (pm : Nat → GasState K) (f : FluxArrays K) (s : Nat)
    (h : s ∉ t.yFluxSlots g dev a) : (storeFluxes g dev a t pm f).yFlux s = f.yFlux s := by
  rw [storeFluxes_yFlux]
  rw [mem_yFluxSlots] at h
  split_ifs with h1 h2 h3
  · rfl
  · exact absurd ⟨Bool.eq_false_iff.mpr h1, Or.inl h2⟩ h
  · exact absurd ⟨Bool.eq_false_iff.mpr h1, Or.inr h3⟩ h
  · rfl

end FluxStoreTheorems

section ObservedFoldTheorems

/-- A fold leaves an observation alone that no step changes. -/
theorem foldl_observe_frame {σ α β : Type} (step : σ → α → σ) (obs : σ → β) (l : List α)
    (h : ∀ a ∈ l, ∀ s, obs (step s a) = obs s) (s0 : σ) :
    obs (l.foldl step s0) = obs s0 := by
  induction l generalizing s0 with
  | nil => rfl
  | cons a l ih =>
    rw [List.foldl_cons, ih (fun b hb => h b (List.mem_cons_of_mem a hb))]
    exact h a (List.mem_cons_self a l) s0

/-- A fold in which exactly one step sets an observation leaves that step's value. -/
theorem foldl_observe_single_write {σ α β : Type} (step : σ → α → σ) (obs : σ → β) (v : β)
    (l : List α) (t0 : α) (ht0 : t0 ∈ l) (h0 : ∀ s, obs (step s t0) = v)
    (hothers : ∀ a ∈ l, a ≠ t0 → ∀ s, obs (step s a) = obs s) (s0 : σ) :
    obs (l.foldl step s0) = v := by
  induction l generalizing s0 with
  | nil => cases ht0
  | cons a l ih =>
    rw [List.foldl_cons]
    by_cases hmem : t0 ∈ l
    · exact ih hmem (fun b hb => hothers b (List.mem_cons_of_mem a hb)) _
    · have hat : a = t0 := by
        rcases List.mem_cons.mp ht0 with h | h
        · exact h.symm
        · exact absurd h hmem
      rw [foldl_observe_frame step obs l _ (step s0 a)]
      · rw [hat]; exact h0 s0
      · intro b hb s
        have hbt : b ≠ t0 := fun e => hmem (e ▸ hb)
        exact hothers b (List.mem_cons_of_mem a hb) hbt s

end ObservedFoldTheorems

section FluxIndexTheorems

variable {K : Type}

/-- Two threads of a tile with the same thread index are the same thread. -/
theorem blockWorkers_ext (g : GpuGrid K) (blockIdxX blockIdxY : Nat) (w1 w2 : Worker)
    (h1 : w1 ∈ blockWorkers g blockIdxX blockIdxY)
    (h2 : w2 ∈ blockWorkers g blockIdxX blockIdxY) (hi : w1.ti = w2.ti)
    (hj : w1.tj = w2.tj) : w1 = w2 := by
  obtain ⟨hx1, hy1, _, _⟩ := (mem_blockWorkers g _ _ w1).mp h1
  obtain ⟨hx2, hy2, _, _⟩ := (mem_blockWorkers g _ _ w2).mp h2
  cases w1; cases w2
  simp only [Worker.mk.injEq]
  exact ⟨hx1.trans hx2.symm, hy1.trans hy2.symm, hi, hj⟩

end FluxIndexTheorems

section FluxTileTheorems

variable {K : Type} [LinearOrderedField K]

/-- No x-flux slot is a slot of two threads of a tile. -/
theorem xFluxSlots_unique (g : GpuGrid K) (dev : Device K) (a : KernelArgs K)
    (blockIdxX blockIdxY : Nat) (w1 w2 : Worker)
    (h1 : w1 ∈ blockWorkers g blockIdxX blockIdxY)
    (h2 : w2 ∈ blockWorkers g blockIdxX blockIdxY) (s : Nat)
    (hs1 : s ∈ w1.xFluxSlots g dev a) (hs2 : s ∈ w2.xFluxSlots g dev a) : w1 = w2 := by
  obtain ⟨_, _, hi1, hj1⟩ := (mem_blockWorkers g _ _ w1).mp h1
  obtain ⟨_, _, hi2, hj2⟩ := (mem_blockWorkers g _ _ w2).mp h2
  obtain ⟨_, hs1⟩ := (mem_xFluxSlots g dev a w1 s).mp hs1
  obtain ⟨_, hs2⟩ := (mem_xFluxSlots g dev a w2 s).mp hs2
  unfold Worker.fluxSharedIdx at hs1 hs2
  have key : w1.ti = w2.ti ∧ w1.tj = w2.tj := by
    rcases hs1 with ⟨_, e1⟩ | ⟨⟨t1, _⟩, e1⟩ <;> rcases hs2 with ⟨_, e2⟩ | ⟨⟨t2, _⟩, e2⟩
    · have := @rowMajor_inj (g.blockSizeX + 1) (w1.tj + 1) (w1.ti + 1) (w2.tj + 1) (w2.ti + 1)
        (by omega) (by omega) (by omega)
      omega
    · have := @rowMajor_inj (g.blockSizeX + 1) (w1.tj + 1) (w1.ti + 1) (w2.ti + 1) 0
        (by omega) (by omega) (by omega)
      omega
    · have := @rowMajor_inj (g.blockSizeX + 1) (w1.ti + 1) 0 (w2.tj + 1) (w2.ti + 1)
        (by omega) (by omega) (by omega)
      omega
    · have := @rowMajor_inj (g.blockSizeX + 1) (w1.ti + 1) 0 (w2.ti + 1) 0
        (by omega) (by omega) (by omega)
      omega
  exact blockWorkers_ext g _ _ w1 w2 h1 h2 key.1 key.2

/-- No y-flux slot is a slot of two threads of a tile. -/
theorem yFluxSlots_unique (g : GpuGrid K) (dev : Device K) (a : KernelArgs K)
    (blockIdxX blockIdxY : Nat) (w1 w2 : Worker)
    (h1 : w1 ∈ blockWorkers g blockIdxX blockIdxY)
    (h2 : w2 ∈ blockWorkers g blockIdxX blockIdxY) (s : Nat)
    (hs1 : s ∈ w1.yFluxSlots g dev a) (hs2 : s ∈ w2.yFluxSlots g dev a) : w1 = w2 := by
  obtain ⟨_, _, hi1, hj1⟩ := (mem_blockWorkers g _ _ w1).mp h1
  obtain ⟨_, _, hi2, hj2⟩ := (mem_blockWorkers g _ _ w2).mp h2
  obtain ⟨_, hs1⟩ := (mem_yFluxSlots g dev a w1 s).mp hs1
  obtain ⟨_, hs2⟩ := (mem_yFluxSlots g dev a w2 s).mp hs2
  unfold Worker.fluxSharedIdx at hs1 hs2
  have key : w1.ti = w2.ti ∧ w1.tj = w2.tj := by
    rcases hs1 with ⟨_, e1⟩ | ⟨⟨_, t1⟩, e1⟩ <;> rcases hs2 with ⟨_, e2⟩ | ⟨⟨_, t2⟩, e2⟩
    · have := @rowMajor_inj (g.blockSizeX + 1) (w1.tj + 1) (w1.ti + 1) (w2.tj + 1) (w2.ti + 1)
        (by omega) (by omega) (by omega)
      omega
    · rw [t2] at e2
      have := @rowMajor_inj (g.blockSizeX + 1) (w1.tj + 1) (w1.ti + 1) 0 (w2.ti + 1)
        (by omega) (by omega) (by omega)
      omega
    · rw [t1] at e1
      have := @rowMajor_inj (g.blockSizeX + 1) 0 (w1.ti + 1) (w2.tj + 1) (w2.ti + 1)
        (by omega) (by omega) (by omega)
      omega
    · rw [t1] at e1
      rw [t2] at e2
      omega
  exact blockWorkers_ext g _ _ w1 w2 h1 h2 key.1 key.2

/-- At the second barrier an x-flux slot of a thread of the tile holds the value that
this thread stores. -/
theorem tileFluxes_xFlux_written (g : GpuGrid K) (dev : Device K) (a : KernelArgs K)
    (u : Uninitialised K) (blockIdxX blockIdxY : Nat) (w0 : Worker) (s : Nat)
    (v : CudaFloat4T K) (hw0 : w0 ∈ blockWorkers g blockIdxX blockIdxY)
    (hs : s ∈ w0.xFluxSlots g dev a)
    (hv : ∀ f, (storeFluxes g dev a w0 (tilePrevMatrix g dev a u blockIdxX blockIdxY) f).xFlux s
      = v) :
    (tileFluxes g dev a u blockIdxX blockIdxY).xFlux s = v := by
  unfold tileFluxes
  refine foldl_observe_single_write
    (fun f t => storeFluxes g dev a t (tilePrevMatrix g dev a u blockIdxX blockIdxY) f)
    (fun f => f.xFlux s) v (blockWorkers g blockIdxX blockIdxY) w0 hw0 hv ?_ _
  intro w hw hne f
  exact storeFluxes_xFlux_frame g dev a w _ f s
    (fun hmem => hne (xFluxSlots_unique g dev a _ _ w w0 hw hw0 s hmem hs))

/-- At the second barrier a y-flux slot of a thread of the tile holds the value that
this thread stores. -/
theorem tileFluxes_yFlux_written (g : GpuGrid K) (dev : Device K) (a : KernelArgs K)
    (u : Uninitialised K) (blockIdxX blockIdxY : Nat) (w0 : Worker) (s : Nat)
    (v : CudaFloat4T K) (hw0 : w0 ∈ blockWorkers g blockIdxX blockIdxY)
    (hs : s ∈ w0.yFluxSlots g dev a)
    (hv : ∀ f, (storeFluxes g dev a w0 (tilePrevMatrix g dev a u blockIdxX blockIdxY) f).yFlux s
      = v) :
    (tileFluxes g dev a u blockIdxX blockIdxY).yFlux s = v := by
  unfold tileFluxes
  refine foldl_observe_single_write
    (fun f t => storeFluxes g dev a t (tilePrevMatrix g dev a u blockIdxX blockIdxY) f)
    (fun f => f.yFlux s) v (blockWorkers g blockIdxX blockIdxY) w0 hw0 hv ?_ _
  intro w hw hne f
  exact storeFluxes_yFlux_frame g dev a w _ f s
    (fun hmem => hne (yFluxSlots_unique g dev a _ _ w w0 hw hw0 s hmem hs))

end FluxTileTheorems

section FluxWriterTheorems

variable {K : Type} [LinearOrderedField K]

/-- The own slots of a thread that calculates its fluxes hold, at the second barrier,
the fluxes for its own stencil index. -/
theorem own_faces_written (g : GpuGrid K) (dev : Device K) (a : KernelArgs K)
    (u : Uninitialised K) (blockIdxX blockIdxY : Nat) (t : Worker)
    (ht : t ∈ blockWorkers g blockIdxX blockIdxY) (he : t.returnsEarly g dev = false)
    (hf : a.pCurrPhi (t.globalIdx g) ≤ g.hx + 1 / 1000000) :
    (t.fluxSharedIdx g ∈ t.xFluxSlots g dev a ∧
      (tileFluxes g dev a u blockIdxX blockIdxY).xFlux (t.fluxSharedIdx g) =
        xFluxValues dev a (tilePrevMatrix g dev a u blockIdxX blockIdxY) (t.sharedIdx g)) ∧
    (t.fluxSharedIdx g ∈ t.yFluxSlots g dev a ∧
      (tileFluxes g dev a u blockIdxX blockIdxY).yFlux (t.fluxSharedIdx g) =
        yFluxValues g dev a (tilePrevMatrix g dev a u blockIdxX blockIdxY) (t.sharedIdx g)) := by
  have he' : ¬ t.returnsEarly g dev = true := by rw [he]; exact Bool.false_ne_true
  have hx : t.fluxSharedIdx g ∈ t.xFluxSlots g dev a :=
    (mem_xFluxSlots g dev a t _).mpr ⟨he, Or.inl ⟨hf, rfl⟩⟩
  have hy : t.fluxSharedIdx g ∈ t.yFluxSlots g dev a :=
    (mem_yFluxSlots g dev a t _).mpr ⟨he, Or.inl ⟨hf, rfl⟩⟩
  refine ⟨⟨hx, tileFluxes_xFlux_written g dev a u _ _ t _ _ ht hx ?_⟩,
    ⟨hy, tileFluxes_yFlux_written g dev a u _ _ t _ _ ht hy ?_⟩⟩
  · intro f
    rw [storeFluxes_xFlux, if_neg he', if_pos ⟨hf, rfl⟩]
  · intro f
    rw [storeFluxes_yFlux, if_neg he', if_pos ⟨hf, rfl⟩]

/-- The x-flux of the left face of a cell of a full tile is stored by the thread of the
left neighbour, or for the left column of the tile by the thread `(tj, 1)`. -/
theorem left_face_written (g : GpuGrid K) (dev : Device K) (a : KernelArgs K)
    (u : Uninitialised K) (blockIdxX blockIdxY ti tj : Nat)
    (hbs : 2 ≤ g.blockSizeY ∧ g.blockSizeY ≤ g.blockSizeX)
    (hfull : ∀ w ∈ blockWorkers g blockIdxX blockIdxY, w.returnsEarly g dev = false)
    (hti : ti < g.blockSizeX) (htj : tj < g.blockSizeY)
    (hleft : 1 ≤ ti →
      a.pCurrPhi (Worker.globalIdx g ⟨blockIdxX, blockIdxY, ti, tj⟩ - 1) ≤ g.hx + 1 / 1000000) :
    (if ti = 0 then (⟨blockIdxX, blockIdxY, tj, 1⟩ : Worker)
        else ⟨blockIdxX, blockIdxY, ti - 1, tj⟩) ∈ blockWorkers g blockIdxX blockIdxY ∧
      Worker.fluxSharedIdx g ⟨blockIdxX, blockIdxY, ti, tj⟩ - 1 ∈
        Worker.xFluxSlots g dev a
          (if ti = 0 then (⟨blockIdxX, blockIdxY, tj, 1⟩ : Worker)
            else ⟨blockIdxX, blockIdxY, ti - 1, tj⟩) ∧
      (tileFluxes g dev a u blockIdxX blockIdxY).xFlux
          (Worker.fluxSharedIdx g ⟨blockIdxX, blockIdxY, ti, tj⟩ - 1) =
        xFluxValues dev a (tilePrevMatrix g dev a u blockIdxX blockIdxY)
          (Worker.sharedIdx g ⟨blockIdxX, blockIdxY, ti, tj⟩ - 1) := by
  by_cases h0 : ti = 0
  · subst h0
    rw [if_pos rfl]
    have hmem : (⟨blockIdxX, blockIdxY, tj, 1⟩ : Worker) ∈ blockWorkers g blockIdxX blockIdxY :=
      (mem_blockWorkers g _ _ _).mpr ⟨rfl, rfl, by show tj < g.blockSizeX; omega,
        by show 1 < g.blockSizeY; omega⟩
    have he := hfull _ hmem
    have he' : ¬ Worker.returnsEarly g dev ⟨blockIdxX, blockIdxY, tj, 1⟩ = true := by
      rw [he]; exact Bool.false_ne_true
    have hslot : Worker.fluxSharedIdx g ⟨blockIdxX, blockIdxY, 0, tj⟩ - 1 =
        (tj + 1) * (g.blockSizeX + 1) + 1 - 1 := rfl
    have hne : ¬ (a.pCurrPhi (Worker.globalIdx g ⟨blockIdxX, blockIdxY, tj, 1⟩) ≤
          g.hx + 1 / 1000000 ∧
        Worker.fluxSharedIdx g ⟨blockIdxX, blockIdxY, 0, tj⟩ - 1 =
          Worker.fluxSharedIdx g ⟨blockIdxX, blockIdxY, tj, 1⟩) := by
      rintro ⟨_, e⟩
      rw [hslot] at e
      simp only [Worker.fluxSharedIdx] at e
      have := @rowMajor_inj (g.blockSizeX + 1) (tj + 1) 0 (1 + 1) (tj + 1)
        (by omega) (by omega) (by omega)
      omega
    have hin : Worker.fluxSharedIdx g ⟨blockIdxX, blockIdxY, 0, tj⟩ - 1 ∈
        Worker.xFluxSlots g dev a ⟨blockIdxX, blockIdxY, tj, 1⟩ :=
      (mem_xFluxSlots g dev a _ _).mpr ⟨he, Or.inr ⟨⟨rfl, htj⟩, hslot⟩⟩
    refine ⟨hmem, hin, tileFluxes_xFlux_written g dev a u _ _ _ _ _ hmem hin ?_⟩
    intro f
    rw [storeFluxes_xFlux, if_neg he', if_neg hne, if_pos ⟨⟨rfl, htj⟩, hslot⟩]
    congr 1
    simp only [Worker.ai, Worker.aj, Worker.sharedIdx]
    omega
  · rw [if_neg h0]
    have hmem : (⟨blockIdxX, blockIdxY, ti - 1, tj⟩ : Worker) ∈
        blockWorkers g blockIdxX blockIdxY :=
      (mem_blockWorkers g _ _ _).mpr ⟨rfl, rfl, by show ti - 1 < g.blockSizeX; omega, htj⟩
    have he := hfull _ hmem
    have he' : ¬ Worker.returnsEarly g dev ⟨blockIdxX, blockIdxY, ti - 1, tj⟩ = true := by
      rw [he]; exact Bool.false_ne_true
    have hg : Worker.globalIdx g ⟨blockIdxX, blockIdxY, ti - 1, tj⟩ =
        Worker.globalIdx g ⟨blockIdxX, blockIdxY, ti, tj⟩ - 1 := by
      simp only [Worker.globalIdx, Worker.i, Worker.j]
      omega
    have hf : a.pCurrPhi (Worker.globalIdx g ⟨blockIdxX, blockIdxY, ti - 1, tj⟩) ≤
        g.hx + 1 / 1000000 := by
      rw [hg]
      exact hleft (by omega)
    have hslot : Worker.fluxSharedIdx g ⟨blockIdxX, blockIdxY, ti, tj⟩ - 1 =
        Worker.fluxSharedIdx g ⟨blockIdxX, blockIdxY, ti - 1, tj⟩ := by
      simp only [Worker.fluxSharedIdx]
      omega
    have hshared : Worker.sharedIdx g ⟨blockIdxX, blockIdxY, ti - 1, tj⟩ =
        Worker.sharedIdx g ⟨blockIdxX, blockIdxY, ti, tj⟩ - 1 := by
      simp only [Worker.sharedIdx, Worker.ai, Worker.aj]
      omega
    have hin : Worker.fluxSharedIdx g ⟨blockIdxX, blockIdxY, ti, tj⟩ - 1 ∈
        Worker.xFluxSlots g dev a ⟨blockIdxX, blockIdxY, ti - 1, tj⟩ :=
      (mem_xFluxSlots g dev a _ _).mpr ⟨he, Or.inl ⟨hf, hslot⟩⟩
    refine ⟨hmem, hin, tileFluxes_xFlux_written g dev a u _ _ _ _ _ hmem hin ?_⟩
    intro f
    rw [storeFluxes_xFlux, if_neg he', if_pos ⟨hf, hslot⟩, hshared]

/-- The y-flux of the bottom face of a cell of a full tile is stored by the thread of
the bottom neighbour, or for the bottom row of the tile by the thread of the cell. -/
theorem bottom_face_written (g : GpuGrid K) (dev : Device K) (a : KernelArgs K)
    (u : Uninitialised K) (blockIdxX blockIdxY ti tj : Nat)
    (hfull : ∀ w ∈ blockWorkers g blockIdxX blockIdxY, w.returnsEarly g dev = false)
    (hti : ti < g.blockSizeX) (htj : tj < g.blockSizeY)
    (hown : a.pCurrPhi (Worker.globalIdx g ⟨blockIdxX, blockIdxY, ti, tj⟩) ≤
      g.hx + 1 / 1000000)
    (hbottom : 1 ≤ tj →
      a.pCurrPhi (Worker.globalIdx g ⟨blockIdxX, blockIdxY, ti, tj⟩ - g.nx) ≤
        g.hx + 1 / 1000000) :
    (if tj = 0 then (⟨blockIdxX, blockIdxY, ti, tj⟩ : Worker)
        else ⟨blockIdxX, blockIdxY, ti, tj - 1⟩) ∈ blockWorkers g blockIdxX blockIdxY ∧
      Worker.fluxSharedIdx g ⟨blockIdxX, blockIdxY, ti, tj⟩ - (g.blockSizeX + 1) ∈
        Worker.yFluxSlots g dev a
          (if tj = 0 then (⟨blockIdxX, blockIdxY, ti, tj⟩ : Worker)
            else ⟨blockIdxX, blockIdxY, ti, tj - 1⟩) ∧
      (tileFluxes g dev a u blockIdxX blockIdxY).yFlux
          (Worker.fluxSharedIdx g ⟨blockIdxX, blockIdxY, ti, tj⟩ - (g.blockSizeX + 1)) =
        yFluxValues g dev a (tilePrevMatrix g dev a u blockIdxX blockIdxY)
          (Worker.sharedIdx g ⟨blockIdxX, blockIdxY, ti, tj⟩ - g.sharedMemoryX) := by
  by_cases h0 : tj = 0
  · subst h0
    rw [if_pos rfl]
    have hmem : (⟨blockIdxX, blockIdxY, ti, 0⟩ : Worker) ∈ blockWorkers g blockIdxX blockIdxY :=
      (mem_blockWorkers g _ _ _).mpr ⟨rfl, rfl, hti, htj⟩
    have he := hfull _ hmem
    have he' : ¬ Worker.returnsEarly g dev ⟨blockIdxX, blockIdxY, ti, 0⟩ = true := by
      rw [he]; exact Bool.false_ne_true
    have hne : ¬ (a.pCurrPhi (Worker.globalIdx g ⟨blockIdxX, blockIdxY, ti, 0⟩) ≤
          g.hx + 1 / 1000000 ∧
        Worker.fluxSharedIdx g ⟨blockIdxX, blockIdxY, ti, 0⟩ - (g.blockSizeX + 1) =
          Worker.fluxSharedIdx g ⟨blockIdxX, blockIdxY, ti, 0⟩) := by
      rintro ⟨_, e⟩
      simp only [Worker.fluxSharedIdx] at e
      omega
    have hin : Worker.fluxSharedIdx g ⟨blockIdxX, blockIdxY, ti, 0⟩ - (g.blockSizeX + 1) ∈
        Worker.yFluxSlots g dev a ⟨blockIdxX, blockIdxY, ti, 0⟩ :=
      (mem_yFluxSlots g dev a _ _).mpr ⟨he, Or.inr ⟨⟨hown, rfl⟩, rfl⟩⟩
    refine ⟨hmem, hin, tileFluxes_yFlux_written g dev a u _ _ _ _ _ hmem hin ?_⟩
    intro f
    rw [storeFluxes_yFlux, if_neg he', if_neg hne, if_pos ⟨⟨hown, rfl⟩, rfl⟩]
  · rw [if_neg h0]
    obtain ⟨k, rfl⟩ := Nat.exists_eq_succ_of_ne_zero h0
    have hk : k + 1 - 1 = k := by omega
    rw [hk]
    have hmem : (⟨blockIdxX, blockIdxY, ti, k⟩ : Worker) ∈ blockWorkers g blockIdxX blockIdxY :=
      (mem_blockWorkers g _ _ _).mpr ⟨rfl, rfl, hti, by show k < g.blockSizeY; omega⟩
    have he := hfull _ hmem
    have he' : ¬ Worker.returnsEarly g dev ⟨blockIdxX, blockIdxY, ti, k⟩ = true := by
      rw [he]; exact Bool.false_ne_true
    have hg : Worker.globalIdx g ⟨blockIdxX, blockIdxY, ti, k⟩ =
        Worker.globalIdx g ⟨blockIdxX, blockIdxY, ti, k + 1⟩ - g.nx := by
      simp only [Worker.globalIdx, Worker.i, Worker.j]
      have : (k + 1 + g.blockSizeY * blockIdxY) * g.nx =
          (k + g.blockSizeY * blockIdxY) * g.nx + g.nx := by ring
      omega
    have hf : a.pCurrPhi (Worker.globalIdx g ⟨blockIdxX, blockIdxY, ti, k⟩) ≤
        g.hx + 1 / 1000000 := by
      rw [hg]
      exact hbottom (by omega)
    have hslot : Worker.fluxSharedIdx g ⟨blockIdxX, blockIdxY, ti, k + 1⟩ -
        (g.blockSizeX + 1) = Worker.fluxSharedIdx g ⟨blockIdxX, blockIdxY, ti, k⟩ := by
      simp only [Worker.fluxSharedIdx]
      have : (k + 1 + 1) * (g.blockSizeX + 1) =
          (k + 1) * (g.blockSizeX + 1) + (g.blockSizeX + 1) := Nat.succ_mul _ _
      omega
    have hshared : Worker.sharedIdx g ⟨blockIdxX, blockIdxY, ti, k⟩ =
        Worker.sharedIdx g ⟨blockIdxX, blockIdxY, ti, k + 1⟩ - g.sharedMemoryX := by
      simp only [Worker.sharedIdx, Worker.ai, Worker.aj]
      have : (k + 1 + g.smExtension) * g.sharedMemoryX =
          (k + g.smExtension) * g.sharedMemoryX + g.sharedMemoryX := by ring
      omega
    have hin : Worker.fluxSharedIdx g ⟨blockIdxX, blockIdxY, ti, k + 1⟩ -
        (g.blockSizeX + 1) ∈ Worker.yFluxSlots g dev a ⟨blockIdxX, blockIdxY, ti, k⟩ :=
      (mem_yFluxSlots g dev a _ _).mpr ⟨he, Or.inl ⟨hf, hslot⟩⟩
    refine ⟨hmem, hin, tileFluxes_yFlux_written g dev a u _ _ _ _ _ hmem hin ?_⟩
    intro f
    rw [storeFluxes_yFlux, if_neg he', if_pos ⟨hf, hslot⟩, hshared]

end FluxWriterTheorems

section FluxWriterClaims

variable {K : Type} [LinearOrderedField K]

/-- Claim C31: every flux value consumed by the update of a cell was produced in the same
launch by exactly one worker.  In a tile of which every thread passes the early return
(an active full tile), with `blockSize.x ≥ blockSize.y ≥ 2`, for a cell with `phi < 0`
whose in-tile neighbours across the left and the bottom face have `phi ≤ hx + 1e-6`: at
the second barrier the x-flux and y-flux entries at `fluxSharedIdx`, the x-flux entries
at `fluxSharedIdx - 1` and the y-flux entries at `fluxSharedIdx - fluxSmx` hold the
`getFlux` values for the stencil indices `sharedIdx`, `sharedIdx - 1` and
`sharedIdx - smx`; the slot is a slot of exactly one thread of the tile, which is the
thread of the cell, the thread `wx` of the left neighbour or for the left column the
thread `(tj, 1)`, and the thread `wy` of the bottom neighbour or for the bottom row the
thread of the cell; no slot is a slot of two threads; and a thread changes no slot
that is not one of its slots. -/
theorem tileFluxes_single_writer (g : GpuGrid K) (dev : Device K) (a : KernelArgs K)
    (u : Uninitialised K) (blockIdxX blockIdxY : Nat) (t : Worker) (hwf : g.WellFormed)
    (hbs : 2 ≤ g.blockSizeY ∧ g.blockSizeY ≤ g.blockSizeX)
    (hfull : ∀ w ∈ blockWorkers g blockIdxX blockIdxY, w.returnsEarly g dev = false)
    (ht : t ∈ blockWorkers g blockIdxX blockIdxY)
    (hphi : a.pCurrPhi (t.globalIdx g) < 0)
    (hleft : 1 ≤ t.ti → a.pCurrPhi (t.globalIdx g - 1) ≤ g.hx + 1 / 1000000)
    (hbottom : 1 ≤ t.tj → a.pCurrPhi (t.globalIdx g - g.nx) ≤ g.hx + 1 / 1000000) :
    ∃ wx wy : Worker,
      wx = (if t.ti = 0 then (⟨blockIdxX, blockIdxY, t.tj, 1⟩ : Worker)
        else ⟨blockIdxX, blockIdxY, t.ti - 1, t.tj⟩) ∧
      wy = (if t.tj = 0 then (⟨blockIdxX, blockIdxY, t.ti, t.tj⟩ : Worker)
        else ⟨blockIdxX, blockIdxY, t.ti, t.tj - 1⟩) ∧
      wx ∈ blockWorkers g blockIdxX blockIdxY ∧ wy ∈ blockWorkers g blockIdxX blockIdxY ∧
      ((tileFluxes g dev a u blockIdxX blockIdxY).xFlux (t.fluxSharedIdx g) =
          xFluxValues dev a (tilePrevMatrix g dev a u blockIdxX blockIdxY) (t.sharedIdx g) ∧
        ∀ w ∈ blockWorkers g blockIdxX blockIdxY,
          (t.fluxSharedIdx g ∈ w.xFluxSlots g dev a ↔ w = t)) ∧
      ((tileFluxes g dev a u blockIdxX blockIdxY).xFlux (t.fluxSharedIdx g - 1) =
          xFluxValues dev a (tilePrevMatrix g dev a u blockIdxX blockIdxY)
            (t.sharedIdx g - 1) ∧
        ∀ w ∈ blockWorkers g blockIdxX blockIdxY,
          (t.fluxSharedIdx g - 1 ∈ w.xFluxSlots g dev a ↔ w = wx)) ∧
      ((tileFluxes g dev a u blockIdxX blockIdxY).yFlux (t.fluxSharedIdx g) =
          yFluxValues g dev a (tilePrevMatrix g dev a u blockIdxX blockIdxY) (t.sharedIdx g) ∧
        ∀ w ∈ blockWorkers g blockIdxX blockIdxY,
          (t.fluxSharedIdx g ∈ w.yFluxSlots g dev a ↔ w = t)) ∧
      ((tileFluxes g dev a u blockIdxX blockIdxY).yFlux
            (t.fluxSharedIdx g - (g.blockSizeX + 1)) =
          yFluxValues g dev a (tilePrevMatrix g dev a u blockIdxX blockIdxY)
            (t.sharedIdx g - g.sharedMemoryX) ∧
        ∀ w ∈ blockWorkers g blockIdxX blockIdxY,
          (t.fluxSharedIdx g - (g.blockSizeX + 1) ∈ w.yFluxSlots g dev a ↔ w = wy)) ∧
      (∀ w1 ∈ blockWorkers g blockIdxX blockIdxY, ∀ w2 ∈ blockWorkers g blockIdxX blockIdxY,
        ∀ s, (s ∈ w1.xFluxSlots g dev a → s ∈ w2.xFluxSlots g dev a → w1 = w2) ∧
          (s ∈ w1.yFluxSlots g dev a → s ∈ w2.yFluxSlots g dev a → w1 = w2)) ∧
      (∀ (w : Worker) (prevMatrix : Nat → GasState K) (f : FluxArrays K) (s : Nat),
        (s ∉ w.xFluxSlots g dev a →
          (storeFluxes g dev a w prevMatrix f).xFlux s = f.xFlux s) ∧
        (s ∉ w.yFluxSlots g dev a →
          (storeFluxes g dev a w prevMatrix f).yFlux s = f.yFlux s)) := by
  obtain ⟨tbx, tby, ti, tj⟩ := t
  obtain ⟨hbx, hby, hti, htj⟩ := (mem_blockWorkers g _ _ _).mp ht
  simp only at hbx hby hti htj hleft hbottom
  subst hbx
  subst hby
  have hx_pos := hwf.hx_pos
  have hf : a.pCurrPhi (Worker.globalIdx g ⟨tbx, tby, ti, tj⟩) ≤ g.hx + 1 / 1000000 := by
    have h6 : (0 : K) ≤ 1 / 1000000 := by norm_num
    linarith
  obtain ⟨⟨hxo, hxv⟩, ⟨hyo, hyv⟩⟩ := own_faces_written g dev a u _ _ _ ht (hfull _ ht) hf
  obtain ⟨hlm, hls, hlv⟩ := left_face_written g dev a u tbx tby ti tj hbs hfull hti htj hleft
  obtain ⟨hbm, hbo, hbv⟩ :=
    bottom_face_written g dev a u tbx tby ti tj hfull hti htj hf hbottom
  refine ⟨_, _, rfl, rfl, hlm, hbm, ⟨hxv, fun w hw => ⟨fun h => ?_, fun e => e ▸ hxo⟩⟩,
    ⟨hlv, fun w hw => ⟨fun h => ?_, fun e => e ▸ hls⟩⟩,
    ⟨hyv, fun w hw => ⟨fun h => ?_, fun e => e ▸ hyo⟩⟩,
    ⟨hbv, fun w hw => ⟨fun h => ?_, fun e => e ▸ hbo⟩⟩, ?_, ?_⟩
  · exact xFluxSlots_unique g dev a _ _ w _ hw ht _ h hxo
  · exact xFluxSlots_unique g dev a _ _ w _ hw hlm _ h hls
  · exact yFluxSlots_unique g dev a _ _ w _ hw ht _ h hyo
  · exact yFluxSlots_unique g dev a _ _ w _ hw hbm _ h hbo
  · intro w1 h1 w2 h2 s
    exact ⟨xFluxSlots_unique g dev a _ _ w1 w2 h1 h2 s,
      yFluxSlots_unique g dev a _ _ w1 w2 h1 h2 s⟩
  · intro w prevMatrix f s
    exact ⟨storeFluxes_xFlux_frame g dev a w prevMatrix f s,
      storeFluxes_yFlux_frame g dev a w prevMatrix f s⟩

end FluxWriterClaims

section ConcreteFluxWriters

/-- Witness of C31 on the concrete launch with `phi = -1` in every cell: for the thread
`(0, 1)` of the single 2 x 2 tile, the left face is stored by the thread `(1, 1)` and the
bottom face by the thread `(0, 0)`. -/
theorem tileFluxes_single_writer_witness :
    exampleGrid.WellFormed ∧
    (∀ w ∈ blockWorkers exampleGrid 0 0, w.returnsEarly exampleGrid exampleDevice = false) ∧
    exampleLeftWorker ∈ blockWorkers exampleGrid 0 0 ∧
    ∃ wx wy : Worker,
      wx = (if exampleLeftWorker.ti = 0 then (⟨0, 0, exampleLeftWorker.tj, 1⟩ : Worker)
        else ⟨0, 0, exampleLeftWorker.ti - 1, exampleLeftWorker.tj⟩) ∧
      wy = (if exampleLeftWorker.tj = 0 then
          (⟨0, 0, exampleLeftWorker.ti, exampleLeftWorker.tj⟩ : Worker)
        else ⟨0, 0, exampleLeftWorker.ti, exampleLeftWorker.tj - 1⟩) ∧
      wx ∈ blockWorkers exampleGrid 0 0 ∧ wy ∈ blockWorkers exampleGrid 0 0 ∧
      ((tileFluxes exampleGrid exampleDevice (exampleArgs exampleState 1 fun _ => -1)
            exampleUninitialised 0 0).xFlux (exampleLeftWorker.fluxSharedIdx exampleGrid) =
          xFluxValues exampleDevice (exampleArgs exampleState 1 fun _ => -1)
            (tilePrevMatrix exampleGrid exampleDevice (exampleArgs exampleState 1 fun _ => -1)
              exampleUninitialised 0 0) (exampleLeftWorker.sharedIdx exampleGrid) ∧
        ∀ w ∈ blockWorkers exampleGrid 0 0,
          (exampleLeftWorker.fluxSharedIdx exampleGrid ∈
              w.xFluxSlots exampleGrid exampleDevice (exampleArgs exampleState 1 fun _ => -1) ↔
            w = exampleLeftWorker)) ∧
      ((tileFluxes exampleGrid exampleDevice (exampleArgs exampleState 1 fun _ => -1)
            exampleUninitialised 0 0).xFlux (exampleLeftWorker.fluxSharedIdx exampleGrid - 1) =
          xFluxValues exampleDevice (exampleArgs exampleState 1 fun _ => -1)
            (tilePrevMatrix exampleGrid exampleDevice (exampleArgs exampleState 1 fun _ => -1)
              exampleUninitialised 0 0) (exampleLeftWorker.sharedIdx exampleGrid - 1) ∧
        ∀ w ∈ blockWorkers exampleGrid 0 0,
          (exampleLeftWorker.fluxSharedIdx exampleGrid - 1 ∈
              w.xFluxSlots exampleGrid exampleDevice (exampleArgs exampleState 1 fun _ => -1) ↔
            w = wx)) ∧
      ((tileFluxes exampleGrid exampleDevice (exampleArgs exampleState 1 fun _ => -1)
            exampleUninitialised 0 0).yFlux (exampleLeftWorker.fluxSharedIdx exampleGrid) =
          yFluxValues exampleGrid exampleDevice (exampleArgs exampleState 1 fun _ => -1)
            (tilePrevMatrix exampleGrid exampleDevice (exampleArgs exampleState 1 fun _ => -1)
              exampleUninitialised 0 0) (exampleLeftWorker.sharedIdx exampleGrid) ∧
        ∀ w ∈ blockWorkers exampleGrid 0 0,
          (exampleLeftWorker.fluxSharedIdx exampleGrid ∈
              w.yFluxSlots exampleGrid exampleDevice (exampleArgs exampleState 1 fun _ => -1) ↔
            w = exampleLeftWorker)) ∧
      ((tileFluxes exampleGrid exampleDevice (exampleArgs exampleState 1 fun _ => -1)
            exampleUninitialised 0 0).yFlux
            (exampleLeftWorker.fluxSharedIdx exampleGrid - (exampleGrid.blockSizeX + 1)) =
          yFluxValues exampleGrid exampleDevice (exampleArgs exampleState 1 fun _ => -1)
            (tilePrevMatrix exampleGrid exampleDevice (exampleArgs exampleState 1 fun _ => -1)
              exampleUninitialised 0 0)
            (exampleLeftWorker.sharedIdx exampleGrid - exampleGrid.sharedMemoryX) ∧
        ∀ w ∈ blockWorkers exampleGrid 0 0,
          (exampleLeftWorker.fluxSharedIdx exampleGrid - (exampleGrid.blockSizeX + 1) ∈
              w.yFluxSlots exampleGrid exampleDevice (exampleArgs exampleState 1 fun _ => -1) ↔
            w = wy)) ∧
      (∀ w1 ∈ blockWorkers exampleGrid 0 0, ∀ w2 ∈ blockWorkers exampleGrid 0 0,
        ∀ s,
          (s ∈ w1.xFluxSlots exampleGrid exampleDevice (exampleArgs exampleState 1 fun _ => -1) →
            s ∈ w2.xFluxSlots exampleGrid exampleDevice
              (exampleArgs exampleState 1 fun _ => -1) → w1 = w2) ∧
          (s ∈ w1.yFluxSlots exampleGrid exampleDevice (exampleArgs exampleState 1 fun _ => -1) →
            s ∈ w2.yFluxSlots exampleGrid exampleDevice
              (exampleArgs exampleState 1 fun _ => -1) → w1 = w2)) ∧
      (∀ (w : Worker) (prevMatrix : Nat → GasState ℚ) (f : FluxArrays ℚ) (s : Nat),
        (s ∉ w.xFluxSlots exampleGrid exampleDevice (exampleArgs exampleState 1 fun _ => -1) →
          (storeFluxes exampleGrid exampleDevice (exampleArgs exampleState 1 fun _ => -1) w
            prevMatrix f).xFlux s = f.xFlux s) ∧
        (s ∉ w.yFluxSlots exampleGrid exampleDevice (exampleArgs exampleState 1 fun _ => -1) →
          (storeFluxes exampleGrid exampleDevice (exampleArgs exampleState 1 fun _ => -1) w
            prevMatrix f).yFlux s = f.yFlux s)) :=
  ⟨exampleGrid_wellFormed, by decide, by decide,
    tileFluxes_single_writer exampleGrid exampleDevice (exampleArgs exampleState 1 fun _ => -1)
      exampleUninitialised 0 0 exampleLeftWorker exampleGrid_wellFormed
      ⟨by decide, by decide⟩ (by decide) (by decide) (by norm_num [exampleArgs])
      (fun _ => by norm_num [exampleArgs, exampleGrid])
      (fun _ => by norm_num [exampleArgs, exampleGrid])⟩

end ConcreteFluxWriters

/-! ## Theorems: the boundary indices in floating-point arithmetic -/

section BoundaryTheorems

variable {K : Type} [LinearOrderedField K] [FloorRing K]

end BoundaryTheorems

/-! ## Theorems: the uniform state through one sub-step -/

section UniformTheorems

variable {K : Type} [LinearOrderedField K]

end UniformTheorems

end kae
